import Mathlib

/-!
# The SIP code generator (`code_generator/gencode.c`): signature matcher and result formats

A shallow embedding of the parts of `gencode.c` that decide when two signatures are the
same (`sameSignature`, `sameArgType`, `sameBaseType`, `compareScopedNames`), of the
virtual-member count (`countVirtuals`) and of the result format tables
(`getBuildResultFormat`, `getParseResultFormat`), followed by theorems about them.

Conventions of the embedding:

* a C pointer to a linked list is a Lean `List`, `NULL` being `[]`;
* a pointer to a class, enum or mapped-type node is the node together with its address
  (`addr`); pointer equality in C is equality of addresses here;
* the bits of `argflags` are `Bool` fields, one per accessor of `sip.h`;
* the global `abiVersion` is an explicit parameter.
-/

namespace Sip

/-! ## Argument categories -/

/-- Modelled from the spec: the `argType` enumeration of `sip.h`, which is not among the
sources (the category of an ArgumentDescriptor of the spec).  The constructors are the
categories that `gencode.c` names. -/
inductive argType where
  | defined_type | class_type | struct_type | union_type | void_type | enum_type
  | template_type | ustring_type | string_type | sstring_type | wstring_type
  | ascii_string_type | latin1_string_type | utf8_string_type
  | short_type | ushort_type | cint_type | int_type | uint_type
  | long_type | ulong_type | longlong_type | ulonglong_type
  | float_type | cfloat_type | double_type | cdouble_type
  | bool_type | cbool_type | byte_type | sbyte_type | ubyte_type
  | size_type | ssize_type | hash_type
  | mapped_type | pyobject_type | pytuple_type | pylist_type | pydict_type
  | pycallable_type | pyslice_type | pytype_type | pybuffer_type | pyenum_type
  | capsule_type | function_type | ellipsis_type | fake_void_type
  deriving DecidableEq, Repr

/-! ## Scoped names -/

/-- Modelled from the spec: the type `scopedNameDef *` of `sip.h`, as the list of the
`name` fields of the nodes, `NULL` being `[]`.  An explicit global scope is a first node
whose name is the empty string, as `removeGlobalScope` tests it. -/
abbrev scopedNameDef := List String

/-- The comparison loop of the C library's `strcmp`, on the characters of two strings:
negative, zero or positive as the first differing position orders them (only the sign of
`strcmp` is specified; the model returns `-1`, `0` or `1`). -/
def strcmpChars : List Char → List Char → Int
  | [], [] => 0
  | [], _ :: _ => -1
  | _ :: _, [] => 1
  | c :: cs, d :: ds =>
    if c.toNat < d.toNat then -1
    else if d.toNat < c.toNat then 1
    else strcmpChars cs ds

/-- The C library's `strcmp`. -/
def strcmp (s t : String) : Int := strcmpChars s.data t.data

/-- The function `removeGlobalScope`: remove any explicit global scope. -/
def removeGlobalScope (snd : scopedNameDef) : scopedNameDef :=
  match snd with
  | [] => []
  | name :: next => if name = "" then next else name :: next

/-- The `while (snd1 != NULL && snd2 != NULL)` loop of `compareScopedNames` together with
the two return statements that follow it. -/
def compareScopedNamesLoop : scopedNameDef → scopedNameDef → Int
  | [], [] => 0
  | [], _ :: _ => -1
  | _ :: _, [] => 1
  | n1 :: next1, n2 :: next2 =>
    let res := strcmp n1 n2
    if res ≠ 0 then res else compareScopedNamesLoop next1 next2

/-- The function `compareScopedNames`: the equivalent of `strcmp` for scoped names. The
global scope of `snd1` is stripped if the target `snd2` does not specify it. The C
function reads `snd2->name[0]` unconditionally, so its callers pass a non-`NULL` `snd2`;
on `[]` the model strips nothing. -/
def compareScopedNames (snd1 snd2 : scopedNameDef) : Int :=
  let snd1 :=
    match snd2 with
    | name :: _ => if name ≠ "" then removeGlobalScope snd1 else snd1
    | [] => snd1
  compareScopedNamesLoop snd1 snd2

/-! ## The signature model -/

/-- Modelled from the spec: a `codeBlock` of `sip.h`, a fragment of handwritten code: its
text, the name of the file it comes from (`NULL`, here `none`, for a fragment made when
template types are applied) and its line number in that file. -/
structure codeBlock where
  frag : String := ""
  filename : Option String := none
  linenr : Int := 0
  deriving DecidableEq, Repr

/-- Modelled from the spec: the type `codeBlockList *` of `sip.h`, as the list of the
blocks, `NULL` being `[]`. -/
abbrev codeBlockList := List codeBlock

/-- Modelled from the spec: the enumeration `ifaceFileType` of `sip.h`, with the kinds of
interface file that `gencode.c` names. -/
inductive ifaceFileType where
  | exception_iface | mappedtype_iface | namespace_iface | class_iface
  deriving DecidableEq, Repr

/-- Modelled from the spec: the part of an `ifaceFileDef` of `sip.h` that the embedded
functions read: the kind of interface file, the fully qualified C++ name, the module
`iff->module`, as the address of that `moduleDef`, and the extension of its own generated
file, `NULL` being `none`. -/
structure ifaceFileDef where
  type : ifaceFileType := ifaceFileType.class_iface
  fqcname : scopedNameDef := []
  module : Nat := 0
  file_extension : Option String := none
  deriving DecidableEq, Repr

/-- Modelled from the spec: the enumeration `KwArgs` of `sip.h`, the level of support for
keyword arguments. -/
inductive KwArgs where
  | NoKwArgs | AllKwArgs | OptionalKwArgs
  deriving DecidableEq, Repr

/-- Modelled from the spec: the part of a `ctorDef` of `sip.h` that the embedded functions
read: whether it is public, the number of arguments of its C++ signature (`none` when
`cppsig` is `NULL`), whether the first of them has a default value, and its support for
keyword arguments. -/
structure ctorDef where
  isPublicCtor : Bool := true
  cppsigNrArgs : Option Nat := some 0
  firstArgHasDefval : Bool := false
  kwargs : KwArgs := KwArgs.NoKwArgs
  deriving DecidableEq, Repr

/-- Modelled from the spec: a `classDef` node of `sip.h` (a ClassEntity of the spec), as far
as the embedded functions read it: its address, its interface file, its Python name, its
conversion and instance code, its default constructor, the C++ name of its length method
and its flags, with the value of the macro `arrayHelper`. -/
structure classDef where
  addr : Nat := 0
  iff : ifaceFileDef := {}
  pyname : String := ""
  convtocode : codeBlockList := []
  instancecode : codeBlockList := []
  defctor : Option ctorDef := none
  len_cpp_name : Option String := none
  hasShadow : Bool := false
  isProtectedClass : Bool := false
  isAbstractClass : Bool := false
  cannotCopy : Bool := false
  cannotAssign : Bool := false
  arrayHelper : Bool := false
  isHiddenNamespace : Bool := false
  deriving DecidableEq, Repr

/-- Modelled from the spec: a `mappedTypeDef` node of `sip.h` (a mapped type of the
spec), as far as the embedded functions read it: its address, its interface file, its
Python name, its conversion and instance code and its flags. -/
structure mappedTypeDef where
  addr : Nat := 0
  iff : ifaceFileDef := {}
  pyname : String := ""
  convtocode : codeBlockList := []
  instancecode : codeBlockList := []
  noRelease : Bool := false
  needsUserState : Bool := false
  deriving DecidableEq, Repr

/-- Modelled from the spec: an `enumMemberDef` node of `sip.h` (a member of an enum of the
spec): its Python name and its C++ name.  The back pointer `emd->ed` of a member is kept
where it is read, as the enum that goes with the member. -/
structure enumMemberDef where
  pyname : String := ""
  cname : String := ""
  deriving DecidableEq, Repr

/-- Modelled from the spec: an `enumDef` node of `sip.h` (an enum of the spec), as far as
the embedded functions read it: its address, its fully qualified C++ name, `NULL` (`[]`)
for an anonymous enum, its protected flag, its module (as the address of the `moduleDef`),
the class `ecd` and the mapped type `emtd` (as its address) that enclose it, `NULL` being
`none`, its members, the value of the macro `isScopedEnum` and its number `enumnr`. -/
structure enumDef where
  addr : Nat := 0
  fqcname : scopedNameDef := []
  isProtectedEnum : Bool := false
  module : Nat := 0
  ecd : Option classDef := none
  emtd : Option Nat := none
  members : List enumMemberDef := []
  isScopedEnum : Bool := false
  enumnr : Int := 0
  deriving DecidableEq, Repr

/-- Modelled from the spec: a `valueDef` of `sip.h`, a default value; the matcher only
tests `defval` against `NULL`. -/
structure valueDef where
  text : String := ""
  deriving DecidableEq, Repr

/-- Modelled from the spec: the fields of an `argDef` of `sip.h` (an ArgumentDescriptor of
the spec) other than the union `u`: the category, the name, the flag bits of `argflags`
that the embedded functions read, the number of dereferences and the default value. -/
structure argCore where
  atype : argType := argType.int_type
  name : Option String := none
  isReference : Bool := false
  isConstArg : Bool := false
  isInArg : Bool := false
  isOutArg : Bool := false
  isConstrained : Bool := false
  isAllowNone : Bool := false
  isDisallowNone : Bool := false
  isArray : Bool := false
  isArraySize : Bool := false
  isResultSize : Bool := false
  isTransferred : Bool := false
  isTransferredBack : Bool := false
  isThisTransferred : Bool := false
  keepReference : Bool := false
  isGetWrapper : Bool := false
  noCopy : Bool := false
  key : Int := 0
  nrderefs : Int := 0
  defval : Option valueDef := none
  deriving DecidableEq, Repr

mutual
/-- Modelled from the spec: an `argDef` of `sip.h` (an ArgumentDescriptor of the spec), its
plain fields and its union. -/
inductive argDef : Type where
  | mk (core : argCore) (u : argU)
/-- Modelled from the spec: the union `u` of an `argDef` of `sip.h`, with the members
that `gencode.c` reads, each read through the category that selects it. -/
inductive argU : Type where
  | none
  | cd (c : classDef)
  | ed (e : enumDef)
  | mtd (m : mappedTypeDef)
  | td (t : templateDef)
  | snd (s : scopedNameDef)
  | sname (s : scopedNameDef)
  | cap (s : scopedNameDef)
/-- Modelled from the spec: a `templateDef` of `sip.h` (a template instantiation of the
spec): the name of the template and its types. -/
inductive templateDef : Type where
  | mk (fqname : scopedNameDef) (types : signatureDef)
/-- Modelled from the spec: a `signatureDef` of `sip.h` (a Signature of the spec): the
result and the first `nrArgs` entries of the array `args`. -/
inductive signatureDef : Type where
  | mk (result : argDef) (args : List argDef)
end

/-- The fields of an argument other than its union. -/
def argDef.core : argDef → argCore
  | .mk c _ => c

/-- The union of an argument. -/
def argDef.u : argDef → argU
  | .mk _ u => u

/-- The category `ad->atype`. -/
def argDef.atype (ad : argDef) : argType := ad.core.atype

/-- The number of dereferences `ad->nrderefs`. -/
def argDef.nrderefs (ad : argDef) : Int := ad.core.nrderefs

/-- The default value `ad->defval`. -/
def argDef.defval (ad : argDef) : Option valueDef := ad.core.defval

/-- Modelled from the spec: the macro `isReference` of `sip.h`, the flag `is_reference` of
the spec. -/
def isReference (ad : argDef) : Bool := ad.core.isReference

/-- Modelled from the spec: the macro `isConstArg` of `sip.h`, the flag `is_const` of the
spec. -/
def isConstArg (ad : argDef) : Bool := ad.core.isConstArg

/-- Modelled from the spec: the macro `isInArg` of `sip.h`, the flag `in` of the spec. -/
def isInArg (ad : argDef) : Bool := ad.core.isInArg

/-- Modelled from the spec: the macro `isOutArg` of `sip.h`, the flag `out` of the spec. -/
def isOutArg (ad : argDef) : Bool := ad.core.isOutArg

/-- Modelled from the spec: the macro `isConstrained` of `sip.h`, the flag `constrained`
of the spec. -/
def isConstrained (ad : argDef) : Bool := ad.core.isConstrained

/-- Modelled from the spec: the macro `isAllowNone` of `sip.h`, the flag `allow_none` of
the spec. -/
def isAllowNone (ad : argDef) : Bool := ad.core.isAllowNone

/-- Modelled from the spec: the macro `isDisallowNone` of `sip.h`, the flag
`disallow_none` of the spec. -/
def isDisallowNone (ad : argDef) : Bool := ad.core.isDisallowNone

/-- Modelled from the spec: the macro `isArray` of `sip.h`, the flag `is_array` of the
spec. -/
def isArray (ad : argDef) : Bool := ad.core.isArray

/-- Modelled from the spec: the macro `isArraySize` of `sip.h`, the flag `is_array_size` of
the spec. -/
def isArraySize (ad : argDef) : Bool := ad.core.isArraySize

/-- Modelled from the spec: the macro `isResultSize` of `sip.h`, the flag of an argument
that holds the size of the result. -/
def isResultSize (ad : argDef) : Bool := ad.core.isResultSize

/-- Modelled from the spec: the macro `isTransferred` of `sip.h`, the flag
`transfer_to_native` of the spec. -/
def isTransferred (ad : argDef) : Bool := ad.core.isTransferred

/-- Modelled from the spec: the macro `isTransferredBack` of `sip.h`, the flag
`transfer_to_host` of the spec. -/
def isTransferredBack (ad : argDef) : Bool := ad.core.isTransferredBack

/-- Modelled from the spec: the macro `isThisTransferred` of `sip.h`, the flag
`transfer_this` of the spec. -/
def isThisTransferred (ad : argDef) : Bool := ad.core.isThisTransferred

/-- Modelled from the spec: the macro `keepReference` of `sip.h`, the flag
`keep_reference` of the spec. -/
def keepReference (ad : argDef) : Bool := ad.core.keepReference

/-- Modelled from the spec: the macro `isGetWrapper` of `sip.h`, the flag `get_wrapper` of
the spec. -/
def isGetWrapper (ad : argDef) : Bool := ad.core.isGetWrapper

/-- Modelled from the spec: the macro `noCopy` of `sip.h`, the flag of an argument that
must not be copied. -/
def noCopy (ad : argDef) : Bool := ad.core.noCopy

/-- The slot key `ad->key` of a kept reference. -/
def argDef.key (ad : argDef) : Int := ad.core.key

/-- The member `u.cd`; the zeroed node when the union holds another member. -/
def argU.getCd : argU → classDef
  | .cd c => c
  | _ => {}

/-- The member `u.ed`; the zeroed node when the union holds another member. -/
def argU.getEd : argU → enumDef
  | .ed e => e
  | _ => {}

/-- The member `u.mtd`; the zeroed node when the union holds another member. -/
def argU.getMtd : argU → mappedTypeDef
  | .mtd m => m
  | _ => {}

/-- The member `u.snd`; `NULL` when the union holds another member. -/
def argU.getSnd : argU → scopedNameDef
  | .snd s => s
  | _ => []

/-- The member `u.sname`; `NULL` when the union holds another member. -/
def argU.getSname : argU → scopedNameDef
  | .sname s => s
  | _ => []

/-- The member `u.cap`; `NULL` when the union holds another member. -/
def argU.getCap : argU → scopedNameDef
  | .cap s => s
  | _ => []

/-- The result `sd->result`. -/
def signatureDef.result : signatureDef → argDef
  | .mk r _ => r

/-- The arguments `sd->args[0 .. nrArgs-1]`. -/
def signatureDef.args : signatureDef → List argDef
  | .mk _ a => a

/-- The count `sd->nrArgs`. -/
def signatureDef.nrArgs (sd : signatureDef) : Nat := sd.args.length

/-- The name `td->fqname`. -/
def templateDef.fqname : templateDef → scopedNameDef
  | .mk n _ => n

/-- The types `td->types`. -/
def templateDef.types : templateDef → signatureDef
  | .mk _ t => t

/-! ## The signature matcher -/

/-- The macro `pyAsString`. -/
def pyAsString (t : argType) : Bool :=
  t = .ustring_type || t = .sstring_type || t = .string_type || t = .ascii_string_type ||
    t = .latin1_string_type || t = .utf8_string_type

/-- The macro `pyAsFloat`. -/
def pyAsFloat (t : argType) : Bool :=
  t = .cfloat_type || t = .float_type || t = .cdouble_type || t = .double_type

/-- The macro `pyAsInt`. -/
def pyAsInt (t : argType) : Bool :=
  t = .bool_type || t = .hash_type || t = .ssize_type || t = .size_type || t = .byte_type ||
    t = .sbyte_type || t = .ubyte_type || t = .short_type || t = .ushort_type ||
    t = .cint_type || t = .int_type || t = .uint_type

/-- The macro `pyAsLong`. -/
def pyAsLong (t : argType) : Bool := t = .long_type || t = .longlong_type

/-- The macro `pyAsULong`. -/
def pyAsULong (t : argType) : Bool := t = .ulong_type || t = .ulonglong_type

/-- The macro `pyAsAuto`. -/
def pyAsAuto (t : argType) : Bool :=
  t = .bool_type || t = .byte_type || t = .sbyte_type || t = .ubyte_type ||
    t = .short_type || t = .ushort_type || t = .int_type || t = .uint_type ||
    t = .float_type || t = .double_type

/-- The macro `pyIsConstrained`. -/
def pyIsConstrained (t : argType) : Bool :=
  t = .cbool_type || t = .cint_type || t = .cfloat_type || t = .cdouble_type

/-- Modelled from the spec: the constant `ABI_13_0` of `sip.h`, which is not among the
sources.  The spec gives no ABI numbers; the value is major 13, minor 0 in the encoding
`major << 8 | minor`, under which `gencode.c` prints `abiVersion >> 8` and
`abiVersion & 0xff` as the two parts of the version. -/
def ABI_13_0 : Nat := 0x0D00

mutual
/-- The function `sameBaseType`: compare two basic types and return TRUE if they are the
same. In the template case the union of both arguments is read through `u.td`; the model
answers FALSE when one of them holds another member. -/
def sameBaseType : argDef → argDef → Bool
  | .mk c1 u1, .mk c2 u2 =>
    if c1.atype ≠ c2.atype then
      if c1.atype = .class_type ∧ c2.atype = .defined_type then
        compareScopedNames u1.getCd.iff.fqcname u2.getSnd == 0
      else if c1.atype = .defined_type ∧ c2.atype = .class_type then
        compareScopedNames u2.getCd.iff.fqcname u1.getSnd == 0
      else if c1.atype = .mapped_type ∧ c2.atype = .defined_type then
        compareScopedNames u1.getMtd.iff.fqcname u2.getSnd == 0
      else if c1.atype = .defined_type ∧ c2.atype = .mapped_type then
        compareScopedNames u2.getMtd.iff.fqcname u1.getSnd == 0
      else if c1.atype = .enum_type ∧ c2.atype = .defined_type then
        compareScopedNames u1.getEd.fqcname u2.getSnd == 0
      else if c1.atype = .defined_type ∧ c2.atype = .enum_type then
        compareScopedNames u2.getEd.fqcname u1.getSnd == 0
      else
        false
    else
      match c1.atype with
      | .class_type => if u1.getCd.addr ≠ u2.getCd.addr then false else true
      | .enum_type => if u1.getEd.addr ≠ u2.getEd.addr then false else true
      | .template_type =>
        match u1, u2 with
        | .td (.mk fqname1 (.mk _ args1)), .td (.mk fqname2 (.mk _ args2)) =>
          if compareScopedNames fqname1 fqname2 ≠ 0 ∨ args1.length ≠ args2.length then false
          else sameTemplateArgs args1 args2
        | _, _ => false
      | .struct_type | .union_type =>
        if compareScopedNames u1.getSname u2.getSname ≠ 0 then false else true
      | .defined_type =>
        if compareScopedNames u1.getSnd u2.getSnd ≠ 0 then false else true
      | .mapped_type => if u1.getMtd.addr ≠ u2.getMtd.addr then false else true
      | _ => true
/-- The loop over the types of two templates in `sameBaseType`, which runs once the two
counts are known to be equal; TRUE when the loop ends without returning FALSE. -/
def sameTemplateArgs : List argDef → List argDef → Bool
  | [], _ => true
  | _ :: _, [] => false
  | td1ad :: rest1, td2ad :: rest2 =>
    if td1ad.nrderefs ≠ td2ad.nrderefs then false
    else if !sameBaseType td1ad td2ad then false
    else sameTemplateArgs rest1 rest2
end

/-- The function `sameArgType`: compare two argument types and return TRUE if they are the
same. "strict" means as C++ would see it, rather than Python. -/
def sameArgType (abiVersion : Nat) (a1 a2 : argDef) (strict : Bool) : Bool :=
  if isReference a1 ≠ isReference a2 ∨ a1.nrderefs ≠ a2.nrderefs then false
  else if strict then
    if isConstArg a1 ≠ isConstArg a2 then false
    else sameBaseType a1 a2
  else if pyIsConstrained a1.atype && pyIsConstrained a2.atype then
    decide (a1.atype = a2.atype)
  else if
    (if abiVersion ≥ ABI_13_0 then
      (pyAsInt a1.atype && decide (a2.atype = .enum_type) && decide (a2.u.getEd.fqcname = [])) ||
      (decide (a1.atype = .enum_type) && decide (a1.u.getEd.fqcname = []) && pyAsInt a2.atype)
    else
      (pyAsInt a1.atype && decide (a2.atype = .enum_type) && !isConstrained a2) ||
      (decide (a1.atype = .enum_type) && !isConstrained a1 && pyAsInt a2.atype))
  then true
  else if pyAsString a1.atype && pyAsString a2.atype then true
  else if pyAsFloat a1.atype && pyAsFloat a2.atype then true
  else if pyAsInt a1.atype && pyAsInt a2.atype then true
  else if pyAsLong a1.atype && pyAsLong a2.atype then true
  else if pyAsULong a1.atype && pyAsULong a2.atype then true
  else if pyAsAuto a1.atype && pyAsAuto a2.atype then true
  else sameBaseType a1 a2

/-- The counting loops of `sameSignature`: the number of compulsory arguments, those
before the first argument with a default value. -/
def compulsoryArgs : List argDef → Nat
  | [] => 0
  | ad :: rest => if ad.defval ≠ none then 0 else compulsoryArgs rest + 1

/-- The last loop of `sameSignature` ("the arguments must be the same"), over the
arguments of `sd1` paired with those of `sd2`.  The counts checked before the loop keep
the index inside `sd2`; the model answers FALSE if `sd2` ends first. -/
def sameSignatureArgs (abiVersion : Nat) (strict : Bool) : List argDef → List argDef → Bool
  | [], _ => true
  | a1 :: rest1, args2 =>
    if !strict && decide (a1.defval ≠ none) then true
    else
      match args2 with
      | [] => false
      | a2 :: rest2 =>
        if !sameArgType abiVersion a1 a2 strict then false
        else sameSignatureArgs abiVersion strict rest1 rest2

/-- The function `sameSignature`: compare two signatures and return TRUE if they are the
same. -/
def sameSignature (abiVersion : Nat) (sd1 sd2 : signatureDef) (strict : Bool) : Bool :=
  if (if strict then decide (sd1.nrArgs ≠ sd2.nrArgs)
      else decide (compulsoryArgs sd1.args ≠ compulsoryArgs sd2.args)) then false
  else sameSignatureArgs abiVersion strict sd1.args sd2.args

/-! ## Global scopes in a signature -/

/-- Whether a scoped name starts with an explicit global scope. -/
def hasGlobalScope : scopedNameDef → Bool
  | [] => false
  | name :: _ => decide (name = "")

mutual
/-- Whether every scoped name that an argument carries for a struct, union, defined type
or template (the types of a template included) has an explicit global scope exactly when
`g` says so. -/
def argScopeIs (g : Bool) : argDef → Bool
  | .mk _ (.td (.mk fqname (.mk _ args))) => hasGlobalScope fqname == g && argsScopeIs g args
  | .mk _ (.snd s) => hasGlobalScope s == g
  | .mk _ (.sname s) => hasGlobalScope s == g
  | .mk _ _ => true
/-- The same for a list of arguments. -/
def argsScopeIs (g : Bool) : List argDef → Bool
  | [] => true
  | ad :: rest => argScopeIs g ad && argsScopeIs g rest
end

/-- The same for the arguments of a signature. -/
def sigScopeIs (g : Bool) (sd : signatureDef) : Bool := argsScopeIs g sd.args

/-! ## Well-formed unions -/

mutual
/-- Whether the union of an argument holds the member that its category selects: a class
for `class_type`, an enum for `enum_type`, a mapped type for `mapped_type`, a template
whose types are well formed for `template_type`, and a name for `defined_type`,
`struct_type` and `union_type`.  The other categories do not read the union. -/
def argUnionOk : argDef → Bool
  | .mk c (.td (.mk _ (.mk _ args))) => decide (c.atype = .template_type) && argsUnionOk args
  | .mk c (.cd _) => decide (c.atype ≠ .enum_type ∧ c.atype ≠ .mapped_type ∧
      c.atype ≠ .template_type ∧ c.atype ≠ .defined_type ∧ c.atype ≠ .struct_type ∧
      c.atype ≠ .union_type)
  | .mk c (.ed _) => decide (c.atype ≠ .class_type ∧ c.atype ≠ .mapped_type ∧
      c.atype ≠ .template_type ∧ c.atype ≠ .defined_type ∧ c.atype ≠ .struct_type ∧
      c.atype ≠ .union_type)
  | .mk c (.mtd _) => decide (c.atype ≠ .class_type ∧ c.atype ≠ .enum_type ∧
      c.atype ≠ .template_type ∧ c.atype ≠ .defined_type ∧ c.atype ≠ .struct_type ∧
      c.atype ≠ .union_type)
  | .mk c (.snd _) => decide (c.atype ≠ .class_type ∧ c.atype ≠ .enum_type ∧
      c.atype ≠ .mapped_type ∧ c.atype ≠ .template_type ∧ c.atype ≠ .struct_type ∧
      c.atype ≠ .union_type)
  | .mk c (.sname _) => decide (c.atype ≠ .class_type ∧ c.atype ≠ .enum_type ∧
      c.atype ≠ .mapped_type ∧ c.atype ≠ .template_type ∧ c.atype ≠ .defined_type)
  | .mk c (.cap _) => decide (c.atype ≠ .class_type ∧ c.atype ≠ .enum_type ∧
      c.atype ≠ .mapped_type ∧ c.atype ≠ .template_type ∧ c.atype ≠ .defined_type ∧
      c.atype ≠ .struct_type ∧ c.atype ≠ .union_type)
  | .mk c .none => decide (c.atype ≠ .class_type ∧ c.atype ≠ .enum_type ∧
      c.atype ≠ .mapped_type ∧ c.atype ≠ .template_type ∧ c.atype ≠ .defined_type ∧
      c.atype ≠ .struct_type ∧ c.atype ≠ .union_type)
/-- The same for a list of arguments. -/
def argsUnionOk : List argDef → Bool
  | [] => true
  | ad :: rest => argUnionOk ad && argsUnionOk rest
end

/-! ## Categories that read the union -/

/-- Whether `sameBaseType` reads the union of an argument of this category: the class,
enum, mapped-type, template, defined-type, struct and union categories. -/
def readsUnion (t : argType) : Bool :=
  t = .class_type || t = .enum_type || t = .mapped_type || t = .template_type ||
    t = .defined_type || t = .struct_type || t = .union_type

/-! ## What strict matching reads -/

/-- An argument reduced to what strict matching reads: the category, the reference and
const flags, the number of dereferences and the union.  The name, the default value and
the other flags (the in and out flags among them) are reset. -/
def strictView : argDef → argDef
  | .mk c u =>
    .mk { atype := c.atype, isReference := c.isReference, isConstArg := c.isConstArg,
          nrderefs := c.nrderefs } u

/-! ## Example arguments -/

/-- An `int` argument. -/
def intArg : argDef := .mk {} .none

/-- An `int` argument with a default value. -/
def intArgDefault : argDef := .mk { defval := some { text := "0" } } .none

/-- A value argument of a fundamental category. -/
def plainArg (t : argType) : argDef := .mk { atype := t } .none

/-- A `struct` pointer argument with the given scoped name. -/
def structArg (sname : scopedNameDef) : argDef :=
  .mk { atype := .struct_type, nrderefs := 1 } (.sname sname)

/-- A pointer argument of a fundamental category, such as `char *`. -/
def pointerArg (t : argType) : argDef := .mk { atype := t, nrderefs := 1 } .none

/-- A `void` result. -/
def voidResult : argDef := .mk { atype := .void_type } .none

/-! ## Virtual members of a class -/

/-- Modelled from the spec: an `exceptionDef` of `sip.h` (an exception of the spec), as far
as the catch blocks read it: its interface file, the class that wraps it (`NULL` if it is
not a wrapped class) and its raise code. -/
structure exceptionDef where
  iff : ifaceFileDef := {}
  cd : Option classDef := none
  raisecode : codeBlockList := []

/-- Modelled from the spec: a `throwArgs` of `sip.h`, the throw specifier of an overload,
as the list of the first `nrArgs` entries of its array `args`. -/
abbrev throwArgs := List exceptionDef

/-- Modelled from the spec: the enumeration `slotType` of `sip.h`, with the slots that
`gencode.c` names; `no_slot` is an overload that is not a slot. -/
inductive slotType where
  | str_slot | int_slot | float_slot | len_slot | contains_slot | add_slot | concat_slot
  | sub_slot | mul_slot | repeat_slot | mod_slot | floordiv_slot | truediv_slot | and_slot
  | or_slot | xor_slot | lshift_slot | rshift_slot | iadd_slot | iconcat_slot | isub_slot
  | imul_slot | irepeat_slot | imod_slot | ifloordiv_slot | itruediv_slot | iand_slot
  | ior_slot | ixor_slot | ilshift_slot | irshift_slot | invert_slot | call_slot
  | getitem_slot | setitem_slot | delitem_slot | lt_slot | le_slot | eq_slot | ne_slot
  | gt_slot | ge_slot | cmp_slot | bool_slot | neg_slot | pos_slot | abs_slot | repr_slot
  | hash_slot | index_slot | iter_slot | next_slot | setattr_slot | matmul_slot
  | imatmul_slot | await_slot | aiter_slot | anext_slot | no_slot
  deriving DecidableEq, Repr

/-- Modelled from the spec: the part of a `memberDef` of `sip.h` that the call generators
read: its address, the Python name, the slot, the namespace the member was moved from
(`NULL` is `none`) and the values of the macros `useKeywordArgs` and `noArgParser`. -/
structure memberDef where
  addr : Nat := 0
  pyname : String := ""
  slot : slotType := slotType.no_slot
  ns_scope : Option ifaceFileDef := none
  useKeywordArgs : Bool := false
  noArgParser : Bool := false

/-- Modelled from the spec: the part of an `overDef` of `sip.h` (an Overload of the spec)
that the embedded functions read: its address, the C++ name, the flag bits of
`overflags`, the member it overloads, the Python signature, the C++ signature (with `cppsigIsPysig` set when the
pointer `cppsig` is the address of `pysig`), the throw specifier (`NULL` is `none`), the
support for keyword arguments, the handwritten code and the hooks. -/
structure overDef where
  addr : Nat := 0
  cppname : String := ""
  isPrivate : Bool := false
  isProtected : Bool := false
  isStatic : Bool := false
  isAbstract : Bool := false
  isVirtual : Bool := false
  isVirtualReimp : Bool := false
  isFactory : Bool := false
  isReleaseGIL : Bool := false
  isHoldGIL : Bool := false
  isDeprecated : Bool := false
  raisesPyException : Bool := false
  isThisTransferredMeth : Bool := false
  isResultTransferred : Bool := false
  isResultTransferredBack : Bool := false
  isComplementary : Bool := false
  isGlobal : Bool := false
  isConst : Bool := false
  isReallyProtected : Bool := false
  isDelattr : Bool := false
  isNewThread : Bool := false
  isSignal : Bool := false
  kwargs : KwArgs := KwArgs.NoKwArgs
  common : memberDef := {}
  pysig : signatureDef := .mk (.mk {} .none) []
  cppsig : signatureDef := .mk (.mk {} .none) []
  cppsigIsPysig : Bool := false
  exceptions : Option throwArgs := none
  methodcode : codeBlockList := []
  premethodcode : codeBlockList := []
  prehook : Option String := none
  posthook : Option String := none

/-- Modelled from the spec: the macro `isPrivate` of `sip.h`, the private flag of an
Overload of the spec. -/
def isPrivate (od : overDef) : Bool := od.isPrivate

/-- Modelled from the spec: a `virtOverDef` node of `sip.h`, an entry of the list
`cd->vmembers` (the virtual member set of a ClassEntity of the spec). -/
structure virtOverDef where
  od : overDef

/-- Modelled from the spec: the part of a `classDef` of `sip.h` that the shadow-class
generators read: the list `cd->vmembers` of its virtual members. -/
structure classMembers where
  vmembers : List virtOverDef := []

/-- The inner loop of `countVirtuals` and `generateShadowCode`, "check we haven't already
handled this C++ signature": it runs over the members before `vod` and breaks at the first
one with the C++ name and, strictly, the C++ signature of `od`.  TRUE when it breaks, that
is when it ends with `dvod != vod`. -/
def alreadyHandled (abiVersion : Nat) : List virtOverDef → overDef → Bool
  | [], _ => false
  | dvod :: rest, od =>
    if strcmp dvod.od.cppname od.cppname == 0 &&
        sameSignature abiVersion dvod.od.cppsig od.cppsig true then true
    else alreadyHandled abiVersion rest od

/-- The outer loop of `countVirtuals`, at the member that follows those of `before`, with
the count so far. -/
def countVirtualsLoop (abiVersion : Nat) (before : List virtOverDef) :
    List virtOverDef → Nat → Nat
  | [], nrvirts => nrvirts
  | vod :: rest, nrvirts =>
    if isPrivate vod.od then countVirtualsLoop abiVersion (before ++ [vod]) rest nrvirts
    else if !alreadyHandled abiVersion before vod.od then
      countVirtualsLoop abiVersion (before ++ [vod]) rest (nrvirts + 1)
    else countVirtualsLoop abiVersion (before ++ [vod]) rest nrvirts

/-- The function `countVirtuals`: count the number of virtual members in a class. -/
def countVirtuals (abiVersion : Nat) (cd : classMembers) : Nat :=
  countVirtualsLoop abiVersion [] cd.vmembers 0

/-- The loop of `generateShadowCode` that generates the virtual catchers, at the member
that follows those of `before`: the calls of `generateVirtualCatcher` made so far, each
with its `virtNr` and member, and the next `virtNr`.  `catcher` is the value that
`generateVirtualCatcher` returns; the loop returns -1 at the first negative one. -/
def generateShadowCatchers (abiVersion : Nat) (catcher : Nat → virtOverDef → Int)
    (before : List virtOverDef) :
    List virtOverDef → Nat → List (Nat × virtOverDef) → Int × List (Nat × virtOverDef)
  | [], _, calls => (0, calls)
  | vod :: rest, virtNr, calls =>
    if isPrivate vod.od then
      generateShadowCatchers abiVersion catcher (before ++ [vod]) rest virtNr calls
    else if !alreadyHandled abiVersion before vod.od then
      if catcher virtNr vod < 0 then (-1, calls ++ [(virtNr, vod)])
      else
        generateShadowCatchers abiVersion catcher (before ++ [vod]) rest (virtNr + 1)
          (calls ++ [(virtNr, vod)])
    else generateShadowCatchers abiVersion catcher (before ++ [vod]) rest virtNr calls

/-- The virtual catchers of `generateShadowCode` for a class. -/
def generateShadowCode (abiVersion : Nat) (catcher : Nat → virtOverDef → Int)
    (cd : classMembers) : Int × List (Nat × virtOverDef) :=
  generateShadowCatchers abiVersion catcher [] cd.vmembers 0 []

/-- The test of the inner loop of `countVirtuals` and `generateShadowCode` on a member
`dvod` before the member of `od`: the same C++ name and, strictly, the same C++
signature. -/
def sameVirtual (abiVersion : Nat) (dvod od : overDef) : Bool :=
  strcmp dvod.cppname od.cppname == 0 &&
    sameSignature abiVersion dvod.cppsig od.cppsig true

/-! ## The distinct shapes of the specification -/

/-- Whether two overloads are strict duplicates of each other, as the specification states
it: they have the same C++ name and strictly equal C++ signatures, whichever of the two
is taken first. -/
def strictDuplicate (abiVersion : Nat) (a b : overDef) : Bool :=
  sameVirtual abiVersion a b || sameVirtual abiVersion b a

/-- The non-private overloads among the virtual members of a list, in their order. -/
def nonPrivateOverloads (l : List virtOverDef) : List overDef :=
  (l.filter (fun vod => !isPrivate vod.od)).map (fun vod => vod.od)

/-- The shape of an overload among the overloads of `l`: for each overload of `l`, whether
the two are strict duplicates.  Two overloads have the same shape when they are strict
duplicates of the same overloads. -/
def shapeOf (abiVersion : Nat) (l : List overDef) (od : overDef) : List Bool :=
  l.map (strictDuplicate abiVersion od)

/-- The number of distinct shapes among the non-private virtual overloads of a class, as
the specification states it. -/
def distinctShapes (abiVersion : Nat) (cd : classMembers) : Nat :=
  (((nonPrivateOverloads cd.vmembers).map
    (shapeOf abiVersion (nonPrivateOverloads cd.vmembers))).dedup).length

/-- The overloads of a list that are strict duplicates of an overload before them, after
the overloads of `before`. -/
def strictDuplicatesFrom (abiVersion : Nat) (before : List overDef) : List overDef → Nat
  | [] => 0
  | od :: rest =>
    (if before.any (fun d => strictDuplicate abiVersion d od) then 1 else 0) +
      strictDuplicatesFrom abiVersion (before ++ [od]) rest

/-- The number M of the specification: the non-private virtual overloads of a class that
are strict duplicates of another one, each set of duplicates counted against its first
member. -/
def strictDuplicates (abiVersion : Nat) (cd : classMembers) : Nat :=
  strictDuplicatesFrom abiVersion [] (nonPrivateOverloads cd.vmembers)

/-- The overloads of a list that are not strict duplicates of an overload before them,
after the overloads of `before`: one overload for each shape. -/
def firstOfShape (abiVersion : Nat) (before : List overDef) : List overDef → List overDef
  | [] => []
  | od :: rest =>
    if before.any (fun d => strictDuplicate abiVersion d od) then
      firstOfShape abiVersion (before ++ [od]) rest
    else od :: firstOfShape abiVersion (before ++ [od]) rest

/-- A virtual member `void f(int)`, private or not. -/
def virtualF (priv : Bool) : virtOverDef :=
  { od := { cppname := "f", isPrivate := priv, cppsig := .mk voidResult [intArg] } }

/-- A virtual member `void g(struct Foo *)`. -/
def virtualG : virtOverDef :=
  { od := { cppname := "g", cppsig := .mk voidResult [structArg ["Foo"]] } }

/-- A private virtual member `void h(int)`. -/
def virtualH : virtOverDef :=
  { od := { cppname := "h", isPrivate := true, cppsig := .mk voidResult [intArg] } }

/-- A virtual member `void f(struct Foo *)`. -/
def virtualStruct : virtOverDef :=
  { od := { cppname := "f", cppsig := .mk voidResult [structArg ["Foo"]] } }

/-- A virtual member `void f(struct ::Foo *)`, the same `struct` written with the global
scope. -/
def virtualGlobalStruct : virtOverDef :=
  { od := { cppname := "f", cppsig := .mk voidResult [structArg ["", "Foo"]] } }

/-! ## Result formats -/

/-- The function `needNewInstance`: TRUE if the argument type means an instance needs to
be created on the heap to pass back to Python. -/
def needNewInstance (ad : argDef) : Bool :=
  (decide (ad.atype = .mapped_type) || decide (ad.atype = .class_type)) &&
    ((isReference ad && decide (ad.nrderefs = 0)) ||
      (!isReference ad && decide (ad.nrderefs = 1))) &&
    !isInArg ad && isOutArg ad

/-- The function `isString`: whether a character category is passed as a string rather
than as a single character. -/
def isString (ad : argDef) : Bool :=
  let nrderefs := ad.nrderefs
  let nrderefs := if isOutArg ad && !isReference ad then nrderefs - 1 else nrderefs
  decide (nrderefs > 0)

/-- The function `getBuildResultFormat`: the format string used by `sipBuildResult()` for
a particular type. The last case is the `default` of the switch, "we should never get
here". -/
def getBuildResultFormat (ad : argDef) : String :=
  match ad.atype with
  | .fake_void_type | .mapped_type | .class_type =>
    if needNewInstance ad then "N" else "D"
  | .bool_type | .cbool_type => "b"
  | .ascii_string_type | .latin1_string_type | .utf8_string_type =>
    if isString ad then "A" else "a"
  | .sstring_type | .ustring_type | .string_type =>
    if isString ad then "s" else "c"
  | .wstring_type => if isString ad then "x" else "w"
  | .enum_type => if ad.u.getEd.fqcname ≠ [] then "F" else "e"
  | .byte_type | .sbyte_type => "L"
  | .ubyte_type => "M"
  | .short_type => "h"
  | .ushort_type => "t"
  | .int_type | .cint_type => "i"
  | .uint_type => "u"
  | .size_type => "="
  | .long_type => "l"
  | .ulong_type => "m"
  | .longlong_type => "n"
  | .ulonglong_type => "o"
  | .struct_type | .union_type | .void_type => "V"
  | .capsule_type => "z"
  | .float_type | .cfloat_type => "f"
  | .double_type | .cdouble_type => "d"
  | .pyobject_type | .pytuple_type | .pylist_type | .pydict_type | .pycallable_type
  | .pyslice_type | .pytype_type | .pybuffer_type | .pyenum_type => "R"
  | _ => ""

/-- The table `type_formats` of `getParseResultFormat`. -/
def type_formats : List String := ["H0", "H1", "H2", "H3", "H4", "H5", "H6", "H7"]

/-- The index `f` that `getParseResultFormat` computes for a class, mapped-type or fake
void argument. -/
def parseResultFlags (ad : argDef) (res_isref xfervh : Bool) : Nat :=
  let f := 0x00
  let f :=
    if ad.nrderefs = 0 then
      let f := f ||| 0x01
      if !res_isref then f ||| 0x04 else f
    else if ad.nrderefs = 1 then
      if isOutArg ad then f ||| 0x04
      else if isDisallowNone ad then f ||| 0x01
      else f
    else f
  if xfervh then f ||| 0x02 else f

/-- The function `getParseResultFormat`: the format characters used by
`sipParseResultEx()` for a particular type; `none` stands for a read outside the table
`type_formats`. The last case is the `default` of the switch, "we should never get here".
-/
def getParseResultFormat (ad : argDef) (res_isref xfervh : Bool) : Option String :=
  match ad.atype with
  | .mapped_type | .fake_void_type | .class_type =>
    type_formats[parseResultFlags ad res_isref xfervh]?
  | .bool_type | .cbool_type => some "b"
  | .ascii_string_type => some (if ad.nrderefs = 0 then "aA" else "AA")
  | .latin1_string_type => some (if ad.nrderefs = 0 then "aL" else "AL")
  | .utf8_string_type => some (if ad.nrderefs = 0 then "a8" else "A8")
  | .sstring_type | .ustring_type | .string_type =>
    some (if ad.nrderefs = 0 then "c" else "B")
  | .wstring_type => some (if ad.nrderefs = 0 then "w" else "x")
  | .enum_type => some (if ad.u.getEd.fqcname ≠ [] then "F" else "e")
  | .byte_type | .sbyte_type => some "L"
  | .ubyte_type => some "M"
  | .ushort_type => some "t"
  | .short_type => some "h"
  | .int_type | .cint_type => some "i"
  | .uint_type => some "u"
  | .size_type => some "="
  | .long_type => some "l"
  | .ulong_type => some "m"
  | .longlong_type => some "n"
  | .ulonglong_type => some "o"
  | .struct_type | .union_type | .void_type => some "V"
  | .capsule_type => some "z"
  | .float_type | .cfloat_type => some "f"
  | .double_type | .cdouble_type => some "d"
  | .pyobject_type => some "O"
  | .pytuple_type | .pylist_type | .pydict_type | .pyslice_type | .pytype_type =>
    some (if isAllowNone ad then "N" else "T")
  | .pybuffer_type => some (if isAllowNone ad then "$" else "!")
  | .pyenum_type => some (if isAllowNone ad then "^" else "&")
  | _ => some " "

/-- The categories that have a case in the switch of `getBuildResultFormat`. -/
def inBuildResultSwitch (t : argType) : Bool :=
  [argType.fake_void_type, .mapped_type, .class_type, .bool_type, .cbool_type,
    .ascii_string_type, .latin1_string_type, .utf8_string_type, .sstring_type,
    .ustring_type, .string_type, .wstring_type, .enum_type, .byte_type, .sbyte_type,
    .ubyte_type, .short_type, .ushort_type, .int_type, .cint_type, .uint_type, .size_type,
    .long_type, .ulong_type, .longlong_type, .ulonglong_type, .struct_type, .union_type,
    .void_type, .capsule_type, .float_type, .cfloat_type, .double_type, .cdouble_type,
    .pyobject_type, .pytuple_type, .pylist_type, .pydict_type, .pycallable_type,
    .pyslice_type, .pytype_type, .pybuffer_type, .pyenum_type].contains t

/-- The categories that have a case in the switch of `getParseResultFormat`: those of
`getBuildResultFormat` other than `pycallable_type`. -/
def inParseResultSwitch (t : argType) : Bool :=
  inBuildResultSwitch t && decide (t ≠ .pycallable_type)

/-- The categories that do not stand for a value that is returned: an unresolved defined
type or template, a function and the ellipsis. -/
def notReturned (t : argType) : Bool :=
  t = .defined_type || t = .template_type || t = .function_type || t = .ellipsis_type

/-! ## Sub-formats of the argument parser -/

/-- The value of `flags` that `getSubFormatChar` computes for an argument. -/
def getSubFormatFlags (ad : argDef) : Nat :=
  let flags := 0
  let flags := if isTransferred ad then flags ||| 0x02 else flags
  let flags := if isTransferredBack ad then flags ||| 0x04 else flags
  if ad.atype = .class_type ∨ ad.atype = .mapped_type then
    let flags := if ad.nrderefs = 0 ∨ isDisallowNone ad = true then flags ||| 0x01 else flags
    let flags := if isThisTransferred ad then flags ||| 0x10 else flags
    if isConstrained ad = true ∨ (ad.atype = .class_type ∧ ad.u.getCd.convtocode = []) then
      flags ||| 0x08
    else flags
  else flags

/-- The function `getSubFormatChar`: get the format character string for something that
has sub-formats, the character `fc` followed by the character `'0' + flags`. -/
def getSubFormatChar (fc : Char) (ad : argDef) : String :=
  String.mk [fc, Char.ofNat ('0'.toNat + getSubFormatFlags ad)]

/-- A pointer to a class that has no conversion code. -/
def classPointerArg : argDef :=
  .mk { atype := .class_type, nrderefs := 1, isInArg := true } (.cd { addr := 1 })

/-! ## The output of the generators

A generator writes to its output file through `prcode` only.  Its output is modelled as
the list of its calls of `prcode`, each with its format string and its arguments, in the
order of the calls; a call of another generator appears as one event that holds what
that generator emitted. -/

/-- The global flags of `gencode.c` that the embedded generators read: `abiVersion`,
`exceptions` (set if exceptions are enabled), `generating_c` (set if generating C) and
`release_gil` (set if always releasing the GIL), with the value of the macro
`abiSupportsArray()` of `sip.h` under that ABI version, and `tracing` (set if tracing is
enabled). -/
structure generatorFlags where
  abiVersion : Nat := ABI_13_0
  exceptions : Bool := true
  generating_c : Bool := false
  release_gil : Bool := false
  abiSupportsArray : Bool := false
  tracing : Bool := false

/-- Modelled from the spec: the constant `ABI_12_9` of `sip.h`, major 12, minor 9 in the
encoding of `ABI_13_0`. -/
def ABI_12_9 : Nat := 0x0C09

/-- Modelled from the spec: the constant `ABI_13_1` of `sip.h`, major 13, minor 1 in the
encoding of `ABI_13_0`. -/
def ABI_13_1 : Nat := 0x0D01

/-- Modelled from the spec: the part of a `moduleDef` of `sip.h` (a ModuleEntity of the
spec) that the embedded generators read: its address, its name, the value of the macro
`useArgNames` and its default exception.  Its counter `next_key` is held in a store of its
own, keyed by the address. -/
structure moduleDef where
  addr : Nat := 0
  name : String := ""
  useArgNames : Bool := false
  defexception : Option exceptionDef := none

/-- An argument of a call of `prcode`, after the format string; `sopt` is a string that a
function returned, `none` when that function read outside its table. -/
inductive prArg where
  | s (v : String)
  | sopt (v : Option String)
  | c (v : Char)
  | d (v : Int)
  | mod (v : moduleDef)
  | ad (v : argDef)
  | adopt (v : Option argDef)
  | snd (v : scopedNameDef)
  | nd (v : String)
  | cd (v : classDef)
  | ed (v : enumDef)
  | scope (v : Option ifaceFileDef)

/-- An event of the output of a generator: a call of `prcode` with its format and
arguments; a call of an embedded generator with the events that it emitted; or a call of
a generator that is not embedded, with its name, the values and the code it is given. -/
inductive genEvent where
  | prcode (fmt : String) (args : List prArg)
  | call (fn : String) (out : List genEvent)
  | other (fn : String) (args : List prArg) (code : codeBlockList)

/-- Whether an event is a call of `prcode` with the given format. -/
def genEvent.isPrcode (fmt : String) : genEvent → Bool
  | .prcode f _ => f == fmt
  | _ => false

/-- Whether an event is a call of the embedded generator with the given name. -/
def genEvent.isCall (fn : String) : genEvent → Bool
  | .call f _ => f == fn
  | _ => false

/-- The comparison that `strstr(haystack, needle) != NULL` makes, on the characters of
the two strings: whether `needle` occurs in `haystack`. -/
def strstrChars (needle : List Char) : List Char → Bool
  | [] => needle.isEmpty
  | ch :: rest => needle.isPrefixOf (ch :: rest) || strstrChars needle rest

/-- The test `strstr(haystack, needle) != NULL` of the C library. -/
def strstr (haystack needle : String) : Bool := strstrChars needle.data haystack.data

/-- The function `usedInCode`: returns TRUE if a string is used in code. -/
def usedInCode : codeBlockList → String → Bool
  | [], _ => false
  | block :: next, str => if strstr block.frag str then true else usedInCode next str

/-! ## Cleanup of the arguments -/

/-- The function `convertToCode`: return the conversion code of a type. -/
def convertToCode (ad : argDef) : codeBlockList :=
  if ad.atype = .class_type ∧ isConstrained ad = false then ad.u.getCd.convtocode
  else if ad.atype = .mapped_type ∧ isConstrained ad = false then ad.u.getMtd.convtocode
  else []

/-- The function `typeNeedsUserState`: return TRUE if a type needs user state to be
provided. -/
def typeNeedsUserState (ad : argDef) : Bool :=
  decide (ad.atype = .mapped_type) && ad.u.getMtd.needsUserState

/-- The function `userStateSuffix`: return the suffix for functions that have a variant
that supports a user state. -/
def userStateSuffix (g : generatorFlags) (ad : argDef) : String :=
  if g.abiVersion ≥ ABI_13_0 ∧ typeNeedsUserState ad = true then "US" else ""

/-- The body of the loop of `deleteOuts` for the argument `ad` of index `a`. -/
def deleteOutsArg (mod : moduleDef) (ad : argDef) (a : Nat) : List genEvent :=
  if needNewInstance ad then
    [.prcode "                delete %a;\n" [.mod mod, .ad ad, .d a]]
  else []

/-- The loop of `deleteOuts` from the argument of index `a` on. -/
def deleteOutsLoop (mod : moduleDef) : List argDef → Nat → List genEvent
  | [], _ => []
  | ad :: rest, a => deleteOutsArg mod ad a ++ deleteOutsLoop mod rest (a + 1)

/-- The function `deleteOuts`: delete any instances created to hold /Out/ arguments. -/
def deleteOuts (mod : moduleDef) (sd : signatureDef) : List genEvent :=
  deleteOutsLoop mod sd.args 0

/-- The body of the loop of `deleteTemps` for the argument `ad` of index `a`. -/
def deleteTempsArg (g : generatorFlags) (mod : moduleDef) (ad : argDef) (a : Nat) :
    List genEvent :=
  if isArray ad = true ∧ (ad.atype = .mapped_type ∨ ad.atype = .class_type) then
    if isTransferred ad = false then
      (if ad.atype = .class_type ∧ g.abiSupportsArray = true then
        [genEvent.prcode "            if (%aIsTemp)\n" [.mod mod, .ad ad, .d a]]
       else []) ++
      [if g.generating_c then
        genEvent.prcode "            %ssipFree(%a);\n"
          [.s (if ad.atype = .class_type ∧ g.abiSupportsArray = true then "    " else ""),
            .mod mod, .ad ad, .d a]
       else
        genEvent.prcode "            %sdelete[] %a;\n"
          [.s (if ad.atype = .class_type ∧ g.abiSupportsArray = true then "    " else ""),
            .mod mod, .ad ad, .d a]]
    else []
  else if isInArg ad = false then []
  else if (ad.atype = .ascii_string_type ∨ ad.atype = .latin1_string_type ∨
      ad.atype = .utf8_string_type) ∧ ad.nrderefs = 1 then
    [.prcode "            Py_%sDECREF(%aKeep);\n"
      [.s (if ad.defval ≠ none then "X" else ""), .mod mod, .ad ad, .d a]]
  else if ad.atype = .wstring_type ∧ ad.nrderefs = 1 then
    if g.generating_c = true ∨ isConstArg ad = false then
      [.prcode "            sipFree(%a);\n" [.mod mod, .ad ad, .d a]]
    else
      [.prcode "            sipFree(const_cast<wchar_t *>(%a));\n" [.mod mod, .ad ad, .d a]]
  else if convertToCode ad ≠ [] then
    if ad.atype = .mapped_type ∧ ad.u.getMtd.noRelease = true then []
    else
      [genEvent.prcode "            sipReleaseType%s(" [.s (userStateSuffix g ad)],
        (if g.generating_c = true ∨ isConstArg ad = false then
          genEvent.prcode "%a" [.mod mod, .ad ad, .d a]
         else genEvent.prcode "const_cast<%b *>(%a)" [.ad ad, .mod mod, .ad ad, .d a]),
        genEvent.prcode ", sipType_%T, %aState" [.ad ad, .mod mod, .ad ad, .d a]] ++
      (if typeNeedsUserState ad then
        [genEvent.prcode ", %aUserState" [.mod mod, .ad ad, .d a]]
       else []) ++
      [genEvent.prcode ");\n" []]
  else []

/-- The loop of `deleteTemps` from the argument of index `a` on. -/
def deleteTempsLoop (g : generatorFlags) (mod : moduleDef) : List argDef → Nat → List genEvent
  | [], _ => []
  | ad :: rest, a => deleteTempsArg g mod ad a ++ deleteTempsLoop g mod rest (a + 1)

/-- The function `deleteTemps`: delete any temporary variables on the heap created by type
convertors. -/
def deleteTemps (g : generatorFlags) (mod : moduleDef) (sd : signatureDef) : List genEvent :=
  deleteTempsLoop g mod sd.args 0

/-- The function `gc_ellipsis`: garbage collect any ellipsis argument. -/
def gc_ellipsis (sd : signatureDef) : List genEvent :=
  if sd.nrArgs > 0 ∧ (sd.args.getLast?.map argDef.atype) = some argType.ellipsis_type then
    [.prcode "\n            Py_DECREF(a%d);\n" [.d (sd.nrArgs - 1 : Nat)]]
  else []

/-! ## The exception guard -/

/-- The function `generateTry`: generate the try block for a call. -/
def generateTry (g : generatorFlags) (ta : Option throwArgs) : List genEvent :=
  if g.exceptions &&
      (match ta with
        | none => true
        | some args => decide (args.length > 0)) then
    [.prcode "            try\n            \x7b\n" []]
  else []

/-- The function `generateCatchBlock`: generate a single catch block.  The signature `sd`
is `NULL` (`none`) when the block belongs to an exception handler of the module. -/
def generateCatchBlock (g : generatorFlags) (mod : moduleDef) (xd : exceptionDef)
    (sd : Option signatureDef) (rgil : Bool) : List genEvent :=
  let ename := xd.iff.fqcname
  [genEvent.prcode "            catch (%V &%s)\n            \x7b\n"
    [.snd ename,
      .s (if xd.cd.isSome = true ∨ usedInCode xd.raisecode "sipExceptionRef" = true then
            "sipExceptionRef" else "")]] ++
  (if rgil then [genEvent.prcode "\n                Py_BLOCK_THREADS\n" []] else []) ++
  (match sd with
    | some sd =>
      [genEvent.call "deleteOuts" (deleteOuts mod sd),
        genEvent.call "deleteTemps" (deleteTemps g mod sd)]
    | none => []) ++
  [if xd.cd.isSome then
    genEvent.prcode
      "                /* Hope that there is a valid copy ctor. */\n                %S *sipExceptionCopy = new %S(sipExceptionRef);\n\n                sipRaiseTypeException(sipType_%C, sipExceptionCopy);\n"
      [.snd ename, .snd ename, .snd ename]
   else genEvent.other "generateCppCodeBlock" [] xd.raisecode] ++
  [genEvent.prcode "\n                return %s;\n            \x7d\n"
    [.s (if sd.isSome then "SIP_NULLPTR" else "true")]]

/-- The value of `use_handler` in `generateCatch`: whether the ABI has exception
handlers. -/
def useExceptionHandler (g : generatorFlags) : Bool :=
  decide (g.abiVersion ≥ ABI_13_1 ∨ (g.abiVersion ≥ ABI_12_9 ∧ g.abiVersion < ABI_13_0))

/-- The function `generateCatch`: generate the catch blocks for a call. -/
def generateCatch (g : generatorFlags) (ta : Option throwArgs) (sd : signatureDef)
    (mod : moduleDef) (rgil : Bool) : List genEvent :=
  if g.exceptions &&
      (match ta with
        | none => true
        | some args => decide (args.length > 0)) then
    let use_handler := useExceptionHandler g
    [genEvent.prcode "            \x7d\n" []] ++
    (if !use_handler then
      match ta with
      | some args =>
        args.map (fun xd =>
          genEvent.call "generateCatchBlock" (generateCatchBlock g mod xd (some sd) rgil))
      | none =>
        match mod.defexception with
        | some xd =>
          [genEvent.call "generateCatchBlock" (generateCatchBlock g mod xd (some sd) rgil)]
        | none => []
     else []) ++
    [genEvent.prcode "            catch (...)\n            \x7b\n" []] ++
    (if rgil then [genEvent.prcode "                Py_BLOCK_THREADS\n\n" []] else []) ++
    [genEvent.call "deleteOuts" (deleteOuts mod sd),
      genEvent.call "deleteTemps" (deleteTemps g mod sd)] ++
    (if use_handler then
      [genEvent.prcode
        "                void *sipExcState = SIP_NULLPTR;\n                sipExceptionHandler sipExcHandler;\n                std::exception_ptr sipExcPtr = std::current_exception();\n\n                while ((sipExcHandler = sipNextExceptionHandler(&sipExcState)) != SIP_NULLPTR)\n                    if (sipExcHandler(sipExcPtr))\n                        return SIP_NULLPTR;\n\n" []]
     else []) ++
    [genEvent.prcode
      "                sipRaiseUnknownException();\n                return SIP_NULLPTR;\n            \x7d\n" []]
  else []

/-- The function `generateThrowSpecifier`: generate a throw specifier. -/
def generateThrowSpecifier (g : generatorFlags) (ta : Option throwArgs) : List genEvent :=
  if g.exceptions &&
      (match ta with
        | none => false
        | some args => decide (args.length = 0)) then
    [.prcode " noexcept" []]
  else []

/-! ## Example exceptions and arguments -/

/-- An exception that is a wrapped class. -/
def classException : exceptionDef :=
  { iff := { type := .exception_iface, fqcname := ["", "E1"] }, cd := some { addr := 7 } }

/-- An exception with handwritten raise code. -/
def codeException : exceptionDef :=
  { iff := { type := .exception_iface, fqcname := ["", "E2"] },
    raisecode := [{ frag := "PyErr_SetString(PyExc_ValueError, sipExceptionRef.what());" }] }

/-- An input argument `const char *` with the ASCII encoding. -/
def asciiArg : argDef :=
  .mk { atype := .ascii_string_type, nrderefs := 1, isConstArg := true, isInArg := true } .none

/-! ## The call of the C++ function -/

/-- The function `get_argument_name`: return the name to use for an argument. -/
def get_argument_name (arg : argDef) (arg_nr : Nat) (module : moduleDef) : String :=
  match arg.core.name with
  | some text =>
    if module.useArgNames = true ∧ arg.atype ≠ .ellipsis_type then text
    else "a" ++ toString arg_nr
  | none => "a" ++ toString arg_nr

/-- The value of `ind` in the loop of `generateCallArgs`: "see if the argument needs
dereferencing or it's address taking"; `none` is `NULL`. -/
def callArgInd (ad : argDef) : Option String :=
  match ad.atype with
  | .ascii_string_type | .latin1_string_type | .utf8_string_type | .sstring_type
  | .ustring_type | .string_type | .wstring_type =>
    if ad.nrderefs > (if isOutArg ad then 0 else 1) ∧ isReference ad = false then some "&"
    else none
  | .mapped_type | .class_type =>
    if ad.nrderefs = 2 then some "&"
    else if ad.nrderefs = 0 then some "*"
    else none
  | .struct_type | .union_type | .void_type =>
    if ad.nrderefs = 2 then some "&" else none
  | _ => if ad.nrderefs = 1 then some "&" else none

/-- The value of `py_ad` in the loop of `generateCallArgs`, "see if we need to cast a
Python void * to the correct C/C++ pointer type"; the argument is the entry of the Python
signature, `none` when `py_sd` is `sd` or when that entry is not set. -/
def callArgPyAd (ad : argDef) (py_ad : Option argDef) : Option argDef :=
  match py_ad with
  | some p =>
    if (p.atype ≠ .void_type ∧ p.atype ≠ .capsule_type) ∨ ad.atype = .void_type ∨
        ad.atype = .capsule_type ∨ p.nrderefs ≠ ad.nrderefs then none
    else some p
  | none => none

/-- The body of the loop of `generateCallArgs` for the argument `ad` of index `a`; `py_ad`
is the argument of the Python signature at that index, `none` when the two signatures are
the same one or when that entry is not set. -/
def generateCallArgsArg (g : generatorFlags) (mod : moduleDef) (ad : argDef) (a : Nat)
    (py_ad : Option argDef) : List genEvent :=
  (if a > 0 then [genEvent.prcode ", " []] else []) ++
  (match callArgPyAd ad py_ad with
    | none =>
      (match callArgInd ad with
        | some ind => [genEvent.prcode ind []]
        | none => []) ++
      (if isArraySize ad then [genEvent.prcode "(%b)" [.ad ad]] else []) ++
      [genEvent.prcode "%a" [.mod mod, .ad ad, .d a]]
    | some _ =>
      if g.generating_c then [genEvent.prcode "(%b *)%a" [.ad ad, .mod mod, .ad ad, .d a]]
      else [genEvent.prcode "reinterpret_cast<%b *>(%a)" [.ad ad, .mod mod, .ad ad, .d a]])

/-- The loop of `generateCallArgs` from the argument of index `a` on; `py_args` is `none`
when `py_sd` is `sd`. -/
def generateCallArgsLoop (g : generatorFlags) (mod : moduleDef)
    (py_args : Option (List argDef)) : List argDef → Nat → List genEvent
  | [], _ => []
  | ad :: rest, a =>
    generateCallArgsArg g mod ad a (py_args.bind (fun l => l[a]?)) ++
      generateCallArgsLoop g mod py_args rest (a + 1)

/-- The function `generateCallArgs`: generate typed arguments for a call.  The Python
signature is `none` when the pointer `py_sd` is `sd`. -/
def generateCallArgs (g : generatorFlags) (mod : moduleDef) (sd : signatureDef)
    (py_sd : Option signatureDef) : List genEvent :=
  generateCallArgsLoop g mod (py_sd.map signatureDef.args) sd.args 0

/-- The second argument `&od->pysig` of the calls `generateCallArgs(mod, od->cppsig,
&od->pysig, fp)`, `none` when `od->cppsig` is that pointer. -/
def overDef.pysigOther (od : overDef) : Option signatureDef :=
  if od.cppsigIsPysig then none else some od.pysig

/-- The function `generateCppFunctionCall`: generate a call to a C++ function.  The scope
is `none` for `NULL`. -/
def generateCppFunctionCall (g : generatorFlags) (mod : moduleDef)
    (scope : Option ifaceFileDef) (o_scope : ifaceFileDef) (od : overDef) : List genEvent :=
  let mname := od.cppname
  let callArgs := genEvent.call "generateCallArgs" (generateCallArgs g mod od.cppsig od.pysigOther)
  let head : List genEvent × Nat :=
    match scope with
    | none => ([genEvent.prcode "%s(" [.s mname]], 1)
    | some scope =>
      if scope.type = .namespace_iface then
        ([genEvent.prcode "%S::%s(" [.snd scope.fqcname, .s mname]], 1)
      else if od.isStatic then
        if od.isProtected then
          ([genEvent.prcode "sip%C::sipProtect_%s(" [.snd scope.fqcname, .s mname]], 1)
        else ([genEvent.prcode "%S::%s(" [.snd o_scope.fqcname, .s mname]], 1)
      else if od.isProtected then
        if !od.isAbstract && (od.isVirtual || od.isVirtualReimp) then
          ([genEvent.prcode "sipCpp->sipProtectVirt_%s(sipSelfWasArg" [.s mname]] ++
            (if od.cppsig.nrArgs > 0 then [genEvent.prcode ", " []] else []), 1)
        else ([genEvent.prcode "sipCpp->sipProtect_%s(" [.s mname]], 1)
      else if !od.isAbstract && (od.isVirtual || od.isVirtualReimp) then
        ([genEvent.prcode "(sipSelfWasArg ? sipCpp->%S::%s(" [.snd o_scope.fqcname, .s mname],
          callArgs,
          genEvent.prcode ") : sipCpp->%s(" [.s mname]], 2)
      else ([genEvent.prcode "sipCpp->%s(" [.s mname]], 1)
  head.1 ++ [callArgs] ++ List.replicate head.2 (genEvent.prcode ")" [])

/-- The function `generateSlotArg`: generate argument to a slot.  An argument that the
signature does not hold is read as a zeroed entry of the array `args`. -/
def generateSlotArg (mod : moduleDef) (sd : signatureDef) (argnr : Nat) : List genEvent :=
  let ad := sd.args.getD argnr (.mk {} .none)
  let deref := (ad.atype = .class_type ∨ ad.atype = .mapped_type) ∧ ad.nrderefs = 0
  [.prcode "%s%a" [.s (if deref then "*" else ""), .mod mod, .ad ad, .d argnr]]

/-- The function `generateComparisonSlotCall`: generate the call to a comparison slot
method. -/
def generateComparisonSlotCall (mod : moduleDef) (scope : Option ifaceFileDef) (od : overDef)
    (op cop : String) (deref : Bool) : List genEvent :=
  let op := if od.isComplementary then cop else op
  (if od.isComplementary then [genEvent.prcode "!" []] else []) ++
  (if !od.isGlobal then
    let deref_s := if deref then "->" else "."
    if od.isAbstract then [genEvent.prcode "sipCpp%soperator%s(" [.s deref_s, .s op]]
    else
      [genEvent.prcode "sipCpp%s%S::operator%s("
        [.s deref_s, .snd ((scope.map ifaceFileDef.fqcname).getD []), .s op]]
   else
    (match od.common.ns_scope with
      | some ns => [genEvent.prcode "%S::" [.snd ns.fqcname]]
      | none => []) ++
    (if deref then [genEvent.prcode "operator%s((*sipCpp), " [.s op]]
     else [genEvent.prcode "operator%s(sipCpp, " [.s op]])) ++
  [genEvent.call "generateSlotArg" (generateSlotArg mod od.pysig 0),
    genEvent.prcode ")" []]

/-- The function `generateBinarySlotCall`: generate the call to a binary (non-number) slot
method. -/
def generateBinarySlotCall (mod : moduleDef) (scope : Option ifaceFileDef) (od : overDef)
    (op : String) (deref : Bool) : List genEvent :=
  generateComparisonSlotCall mod scope od op "" deref

/-- The function `generateNumberSlotCall`: generate the call to a binary number slot
method. -/
def generateNumberSlotCall (mod : moduleDef) (od : overDef) (op : String) : List genEvent :=
  [genEvent.prcode "(" [],
    genEvent.call "generateSlotArg" (generateSlotArg mod od.pysig 0),
    genEvent.prcode " %s " [.s op],
    genEvent.call "generateSlotArg" (generateSlotArg mod od.pysig 1),
    genEvent.prcode ")" []]

/-! ## Counting characters of the output -/

mutual
/-- The number of occurrences of a character in the format strings of an event, those of
the events of an embedded generator included. -/
def genEvent.countChar (c : Char) : genEvent → Nat
  | .prcode fmt _ => fmt.data.count c
  | .call _ out => countCharList c out
  | .other _ _ _ => 0
/-- The number of occurrences of a character in the format strings of a list of events. -/
def countCharList (c : Char) : List genEvent → Nat
  | [] => 0
  | ev :: rest => ev.countChar c + countCharList c rest
end

/-! ## Example overloads -/

/-- A virtual method `bar` of a class with one `int` argument. -/
def virtualMethod : overDef :=
  { cppname := "bar", isVirtual := true, pysig := .mk voidResult [intArg],
    cppsig := .mk voidResult [intArg], cppsigIsPysig := true }

/-- The interface file of a class `Foo`. -/
def fooIface : ifaceFileDef := { type := .class_iface, fqcname := ["", "Foo"] }


/-! ## The result of a call -/

/-- The function `resultOwner`: return the owner of a method result. -/
def resultOwner (od : overDef) : String :=
  if od.isResultTransferredBack then "Py_None"
  else if od.isResultTransferred then "sipSelf"
  else "SIP_NULLPTR"

/-- The value of `res` in `generateHandleResult` after its first statement: the result of
the Python signature, `NULL` (`none`) when the overload returns `void`. -/
def handleResultRes (od : overDef) : Option argDef :=
  if od.pysig.result.atype = .void_type ∧ od.pysig.result.nrderefs = 0 then none
  else some od.pysig.result

/-- The value of `nrvals` in `generateHandleResult`: "see if we are returning 0, 1 or more
values". -/
def handleResultNrvals (od : overDef) : Nat :=
  (if (handleResultRes od).isSome then 1 else 0) + (od.pysig.args.filter isOutArg).length

/-- The value of `only` in `generateHandleResult` after the loop over the arguments from
index `a` on, given its value before. -/
def handleResultOnly : List argDef → Nat → Int → Int
  | [], _, only => only
  | ad :: rest, a, only => handleResultOnly rest (a + 1) (if isOutArg ad then (a : Int) else only)

/-- The value of `has_owner` in `generateHandleResult`. -/
def handleResultHasOwner (od : overDef) : Bool :=
  od.pysig.args.any isThisTransferred

/-- The first loop of the tuple of `generateHandleResult`, "build the format string". -/
def buildResultFormatLoop : List argDef → List genEvent
  | [] => []
  | ad :: rest =>
    (if isOutArg ad then [genEvent.prcode "%s" [.s (getBuildResultFormat ad)]] else []) ++
      buildResultFormatLoop rest

/-- The body of the second loop of the tuple of `generateHandleResult` for the out
argument `ad` of index `a`: the value and what its format needs with it. -/
def buildResultValue (mod : moduleDef) (ad : argDef) (a : Nat) : List genEvent :=
  [genEvent.prcode ", %a" [.mod mod, .ad ad, .d a]] ++
  (if ad.atype = .mapped_type then
    [genEvent.prcode ", sipType_%T, %s"
      [.ad ad, .s (if isTransferredBack ad then "Py_None" else "SIP_NULLPTR")]]
   else if ad.atype = .class_type then
    [genEvent.prcode ", sipType_%C, %s"
      [.snd ad.u.getCd.iff.fqcname,
        .s (if isTransferredBack ad then "Py_None" else "SIP_NULLPTR")]]
   else if ad.atype = .enum_type ∧ ad.u.getEd.fqcname ≠ [] then
    [genEvent.prcode ", sipType_%C" [.snd ad.u.getEd.fqcname]]
   else [])

/-- The second loop of the tuple of `generateHandleResult`, "pass the values for
conversion", from the argument of index `a` on. -/
def buildResultValuesLoop (mod : moduleDef) : List argDef → Nat → List genEvent
  | [], _ => []
  | ad :: rest, a =>
    (if isOutArg ad then buildResultValue mod ad a else []) ++
      buildResultValuesLoop mod rest (a + 1)

/-- The part of `generateHandleResult` under "if there are multiple values then build a
tuple". -/
def handleResultTuple (mod : moduleDef) (od : overDef) (prefixStr : String) : List genEvent :=
  [genEvent.prcode "            %s sipBuildResult(0, \"(" [.s prefixStr]] ++
  (match handleResultRes od with
    | some res =>
      [genEvent.prcode "%s"
        [.s (if res.atype = .mapped_type ∨ res.atype = .class_type then "R"
             else getBuildResultFormat res)]]
    | none => []) ++
  buildResultFormatLoop od.pysig.args ++
  [genEvent.prcode ")\"" []] ++
  (match handleResultRes od with
    | some res =>
      [genEvent.prcode ", sipRes" []] ++
      (if res.atype = .mapped_type ∨ res.atype = .class_type then [genEvent.prcode "Obj" []]
       else if res.atype = .enum_type ∧ res.u.getEd.fqcname ≠ [] then
        [genEvent.prcode ", sipType_%C" [.snd res.u.getEd.fqcname]]
       else [])
    | none => []) ++
  buildResultValuesLoop mod od.pysig.args 0 ++
  [genEvent.prcode ");\n" []]

/-- The part of `generateHandleResult` under "handle results that are classes or mapped
types separately", for a result `res` that is not `NULL`: its output and whether the
function returns after it. -/
def handleResultClass (od : overDef) (res : argDef) (isNew : Bool) (nrvals : Nat)
    (has_owner : Bool) (prefixStr : String) : List genEvent × Bool :=
  let iff : Option ifaceFileDef :=
    if res.atype = .mapped_type then some res.u.getMtd.iff
    else if res.atype = .class_type then some res.u.getCd.iff
    else none
  match iff with
  | none => ([], false)
  | some iff =>
    if isNew || od.isFactory then
      ([genEvent.prcode "            %s sipConvertFromNewType("
          [.s (if nrvals = 1 then prefixStr else "PyObject *sipResObj =")],
        (if isConstArg res then genEvent.prcode "const_cast<%b *>(sipRes)" [.ad res]
         else genEvent.prcode "sipRes" []),
        genEvent.prcode ", sipType_%C, %s);\n"
          [.snd iff.fqcname,
            .s (if has_owner && od.isFactory then "(PyObject *)sipOwner"
                else resultOwner od)]],
        decide (nrvals = 1))
    else
      let need_xfer := od.isResultTransferred && od.isStatic
      ([genEvent.prcode "            %s sipConvertFromType("
          [.s (if nrvals > 1 ∨ need_xfer = true then "PyObject *sipResObj =" else prefixStr)],
        (if isConstArg res then genEvent.prcode "const_cast<%b *>(sipRes)" [.ad res]
         else genEvent.prcode "sipRes" []),
        genEvent.prcode ", sipType_%C, %s);\n"
          [.snd iff.fqcname, .s (if need_xfer then "SIP_NULLPTR" else resultOwner od)]] ++
       (if need_xfer then
         [genEvent.prcode "\n           sipTransferTo(sipResObj, Py_None);\n" []]
        else []) ++
       (if nrvals = 1 ∧ need_xfer = true then
         [genEvent.prcode "\n           return sipResObj;\n" []]
        else []),
        decide (nrvals = 1))

/-- The part of `generateHandleResult` under "deal with the only returned value", for the
value `ad` with the name `vname`. -/
def handleResultSingle (g : generatorFlags) (mod : moduleDef) (od : overDef) (ad : argDef)
    (vname : String) (result_size : Int) (prefixStr : String) : List genEvent :=
  let longConv : List genEvent :=
    [genEvent.prcode "            %s PyLong_FromLong(%s);\n" [.s prefixStr, .s vname]]
  match ad.atype with
  | .mapped_type | .class_type =>
    let needNew := needNewInstance ad
    let iff := if ad.atype = .mapped_type then ad.u.getMtd.iff else ad.u.getCd.iff
    [genEvent.prcode "            %s sipConvertFrom%sType("
        [.s prefixStr, .s (if needNew then "New" else "")],
      (if isConstArg ad then genEvent.prcode "const_cast<%b *>(%s)" [.ad ad, .s vname]
       else genEvent.prcode "%s" [.s vname]),
      genEvent.prcode ", sipType_%C, " [.snd iff.fqcname],
      (if needNew || !isTransferredBack ad then genEvent.prcode "SIP_NULLPTR);\n" []
       else genEvent.prcode "Py_None);\n" [])]
  | .bool_type | .cbool_type =>
    [genEvent.prcode "            %s PyBool_FromLong(%s);\n" [.s prefixStr, .s vname]]
  | .ascii_string_type =>
    if ad.nrderefs = 0 then
      [genEvent.prcode "            %s PyUnicode_DecodeASCII(&%s, 1, SIP_NULLPTR);\n"
        [.s prefixStr, .s vname]]
    else
      [genEvent.prcode
        "            if (%s == SIP_NULLPTR)\n            \x7b\n                Py_INCREF(Py_None);\n                return Py_None;\n            \x7d\n\n            %s PyUnicode_DecodeASCII(%s, strlen(%s), SIP_NULLPTR);\n"
        [.s vname, .s prefixStr, .s vname, .s vname]]
  | .latin1_string_type =>
    if ad.nrderefs = 0 then
      [genEvent.prcode "            %s PyUnicode_DecodeLatin1(&%s, 1, SIP_NULLPTR);\n"
        [.s prefixStr, .s vname]]
    else
      [genEvent.prcode
        "            if (%s == SIP_NULLPTR)\n            \x7b\n                Py_INCREF(Py_None);\n                return Py_None;\n            \x7d\n\n            %s PyUnicode_DecodeLatin1(%s, strlen(%s), SIP_NULLPTR);\n"
        [.s vname, .s prefixStr, .s vname, .s vname]]
  | .utf8_string_type =>
    if ad.nrderefs = 0 then
      [genEvent.prcode "            %s PyUnicode_FromStringAndSize(&%s, 1);\n"
        [.s prefixStr, .s vname]]
    else
      [genEvent.prcode
        "            if (%s == SIP_NULLPTR)\n            \x7b\n                Py_INCREF(Py_None);\n                return Py_None;\n            \x7d\n\n            %s PyUnicode_FromString(%s);\n"
        [.s vname, .s prefixStr, .s vname]]
  | .sstring_type | .ustring_type | .string_type =>
    if ad.nrderefs = 0 then
      [genEvent.prcode "            %s PyBytes_FromStringAndSize(%s&%s, 1);\n"
        [.s prefixStr, .s (if ad.atype ≠ .string_type then "(char *)" else ""), .s vname]]
    else
      [genEvent.prcode
        "            if (%s == SIP_NULLPTR)\n            \x7b\n                Py_INCREF(Py_None);\n                return Py_None;\n            \x7d\n\n            %s PyBytes_FromString(%s%s);\n"
        [.s vname, .s prefixStr, .s (if ad.atype ≠ .string_type then "(char *)" else ""),
          .s vname]]
  | .wstring_type =>
    if ad.nrderefs = 0 then
      [genEvent.prcode "            %s PyUnicode_FromWideChar(&%s, 1);\n"
        [.s prefixStr, .s vname]]
    else
      [genEvent.prcode
        "            if (%s == SIP_NULLPTR)\n            \x7b\n                Py_INCREF(Py_None);\n                return Py_None;\n            \x7d\n\n            %s PyUnicode_FromWideChar(%s, (Py_ssize_t)wcslen(%s));\n"
        [.s vname, .s prefixStr, .s vname, .s vname]]
  | .enum_type =>
    if ad.u.getEd.fqcname ≠ [] then
      [genEvent.prcode "            %s sipConvertFromEnum(%s%s%s, sipType_%C);\n"
        [.s prefixStr, .s (if g.generating_c then "" else "static_cast<int>("), .s vname,
          .s (if g.generating_c then "" else ")"), .snd ad.u.getEd.fqcname]]
    else longConv
  | .byte_type | .sbyte_type | .short_type | .int_type | .cint_type => longConv
  | .long_type => longConv
  | .ubyte_type | .ushort_type =>
    [genEvent.prcode "            %s PyLong_FromUnsignedLong(%s);\n" [.s prefixStr, .s vname]]
  | .uint_type | .ulong_type | .size_type =>
    [genEvent.prcode "            %s PyLong_FromUnsignedLong(%s);\n" [.s prefixStr, .s vname]]
  | .ssize_type =>
    [genEvent.prcode "            %s PyLong_FromSsize_t(%s);\n" [.s prefixStr, .s vname]]
  | .longlong_type =>
    [genEvent.prcode "            %s PyLong_FromLongLong(%s);\n" [.s prefixStr, .s vname]]
  | .ulonglong_type =>
    [genEvent.prcode "            %s PyLong_FromUnsignedLongLong(%s);\n"
      [.s prefixStr, .s vname]]
  | .void_type =>
    [genEvent.prcode "            %s sipConvertFrom%sVoidPtr"
        [.s prefixStr, .s (if isConstArg ad then "Const" else "")]] ++
    (if result_size < 0 then
      [genEvent.prcode "(" [],
        genEvent.other "generateVoidPtrCast" [.ad ad] [],
        genEvent.prcode "%s" [.s vname]]
     else
      [genEvent.prcode "AndSize(" [],
        genEvent.other "generateVoidPtrCast" [.ad ad] [],
        genEvent.prcode "%s, %a"
          [.s vname, .mod mod,
            .ad (od.pysig.args.getD result_size.toNat (.mk {} .none)), .d result_size]]) ++
    [genEvent.prcode ");\n" []]
  | .capsule_type =>
    [genEvent.prcode "            %s PyCapsule_New(%s, \"%S\", SIP_NULLPTR);\n"
      [.s prefixStr, .s vname, .snd ad.u.getCap]]
  | .struct_type | .union_type =>
    [genEvent.prcode "            %s sipConvertFrom%sVoidPtr(%s);\n"
      [.s prefixStr, .s (if isConstArg ad then "Const" else ""), .s vname]]
  | .float_type | .cfloat_type =>
    [genEvent.prcode "            %s PyFloat_FromDouble((double)%s);\n"
      [.s prefixStr, .s vname]]
  | .double_type | .cdouble_type =>
    [genEvent.prcode "            %s PyFloat_FromDouble(%s);\n" [.s prefixStr, .s vname]]
  | .pyobject_type | .pytuple_type | .pylist_type | .pydict_type | .pycallable_type
  | .pyslice_type | .pytype_type | .pybuffer_type | .pyenum_type =>
    [genEvent.prcode "            %s %s;\n" [.s prefixStr, .s vname]]
  | _ => []

/-- The function `generateHandleResult`: generate the code to handle the result of a call
to a member function. -/
def generateHandleResult (g : generatorFlags) (mod : moduleDef) (od : overDef) (isNew : Bool)
    (result_size : Int) (prefixStr : String) : List genEvent :=
  let res := handleResultRes od
  let nrvals := handleResultNrvals od
  let only := handleResultOnly od.pysig.args 0 (-1)
  let has_owner := handleResultHasOwner od
  if nrvals = 0 then
    [genEvent.prcode "            Py_INCREF(Py_None);\n            %s Py_None;\n" [.s prefixStr]]
  else
    let conv : List genEvent × Bool :=
      match res with
      | some res => handleResultClass od res isNew nrvals has_owner prefixStr
      | none => ([], false)
    if conv.2 then conv.1
    else if nrvals > 1 then conv.1 ++ handleResultTuple mod od prefixStr
    else
      conv.1 ++
      (if only < 0 then
        handleResultSingle g mod od (res.getD od.pysig.result) "sipRes" result_size prefixStr
       else
        handleResultSingle g mod od (od.pysig.args.getD only.toNat (.mk {} .none))
          (get_argument_name (od.pysig.args.getD only.toNat (.mk {} .none)) only.toNat mod)
          result_size prefixStr)

/-! ## The virtual handler -/

/-- Modelled from the spec: the macro `resetIsConstArg` of `sip.h`. -/
def resetIsConstArg (ad : argDef) : argDef := .mk { ad.core with isConstArg := false } ad.u

/-- Modelled from the spec: the macro `resetIsReference` of `sip.h`. -/
def resetIsReference (ad : argDef) : argDef := .mk { ad.core with isReference := false } ad.u

/-- Modelled from the spec: a `virtErrorHandler` of `sip.h`: its name, the module that
defines it and its index in the table of the imported handlers. -/
structure virtErrorHandler where
  name : String := ""
  mod : moduleDef := {}
  index : Int := 0

/-- Modelled from the spec: the part of a `virtHandlerDef` of `sip.h` that the virtual
handler reads: its number, its C++ and Python signatures, its handwritten code, its
flags and its error handler (`NULL` is `none`). -/
structure virtHandlerDef where
  virthandlernr : Int := 0
  cppsig : signatureDef := .mk (.mk {} .none) []
  pysig : signatureDef := .mk (.mk {} .none) []
  virtcode : codeBlockList := []
  abortOnExceptionVH : Bool := false
  isTransferVH : Bool := false
  veh : Option virtErrorHandler := none

/-- The function `keepPyReference`: returns TRUE if the argument has a type that requires
an extra reference to the originating object to be kept. -/
def keepPyReference (ad : argDef) : Bool :=
  if ad.atype = .ascii_string_type ∨ ad.atype = .latin1_string_type ∨
      ad.atype = .utf8_string_type ∨ ad.atype = .ustring_type ∨
      ad.atype = .sstring_type ∨ ad.atype = .string_type then
    !isReference ad && decide (ad.nrderefs > 0)
  else false

/-- The body of the loop of `fakeProtectedArgs` for one argument. -/
def fakeProtectedArg (ad : argDef) : argDef :=
  if ad.atype = .class_type ∧ ad.u.getCd.isProtectedClass = true then
    .mk { ad.core with atype := .fake_void_type, nrderefs := 1, isReference := false } ad.u
  else if ad.atype = .enum_type ∧ ad.u.getEd.isProtectedEnum = true then
    .mk { ad.core with atype := .int_type } ad.u
  else ad

/-- The function `fakeProtectedArgs`: the signature that it leaves in place of `sd`. -/
def fakeProtectedArgs (sd : signatureDef) : signatureDef :=
  .mk sd.result (sd.args.map fakeProtectedArg)

/-- The function `generateParseResultExtraArgs`: generate the extra arguments needed by
`sipParseResultEx()` for a particular type.  The module is not read when `argnr` is
negative. -/
def generateParseResultExtraArgs (mod : moduleDef) (ad : argDef) (argnr : Int) :
    List genEvent :=
  match ad.atype with
  | .mapped_type => [.prcode ", sipType_%T" [.ad ad]]
  | .class_type => [.prcode ", sipType_%C" [.snd ad.u.getCd.iff.fqcname]]
  | .pytuple_type => [.prcode ", &PyTuple_Type" []]
  | .pylist_type => [.prcode ", &PyList_Type" []]
  | .pydict_type => [.prcode ", &PyDict_Type" []]
  | .pyslice_type => [.prcode ", &PySlice_Type" []]
  | .pytype_type => [.prcode ", &PyType_Type" []]
  | .enum_type =>
    if ad.u.getEd.fqcname ≠ [] then [.prcode ", sipType_%C" [.snd ad.u.getEd.fqcname]]
    else []
  | .capsule_type => [.prcode ", \"%S\"" [.snd ad.u.getCap]]
  | _ =>
    if keepPyReference ad then
      if argnr < 0 then [.prcode ", sipResKey" []]
      else [.prcode ", %aKey" [.mod mod, .ad ad, .d argnr]]
    else []

/-- The function `generateDefaultInstanceReturn` for a result that is not `NULL`: generate
a statement to return the default instance of a type; its output and the value that it
returns, which is negative when the class has no default constructor to call. -/
def generateDefaultInstanceReturn (res : argDef) (indent : String) : List genEvent × Int :=
  let instance_code : codeBlockList :=
    if res.nrderefs = 0 then
      if res.atype = .mapped_type then res.u.getMtd.instancecode
      else if res.atype = .class_type then res.u.getCd.instancecode
      else []
    else []
  let res_noconstref := resetIsReference (resetIsConstArg res)
  let tail := [genEvent.prcode ";\n" []]
  if instance_code ≠ [] then
    ([genEvent.prcode
        "%s\x7b\n%s    static %B *sipCpp = SIP_NULLPTR;\n\n%s    if (!sipCpp)\n%s    \x7b\n"
        [.s indent, .s indent, .ad res_noconstref, .s indent, .s indent],
      genEvent.other "generateCppCodeBlock" [] instance_code,
      genEvent.prcode "%s    \x7d\n\n%s    return *sipCpp;\n%s\x7d\n"
        [.s indent, .s indent, .s indent]], 0)
  else if res.atype = .mapped_type ∧ res.nrderefs = 0 then
    ([genEvent.prcode "%s    return " [.s indent]] ++
      (if isReference res then [genEvent.prcode "*new " []] else []) ++
      [genEvent.prcode "%B()" [.ad res_noconstref]] ++ tail, 0)
  else if res.atype = .class_type ∧ res.nrderefs = 0 then
    match res.u.getCd.defctor with
    | some ct =>
      if ct.isPublicCtor = true ∧ ct.cppsigNrArgs.isSome = true then
        ([genEvent.prcode "%s    return " [.s indent]] ++
          (if isReference res then [genEvent.prcode "*new " []] else []) ++
          [genEvent.prcode "%B" [.ad res_noconstref],
            genEvent.other "generateCallDefaultCtor" [.ad res] []] ++ tail, 0)
      else ([genEvent.prcode "%s    return " [.s indent]], -1)
    | none => ([genEvent.prcode "%s    return " [.s indent]], -1)
  else
    ([genEvent.prcode "%s    return " [.s indent],
      genEvent.other "generateCastZero" [.ad res] []] ++ tail, 0)

/-- The value of `res` in `generateVirtualHandler`: the result of the C++ signature,
`NULL` (`none`) when the handler returns `void`. -/
def virtualHandlerRes (vhd : virtHandlerDef) : Option argDef :=
  if vhd.cppsig.result.atype = .void_type ∧ vhd.cppsig.result.nrderefs = 0 then none
  else some vhd.cppsig.result

/-- The value of `res_isref` in `generateVirtualHandler`. -/
def virtualHandlerResIsRef (vhd : virtHandlerDef) : Bool :=
  match virtualHandlerRes vhd with
  | some res =>
    (decide (res.atype = .class_type) || decide (res.atype = .mapped_type)) &&
      decide (res.nrderefs = 0) && isReference res
  | none => false

/-- The value of `res_instancecode` in `generateVirtualHandler`. -/
def virtualHandlerInstanceCode (vhd : virtHandlerDef) : codeBlockList :=
  match virtualHandlerRes vhd with
  | some res =>
    if (res.atype = .class_type ∨ res.atype = .mapped_type) ∧ res.nrderefs = 0 then
      if isReference res then []
      else if res.atype = .class_type then res.u.getCd.instancecode
      else res.u.getMtd.instancecode
    else []
  | none => []

/-- The value of `nrvals` in `generateVirtualHandler`: "see how many values we expect". -/
def virtualHandlerNrvals (vhd : virtHandlerDef) : Nat :=
  (if (virtualHandlerRes vhd).isSome then 1 else 0) + (vhd.pysig.args.filter isOutArg).length

/-- The loop of `generateVirtualHandler` that declares the extra arguments for kept
references, from the argument of index `a` on. -/
def virtualHandlerKeysLoop (mod : moduleDef) : List argDef → Nat → List genEvent
  | [], _ => []
  | ad :: rest, a =>
    (if isOutArg ad && keepPyReference ad then
      [genEvent.prcode ", int %aKey" [.mod mod, .ad ad, .d a]]
     else []) ++
      virtualHandlerKeysLoop mod rest (a + 1)

/-- The loop of `generateVirtualHandler` under "build the format string". -/
def parseResultFormatLoop : List argDef → List genEvent
  | [] => []
  | ad :: rest =>
    (if isOutArg ad then
      [genEvent.prcode "%s" [.sopt (getParseResultFormat ad false false)]]
     else []) ++
      parseResultFormatLoop rest

/-- The body of the loop of `generateVirtualHandler` under "pass the destination
pointers" for the out argument `ad` of index `a`. -/
def parseResultDest (mod : moduleDef) (ad : argDef) (a : Nat) : List genEvent :=
  [genEvent.call "generateParseResultExtraArgs" (generateParseResultExtraArgs mod ad a),
    genEvent.prcode ", %s%a" [.s (if isReference ad then "&" else ""), .mod mod, .ad ad, .d a]]

/-- The loop of `generateVirtualHandler` under "pass the destination pointers", from the
argument of index `a` on. -/
def parseResultDestLoop (mod : moduleDef) : List argDef → Nat → List genEvent
  | [], _ => []
  | ad :: rest, a =>
    (if isOutArg ad then parseResultDest mod ad a else []) ++
      parseResultDestLoop mod rest (a + 1)

/-- The part of `generateVirtualHandler` up to the opening brace of the handler: the
result type, the name and the arguments. -/
def virtualHandlerHeader (mod : moduleDef) (vhd : virtHandlerDef) : List genEvent :=
  let faked := fakeProtectedArgs vhd.cppsig
  [genEvent.prcode "\n" [],
    genEvent.other "generateBaseType" [.ad faked.result] [],
    genEvent.prcode " sipVH_%s_%d(sip_gilstate_t sipGILState, sipVirtErrorHandlerFunc sipErrorHandler, sipSimpleWrapper *sipPySelf, PyObject *sipMethod"
      [.s mod.name, .d vhd.virthandlernr]] ++
  (if vhd.cppsig.nrArgs > 0 then
    [genEvent.prcode ", " [],
      genEvent.other "generateCalledArgs" (.mod mod :: faked.args.map prArg.ad) []]
   else []) ++
  (match virtualHandlerRes vhd with
    | some res =>
      if keepPyReference res then
        [genEvent.prcode ", int" []] ++
        (if vhd.virtcode = [] ∨ usedInCode vhd.virtcode "sipResKey" = true then
          [genEvent.prcode " sipResKey" []]
         else [])
      else []
    | none => []) ++
  virtualHandlerKeysLoop mod vhd.cppsig.args 0 ++
  [genEvent.prcode ")\n\x7b\n" []]

/-- The part of `generateVirtualHandler` that declares the variable `sipRes` for a result
`res` that is not `NULL`. -/
def virtualHandlerResultVar (vhd : virtHandlerDef) (res : argDef) : List genEvent :=
  let res_isref := virtualHandlerResIsRef vhd
  let res_instancecode := virtualHandlerInstanceCode vhd
  let res_noconstref := resetIsReference (resetIsConstArg res)
  (if res_instancecode ≠ [] then
    [genEvent.prcode "    static %B *sipCpp = SIP_NULLPTR;\n\n    if (!sipCpp)\n    \x7b\n"
        [.ad res_noconstref],
      genEvent.other "generateCppCodeBlock" [] res_instancecode,
      genEvent.prcode "    \x7d\n\n" []]
   else []) ++
  [genEvent.prcode "    " []] ++
  (if res.atype = .wstring_type ∧ res.nrderefs = 1 then [genEvent.prcode "static " []]
   else []) ++
  [genEvent.other "generateBaseType" [.ad res_noconstref] [],
    genEvent.prcode " %ssipRes" [.s (if res_isref then "*" else "")]] ++
  (if (res.atype = .class_type ∨ res.atype = .mapped_type ∨ res.atype = .template_type) ∧
      res.nrderefs = 0 then
    if res_instancecode ≠ [] then [genEvent.prcode " = *sipCpp" []]
    else if res.atype = .class_type then
      match res.u.getCd.defctor with
      | some ct =>
        if ct.isPublicCtor = true ∧ ct.cppsigNrArgs.getD 0 > 0 ∧
            ct.firstArgHasDefval = false then
          [genEvent.other "generateCallDefaultCtor" [.ad res] []]
        else []
      | none => []
    else []
   else if res.atype = .enum_type ∧ res.u.getEd.isProtectedEnum = true then
    [genEvent.prcode " = 0" []]
   else
    [genEvent.prcode " = " [], genEvent.other "generateCastZero" [.ad res] []]) ++
  [genEvent.prcode ";\n" []] ++
  (if res.atype = .wstring_type ∧ res.nrderefs = 1 then
    [genEvent.prcode
      "\n    if (sipRes)\n    \x7b\n        // Return any previous result to the heap.\n        sipFree(%s);\n        sipRes = SIP_NULLPTR;\n    \x7d\n\n"
      [.s (if isConstArg res then "const_cast<wchar_t *>(sipRes)" else "sipRes")]]
   else [])

/-- The part of `generateVirtualHandler` for a handler with handwritten code. -/
def virtualHandlerCode (vhd : virtHandlerDef) : List genEvent :=
  let error_flag := usedInCode vhd.virtcode "sipError"
  let old_error_flag := usedInCode vhd.virtcode "sipIsErr"
  (if error_flag then [genEvent.prcode "    sipErrorState sipError = sipErrorNone;\n" []]
   else if old_error_flag then [genEvent.prcode "    int sipIsErr = 0;\n" []]
   else []) ++
  [genEvent.prcode "\n" [],
    genEvent.other "generateCppCodeBlock" [] vhd.virtcode,
    genEvent.prcode "\n    Py_DECREF(sipMethod);\n" []] ++
  (if error_flag || old_error_flag then
    [genEvent.prcode
      "\n    if (%s)\n        sipCallErrorHandler(sipErrorHandler, sipPySelf, sipGILState);\n"
      [.s (if error_flag then "sipError != sipErrorNone" else "sipIsErr")]]
   else []) ++
  [genEvent.prcode "\n    SIP_RELEASE_GIL(sipGILState)\n" []] ++
  (if (virtualHandlerRes vhd).isSome then [genEvent.prcode "\n    return sipRes;\n" []]
   else []) ++
  [genEvent.prcode "\x7d\n" []]

/-- The part of `generateVirtualHandler` under "build the format string": the format of
`sipParseResultEx`. -/
def virtualHandlerFormat (vhd : virtHandlerDef) : List genEvent :=
  let nrvals := virtualHandlerNrvals vhd
  if nrvals = 0 then [genEvent.prcode "Z" []]
  else
    (if nrvals > 1 then [genEvent.prcode "(" []] else []) ++
    (match virtualHandlerRes vhd with
      | some res =>
        [genEvent.prcode "%s"
          [.sopt (getParseResultFormat res (virtualHandlerResIsRef vhd) vhd.isTransferVH)]]
      | none => []) ++
    parseResultFormatLoop vhd.pysig.args ++
    (if nrvals > 1 then [genEvent.prcode ")" []] else [])

/-- The part of `generateVirtualHandler` under "pass the destination pointers". -/
def virtualHandlerDests (mod : moduleDef) (vhd : virtHandlerDef) : List genEvent :=
  (match virtualHandlerRes vhd with
    | some res =>
      [genEvent.call "generateParseResultExtraArgs" (generateParseResultExtraArgs mod res (-1)),
        genEvent.prcode ", &sipRes" []]
    | none => []) ++
  parseResultDestLoop mod vhd.pysig.args 0

/-- The part of `generateVirtualHandler` under "call the method". -/
def virtualHandlerCall (mod : moduleDef) (vhd : virtHandlerDef) : List genEvent :=
  [if virtualHandlerNrvals vhd = 0 then
    genEvent.prcode
      "    sipCallProcedureMethod(sipGILState, sipErrorHandler, sipPySelf, sipMethod, " []
   else
    genEvent.prcode "    PyObject *sipResObj = sipCallMethod(SIP_NULLPTR, sipMethod, " [],
    genEvent.other "generateTupleBuilder" (.mod mod :: vhd.pysig.args.map prArg.ad) []]

/-- The part of `generateVirtualHandler` that emits the call of `sipParseResultEx`. -/
def virtualHandlerParse (mod : moduleDef) (vhd : virtHandlerDef) : List genEvent :=
  [genEvent.prcode
    ");\n\n    %ssipParseResultEx(sipGILState, sipErrorHandler, sipPySelf, sipMethod, sipResObj, \""
    [.s (if virtualHandlerResIsRef vhd || vhd.abortOnExceptionVH then "int sipRc = "
         else "")]] ++
  virtualHandlerFormat vhd ++
  [genEvent.prcode "\"" []] ++
  virtualHandlerDests mod vhd ++
  [genEvent.prcode ");\n" []]

/-- The part of `generateVirtualHandler` that checks the value of `sipParseResultEx` for a
result `res` that is not `NULL`: its output and the value of
`generateDefaultInstanceReturn` where it is called, 0 elsewhere. -/
def virtualHandlerCheck (vhd : virtHandlerDef) (res : argDef) : List genEvent × Int :=
  if virtualHandlerResIsRef vhd || vhd.abortOnExceptionVH then
    if vhd.abortOnExceptionVH then
      ([genEvent.prcode "\n    if (sipRc < 0)\n" [],
        genEvent.prcode "        abort();\n" []], 0)
    else
      ([genEvent.prcode "\n    if (sipRc < 0)\n" [],
        genEvent.call "generateDefaultInstanceReturn"
          (generateDefaultInstanceReturn res "    ").1],
        (generateDefaultInstanceReturn res "    ").2)
  else ([], 0)

/-- The function `generateVirtualHandler`: generate the function that does most of the
work to handle a particular virtual function; its output and the value that it returns. -/
def generateVirtualHandler (mod : moduleDef) (vhd : virtHandlerDef) : List genEvent × Int :=
  let start :=
    virtualHandlerHeader mod vhd ++
    (match virtualHandlerRes vhd with
      | some res => virtualHandlerResultVar vhd res
      | none => [])
  if vhd.virtcode ≠ [] then (start ++ virtualHandlerCode vhd, 0)
  else if virtualHandlerNrvals vhd = 0 then
    (start ++ virtualHandlerCall mod vhd ++ [genEvent.prcode ");\n\x7d\n" []], 0)
  else
    match virtualHandlerRes vhd with
    | none =>
      (start ++ virtualHandlerCall mod vhd ++ virtualHandlerParse mod vhd ++
        [genEvent.prcode "\x7d\n" []], 0)
    | some res =>
      if (virtualHandlerCheck vhd res).2 < 0 then
        (start ++ virtualHandlerCall mod vhd ++ virtualHandlerParse mod vhd ++
          (virtualHandlerCheck vhd res).1, -1)
      else
        (start ++ virtualHandlerCall mod vhd ++ virtualHandlerParse mod vhd ++
          ((virtualHandlerCheck vhd res).1 ++
            [genEvent.prcode "\n    return %ssipRes;\n"
                [.s (if virtualHandlerResIsRef vhd then "*" else "")],
              genEvent.prcode "\x7d\n" []]), 0)

/-! ## The values that flow back -/

/-- The out-arguments of a signature in signature order, each with its index. -/
def outArguments (sd : signatureDef) : List (Nat × argDef) :=
  sd.args.enum.filter (fun p => isOutArg p.2)

/-- An overload `int f(int a0, int *a1 /Out/, int *a2 /Out/)`. -/
def twoOutsOverload : overDef :=
  { cppname := "f",
    pysig := .mk (.mk { atype := .int_type } .none)
      [intArg, .mk { atype := .int_type, nrderefs := 1, isOutArg := true } .none,
        .mk { atype := .int_type, nrderefs := 1, isOutArg := true } .none] }

/-- The virtual handler of `int f(int a0, int *a1 /Out/, int *a2 /Out/)`. -/
def twoOutsHandler : virtHandlerDef :=
  { cppsig := twoOutsOverload.pysig, pysig := twoOutsOverload.pysig }


/-! ## The call of a function -/

/-- The function `isZeroArgSlot`: returns TRUE if the given method is a slot that takes
zero arguments. -/
def isZeroArgSlot (md : memberDef) : Bool :=
  let st := md.slot
  st = .str_slot || st = .int_slot || st = .float_slot || st = .invert_slot ||
    st = .neg_slot || st = .len_slot || st = .bool_slot || st = .pos_slot ||
    st = .abs_slot || st = .repr_slot || st = .hash_slot || st = .index_slot ||
    st = .iter_slot || st = .next_slot || st = .await_slot || st = .aiter_slot ||
    st = .anext_slot

/-- The function `isVoidReturnSlot`: returns TRUE if the given method is a slot that
returns void (ie. nothing other than an error indicator). -/
def isVoidReturnSlot (md : memberDef) : Bool :=
  let st := md.slot
  st = .setitem_slot || st = .delitem_slot || st = .setattr_slot

/-- The function `isIntReturnSlot`: returns TRUE if the given method is a slot that
returns int. -/
def isIntReturnSlot (md : memberDef) : Bool :=
  let st := md.slot
  st = .bool_slot || st = .contains_slot || st = .cmp_slot

/-- The function `isSSizeReturnSlot`: returns TRUE if the given method is a slot that
returns Py_ssize_t. -/
def isSSizeReturnSlot (md : memberDef) : Bool := md.slot = .len_slot

/-- The function `isHashReturnSlot`: returns TRUE if the given method is a slot that
returns Py_hash_t. -/
def isHashReturnSlot (md : memberDef) : Bool := md.slot = .hash_slot

/-- The function `isInplaceNumberSlot`: returns TRUE if the given method is an inplace
number slot. -/
def isInplaceNumberSlot (md : memberDef) : Bool :=
  let st := md.slot
  st = .iadd_slot || st = .isub_slot || st = .imul_slot || st = .imod_slot ||
    st = .ifloordiv_slot || st = .itruediv_slot || st = .ior_slot || st = .ixor_slot ||
    st = .iand_slot || st = .ilshift_slot || st = .irshift_slot || st = .imatmul_slot

/-- The function `isInplaceSequenceSlot`: returns TRUE if the given method is an inplace
sequence slot. -/
def isInplaceSequenceSlot (md : memberDef) : Bool :=
  let st := md.slot
  st = .iconcat_slot || st = .irepeat_slot

/-- The function `needsHeapCopy`: return TRUE if an argument (or result) needs to be
copied to the heap. -/
def needsHeapCopy (ad : argDef) (usingCopyCtor : Bool) : Bool :=
  if noCopy ad = false ∧ (ad.atype = .class_type ∨ ad.atype = .mapped_type) ∧
      ad.nrderefs = 0 then
    if isReference ad = false ∨ isConstArg ad = true then
      if ad.atype ≠ .class_type then true
      else if ad.u.getCd.isAbstractClass then false
      else if !ad.u.getCd.cannotCopy then true
      else if usingCopyCtor then false
      else !ad.u.getCd.cannotAssign
    else false
  else false

/-- The function `generateResultVar`: generate a variable to hold the result of a function
call if one is needed; its output and the value that it returns. -/
def generateResultVar (scope : Option ifaceFileDef) (od : overDef) (res : argDef)
    (indent : String) : List genEvent × Bool :=
  let is_result :=
    !isInplaceNumberSlot od.common && !isInplaceSequenceSlot od.common &&
      (decide (res.atype ≠ .void_type) || decide (res.nrderefs ≠ 0))
  if is_result then
    ([genEvent.prcode "%s" [.s indent],
      genEvent.other "generateNamedValueType" [.scope scope, .ad res, .s "sipRes"] []] ++
     (if od.methodcode ≠ [] then
       [genEvent.prcode " = " [], genEvent.other "generateCastZero" [.ad res] []]
      else []) ++
     [genEvent.prcode ";\n" []], is_result)
  else ([], is_result)

/-- The value of `scope` in `generateFunctionCall`: the interface file of the mapped type
or of the class that the overload is in, `NULL` (`none`) outside both. -/
def functionCallScope (c_scope : Option classDef) (mt_scope : Option mappedTypeDef) :
    Option ifaceFileDef :=
  match mt_scope with
  | some mt => some mt.iff
  | none =>
    match c_scope with
    | some cd => some cd.iff
    | none => none

/-- The value of `pyname` in `generateFunctionCall`. -/
def functionCallPyname (c_scope : Option classDef) (mt_scope : Option mappedTypeDef) :
    Option String :=
  match mt_scope with
  | some mt => some mt.pyname
  | none =>
    match c_scope with
    | some cd => some cd.pyname
    | none => none

/-- The value of `static_factory` in `generateFunctionCall`. -/
def isStaticFactory (scope : Option ifaceFileDef) (od : overDef) : Bool :=
  (scope.isNone || od.isStatic) && od.isFactory

/-- The test of the first loop of `generateFunctionCall` for "an In,Out argument that has
conversion code". -/
def isConvertedInOut (ad : argDef) : Bool :=
  isInArg ad && isOutArg ad && decide (convertToCode ad ≠ [])

/-- The value of `deltemps` in `generateFunctionCall` after its first loop: FALSE when
the destruction of the temporaries is delayed. -/
def functionCallDeltemps (od : overDef) : Bool :=
  !od.pysig.args.any isConvertedInOut

/-- The value of `post_process` in `generateFunctionCall` after its first loop. -/
def functionCallPostProcess (static_factory : Bool) (od : overDef) : Bool :=
  keepReference od.pysig.result ||
    od.pysig.args.any (fun ad => (static_factory && keepReference ad) || isConvertedInOut ad)

/-- The value of `result_size` in `generateFunctionCall` after its first loop from the
argument of index `a` on, given its value before. -/
def functionCallResultSize : List argDef → Nat → Int → Int
  | [], _, rs => rs
  | ad :: rest, a, rs => functionCallResultSize rest (a + 1) (if isResultSize ad then a else rs)

/-- The output of the first loop of `generateFunctionCall`, from the argument of index `a`
on: the instances on the heap of the arguments that are returned. -/
def newInstancesLoop (mod : moduleDef) : List argDef → Nat → List genEvent
  | [], _ => []
  | ad :: rest, a =>
    (if needNewInstance ad then
      [genEvent.prcode "            %a = new %b();\n" [.mod mod, .ad ad, .d a, .ad ad]]
     else []) ++
      newInstancesLoop mod rest (a + 1)

/-- The last argument of the calls of `sipKeepReference` for an argument. -/
def keepReferenceSuffix (ad : argDef) : String :=
  if ((ad.atype = .ascii_string_type ∨ ad.atype = .latin1_string_type ∨
        ad.atype = .utf8_string_type) ∧ ad.nrderefs = 1) ∨ isGetWrapper ad = false then "Keep"
  else "Wrapper"

/-- The body of the loop of `generateFunctionCall` that handles the `/KeepReference/` and
`/TransferThis/` arguments, for the argument `ad` of index `a`. -/
def functionCallKeepArg (mod : moduleDef) (scope : Option ifaceFileDef) (od : overDef)
    (static_factory : Bool) (ad : argDef) (a : Nat) : List genEvent :=
  if !isInArg ad then []
  else
    (if !static_factory && keepReference ad then
      [genEvent.prcode "\n            sipKeepReference(%s, %d, %a%s);\n"
        [.s (if scope.isNone || od.isStatic then "SIP_NULLPTR" else "sipSelf"), .d ad.key,
          .mod mod, .ad ad, .d a, .s (keepReferenceSuffix ad)]]
     else []) ++
    (if !od.isFactory && isThisTransferred ad then
      [genEvent.prcode
        "\n            if (sipOwner)\n                sipTransferTo(sipSelf, (PyObject *)sipOwner);\n            else\n                sipTransferBack(sipSelf);\n"
        []]
     else [])

/-- The loop of `generateFunctionCall` that handles the `/KeepReference/` and
`/TransferThis/` arguments, from the argument of index `a` on. -/
def functionCallKeepLoop (mod : moduleDef) (scope : Option ifaceFileDef) (od : overDef)
    (static_factory : Bool) : List argDef → Nat → List genEvent
  | [], _ => []
  | ad :: rest, a =>
    functionCallKeepArg mod scope od static_factory ad a ++
      functionCallKeepLoop mod scope od static_factory rest (a + 1)

/-- The body of the loop of `generateFunctionCall` that keeps "a reference to any argument
with the result if the function is a static factory", for the argument `ad` of index `a`.
-/
def staticFactoryKeepArg (mod : moduleDef) (ad : argDef) (a : Nat) : List genEvent :=
  if !isInArg ad then []
  else if keepReference ad then
    [genEvent.prcode "\n            sipKeepReference(sipResObj, %d, %a%s);\n"
      [.d ad.key, .mod mod, .ad ad, .d a, .s (keepReferenceSuffix ad)]]
  else []

/-- The loop of `generateFunctionCall` for a static factory, from the argument of index
`a` on. -/
def staticFactoryKeepLoop (mod : moduleDef) : List argDef → Nat → List genEvent
  | [], _ => []
  | ad :: rest, a => staticFactoryKeepArg mod ad a ++ staticFactoryKeepLoop mod rest (a + 1)

/-- The switch of `generateFunctionCall` on the slot of the overload: the call itself. -/
def functionCallSlot (g : generatorFlags) (mod : moduleDef) (scope : Option ifaceFileDef)
    (o_scope : ifaceFileDef) (od : overDef) (deref : Bool) : List genEvent :=
  let number (op : String) : List genEvent :=
    [genEvent.call "generateNumberSlotCall" (generateNumberSlotCall mod od op)]
  let binary (op : String) : List genEvent :=
    [genEvent.call "generateBinarySlotCall" (generateBinarySlotCall mod scope od op deref)]
  let comparison (op cop : String) : List genEvent :=
    [genEvent.call "generateComparisonSlotCall"
      (generateComparisonSlotCall mod scope od op cop deref)]
  match od.common.slot with
  | .no_slot =>
    [genEvent.call "generateCppFunctionCall" (generateCppFunctionCall g mod scope o_scope od)]
  | .getitem_slot =>
    [genEvent.prcode "(*sipCpp)[" [],
      genEvent.call "generateSlotArg" (generateSlotArg mod od.pysig 0),
      genEvent.prcode "]" []]
  | .call_slot =>
    [genEvent.prcode "(*sipCpp)(" [],
      genEvent.call "generateCallArgs" (generateCallArgs g mod od.cppsig od.pysigOther),
      genEvent.prcode ")" []]
  | .int_slot | .float_slot => [genEvent.prcode "*sipCpp" []]
  | .add_slot => number "+"
  | .concat_slot => binary "+"
  | .sub_slot => number "-"
  | .mul_slot | .matmul_slot => number "*"
  | .repeat_slot => binary "*"
  | .truediv_slot => number "/"
  | .mod_slot => number "%"
  | .and_slot => number "&"
  | .or_slot => number "|"
  | .xor_slot => number "^"
  | .lshift_slot => number "<<"
  | .rshift_slot => number ">>"
  | .iadd_slot | .iconcat_slot => binary "+="
  | .isub_slot => binary "-="
  | .imul_slot | .irepeat_slot | .imatmul_slot => binary "*="
  | .itruediv_slot => binary "/="
  | .imod_slot => binary "%="
  | .iand_slot => binary "&="
  | .ior_slot => binary "|="
  | .ixor_slot => binary "^="
  | .ilshift_slot => binary "<<="
  | .irshift_slot => binary ">>="
  | .invert_slot => [genEvent.prcode "~(*sipCpp)" []]
  | .lt_slot => comparison "<" ">="
  | .le_slot => comparison "<=" ">"
  | .eq_slot => comparison "==" "!="
  | .ne_slot => comparison "!=" "=="
  | .gt_slot => comparison ">" "<="
  | .ge_slot => comparison ">=" "<"
  | .neg_slot => [genEvent.prcode "-(*sipCpp)" []]
  | .pos_slot => [genEvent.prcode "+(*sipCpp)" []]
  | .cmp_slot =>
    [genEvent.prcode "if " []] ++ binary "<" ++
    [genEvent.prcode "\n                sipRes = -1;\n            else if " []] ++
    binary ">" ++
    [genEvent.prcode
      "\n                sipRes = 1;\n            else\n                sipRes = 0" []]
  | _ => []

/-- The value of `error_value` in `generateFunctionCall`, for the slots that return an
error indicator. -/
def functionCallErrorSlot (od : overDef) : Bool :=
  isVoidReturnSlot od.common || isIntReturnSlot od.common || isSSizeReturnSlot od.common ||
    isHashReturnSlot od.common

/-- The part of `generateFunctionCall` from the result variable to the pre-hook: the
declarations and the checks before the call.  The result `res` is the one of the Python
signature, its `const` reset when it is copied to the heap. -/
def functionCallPrologue (mod : moduleDef) (c_scope : Option classDef)
    (mt_scope : Option mappedTypeDef) (od : overDef) (res : argDef) : List genEvent :=
  let scope := functionCallScope c_scope mt_scope
  let pyname := functionCallPyname c_scope mt_scope
  let static_factory := isStaticFactory scope od
  let resultVar := generateResultVar scope od res "            "
  let post_process := functionCallPostProcess static_factory od
  let error_flag := decide (od.methodcode ≠ []) && usedInCode od.methodcode "sipError"
  let old_error_flag :=
    decide (od.methodcode ≠ []) && !error_flag && usedInCode od.methodcode "sipIsErr"
  let newline :=
    resultVar.2 || od.pysig.args.any needNewInstance || post_process || error_flag ||
      old_error_flag
  [genEvent.call "generateResultVar" resultVar.1] ++
  newInstancesLoop mod od.pysig.args 0 ++
  (if post_process then [genEvent.prcode "            PyObject *sipResObj;\n" []] else []) ++
  (if od.premethodcode ≠ [] then
    [genEvent.prcode "\n" [], genEvent.other "generateCppCodeBlock" [] od.premethodcode]
   else []) ++
  (if error_flag then
    [genEvent.prcode "            sipErrorState sipError = sipErrorNone;\n" []]
   else if old_error_flag then [genEvent.prcode "            int sipIsErr = 0;\n" []]
   else []) ++
  (if newline then [genEvent.prcode "\n" []] else []) ++
  (if od.isAbstract then
    [genEvent.prcode
      "            if (!sipOrigSelf)\n            \x7b\n                sipAbstractMethod(%N, %N);\n                return SIP_NULLPTR;\n            \x7d\n\n"
      [.nd ((c_scope.map classDef.pyname).getD ""), .nd od.common.pyname]]
   else []) ++
  (if od.isDeprecated then
    [match pyname with
      | some pyname =>
        genEvent.prcode "            if (sipDeprecated(%N, %N) < 0)\n"
          [.nd pyname, .nd od.common.pyname]
      | none =>
        genEvent.prcode "            if (sipDeprecated(SIP_NULLPTR, %N) < 0)\n"
          [.nd od.common.pyname],
      genEvent.prcode "                return %s;\n\n"
        [.s (if functionCallErrorSlot od then "-1" else "SIP_NULLPTR")]]
   else []) ++
  (match od.prehook with
    | some hook => [genEvent.prcode "            sipCallHook(\"%s\");\n\n" [.s hook]]
    | none => [])

/-- The part of `generateFunctionCall` that calls the C++ function of an overload without
handwritten code, with its exception guard. -/
def functionCallNative (g : generatorFlags) (mod : moduleDef) (c_scope : Option classDef)
    (scope : Option ifaceFileDef) (o_scope : ifaceFileDef) (od : overDef) (res : argDef)
    (needsNew is_result deref : Bool) : List genEvent :=
  let rgil := (g.release_gil || od.isReleaseGIL) && !od.isHoldGIL
  let closing_paren :=
    decide (od.common.slot ≠ .cmp_slot) && is_result && needsNew && !g.generating_c &&
      !(decide (res.atype = .class_type) && res.u.getCd.cannotCopy)
  (if needsNew && g.generating_c then
    [genEvent.prcode
        "            if ((sipRes = (%b *)sipMalloc(sizeof (%b))) == SIP_NULLPTR)\n        \x7b\n"
        [.ad res, .ad res],
      genEvent.call "gc_ellipsis" (gc_ellipsis od.pysig),
      genEvent.prcode "                return SIP_NULLPTR;\n            \x7d\n\n" []]
   else []) ++
  (if od.raisesPyException then [genEvent.prcode "            PyErr_Clear();\n\n" []]
   else []) ++
  (match c_scope with
    | some cd =>
      if cd.len_cpp_name.isSome then
        [genEvent.other "generateSequenceSupport" [.cd cd, .mod mod] []]
      else []
    | none => []) ++
  (if rgil then [genEvent.prcode "            Py_BEGIN_ALLOW_THREADS\n" []] else []) ++
  [genEvent.call "generateTry" (generateTry g od.exceptions),
    genEvent.prcode "            " []] ++
  (if od.common.slot ≠ .cmp_slot ∧ is_result = true then
    if needsNew then
      if g.generating_c then [genEvent.prcode "*sipRes = " []]
      else if res.atype = .class_type ∧ res.u.getCd.cannotCopy = true then
        [genEvent.prcode
          "sipRes = reinterpret_cast<%b *>(::operator new(sizeof (%b)));\n            *sipRes = "
          [.ad res, .ad res]]
      else [genEvent.prcode "sipRes = new %b(" [.ad res]]
    else
      [genEvent.prcode "sipRes = " []] ++
      (if (res.atype = .class_type ∨ res.atype = .mapped_type) ∧
          (res.nrderefs = 0 ∨ isReference res = true) then
        [genEvent.prcode "&" []]
       else [])
   else []) ++
  functionCallSlot g mod scope o_scope od deref ++
  (if closing_paren then [genEvent.prcode ")" []] else []) ++
  [genEvent.prcode ";\n" [],
    genEvent.call "generateCatch" (generateCatch g od.exceptions od.pysig mod rgil)] ++
  (if rgil then [genEvent.prcode "            Py_END_ALLOW_THREADS\n" []] else [])

/-- The part of `generateFunctionCall` under "handle the error flag if it was used", with
the call of the post-hook. -/
def functionCallErrorCheck (od : overDef) : List genEvent :=
  let error_flag := decide (od.methodcode ≠ []) && usedInCode od.methodcode "sipError"
  let old_error_flag :=
    decide (od.methodcode ≠ []) && !error_flag && usedInCode od.methodcode "sipIsErr"
  let error_value := if functionCallErrorSlot od then "-1" else "0"
  (if od.raisesPyException then
    [genEvent.prcode "            if (PyErr_Occurred())\n                return %s;\n\n"
      [.s error_value]]
   else if error_flag then
    (if !isZeroArgSlot od.common then
      [genEvent.prcode
        "            if (sipError == sipErrorFail)\n                return %s;\n\n"
        [.s error_value]]
     else []) ++
    [genEvent.prcode "            if (sipError == sipErrorNone)\n            \x7b\n" []]
   else if old_error_flag then
    [genEvent.prcode "            if (sipIsErr)\n                return %s;\n\n"
      [.s error_value]]
   else []) ++
  (match od.posthook with
    | some hook => [genEvent.prcode "\n            sipCallHook(\"%s\");\n" [.s hook]]
    | none => [])

/-- The part of `generateFunctionCall` that returns the result; `odRes` is the overload
with the result as the generator left it. -/
def functionCallReturn (g : generatorFlags) (mod : moduleDef) (scope : Option ifaceFileDef)
    (od odRes : overDef) (needsNew : Bool) : List genEvent :=
  let static_factory := isStaticFactory scope od
  let post_process := functionCallPostProcess static_factory od
  if isVoidReturnSlot od.common then [genEvent.prcode "            return 0;\n" []]
  else if isInplaceNumberSlot od.common || isInplaceSequenceSlot od.common then
    [genEvent.prcode "            Py_INCREF(sipSelf);\n            return sipSelf;\n" []]
  else if isIntReturnSlot od.common || isSSizeReturnSlot od.common ||
      isHashReturnSlot od.common then
    [genEvent.prcode "            return sipRes;\n" []]
  else
    [genEvent.call "generateHandleResult"
      (generateHandleResult g mod odRes needsNew
        (functionCallResultSize od.pysig.args 0 (-1))
        (if post_process then "sipResObj =" else "return"))] ++
    (if !functionCallDeltemps od then
      [genEvent.call "deleteTemps" (deleteTemps g mod od.pysig)]
     else []) ++
    (if keepReference od.pysig.result then
      [genEvent.prcode "\n            sipKeepReference(%s, %d, sipResObj);\n"
        [.s (if od.isStatic then "SIP_NULLPTR" else "sipSelf"), .d od.pysig.result.key]]
     else []) ++
    (if static_factory then staticFactoryKeepLoop mod od.pysig.args 0 else []) ++
    (if post_process then [genEvent.prcode "\n            return sipResObj;\n" []] else [])

/-- The test of the last branch of the return of `generateFunctionCall`: the overload is
not a slot that returns void, itself or an integer, so that `generateHandleResult` converts
its result. -/
def functionCallHandlesResult (od : overDef) : Bool :=
  !isVoidReturnSlot od.common &&
    !(isInplaceNumberSlot od.common || isInplaceSequenceSlot od.common) &&
    !(isIntReturnSlot od.common || isSSizeReturnSlot od.common || isHashReturnSlot od.common)

/-- The overload with the result as `generateFunctionCall` leaves it for
`generateHandleResult`: its `const` is reset when the result is copied to the heap. -/
def functionCallOverload (od : overDef) : overDef :=
  { od with
    pysig := .mk
      (if needsHeapCopy od.pysig.result false then resetIsConstArg od.pysig.result
       else od.pysig.result)
      od.pysig.args }

/-- The part of `generateFunctionCall` from the opening brace to the collection of an
ellipsis argument: the declarations, the call and what follows it for the arguments. -/
def functionCallStart (g : generatorFlags) (c_scope : Option classDef)
    (mt_scope : Option mappedTypeDef) (o_scope : ifaceFileDef) (od : overDef) (deref : Bool)
    (mod : moduleDef) : List genEvent :=
  let scope := functionCallScope c_scope mt_scope
  let needsNew := needsHeapCopy od.pysig.result false
  let res := (functionCallOverload od).pysig.result
  let is_result := (generateResultVar scope od res "            ").2
  [genEvent.prcode "        \x7b\n" []] ++
  functionCallPrologue mod c_scope mt_scope od res ++
  (if od.methodcode ≠ [] then [genEvent.other "generateCppCodeBlock" [] od.methodcode]
   else functionCallNative g mod c_scope scope o_scope od res needsNew is_result deref) ++
  functionCallKeepLoop mod scope od (isStaticFactory scope od) od.pysig.args 0 ++
  (if od.isThisTransferredMeth then
    [genEvent.prcode "\n            sipTransferTo(sipSelf, SIP_NULLPTR);\n" []]
   else []) ++
  [genEvent.call "gc_ellipsis" (gc_ellipsis od.pysig)]

/-- The end of `generateFunctionCall`, after the return of the result. -/
def functionCallEnd (od : overDef) : List genEvent :=
  (if decide (od.methodcode ≠ []) && usedInCode od.methodcode "sipError" then
    [genEvent.prcode "            \x7d\n" []] ++
    (if !isZeroArgSlot od.common then
      [genEvent.prcode "\n            sipAddException(sipError, &sipParseErr);\n" []]
     else [])
   else []) ++
  [genEvent.prcode "        \x7d\n" []]

/-- The function `generateFunctionCall`: generate a function call.  The scopes are `none`
for `NULL`; the macro `hasShadow` is read as FALSE for an overload outside a class. -/
def generateFunctionCall (g : generatorFlags) (c_scope : Option classDef)
    (mt_scope : Option mappedTypeDef) (o_scope : ifaceFileDef) (od : overDef) (deref : Bool)
    (mod : moduleDef) : List genEvent :=
  if od.isProtected && !((c_scope.map classDef.hasShadow).getD false) then
    [genEvent.prcode "        \x7b\n" [],
      genEvent.prcode "            /* Never reached. */\n        \x7d\n" []]
  else
    functionCallStart g c_scope mt_scope o_scope od deref mod ++
    (if functionCallDeltemps od && !isZeroArgSlot od.common then
      [genEvent.call "deleteTemps" (deleteTemps g mod od.pysig)]
     else []) ++
    [genEvent.prcode "\n" []] ++
    functionCallErrorCheck od ++
    functionCallReturn g mod (functionCallScope c_scope mt_scope) od (functionCallOverload od)
      (needsHeapCopy od.pysig.result false) ++
    functionCallEnd od

/-- A class `Foo` with conversion code and a shadow class. -/
def convertedClass : classDef :=
  { addr := 3, iff := { fqcname := ["", "Foo"] }, pyname := "Foo",
    convtocode := [{ frag := "..." }], hasShadow := true }

/-- An argument `Foo &` of the class with conversion code that is both In and Out. -/
def convertedInOutArg : argDef :=
  .mk { atype := .class_type, isReference := true, isInArg := true, isOutArg := true }
    (.cd convertedClass)

/-- The slot `__setitem__(int, Foo & /In,Out/)` of a class. -/
def setitemInOut : overDef :=
  { cppname := "operator[]", common := { pyname := "__setitem__", slot := .setitem_slot },
    pysig := .mk voidResult [intArg, convertedInOutArg],
    cppsig := .mk voidResult [intArg, convertedInOutArg], cppsigIsPysig := true }

/-- A protected method `void f(const char *)`. -/
def protectedMethod : overDef :=
  { cppname := "f", isProtected := true, common := { pyname := "f" },
    pysig := .mk voidResult [asciiArg], cppsig := .mk voidResult [asciiArg],
    cppsigIsPysig := true }

/-- A method `void g(Foo & /In,Out/)` whose argument has conversion code. -/
def inOutMethod : overDef :=
  { cppname := "g", common := { pyname := "g" },
    pysig := .mk voidResult [convertedInOutArg],
    cppsig := .mk voidResult [convertedInOutArg], cppsigIsPysig := true }

/-! ## The parse of the arguments -/

/-- The function `isMultiArgSlot`: returns TRUE if the given method is a slot that takes
more than one argument. -/
def isMultiArgSlot (md : memberDef) : Bool :=
  let st := md.slot
  st = .setitem_slot || st = .call_slot

/-- The function `isNumberSlot`: returns TRUE if the given method is a number slot. -/
def isNumberSlot (md : memberDef) : Bool :=
  let st := md.slot
  st = .add_slot || st = .sub_slot || st = .mul_slot || st = .mod_slot ||
    st = .floordiv_slot || st = .truediv_slot || st = .and_slot || st = .or_slot ||
    st = .xor_slot || st = .lshift_slot || st = .rshift_slot || st = .matmul_slot

/-- The function `generateDefaultValue`: generate a default value. -/
def generateDefaultValue (mod : moduleDef) (ad : argDef) (argnr : Nat) : List genEvent :=
  if isInArg ad = true ∧ ad.defval ≠ none then
    [genEvent.prcode " = " []] ++
    (if (ad.atype = .class_type ∨ ad.atype = .mapped_type) ∧
        (ad.nrderefs = 0 ∨ isReference ad = true) then
      [genEvent.prcode "&%adef" [.mod mod, .ad ad, .d argnr]]
     else [genEvent.other "generateExpression" [.ad ad] []])
  else []

/-- The argument as `generateVariable` adjusts it for the declaration of its variable, "so
we have the type that will really handle it". -/
def variableType (ad : argDef) : argDef :=
  let nrderefs : Int :=
    match ad.atype with
    | .ascii_string_type | .latin1_string_type | .utf8_string_type | .sstring_type
    | .ustring_type | .string_type | .wstring_type =>
      if !isReference ad then
        if ad.nrderefs = 2 then 1
        else if ad.nrderefs = 1 ∧ isOutArg ad = true then 0
        else ad.nrderefs
      else ad.nrderefs
    | .mapped_type | .class_type | .struct_type | .union_type | .void_type => 1
    | _ => 0
  .mk { ad.core with
        nrderefs := nrderefs,
        atype := if isArraySize ad then .ssize_type else ad.atype,
        isReference := false,
        isConstArg := if nrderefs = 0 then false else ad.core.isConstArg } ad.u

/-- The switch of `generateVariable` under "some types have supporting variables", for an
input argument. -/
def variableSupport (g : generatorFlags) (mod : moduleDef) (ad : argDef) (argnr : Nat) :
    List genEvent :=
  let zero := if ad.defval ≠ none then " = 0" else ""
  match ad.atype with
  | .class_type =>
    if isArray ad = true ∧ g.abiSupportsArray = true then
      [genEvent.prcode "        int %aIsTemp = 0;\n" [.mod mod, .ad ad, .d argnr]]
    else if isArray ad = false ∧ ad.u.getCd.convtocode ≠ [] ∧ isConstrained ad = false then
      [genEvent.prcode "        int %aState = 0;\n" [.mod mod, .ad ad, .d argnr]] ++
      (if typeNeedsUserState ad then
        [genEvent.prcode "        void *%aUserState = SIP_NULLPTR;\n"
          [.mod mod, .ad ad, .d argnr]]
       else [])
    else []
  | .mapped_type =>
    if ad.u.getMtd.noRelease = false ∧ isConstrained ad = false then
      [genEvent.prcode "        int %aState = 0;\n" [.mod mod, .ad ad, .d argnr]] ++
      (if typeNeedsUserState ad then
        [genEvent.prcode "        void *%aUserState = SIP_NULLPTR;\n"
          [.mod mod, .ad ad, .d argnr]]
       else [])
    else []
  | .ascii_string_type | .latin1_string_type | .utf8_string_type =>
    if keepReference ad = false ∧ ad.nrderefs = 1 then
      [genEvent.prcode "        PyObject *%aKeep%s;\n" [.mod mod, .ad ad, .d argnr, .s zero]]
    else []
  | _ => []

/-- The function `generateVariable`: generate the definition of an argument variable and
any supporting variables. -/
def generateVariable (g : generatorFlags) (mod : moduleDef) (scope : Option ifaceFileDef)
    (ad : argDef) (argnr : Nat) : List genEvent :=
  let atype := ad.atype
  let zero := if ad.defval ≠ none then " = 0" else ""
  (if isInArg ad = true ∧ ad.defval ≠ none ∧ (atype = .class_type ∨ atype = .mapped_type) ∧
      (ad.nrderefs = 0 ∨ isReference ad = true) then
    [genEvent.prcode "        %A %adef = " [.scope scope, .ad ad, .mod mod, .ad ad, .d argnr],
      genEvent.other "generateExpression" [.ad ad] [],
      genEvent.prcode ";\n" []]
   else []) ++
  [genEvent.prcode "        %A %a"
      [.scope scope, .ad (variableType ad), .mod mod, .ad (variableType ad), .d argnr],
    genEvent.call "generateDefaultValue" (generateDefaultValue mod ad argnr),
    genEvent.prcode ";\n" []] ++
  (if isInArg ad then
    (if isGetWrapper ad then
      [genEvent.prcode "        PyObject *%aWrapper%s;\n" [.mod mod, .ad ad, .d argnr, .s zero]]
     else if keepReference ad then
      [genEvent.prcode "        PyObject *%aKeep%s;\n" [.mod mod, .ad ad, .d argnr, .s zero]]
     else []) ++
    variableSupport g mod ad argnr
   else [])

/-- The loop of `generateArgParser` that generates "the local variables that will hold the
parsed arguments and values returned via arguments", from the argument of index `a` on. -/
def argParserVariablesLoop (g : generatorFlags) (mod : moduleDef)
    (scope : Option ifaceFileDef) : List argDef → Nat → List genEvent
  | [], _ => []
  | ad :: rest, a =>
    genEvent.call "generateVariable" (generateVariable g mod scope ad a) ::
      argParserVariablesLoop g mod scope rest (a + 1)

/-- The values of `arraylenarg_ad` and `arraylenarg` in `generateArgParser` after its first
loop from the argument of index `a` on, given their values before. -/
def argParserArrayLen : List argDef → Nat → Option argDef × Nat → Option argDef × Nat
  | [], _, r => r
  | ad :: rest, a, r => argParserArrayLen rest (a + 1) (if isArraySize ad then (some ad, a) else r)

/-- The loop of `generateArgParser` that generates the list of the keywords; `is_ka_list`
is its value before the loop. -/
def argParserKwdLoop (kwargs : KwArgs) : List argDef → Bool → List genEvent
  | [], _ => []
  | ad :: rest, is_ka_list =>
    if isInArg ad then
      (if !is_ka_list then
        [genEvent.prcode "        static const char *sipKwdList[] = \x7b\n" []]
       else []) ++
      [match ad.core.name with
        | some name =>
          if kwargs = .AllKwArgs ∨ ad.defval ≠ none then
            genEvent.prcode "            %N,\n" [.nd name]
          else genEvent.prcode "            SIP_NULLPTR,\n" []
        | none => genEvent.prcode "            SIP_NULLPTR,\n" []] ++
      argParserKwdLoop kwargs rest true
    else argParserKwdLoop kwargs rest is_ka_list

/-- The switch of the format loop of `generateArgParser`: the format of an argument, or
`none` where the function returns an error. -/
def argParserFormat (g : generatorFlags) (ad : argDef) : Option String :=
  match ad.atype with
  | .ascii_string_type => some (if isString ad then "AA" else "aA")
  | .latin1_string_type => some (if isString ad then "AL" else "aL")
  | .utf8_string_type => some (if isString ad then "A8" else "a8")
  | .sstring_type | .ustring_type | .string_type =>
    some (if isArray ad then "k" else if isString ad then "s" else "c")
  | .wstring_type => some (if isArray ad then "K" else if isString ad then "x" else "w")
  | .enum_type =>
    some (if ad.u.getEd.fqcname = [] then "e" else if isConstrained ad then "XE" else "E")
  | .bool_type => some "b"
  | .cbool_type => some "Xb"
  | .int_type => some (if !isArraySize ad then "i" else "")
  | .uint_type => some (if !isArraySize ad then "u" else "")
  | .size_type => some (if !isArraySize ad then "=" else "")
  | .cint_type => some "Xi"
  | .byte_type | .sbyte_type => some (if !isArraySize ad then "L" else "")
  | .ubyte_type => some (if !isArraySize ad then "M" else "")
  | .short_type => some (if !isArraySize ad then "h" else "")
  | .ushort_type => some (if !isArraySize ad then "t" else "")
  | .long_type => some (if !isArraySize ad then "l" else "")
  | .ulong_type => some (if !isArraySize ad then "m" else "")
  | .longlong_type => some (if !isArraySize ad then "n" else "")
  | .ulonglong_type => some (if !isArraySize ad then "o" else "")
  | .struct_type | .union_type | .void_type => some "v"
  | .capsule_type => some "z"
  | .float_type => some "f"
  | .cfloat_type => some "Xf"
  | .double_type => some "d"
  | .cdouble_type => some "Xd"
  | .mapped_type | .class_type =>
    if isArray ad then
      if ad.nrderefs ≠ 1 ∨ isInArg ad = false ∨ isReference ad = true then none
      else if ad.atype = .mapped_type ∧ ad.u.getMtd.noRelease = true then none
      else if ad.atype = .class_type ∧
          ¬ (g.generating_c = true ∨ ad.u.getCd.arrayHelper = true) then none
      else if ad.atype = .class_type ∧ g.abiSupportsArray = true then some ">"
      else some "r"
    else some (getSubFormatChar 'J' ad)
  | .pyobject_type => some (getSubFormatChar 'P' ad)
  | .pytuple_type | .pylist_type | .pydict_type | .pyslice_type | .pytype_type =>
    some (if isAllowNone ad then "N" else "T")
  | .pycallable_type => some (if isAllowNone ad then "H" else "F")
  | .pybuffer_type => some (if isAllowNone ad then "$" else "!")
  | .pyenum_type => some (if isAllowNone ad then "^" else "&")
  | .ellipsis_type => some "W"
  | _ => some ""

/-- The loop of `generateArgParser` that generates the format string; `optargs` is its
value before the loop.  The output and whether the loop ran to its end, that is without
the return of an error. -/
def argParserFormatLoop (g : generatorFlags) : List argDef → Bool → List genEvent × Bool
  | [], _ => ([], true)
  | ad :: rest, optargs =>
    if !isInArg ad then argParserFormatLoop g rest optargs
    else
      let bar :=
        if ad.defval ≠ none ∧ optargs = false then [genEvent.prcode "|" []] else []
      match argParserFormat g ad with
      | none => (bar, false)
      | some fmt =>
        let next := argParserFormatLoop g rest (optargs || ad.defval.isSome)
        (bar ++
          (if isGetWrapper ad ||
              (keepReference ad && decide (ad.atype ≠ .ascii_string_type) &&
                decide (ad.atype ≠ .latin1_string_type) &&
                decide (ad.atype ≠ .utf8_string_type)) ||
              (keepReference ad && decide (ad.nrderefs ≠ 1)) then
            [genEvent.prcode "@" []]
           else []) ++
          [genEvent.prcode fmt []] ++ next.1, next.2)

/-- The switch of the loop of `generateArgParser` that generates "the parameters
corresponding to the format string", for the input argument `ad` of index `a`. -/
def argParserParamValue (g : generatorFlags) (mod : moduleDef) (ct : Option ctorDef)
    (arraylen : Option argDef × Nat) (ad : argDef) (a : Nat) : List genEvent :=
  let value := genEvent.prcode ", &%a" [.mod mod, .ad ad, .d a]
  let arraylenValue := genEvent.prcode ", &%a" [.mod mod, .adopt arraylen.1, .d arraylen.2]
  let keep :=
    if keepReference ad = false ∧ ad.nrderefs = 1 then
      [genEvent.prcode ", &%aKeep" [.mod mod, .ad ad, .d a]]
    else []
  match ad.atype with
  | .mapped_type =>
    [genEvent.prcode ", sipType_%T, &%a" [.ad ad, .mod mod, .ad ad, .d a]] ++
    (if isArray ad then [arraylenValue]
     else if ad.u.getMtd.convtocode ≠ [] ∧ isConstrained ad = false then
      (if ad.u.getMtd.noRelease then [genEvent.prcode ", SIP_NULLPTR" []]
       else [genEvent.prcode ", &%aState" [.mod mod, .ad ad, .d a]]) ++
      (if ad.u.getMtd.needsUserState then
        [genEvent.prcode ", &%aUserState" [.mod mod, .ad ad, .d a]]
       else [])
     else [])
  | .class_type =>
    [genEvent.prcode ", sipType_%T, &%a" [.ad ad, .mod mod, .ad ad, .d a]] ++
    (if isArray ad then
      [arraylenValue] ++
      (if g.abiSupportsArray then [genEvent.prcode ", &%aIsTemp" [.mod mod, .ad ad, .d a]]
       else [])
     else
      (if isThisTransferred ad then
        [genEvent.prcode ", %ssipOwner" [.s (if ct.isSome then "" else "&")]]
       else []) ++
      (if ad.u.getCd.convtocode ≠ [] ∧ isConstrained ad = false then
        [genEvent.prcode ", &%aState" [.mod mod, .ad ad, .d a]]
       else []))
  | .ascii_string_type => keep ++ [value]
  | .latin1_string_type => keep ++ [value]
  | .utf8_string_type => keep ++ [value]
  | .pytuple_type => [genEvent.prcode ", &PyTuple_Type, &%a" [.mod mod, .ad ad, .d a]]
  | .pylist_type => [genEvent.prcode ", &PyList_Type, &%a" [.mod mod, .ad ad, .d a]]
  | .pydict_type => [genEvent.prcode ", &PyDict_Type, &%a" [.mod mod, .ad ad, .d a]]
  | .pyslice_type => [genEvent.prcode ", &PySlice_Type, &%a" [.mod mod, .ad ad, .d a]]
  | .pytype_type => [genEvent.prcode ", &PyType_Type, &%a" [.mod mod, .ad ad, .d a]]
  | .enum_type =>
    (if ad.u.getEd.fqcname ≠ [] then
      [genEvent.prcode ", sipType_%C" [.snd ad.u.getEd.fqcname]]
     else []) ++
    [value]
  | .capsule_type =>
    [genEvent.prcode ", \"%S\", &%a" [.snd ad.u.getCap, .mod mod, .ad ad, .d a]]
  | _ =>
    (if !isArraySize ad then [value] else []) ++
    (if isArray ad then [arraylenValue] else [])

/-- The body of the loop of `generateArgParser` that generates "the parameters
corresponding to the format string", for the input argument `ad` of index `a`. -/
def argParserParam (g : generatorFlags) (mod : moduleDef) (ct : Option ctorDef)
    (arraylen : Option argDef × Nat) (ad : argDef) (a : Nat) : List genEvent :=
  (if isGetWrapper ad then [genEvent.prcode ", &%aWrapper" [.mod mod, .ad ad, .d a]]
   else if keepReference ad then [genEvent.prcode ", &%aKeep" [.mod mod, .ad ad, .d a]]
   else []) ++
  argParserParamValue g mod ct arraylen ad a

/-- The loop of `generateArgParser` that generates the parameters, from the argument of
index `a` on. -/
def argParserParamsLoop (g : generatorFlags) (mod : moduleDef) (ct : Option ctorDef)
    (arraylen : Option argDef × Nat) : List argDef → Nat → List genEvent
  | [], _ => []
  | ad :: rest, a =>
    (if !isInArg ad then [] else argParserParam g mod ct arraylen ad a) ++
      argParserParamsLoop g mod ct arraylen rest (a + 1)

/-- The value of `c_scope` in `generateArgParser` after its first statement: "if the class
is just a namespace, then ignore it". -/
def argParserClass (c_scope : Option classDef) (mt_scope : Option mappedTypeDef) :
    Option classDef :=
  match mt_scope with
  | some _ => c_scope
  | none =>
    match c_scope with
    | some cd => if cd.iff.type = .namespace_iface then none else some cd
    | none => none

/-- The value of `scope` in `generateArgParser`. -/
def argParserScope (c_scope : Option classDef) (mt_scope : Option mappedTypeDef) :
    Option ifaceFileDef :=
  match mt_scope with
  | some mt => some mt.iff
  | none => (argParserClass c_scope none).map classDef.iff

/-- The value of `handle_self` in `generateArgParser`: "for ABI v13 and later static
methods use self for the type object". -/
def argParserHandleSelf (g : generatorFlags) (c_scope : Option classDef)
    (od : Option overDef) : Bool :=
  match od with
  | some od =>
    if g.abiVersion ≥ ABI_13_0 then decide (od.common.slot = .no_slot) && c_scope.isSome
    else decide (od.common.slot = .no_slot) && !od.isStatic && c_scope.isSome
  | none => false

/-- The part of `generateArgParser` that generates "the call to the parser function": its
output and the value of `single_arg`. -/
def argParserCall (sd : signatureDef) (ct : Option ctorDef) (od : Option overDef) :
    List genEvent × Bool :=
  let kwds (kwargs : KwArgs) : List genEvent × Bool :=
    let is_ka_list := decide (kwargs ≠ .NoKwArgs) && sd.args.any isInArg
    ((if kwargs ≠ .NoKwArgs then
        argParserKwdLoop kwargs sd.args false ++
        (if is_ka_list then [genEvent.prcode "        \x7d;\n\n" []] else [])
      else []) ++
      [genEvent.prcode "        if (sipParseKwdArgs(%ssipParseErr, sipArgs, sipKwds, %s, %s, \""
        [.s (if ct.isSome then "" else "&"),
          .s (if is_ka_list then "sipKwdList" else "SIP_NULLPTR"),
          .s (if ct.isSome then "sipUnused" else "SIP_NULLPTR")]], false)
  match od with
  | some od =>
    if isNumberSlot od.common then
      ([genEvent.prcode "        if (sipParsePair(&sipParseErr, sipArg0, sipArg1, \"" []], false)
    else if od.common.slot = .setattr_slot then
      ([genEvent.prcode
        "        if (sipValue %s SIP_NULLPTR && sipParsePair(&sipParseErr, sipName, %s, \""
        [.s (if od.isDelattr then "==" else "!="),
          .s (if od.isDelattr then "SIP_NULLPTR" else "sipValue")]], false)
    else if od.common.useKeywordArgs = true ∨ ct.isSome = true then kwds od.kwargs
    else
      let single_arg := decide (od.common.slot ≠ .no_slot) && !isMultiArgSlot od.common
      ([genEvent.prcode "        if (sipParseArgs(&sipParseErr, sipArg%s, \""
        [.s (if single_arg then "" else "s")]], single_arg)
  | none =>
    match ct with
    | some ct => kwds ct.kwargs
    | none =>
      ([genEvent.prcode "        if (sipParseArgs(&sipParseErr, sipArg%s, \"" [.s "s"]], false)

/-- The function `generateArgParser`: generate the argument variables for a member
function/constructor/operator, and the call of the parser; its output and the value that
it returns, which is negative for an error. -/
def generateArgParser (g : generatorFlags) (mod : moduleDef) (sd : signatureDef)
    (c_scope : Option classDef) (mt_scope : Option mappedTypeDef) (ct : Option ctorDef)
    (od : Option overDef) : List genEvent × Int :=
  let scope := argParserScope c_scope mt_scope
  let c_scope := argParserClass c_scope mt_scope
  let handle_self := argParserHandleSelf g c_scope od
  let arraylen := argParserArrayLen sd.args 0 (none, 0)
  let need_owner := sd.args.any isThisTransferred
  let ctor_needs_self := ct.isSome && sd.args.any isTransferred
  let isStaticOd := (od.map overDef.isStatic).getD false
  let call := argParserCall sd ct od
  let formats := argParserFormatLoop g sd.args false
  let start :=
    argParserVariablesLoop g mod scope sd.args 0 ++
    (if od.isSome && need_owner then
      [genEvent.prcode "        sipWrapper *sipOwner = SIP_NULLPTR;\n" []]
     else []) ++
    (if handle_self && !isStaticOd then
      [if (od.map overDef.isProtected).getD false &&
          (c_scope.map classDef.hasShadow).getD false then
        genEvent.prcode "        %ssip%C *sipCpp;\n"
          [.s (if (od.map overDef.isConst).getD false then "const " else ""),
            .snd ((c_scope.map (fun cd => cd.iff.fqcname)).getD [])]
       else
        genEvent.prcode "        %s%U *sipCpp;\n"
          [.s (if (od.map overDef.isConst).getD false then "const " else ""),
            .cd (c_scope.getD {})],
        genEvent.prcode "\n" []]
     else if sd.nrArgs ≠ 0 then [genEvent.prcode "\n" []]
     else []) ++
    call.1 ++
    (if call.2 then [genEvent.prcode "1" []] else []) ++
    (if ctor_needs_self then [genEvent.prcode "#" []]
     else if handle_self then
      [genEvent.prcode "%c"
        [.c (if isStaticOd then 'C'
             else if (od.map overDef.isReallyProtected).getD false then 'p'
             else 'B')]]
     else []) ++
    formats.1
  if !formats.2 then (start, -1)
  else
    (start ++
      [genEvent.prcode "\"" []] ++
      (if ctor_needs_self then [genEvent.prcode ", sipSelf" []]
       else if handle_self then
        [genEvent.prcode ", &sipSelf" []] ++
        (if !isStaticOd then
          [genEvent.prcode ", sipType_%C, &sipCpp"
            [.snd ((c_scope.map (fun cd => cd.iff.fqcname)).getD [])]]
         else [])
       else []) ++
      argParserParamsLoop g mod ct arraylen sd.args 0 ++
      [genEvent.prcode "))\n" []], 0)

/-! ## The calls that the output holds -/

mutual
/-- The calls of `prcode` of an event, those of an embedded generator included, in the
order of the output; what a generator that is not embedded writes is not among them. -/
def genEvent.prcodes : genEvent → List genEvent
  | .prcode fmt args => [.prcode fmt args]
  | .call _ out => prcodesOf out
  | .other _ _ _ => []
/-- The calls of `prcode` of a list of events, in the order of the output. -/
def prcodesOf : List genEvent → List genEvent
  | [] => []
  | ev :: rest => ev.prcodes ++ prcodesOf rest
end

/-- Whether an event is a call of `prcode` whose format holds a call of
`sipKeepReference`. -/
def genEvent.isKeepReference : genEvent → Bool
  | .prcode fmt _ => strstr fmt "sipKeepReference"
  | _ => false

/-- The calls of `sipKeepReference` that an output holds, in the order of the output. -/
def keepReferenceCalls (out : List genEvent) : List genEvent :=
  (prcodesOf out).filter genEvent.isKeepReference

/-- The input arguments of a signature that are flagged keep-reference, in signature
order, each with its index. -/
def keepReferenceArguments (sd : signatureDef) : List (Nat × argDef) :=
  sd.args.enum.filter (fun p => isInArg p.2 && keepReference p.2)

/-- The call of `sipKeepReference` for the argument `ad` of index `a` of an overload that
is not a static factory: the reference is kept by `self`, or by nothing for a function or
a static method. -/
def keepReferenceCall (mod : moduleDef) (scope : Option ifaceFileDef) (od : overDef)
    (ad : argDef) (a : Nat) : genEvent :=
  .prcode "\n            sipKeepReference(%s, %d, %a%s);\n"
    [.s (if scope.isNone || od.isStatic then "SIP_NULLPTR" else "sipSelf"), .d ad.key,
      .mod mod, .ad ad, .d a, .s (keepReferenceSuffix ad)]

/-- The call of `sipKeepReference` for the argument `ad` of index `a` of a static factory:
the reference is kept by the result. -/
def keepReferenceCallStatic (mod : moduleDef) (ad : argDef) (a : Nat) : genEvent :=
  .prcode "\n            sipKeepReference(sipResObj, %d, %a%s);\n"
    [.d ad.key, .mod mod, .ad ad, .d a, .s (keepReferenceSuffix ad)]

/-- The call of `sipKeepReference` for the result of an overload. -/
def keepReferenceCallResult (od : overDef) : genEvent :=
  .prcode "\n            sipKeepReference(%s, %d, sipResObj);\n"
    [.s (if od.isStatic then "SIP_NULLPTR" else "sipSelf"), .d od.pysig.result.key]

/-- A global factory function `Foo *make(const char * /KeepReference/)`. -/
def keepingFactory (slot : slotType) : overDef :=
  { cppname := "make", isFactory := true, common := { pyname := "make", slot := slot },
    pysig := .mk (.mk { atype := .class_type, nrderefs := 1 } (.cd convertedClass))
      [.mk { atype := .ascii_string_type, nrderefs := 1, isConstArg := true, isInArg := true,
             keepReference := true, key := -1 } .none],
    cppsigIsPysig := true }

/-- A method `void setName(const char * /KeepReference/)`, protected or not. -/
def keepingMethod (isProtected : Bool) : overDef :=
  { cppname := "setName", isProtected := isProtected, common := { pyname := "setName" },
    pysig := .mk voidResult
      [.mk { atype := .ascii_string_type, nrderefs := 1, isConstArg := true, isInArg := true,
             keepReference := true, key := -1 } .none],
    cppsigIsPysig := true }

/-! ## The release of the lock in the output -/

/-- Whether an event is a call of `prcode` whose format releases or reacquires the lock,
that is, holds `Py_BEGIN_ALLOW_THREADS` or `Py_END_ALLOW_THREADS`. -/
def genEvent.isThreadSwitch : genEvent → Bool
  | .prcode fmt _ => strstr fmt "_ALLOW_THREADS"
  | _ => false

/-- The releases and reacquisitions of the lock that an output holds, those of an embedded
generator included, in the order of the output. -/
def threadSwitches (out : List genEvent) : List genEvent :=
  (prcodesOf out).filter genEvent.isThreadSwitch

/-- The test `rgil` of `generateFunctionCall`: the lock is released around the call. -/
def releasesGIL (g : generatorFlags) (od : overDef) : Bool :=
  (g.release_gil || od.isReleaseGIL) && !od.isHoldGIL

/-- Whether `generateFunctionCall` generates the call of an overload: it does not for a
protected overload of a class without a shadow class. -/
def functionCallReached (c_scope : Option classDef) (od : overDef) : Bool :=
  !(od.isProtected && !((c_scope.map classDef.hasShadow).getD false))

/-- The release of the lock that `generateFunctionCall` writes. -/
def beginAllowThreads : genEvent := .prcode "            Py_BEGIN_ALLOW_THREADS\n" []

/-- The reacquisition of the lock that `generateFunctionCall` writes. -/
def endAllowThreads : genEvent := .prcode "            Py_END_ALLOW_THREADS\n" []

/-- The events of `functionCallNative` before the release of the lock: the allocation of
the result in C, the clearing of the error indicator and the sequence support. -/
def functionCallBeforeRelease (g : generatorFlags) (mod : moduleDef)
    (c_scope : Option classDef) (od : overDef) (res : argDef) (needsNew : Bool) :
    List genEvent :=
  (if needsNew && g.generating_c then
    [genEvent.prcode
        "            if ((sipRes = (%b *)sipMalloc(sizeof (%b))) == SIP_NULLPTR)\n        \x7b\n"
        [.ad res, .ad res],
      genEvent.call "gc_ellipsis" (gc_ellipsis od.pysig),
      genEvent.prcode "                return SIP_NULLPTR;\n            \x7d\n\n" []]
   else []) ++
  (if od.raisesPyException then [genEvent.prcode "            PyErr_Clear();\n\n" []]
   else []) ++
  (match c_scope with
    | some cd =>
      if cd.len_cpp_name.isSome then
        [genEvent.other "generateSequenceSupport" [.cd cd, .mod mod] []]
      else []
    | none => [])

/-- The events of `functionCallNative` between `generateTry` and the call: the indentation
and the assignment of the result. -/
def functionCallAssign (g : generatorFlags) (od : overDef) (res : argDef)
    (needsNew is_result : Bool) : List genEvent :=
  [genEvent.prcode "            " []] ++
  (if od.common.slot ≠ .cmp_slot ∧ is_result = true then
    if needsNew then
      if g.generating_c then [genEvent.prcode "*sipRes = " []]
      else if res.atype = .class_type ∧ res.u.getCd.cannotCopy = true then
        [genEvent.prcode
          "sipRes = reinterpret_cast<%b *>(::operator new(sizeof (%b)));\n            *sipRes = "
          [.ad res, .ad res]]
      else [genEvent.prcode "sipRes = new %b(" [.ad res]]
    else
      [genEvent.prcode "sipRes = " []] ++
      (if (res.atype = .class_type ∨ res.atype = .mapped_type) ∧
          (res.nrderefs = 0 ∨ isReference res = true) then
        [genEvent.prcode "&" []]
       else [])
   else [])

/-- The events of `functionCallNative` between the call and `generateCatch`: the closing
parenthesis of a copy of the result and the end of the statement. -/
def functionCallClose (g : generatorFlags) (od : overDef) (res : argDef)
    (needsNew is_result : Bool) : List genEvent :=
  (if decide (od.common.slot ≠ .cmp_slot) && is_result && needsNew && !g.generating_c &&
      !(decide (res.atype = .class_type) && res.u.getCd.cannotCopy) then
    [genEvent.prcode ")" []]
   else []) ++
  [genEvent.prcode ";\n" []]

/-! ## The heap strings of heap.c

A C string is the list of the characters of its buffer, the terminating NUL and what
follows it included; a `NULL` pointer is `none`.  Reading or writing past the end of a
buffer is an error, `none`.  `malloc` and `realloc` are taken to succeed (the code asserts
it). -/

/-- The largest value of the C type `size_t`, taken to be 64 bits wide. -/
def SIZE_MAX : Nat := 2 ^ 64 - 1

/-- The C function `strlen` on a buffer: the number of characters before the first NUL
(the length of the buffer when it holds none, which a caller has to treat as an error). -/
def strlen : List Char → Nat
  | [] => 0
  | c :: rest => if c = '\x00' then 0 else strlen rest + 1

/-- The text of the C string in a buffer: the characters before the first NUL. -/
def cstring (buf : List Char) : List Char := buf.take (strlen buf)

/-- The function `sipMalloc`: a buffer of `n` characters, all set to NUL. -/
def sipMalloc (n : Nat) : List Char := List.replicate n '\x00'

/-- The C function `realloc`: the buffer resized to `n` characters; those the old buffer
does not give are indeterminate, here `junk i` for the `i`-th of them. -/
def realloc (buf : List Char) (n : Nat) (junk : Nat → Char) : List Char :=
  buf.take n ++ (List.range (n - buf.length)).map junk

/-- The C function `strcat`: copy the string of `src`, its NUL included, over the end of
the string of `dst`.  It is an error when one of the two buffers holds no NUL or when the
result does not fit in `dst`. -/
def strcat (dst src : List Char) : Option (List Char) :=
  if strlen src < src.length ∧ strlen dst + strlen src + 1 ≤ dst.length then
    some (dst.take (strlen dst) ++ cstring src ++
      '\x00' :: dst.drop (strlen dst + strlen src + 1))
  else none

/-- The variable arguments that the loops of `concat` read: the strings before the first
`NULL`.  Reading past the last argument is an error. -/
def concatArgs : List (Option (List Char)) → Option (List (List Char))
  | [] => none
  | none :: _ => some []
  | some s :: rest => (concatArgs rest).map (fun l => s :: l)

/-- The first loop of `concat`: add the lengths of the strings to `len`, in the
arithmetic of `size_t`. -/
def concatLength : List (List Char) → Nat → Nat
  | [], len => len
  | sp :: rest, len => concatLength rest ((len + strlen sp) % (SIZE_MAX + 1))

/-- The second loop of `concat`: append the strings to the new buffer. -/
def concatCopy : List (List Char) → List Char → Option (List Char)
  | [], new => some new
  | sp :: rest, new => (strcat new sp).bind (concatCopy rest)

/-- The function `concat`: "return a string on the heap which is the concatenation of all
the arguments".  The arguments are the first string and the variable ones. -/
def concat (args : List (Option (List Char))) : Option (List Char) :=
  (concatArgs args).bind fun strs =>
    let len := concatLength strs 1
    let new := sipMalloc len
    if len = 0 then none
    else concatCopy strs (new.set 0 '\x00')

/-- The function `append`: "append a string to another that is on the heap".  The result
is the new value of `*s`. -/
def append (s new : List Char) (junk : Nat → Char) : Option (List Char) :=
  strcat (realloc s ((strlen s + strlen new + 1) % (SIZE_MAX + 1)) junk) new

/-! ## The protected flags of the class and enum nodes

`normaliseArg` and `restoreArg` write the flags of the class or enum node that an argument
points to, and several arguments can point to one node: the flags are held here in a store
keyed by the address of the node, and an argument points to the node of the address
`ad->u.cd->addr` or `ad->u.ed->addr`. -/

/-- Modelled from the spec: the two flags of a class or enum node of `sip.h` that
`normaliseArg` and `restoreArg` read and write, "is protected" and "was protected". -/
structure protectedFlags where
  isProtected : Bool := false
  wasProtected : Bool := false
  deriving DecidableEq, Repr

/-- The flags of the class nodes and of the enum nodes, by address. -/
structure flagStore where
  classes : Nat → protectedFlags
  enums : Nat → protectedFlags

/-- The function `normaliseArg`: "reset and save any argument flags so that the argument
will be rendered exactly as defined in C++". -/
def normaliseArg (st : flagStore) (ad : argDef) : flagStore :=
  if ad.atype = .class_type ∧ (st.classes ad.u.getCd.addr).isProtected = true then
    { st with
      classes := Function.update st.classes ad.u.getCd.addr
        { st.classes ad.u.getCd.addr with isProtected := false, wasProtected := true } }
  else if ad.atype = .enum_type ∧ (st.enums ad.u.getEd.addr).isProtected = true then
    { st with
      enums := Function.update st.enums ad.u.getEd.addr
        { st.enums ad.u.getEd.addr with isProtected := false, wasProtected := true } }
  else st

/-- The loop of `normaliseArgs` over the arguments. -/
def normaliseArgsLoop (st : flagStore) : List argDef → flagStore
  | [] => st
  | ad :: rest => normaliseArgsLoop (normaliseArg st ad) rest

/-- The function `normaliseArgs`: "reset and save any argument flags so that the signature
will be rendered exactly as defined in C++". -/
def normaliseArgs (st : flagStore) (sd : signatureDef) : flagStore :=
  normaliseArgsLoop st sd.args

/-- The function `restoreArg`: "restore any argument flags modified by normaliseArg()". -/
def restoreArg (st : flagStore) (ad : argDef) : flagStore :=
  if ad.atype = .class_type ∧ (st.classes ad.u.getCd.addr).wasProtected = true then
    { st with
      classes := Function.update st.classes ad.u.getCd.addr
        { st.classes ad.u.getCd.addr with wasProtected := false, isProtected := true } }
  else if ad.atype = .enum_type ∧ (st.enums ad.u.getEd.addr).wasProtected = true then
    { st with
      enums := Function.update st.enums ad.u.getEd.addr
        { st.enums ad.u.getEd.addr with wasProtected := false, isProtected := true } }
  else st

/-- The loop of `restoreArgs` over the arguments. -/
def restoreArgsLoop (st : flagStore) : List argDef → flagStore
  | [] => st
  | ad :: rest => restoreArgsLoop (restoreArg st ad) rest

/-- The function `restoreArgs`: "restore any argument flags modified by normaliseArgs()".
-/
def restoreArgs (st : flagStore) (sd : signatureDef) : flagStore :=
  restoreArgsLoop st sd.args

/-- Whether no class or enum node that an argument of the list points to is flagged "was
protected". -/
def noWasProtected (st : flagStore) (l : List argDef) : Prop :=
  ∀ ad ∈ l,
    (ad.atype = .class_type → (st.classes ad.u.getCd.addr).wasProtected = false) ∧
    (ad.atype = .enum_type → (st.enums ad.u.getEd.addr).wasProtected = false)

instance (st : flagStore) (l : List argDef) : Decidable (noWasProtected st l) := by
  unfold noWasProtected
  infer_instance

/-- A store in which the class node of address 1 and the enum node of address 2 are
protected. -/
def protectedStore : flagStore :=
  { classes := fun a => { isProtected := decide (a = 1) },
    enums := fun a => { isProtected := decide (a = 2) } }

/-- The signature `void f(Foo, Foo, E, int)` whose two first arguments share the class
node of address 1 and whose third points to the enum node of address 2. -/
def sharedNodeSignature : signatureDef :=
  .mk voidResult
    [.mk { atype := .class_type } (.cd { addr := 1 }),
      .mk { atype := .class_type } (.cd { addr := 1 }),
      .mk { atype := .enum_type } (.ed { addr := 2 }), intArg]

/-- What `normaliseArg` does to the flags of a node. -/
def normaliseFlags (f : protectedFlags) : protectedFlags :=
  if f.isProtected then { f with isProtected := false, wasProtected := true } else f

/-- What `restoreArg` does to the flags of a node. -/
def restoreFlags (f : protectedFlags) : protectedFlags :=
  if f.wasProtected then { f with wasProtected := false, isProtected := true } else f

/-- Whether an argument points to the class node of an address. -/
def pointsToClass (a : Nat) (ad : argDef) : Bool :=
  decide (ad.atype = .class_type) && decide (ad.u.getCd.addr = a)

/-- Whether an argument points to the enum node of an address. -/
def pointsToEnum (a : Nat) (ad : argDef) : Bool :=
  decide (ad.atype = .enum_type) && decide (ad.u.getEd.addr = a)

/-! ## The keys of the kept references

Each module has a counter `next_key`; the expression `mod->next_key--` hands out its value
as the key of a kept reference and decrements it.  The counters are held in a store keyed
by the address of the module.  A generator that hands out keys returns, with its output,
the store as it leaves it and the record of the keys it handed out, each with the address
of the module of the counter, in the order of the allocations. -/

/-- The smallest value of the C type `int`, taken to be 32 bits wide. -/
def INT_MIN : Int := -2147483648

/-- The largest value of the C type `int`, taken to be 32 bits wide. -/
def INT_MAX : Int := 2147483647

/-- The counters `next_key` of the modules, by the address of the module. -/
abbrev keyStore := Nat → Int

/-- The expression `mod->next_key--` on the counter of the module of address `m`: the key
that it hands out and the store after the decrement.  Decrementing `INT_MIN` is undefined
in C; here it wraps around. -/
def takeKey (ks : keyStore) (m : Nat) : Int × keyStore :=
  (ks m, Function.update ks m (if ks m = INT_MIN then INT_MAX else ks m - 1))

/-- The assignment `ad->key = key`. -/
def setKey (ad : argDef) (key : Int) : argDef := .mk { ad.core with key := key } ad.u

/-- Modelled from the spec: the part of a `varDef` of `sip.h` (a variable of the spec) that
the getter reads: its fully qualified C++ name, its type, its module (as the address of
the `moduleDef`), the class that encloses it, its handwritten getter and the value of the
macro `isStaticVar`. -/
structure varDef where
  fqcname : scopedNameDef := []
  type : argDef := .mk {} .none
  module : Nat := 0
  ecd : classDef := {}
  getcode : codeBlockList := []
  isStaticVar : Bool := false

/-- The output of a generator that hands out keys: what it emitted, the counters as it
leaves them and the keys it handed out, in order, each with the address of the module of
the counter. -/
structure keyedOutput where
  out : List genEvent
  keys : keyStore
  log : List (Nat × Int)

/-- The test of `generateVariableGetter` for "a non-const instance of a wrapped class",
the variables for which keys are handed out. -/
def variableNeedsKeys (vd : varDef) : Bool :=
  decide (vd.type.atype = .class_type) && decide (vd.type.nrderefs = 0) &&
    !isConstArg vd.type

/-- The value of `var_key` in `generateVariableGetter`. -/
def variableVarKey (ks : keyStore) (vd : varDef) : Int :=
  if variableNeedsKeys vd then (takeKey ks vd.type.u.getCd.iff.module).1 else 0

/-- The value of `self_key` in `generateVariableGetter`. -/
def variableSelfKey (ks : keyStore) (vd : varDef) : Int :=
  if variableNeedsKeys vd && !vd.isStaticVar then
    (takeKey (takeKey ks vd.type.u.getCd.iff.module).2 vd.module).1
  else 0

/-- The counters as the allocations of `generateVariableGetter` leave them. -/
def variableKeyStore (ks : keyStore) (vd : varDef) : keyStore :=
  if variableNeedsKeys vd then
    if !vd.isStaticVar then (takeKey (takeKey ks vd.type.u.getCd.iff.module).2 vd.module).2
    else (takeKey ks vd.type.u.getCd.iff.module).2
  else ks

/-- The keys that `generateVariableGetter` hands out, in order. -/
def variableKeyLog (ks : keyStore) (vd : varDef) : List (Nat × Int) :=
  if variableNeedsKeys vd then
    (vd.type.u.getCd.iff.module, variableVarKey ks vd) ::
      (if !vd.isStaticVar then [(vd.module, variableSelfKey ks vd)] else [])
  else []

/-- The switch of `generateVariableGetter` on the category of the variable: the
conversion of the value to a Python object. -/
def variableGetterConvert (g : generatorFlags) (vd : varDef) (var_key self_key : Int) :
    List genEvent :=
  let needsNew :=
    decide (vd.type.atype = .class_type ∨ vd.type.atype = .mapped_type) &&
      decide (vd.type.nrderefs = 0) && isConstArg vd.type
  let longValue : List genEvent := [genEvent.prcode "    return PyLong_FromLong(sipVal);\n" []]
  match vd.type.atype with
  | .mapped_type | .class_type =>
    let iff :=
      if vd.type.atype = .mapped_type then vd.type.u.getMtd.iff else vd.type.u.getCd.iff
    [genEvent.prcode "    %s sipConvertFrom%sType("
      [.s (if var_key < 0 then "sipPy =" else "return"), .s (if needsNew then "New" else "")]] ++
    (if isConstArg vd.type then [genEvent.prcode "const_cast<%b *>(sipVal)" [.ad vd.type]]
     else [genEvent.prcode "sipVal" []]) ++
    [genEvent.prcode ", sipType_%C, SIP_NULLPTR);\n" [.snd iff.fqcname]] ++
    (if var_key < 0 then
      [genEvent.prcode
        "\n    if (sipPy)\n    \x7b\n        sipKeepReference(sipPy, %d, sipPySelf);\n"
        [.d var_key]] ++
      (if vd.isStaticVar then [genEvent.prcode "        Py_INCREF(sipPy);\n" []]
       else
        [genEvent.prcode "        sipKeepReference(sipPySelf, %d, sipPy);\n" [.d self_key]]) ++
      [genEvent.prcode "    \x7d\n\n    return sipPy;\n" []]
     else [])
  | .bool_type | .cbool_type => [genEvent.prcode "    return PyBool_FromLong(sipVal);\n" []]
  | .ascii_string_type =>
    if vd.type.nrderefs = 0 then
      [genEvent.prcode "    return PyUnicode_DecodeASCII(&sipVal, 1, SIP_NULLPTR);\n" []]
    else
      [genEvent.prcode
        "    if (sipVal == SIP_NULLPTR)\n    \x7b\n        Py_INCREF(Py_None);\n        return Py_None;\n    \x7d\n\n    return PyUnicode_DecodeASCII(sipVal, strlen(sipVal), SIP_NULLPTR);\n"
        []]
  | .latin1_string_type =>
    if vd.type.nrderefs = 0 then
      [genEvent.prcode "    return PyUnicode_DecodeLatin1(&sipVal, 1, SIP_NULLPTR);\n" []]
    else
      [genEvent.prcode
        "    if (sipVal == SIP_NULLPTR)\n    \x7b\n        Py_INCREF(Py_None);\n        return Py_None;\n    \x7d\n\n    return PyUnicode_DecodeLatin1(sipVal, strlen(sipVal), SIP_NULLPTR);\n"
        []]
  | .utf8_string_type =>
    if vd.type.nrderefs = 0 then
      [genEvent.prcode "    return PyUnicode_FromStringAndSize(&sipVal, 1);\n" []]
    else
      [genEvent.prcode
        "    if (sipVal == SIP_NULLPTR)\n    \x7b\n        Py_INCREF(Py_None);\n        return Py_None;\n    \x7d\n\n    return PyUnicode_FromString(sipVal);\n"
        []]
  | .sstring_type | .ustring_type | .string_type =>
    let cast := if vd.type.atype ≠ .string_type then "(char *)" else ""
    if vd.type.nrderefs = 0 then
      [genEvent.prcode "    return PyBytes_FromStringAndSize(%s&sipVal, 1);\n" [.s cast]]
    else
      [genEvent.prcode
        "    if (sipVal == SIP_NULLPTR)\n    \x7b\n        Py_INCREF(Py_None);\n        return Py_None;\n    \x7d\n\n    return PyBytes_FromString(%ssipVal);\n"
        [.s cast]]
  | .wstring_type =>
    if vd.type.nrderefs = 0 then
      [genEvent.prcode "    return PyUnicode_FromWideChar(&sipVal, 1);\n" []]
    else
      [genEvent.prcode
        "    if (sipVal == SIP_NULLPTR)\n    \x7b\n        Py_INCREF(Py_None);\n        return Py_None;\n    \x7d\n\n    return PyUnicode_FromWideChar(sipVal, (Py_ssize_t)wcslen(sipVal));\n"
        []]
  | .float_type | .cfloat_type =>
    [genEvent.prcode "    return PyFloat_FromDouble((double)sipVal);\n" []]
  | .double_type | .cdouble_type =>
    [genEvent.prcode "    return PyFloat_FromDouble(sipVal);\n" []]
  | .enum_type =>
    if vd.type.u.getEd.fqcname ≠ [] then
      [genEvent.prcode "    return sipConvertFromEnum(%ssipVal%s, sipType_%C);\n"
        [.s (if g.generating_c then "" else "static_cast<int>("),
          .s (if g.generating_c then "" else ")"), .snd vd.type.u.getEd.fqcname]]
    else longValue
  | .byte_type | .sbyte_type | .short_type | .cint_type | .int_type => longValue
  | .long_type => longValue
  | .ubyte_type | .ushort_type =>
    [genEvent.prcode "    return PyLong_FromUnsignedLong(sipVal);\n" []]
  | .uint_type | .ulong_type | .size_type =>
    [genEvent.prcode "    return PyLong_FromUnsignedLong(sipVal);\n" []]
  | .longlong_type => [genEvent.prcode "    return PyLong_FromLongLong(sipVal);\n" []]
  | .ulonglong_type =>
    [genEvent.prcode "    return PyLong_FromUnsignedLongLong(sipVal);\n" []]
  | .struct_type | .union_type | .void_type =>
    [genEvent.prcode "    return sipConvertFrom%sVoidPtr("
        [.s (if isConstArg vd.type then "Const" else "")],
      genEvent.other "generateVoidPtrCast" [.ad vd.type] [],
      genEvent.prcode "sipVal);\n" []]
  | .capsule_type =>
    [genEvent.prcode "    return PyCapsule_New(" [],
      genEvent.other "generateVoidPtrCast" [.ad vd.type] [],
      genEvent.prcode "sipVal, \"%S\", SIP_NULLPTR);\n" [.snd vd.type.u.getCap]]
  | .pyobject_type | .pytuple_type | .pylist_type | .pydict_type | .pycallable_type
  | .pyslice_type | .pytype_type | .pybuffer_type | .pyenum_type =>
    [genEvent.prcode "    Py_XINCREF(sipVal);\n    return sipVal;\n" []]
  | _ => []

/-- The globals `currentLineNr` and `currentFileName` of `gencode.c`: the current output
line number (an `int`, taken to stay below `INT_MAX`) and the current output file name.
The function `prcode` adds one to `currentLineNr` for each newline of a format, of a
string printed by `%s` and of a character printed by `%c`; what it prints through
`fprintf` is not counted. -/
structure lineState where
  currentLineNr : Int := 1
  currentFileName : String := ""
  deriving DecidableEq, Repr

/-- The number of newline characters in a string, the lines that `prcode` counts when it
prints the string with `%s` or its characters with `%c`. -/
def countedLines (s : String) : Nat := s.data.count '\n'

/-- The function `generatePreprocLine`: generate a `#line` preprocessor directive.  The
name of the file is printed character by character, a backslash twice. -/
def generatePreprocLine (linenr : Int) (fname : String) : List genEvent :=
  [genEvent.prcode "#line %d \"" [.d linenr]] ++
  fname.data.flatMap (fun ch =>
    [genEvent.prcode "%c" [.c ch]] ++
      (if ch = '\\' then [genEvent.prcode "\\" []] else [])) ++
  [genEvent.prcode "\"\n" []]

/-- The loop of `generateCppCodeBlock` over the blocks: what it emits, the value of
`reset_line` after it and the lines that `prcode` counted (one for each directive and
those of the file names and of the fragments). -/
def generateCppCodeBlockLoop : codeBlockList → List genEvent × Bool × Nat
  | [] => ([], false, 0)
  | cb :: cbl =>
    ((match cb.filename with
        | some fname => generatePreprocLine cb.linenr fname
        | none => []) ++
      [genEvent.prcode "%s" [.s cb.frag]] ++ (generateCppCodeBlockLoop cbl).1,
      cb.filename.isSome || (generateCppCodeBlockLoop cbl).2.1,
      (match cb.filename with
        | some fname => countedLines fname + 1
        | none => 0) +
        countedLines cb.frag + (generateCppCodeBlockLoop cbl).2.2)

/-- The function `generateCppCodeBlock`: generate a list of C++ code blocks.  `fp` holds
the globals as they are when the function is called; after a block with a file name the
function ends with a directive that goes back to the line after the current one of the
output file. -/
def generateCppCodeBlock (fp : lineState) (cbl : codeBlockList) : List genEvent :=
  (generateCppCodeBlockLoop cbl).1 ++
  (if (generateCppCodeBlockLoop cbl).2.1 then
    generatePreprocLine (fp.currentLineNr + (generateCppCodeBlockLoop cbl).2.2 + 1)
      fp.currentFileName
   else [])

/-- Modelled from the spec: the macro `classBaseName` of `sip.h`, the last name of the
fully qualified C++ name of a class. -/
def classBaseName (cd : classDef) : String := cd.iff.fqcname.getLast?.getD ""

/-- The lines that `prcode` counts when it prints a class with `%U`, through
`prScopedClassName`: those of the base name of a protected class, which is printed with
`%s`; the other names are printed with `fprintf`.  A class printed by the name of its
template (`useTemplateName`) is not part of the model of `classDef`. -/
def scopedClassLines (cd : classDef) : Nat :=
  if cd.isProtectedClass then countedLines (classBaseName cd) else 0

/-- The globals as they are when `generateVariableGetter` reaches the handwritten code of
a variable, `fp` holding them as they are when it is called: the lines of the formats
printed before, and those of the class printed twice with `%U`. -/
def variableGetterLine (g : generatorFlags) (fp : lineState) (vd : varDef) : lineState :=
  { fp with
    currentLineNr :=
      fp.currentLineNr + 2 + (if !g.generating_c then 1 else 0) + 2 + 1 +
        (if !vd.isStaticVar then ((2 * scopedClassLines vd.ecd + 1 : Nat) : Int) else 0) + 1 }

/-- What `generateVariableGetter` emits, given the keys `var_key` and `self_key` that it
handed out and the globals `fp` of the output file as they are when it is called. -/
def variableGetterOutput (g : generatorFlags) (fp : lineState) (scope : Option ifaceFileDef)
    (vd : varDef) (var_key self_key : Int) : List genEvent :=
  let first_arg := if g.generating_c || !vd.isStaticVar then "sipSelf" else ""
  let last_arg :=
    if g.generating_c || usedInCode vd.getcode "sipPyType" then "sipPyType" else ""
  let needsNew :=
    decide (vd.type.atype = .class_type ∨ vd.type.atype = .mapped_type) &&
      decide (vd.type.nrderefs = 0) && isConstArg vd.type
  let second_arg := if g.generating_c || decide (var_key < 0) then "sipPySelf" else ""
  [genEvent.prcode "\n\n" []] ++
  (if !g.generating_c then
    [genEvent.prcode
      "extern \"C\" \x7bstatic PyObject *varget_%C(void *, PyObject *, PyObject *);\x7d\n"
      [.snd vd.fqcname]]
   else []) ++
  [genEvent.prcode "static PyObject *varget_%C(void *%s, PyObject *%s, PyObject *%s)\n\x7b\n"
    [.snd vd.fqcname, .s first_arg, .s second_arg, .s last_arg]] ++
  (if vd.getcode ≠ [] then [genEvent.prcode "    PyObject *sipPy;\n" []]
   else if var_key < 0 then
    (if vd.isStaticVar then
      [genEvent.prcode "    static PyObject *sipPy = SIP_NULLPTR;\n" []]
     else [genEvent.prcode "    PyObject *sipPy;\n" []])
   else []) ++
  (if vd.getcode = [] then
    [genEvent.prcode "    " [],
      genEvent.other "generateNamedValueType" [.scope scope, .ad vd.type, .s "sipVal"] [],
      genEvent.prcode ";\n" []]
   else []) ++
  (if !vd.isStaticVar then
    (if g.generating_c then
      [genEvent.prcode "    %U *sipCpp = (%U *)sipSelf;\n" [.cd vd.ecd, .cd vd.ecd]]
     else
      [genEvent.prcode "    %U *sipCpp = reinterpret_cast<%U *>(sipSelf);\n"
        [.cd vd.ecd, .cd vd.ecd]])
   else []) ++
  [genEvent.prcode "\n" []] ++
  (if vd.getcode ≠ [] then
    [genEvent.call "generateCppCodeBlock"
        (generateCppCodeBlock (variableGetterLine g fp vd) vd.getcode),
      genEvent.prcode "\n    return sipPy;\n\x7d\n" []]
   else
    (if var_key < 0 then
      (if vd.isStaticVar then
        [genEvent.prcode
          "    if (sipPy)\n    \x7b\n        Py_INCREF(sipPy);\n        return sipPy;\n    \x7d\n\n"
          []]
       else
        [genEvent.prcode
          "    sipPy = sipGetReference(sipPySelf, %d);\n\n    if (sipPy)\n        return sipPy;\n\n"
          [.d self_key]])
     else []) ++
    (if needsNew then
      (if g.generating_c then [genEvent.prcode "    *sipVal = " []]
       else [genEvent.prcode "    sipVal = new %b(" [.ad vd.type]])
     else
      [genEvent.prcode "    sipVal = " []] ++
      (if (vd.type.atype = .class_type ∨ vd.type.atype = .mapped_type) ∧
          vd.type.nrderefs = 0 then
        [genEvent.prcode "&" []]
       else [])) ++
    [genEvent.other "generateVarMember" [.snd vd.fqcname, .cd vd.ecd] [],
      genEvent.prcode "%s;\n\n" [.s (if needsNew && !g.generating_c then ")" else "")]] ++
    variableGetterConvert g vd var_key self_key ++
    [genEvent.prcode "\x7d\n" []])

/-- The function `generateVariableGetter`: generate a variable getter, from the counters
`ks` of the keys and the globals `fp` of the output file. -/
def generateVariableGetter (g : generatorFlags) (ks : keyStore) (fp : lineState)
    (scope : Option ifaceFileDef) (vd : varDef) : keyedOutput :=
  { out := variableGetterOutput g fp scope vd (variableVarKey ks vd) (variableSelfKey ks vd),
    keys := variableKeyStore ks vd,
    log := variableKeyLog ks vd }

/-- Whether `generateVirtHandlerCall` hands out a key for an argument: it is an out
argument whose Python object holds the value. -/
def virtHandlerKeeps (ad : argDef) : Bool := isOutArg ad && keepPyReference ad

/-- The first loop of `generateVirtHandlerCall` over the arguments of the C++ signature,
"add extra arguments for all the references we need to keep": the arguments with their
keys, the counters and the keys handed out. -/
def virtHandlerKeysLoop (m : Nat) : keyStore → List argDef →
    List argDef × keyStore × List (Nat × Int)
  | ks, [] => ([], ks, [])
  | ks, ad :: rest =>
    if virtHandlerKeeps ad then
      let r := virtHandlerKeysLoop m (takeKey ks m).2 rest
      (setKey ad (takeKey ks m).1 :: r.1, r.2.1, (m, (takeKey ks m).1) :: r.2.2)
    else
      let r := virtHandlerKeysLoop m ks rest
      (ad :: r.1, r.2.1, r.2.2)

/-- The loop of `generateVirtHandlerCall` that passes the arguments, from the argument of
index `a` on. -/
def virtHandlerArgsLoop (mod : moduleDef) : List argDef → Nat → List genEvent
  | [], _ => []
  | ad :: rest, a =>
    (if ad.atype = .class_type ∧ ad.u.getCd.isProtectedClass = true then
      genEvent.prcode ", %s%a"
        [.s (if isReference ad || decide (ad.nrderefs = 0) then "&" else ""), .mod mod,
          .ad ad, .d a]
     else if ad.atype = .enum_type ∧ ad.u.getEd.isProtectedEnum = true then
      genEvent.prcode ", (%E)%a" [.ed ad.u.getEd, .mod mod, .ad ad, .d a]
     else genEvent.prcode ", %a" [.mod mod, .ad ad, .d a]) ::
    virtHandlerArgsLoop mod rest (a + 1)

/-- The result of `generateVirtHandlerCall`: its output, counters and keys handed out, and
the result and the arguments of the C++ signature of the overload with the keys that it
wrote to them. -/
structure virtHandlerCallResult where
  out : List genEvent
  keys : keyStore
  log : List (Nat × Int)
  res : Option argDef
  args : List argDef

/-- The function `generateVirtHandlerCall`: generate a call to a single virtual handler.
The overload is `vod->od` and the handler `vod->virthandler`; the module of address
`mod.addr` gives the keys.  In the cast of a protected enum the enum is printed between
`normaliseArg` and `restoreArg`, so without its protected flag. -/
def generateVirtHandlerCall (ks : keyStore) (mod : moduleDef) (cd : classDef) (od : overDef)
    (vhd : virtHandlerDef) (res : Option argDef) (indent : String) : virtHandlerCallResult :=
  let result_keep : Bool :=
    match res with
    | some r => keepPyReference r
    | none => false
  let ks1 := if result_keep then (takeKey ks mod.addr).2 else ks
  let res1 := if result_keep then res.map (fun r => setKey r (takeKey ks mod.addr).1) else res
  let loop := virtHandlerKeysLoop mod.addr ks1 od.cppsig.args
  let kept := loop.1.filter virtHandlerKeeps
  let castEnum : Bool :=
    match res with
    | some r =>
      !od.isNewThread && decide (r.atype = .enum_type) && r.u.getEd.isProtectedEnum
    | none => false
  { out :=
      [genEvent.prcode "%sextern " [.s indent],
        genEvent.other "generateBaseType" [.scope (some cd.iff), .ad od.cppsig.result] [],
        genEvent.prcode
          " sipVH_%s_%d(sip_gilstate_t, sipVirtErrorHandlerFunc, sipSimpleWrapper *, PyObject *"
          [.s mod.name, .d vhd.virthandlernr]] ++
      (if vhd.cppsig.nrArgs > 0 then
        [genEvent.prcode ", " [],
          genEvent.other "generateCalledArgs"
            (.scope (some cd.iff) :: (fakeProtectedArgs vhd.cppsig).args.map prArg.ad) []]
       else []) ++
      (if result_keep then [genEvent.prcode ", int" []] else []) ++
      kept.map (fun _ => genEvent.prcode ", int" []) ++
      [genEvent.prcode ");\n" [], genEvent.prcode "\n%s" [.s indent]] ++
      (if !od.isNewThread && res.isSome then
        [genEvent.prcode "return " []] ++
        (if castEnum then
          [genEvent.prcode "static_cast<%E>("
            [.ed { (res.map (fun r => r.u.getEd)).getD {} with isProtectedEnum := false }]]
         else [])
       else []) ++
      [genEvent.prcode "sipVH_%s_%d(sipGILState, " [.s mod.name, .d vhd.virthandlernr]] ++
      [match vhd.veh with
        | none => genEvent.prcode "0" []
        | some veh =>
          if veh.mod.addr = mod.addr then
            genEvent.prcode "sipVEH_%s_%s" [.s mod.name, .s veh.name]
          else
            genEvent.prcode "sipImportedVirtErrorHandlers_%s_%s[%d].iveh_handler"
              [.s mod.name, .s veh.mod.name, .d veh.index]] ++
      [genEvent.prcode ", sipPySelf, sipMeth" []] ++
      virtHandlerArgsLoop mod loop.1 0 ++
      (if result_keep then
        [genEvent.prcode ", %d" [.d ((res1.map argDef.key).getD 0)]]
       else []) ++
      kept.map (fun ad => genEvent.prcode ", %d" [.d ad.key]) ++
      [genEvent.prcode ")%s;\n" [.s (if castEnum then ")" else "")]] ++
      (if od.isNewThread then [genEvent.prcode "\n%ssipEndThread();\n" [.s indent]]
       else []),
    keys := loop.2.1,
    log := (if result_keep then [(mod.addr, (takeKey ks mod.addr).1)] else []) ++ loop.2.2,
    res := res1,
    args := loop.1 }

/-- Hand out one key from the counter of each module of a list, in order: the keys handed
out and the counters afterwards. -/
def allocKeys : keyStore → List Nat → List (Nat × Int) × keyStore
  | ks, [] => ([], ks)
  | ks, m :: rest =>
    ((m, (takeKey ks m).1) :: (allocKeys (takeKey ks m).2 rest).1,
      (allocKeys (takeKey ks m).2 rest).2)

/-- The modules from whose counters `generateVariableGetter` hands out a key, in order. -/
def variableKeyModules (vd : varDef) : List Nat :=
  if variableNeedsKeys vd then
    vd.type.u.getCd.iff.module :: (if !vd.isStaticVar then [vd.module] else [])
  else []

/-- The modules from whose counters `generateVirtHandlerCall` hands out a key, in order:
the module of the call, once for the result and once for each argument that needs it. -/
def virtHandlerKeyModules (mod : moduleDef) (od : overDef) (res : Option argDef) :
    List Nat :=
  (match res with
    | some r => if keepPyReference r then [mod.addr] else []
    | none => []) ++
  (od.cppsig.args.filter virtHandlerKeeps).map (fun _ => mod.addr)

/-- A run of one of the two generators that hand out keys, with its arguments. -/
inductive keyRun where
  | variableGetter (g : generatorFlags) (fp : lineState) (scope : Option ifaceFileDef)
      (vd : varDef)
  | virtHandlerCall (mod : moduleDef) (cd : classDef) (od : overDef) (vhd : virtHandlerDef)
      (res : Option argDef) (indent : String)

/-- The output of a run from the counters `ks`. -/
def keyRun.run (ks : keyStore) : keyRun → keyedOutput
  | .variableGetter g fp scope vd => generateVariableGetter g ks fp scope vd
  | .virtHandlerCall mod cd od vhd res indent =>
    { out := (generateVirtHandlerCall ks mod cd od vhd res indent).out,
      keys := (generateVirtHandlerCall ks mod cd od vhd res indent).keys,
      log := (generateVirtHandlerCall ks mod cd od vhd res indent).log }

/-- The modules from whose counters a run hands out a key, in order. -/
def keyRun.modules : keyRun → List Nat
  | .variableGetter _ _ _ vd => variableKeyModules vd
  | .virtHandlerCall mod _ od _ res _ => virtHandlerKeyModules mod od res

/-- The keys that a sequence of runs hands out, in order, and the counters after it: each
run starts from the counters that the run before it left. -/
def runAll : keyStore → List keyRun → List (Nat × Int) × keyStore
  | ks, [] => ([], ks)
  | ks, r :: rest => ((r.run ks).log ++ (runAll (r.run ks).keys rest).1,
      (runAll (r.run ks).keys rest).2)

/-- The keys of a record that come from the counter of the module of address `m`. -/
def keysOf (m : Nat) (log : List (Nat × Int)) : List Int :=
  (log.filter (fun p => p.1 = m)).map (fun p => p.2)

/-- The keys that an output prints: the integers that its calls of `prcode` print with a
format that keeps or gets a reference, or with the format `", %d"` through which
`generateVirtHandlerCall` passes a key. -/
def printedKeys : List genEvent → List Int
  | [] => []
  | .prcode fmt args :: rest =>
    (if strstr fmt "Reference(" || fmt == ", %d" then
      args.filterMap (fun a => match a with | .d v => some v | _ => none)
     else []) ++ printedKeys rest
  | _ :: rest => printedKeys rest

/-- A variable `Foo::bar` of the class `Bar` that is an instance of the class `Foo` of the
same module. -/
def instanceVariable : varDef :=
  { fqcname := ["", "Foo", "bar"],
    type := .mk { atype := .class_type } (.cd { addr := 4, iff := { fqcname := ["", "Bar"] } }) }

/-- The counters of a module that has handed out no key yet: the first key is -1. -/
def freshKeys : keyStore := fun _ => -1

/-- A virtual method `const char *name(char *buf /Out/)` whose result and argument both
need a kept reference. -/
def keepingVirtual : overDef :=
  { cppname := "name", isVirtual := true, common := { pyname := "name" },
    pysig := .mk (.mk { atype := .string_type, nrderefs := 1, isConstArg := true } .none)
      [.mk { atype := .string_type, nrderefs := 1, isOutArg := true } .none],
    cppsig := .mk (.mk { atype := .string_type, nrderefs := 1, isConstArg := true } .none)
      [.mk { atype := .string_type, nrderefs := 1, isOutArg := true } .none],
    cppsigIsPysig := true }

/-- The getter of the variable `Foo::bar` followed by the handler call of the virtual
method `name`, in the module of address 0. -/
def keyRuns : List keyRun :=
  [.variableGetter {} {} none instanceVariable,
    .virtHandlerCall {} convertedClass keepingVirtual {} (some keepingVirtual.cppsig.result)
      "    "]

/-- Counters that agree with `freshKeys` on the module of address 0 only. -/
def otherKeys : keyStore := fun m => if m = 0 then -1 else 7

/-- A variable `Foo::count` of type `int`, for which no key is handed out. -/
def intVariable : varDef := { fqcname := ["", "Foo", "count"], type := intArg }

/-- A variable `Foo::total` of type `int` of the class `Foo`, with the handwritten getter
`sipPy = total();` that comes from the line 40 of the file `foo.sip`. -/
def codedVariable : varDef :=
  { fqcname := ["", "Foo", "total"], type := intArg, ecd := { iff := { fqcname := ["", "Foo"] } },
    getcode := [{ frag := "    sipPy = total();\n", filename := some "foo.sip", linenr := 40 }] }

/-- The variable `Foo::total` with the same handwritten getter as a fragment without a
file name. -/
def fragmentVariable : varDef :=
  { codedVariable with getcode := [{ frag := "    sipPy = total();\n" }] }

/-- The line numbers that an output prints in its `#line` directives, in order. -/
def printedLines (out : List genEvent) : List Int :=
  (prcodesOf out).flatMap fun ev =>
    match ev with
    | .prcode fmt args =>
      if fmt == "#line %d \"" then
        args.filterMap (fun a => match a with | .d v => some v | _ => none)
      else []
    | _ => []

/-! ## The functions of a member -/

/-- The function `isIntArgSlot`: returns TRUE if the given method is a slot that takes an
int argument. -/
def isIntArgSlot (md : memberDef) : Bool :=
  let st := md.slot
  st = .repeat_slot || st = .irepeat_slot

/-- The argument that `generateFunctionBody` writes to `od->pysig.args[0]`, "insert self in
the right place": a reference to the class `ocd` that is an in argument.  The fields that
the code does not assign keep the value that the first argument had. -/
def numberSlotSelf (ad : argDef) (ocd : Option classDef) : argDef :=
  .mk { ad.core with
        atype := .class_type, name := none, isReference := true, isConstArg := false,
        isInArg := true, isOutArg := false, isConstrained := false, isAllowNone := false,
        isDisallowNone := false, isArray := false, isArraySize := false,
        isResultSize := false, isTransferred := false, isTransferredBack := false,
        isThisTransferred := false, keepReference := false, isGetWrapper := false,
        noCopy := false, nrderefs := 0, defval := none }
    (match ocd with
      | some cd => .cd cd
      | none => .none)

/-- The Python signature of an overload while `generateFunctionBody` generates its parse
and its call: the signature of a number slot with one argument is padded with `self`. -/
def functionBodyPysig (od : overDef) (ocd : Option classDef) : signatureDef :=
  if isNumberSlot od.common = true ∧ od.pysig.nrArgs = 1 then
    match od.pysig.args with
    | ad :: _ => .mk od.pysig.result [numberSlotSelf ad ocd, ad]
    | [] => od.pysig
  else od.pysig

/-- The overload while `generateFunctionBody` generates its parse and its call; its C++
signature is the padded one as well when it is the Python signature. -/
def functionBodyOverload (od : overDef) (ocd : Option classDef) : overDef :=
  if isNumberSlot od.common = true ∧ od.pysig.nrArgs = 1 then
    { od with
      pysig := functionBodyPysig od ocd,
      cppsig := if od.cppsigIsPysig then functionBodyPysig od ocd else od.cppsig }
  else od

/-- The result of `generateFunctionBody`: its output, the value that it returns and the
Python signature `od->pysig` as it leaves it. -/
structure functionBodyResult where
  out : List genEvent
  rc : Int
  pysig : signatureDef

/-- Whether `generateFunctionBody` generates the parse of the arguments. -/
def functionBodyParses (od : overDef) : Bool :=
  isNumberSlot od.common || (!isIntArgSlot od.common && !isZeroArgSlot od.common)

/-- The function `generateFunctionBody`: generate the function calls for a particular
overload.  A `NULL` scope `o_scope` is passed on as the zeroed node. -/
def generateFunctionBody (g : generatorFlags) (od : overDef) (c_scope : Option classDef)
    (mt_scope : Option mappedTypeDef) (ocd : Option classDef) (deref : Bool)
    (mod : moduleDef) : functionBodyResult :=
  let o_scope : Option ifaceFileDef :=
    match mt_scope with
    | some mt => some mt.iff
    | none => ocd.map classDef.iff
  let od1 := functionBodyOverload od ocd
  let parse := generateArgParser g mod od1.pysig c_scope mt_scope none (some od1)
  if functionBodyParses od && decide (parse.2 < 0) then
    { out := [genEvent.prcode "\n    \x7b\n" [], genEvent.call "generateArgParser" parse.1],
      rc := -1,
      pysig := od1.pysig }
  else
    { out :=
        [genEvent.prcode "\n    \x7b\n" []] ++
        (if functionBodyParses od then [genEvent.call "generateArgParser" parse.1] else []) ++
        [genEvent.call "generateFunctionCall"
            (generateFunctionCall g c_scope mt_scope (o_scope.getD {}) od1 deref mod),
          genEvent.prcode "    \x7d\n" []],
      rc := 0,
      pysig := od.pysig }

/-- The function `skipOverload`: see if a member overload should be skipped.  The member
and the classes are compared by address. -/
def skipOverload (od : overDef) (md : memberDef) (cd ccd : classDef) (want_local : Bool) :
    Bool :=
  if od.common.addr ≠ md.addr then true
  else if od.isSignal then true
  else if od.isAbstract && isPrivate od then true
  else if want_local && !od.isProtected && decide (ccd.addr ≠ cd.addr) then true
  else false

/-- The value of `need_method` in `generateFunction`: "there is at least one overload that
needs to be handled". -/
def functionNeedMethod (md : memberDef) (cd ocd : classDef) (overs : List overDef) : Bool :=
  overs.any fun od =>
    !(od.isProtected && !cd.hasShadow) && !skipOverload od md cd ocd true

/-- The value of `need_args` in `generateFunction`. -/
def functionNeedArgs (md : memberDef) (cd ocd : classDef) (overs : List overDef) : Bool :=
  overs.any fun od =>
    !(od.isProtected && !cd.hasShadow) && !skipOverload od md cd ocd true && !isPrivate od

/-- The value of `need_self` in `generateFunction`. -/
def functionNeedSelf (g : generatorFlags) (md : memberDef) (cd ocd : classDef)
    (overs : List overDef) : Bool :=
  overs.any fun od =>
    !(od.isProtected && !cd.hasShadow) && !skipOverload od md cd ocd true && !isPrivate od &&
      (decide (g.abiVersion ≥ ABI_13_0) || !od.isStatic)

/-- The value of `need_orig_self` in `generateFunction`. -/
def functionNeedOrigSelf (g : generatorFlags) (md : memberDef) (cd ocd : classDef)
    (overs : List overDef) : Bool :=
  overs.any fun od =>
    !(od.isProtected && !cd.hasShadow) && !skipOverload od md cd ocd true && !isPrivate od &&
      (decide (g.abiVersion ≥ ABI_13_0) || !od.isStatic) && od.isAbstract

/-- The value of `need_selfarg` in `generateFunction`. -/
def functionNeedSelfArg (g : generatorFlags) (md : memberDef) (cd ocd : classDef)
    (overs : List overDef) : Bool :=
  overs.any fun od =>
    !(od.isProtected && !cd.hasShadow) && !skipOverload od md cd ocd true && !isPrivate od &&
      (decide (g.abiVersion ≥ ABI_13_0) || !od.isStatic) && !od.isAbstract &&
      (od.isVirtual || od.isVirtualReimp || usedInCode od.methodcode "sipSelfWasArg")

/-- The loop of `generateFunction` over the overloads: a block for each overload that is
handled, up to the first whose generation fails; for a member without argument parser,
the method code of the first overload that is handled. -/
def functionBodiesLoop (g : generatorFlags) (md : memberDef) (cd ocd : classDef)
    (mod : moduleDef) : List overDef → List genEvent × Int
  | [] => ([], 0)
  | od :: rest =>
    if skipOverload od md cd ocd false then functionBodiesLoop g md cd ocd mod rest
    else if isPrivate od then functionBodiesLoop g md cd ocd mod rest
    else if md.noArgParser then ([genEvent.other "generateCppCodeBlock" [] od.methodcode], 0)
    else if (generateFunctionBody g od (some cd) none (some ocd) true mod).rc < 0 then
      ([genEvent.call "generateFunctionBody"
        (generateFunctionBody g od (some cd) none (some ocd) true mod).out], -1)
    else
      (genEvent.call "generateFunctionBody"
          (generateFunctionBody g od (some cd) none (some ocd) true mod).out ::
        (functionBodiesLoop g md cd ocd mod rest).1,
        (functionBodiesLoop g md cd ocd mod rest).2)

/-- What `generateFunction` emits before the blocks of the overloads.  The docstring is
not modelled: `hasDoc` is the value of `hasMemberDocstring`. -/
def functionHeader (g : generatorFlags) (hasDoc : Bool) (md : memberDef) (cd ocd : classDef)
    (overs : List overDef) : List genEvent :=
  let kw := md.noArgParser || md.useKeywordArgs
  [genEvent.prcode "\n\n" []] ++
  (if hasDoc then
    [genEvent.prcode "PyDoc_STRVAR(doc_%L_%s, \"" [.scope (some cd.iff), .s md.pyname],
      genEvent.other "generateMemberDocstring" [.nd md.pyname] [],
      genEvent.prcode "\");\n\n" []]
   else []) ++
  (if !g.generating_c then
    [genEvent.prcode
      "extern \"C\" \x7bstatic PyObject *meth_%L_%s(PyObject *, PyObject *%s);\x7d\n"
      [.scope (some cd.iff), .s md.pyname, .s (if kw then ", PyObject *" else "")]]
   else []) ++
  [genEvent.prcode "static PyObject *meth_%L_%s(PyObject *%s, PyObject *%s%s)\n\x7b\n"
    [.scope (some cd.iff), .s md.pyname,
      .s (if functionNeedSelf g md cd ocd overs then "sipSelf" else ""),
      .s (if functionNeedArgs md cd ocd overs then "sipArgs" else ""),
      .s (if kw then ", PyObject *sipKwds" else "")]] ++
  (if g.tracing then
    [genEvent.prcode "    sipTrace(SIP_TRACE_METHODS, \"meth_%L_%s()\\n\");\n\n"
      [.scope (some cd.iff), .s md.pyname]]
   else []) ++
  (if !md.noArgParser then
    (if functionNeedArgs md cd ocd overs then
      [genEvent.prcode "    PyObject *sipParseErr = SIP_NULLPTR;\n" []]
     else []) ++
    (if functionNeedSelfArg g md cd ocd overs then
      (if g.abiVersion ≥ ABI_13_0 then
        [genEvent.prcode
          "    bool sipSelfWasArg = (!PyObject_TypeCheck(sipSelf, sipTypeAsPyTypeObject(sipType_%L)) || sipIsDerivedClass((sipSimpleWrapper *)sipSelf));\n"
          [.scope (some cd.iff)]]
       else
        [genEvent.prcode
          "    bool sipSelfWasArg = (!sipSelf || sipIsDerivedClass((sipSimpleWrapper *)sipSelf));\n"
          []])
     else []) ++
    (if functionNeedOrigSelf g md cd ocd overs then
      [genEvent.prcode "    PyObject *sipOrigSelf = sipSelf;\n" []]
     else [])
   else [])

/-- The no-match fault of `generateFunction`: the call of `sipNoMethod` and the return
that follows it.  `autoDoc` is the value that `generateMemberDocstring` returned. -/
def functionFault (autoDoc : Bool) (md : memberDef) (cd ocd : classDef)
    (overs : List overDef) : List genEvent :=
  [genEvent.prcode "\n    sipNoMethod(%s, %N, %N, "
      [.s (if functionNeedArgs md cd ocd overs then "sipParseErr" else "SIP_NULLPTR"),
        .nd cd.pyname, .nd md.pyname],
    (if autoDoc then genEvent.prcode "doc_%L_%s" [.scope (some cd.iff), .s md.pyname]
     else genEvent.prcode "SIP_NULLPTR" []),
    genEvent.prcode ");\n\n    return SIP_NULLPTR;\n" []]

/-- The function `generateFunction`: generate a class member function; its output and the
value that it returns.  The docstring is not modelled: `hasDoc` is the value of
`hasMemberDocstring` and `autoDoc` the value that `generateMemberDocstring` returns. -/
def generateFunction (g : generatorFlags) (hasDoc autoDoc : Bool) (md : memberDef)
    (overs : List overDef) (cd ocd : classDef) (mod : moduleDef) : List genEvent × Int :=
  if functionNeedMethod md cd ocd overs then
    let bodies := functionBodiesLoop g md cd ocd mod overs
    if bodies.2 < 0 then (functionHeader g hasDoc md cd ocd overs ++ bodies.1, -1)
    else
      (functionHeader g hasDoc md cd ocd overs ++ bodies.1 ++
        (if !md.noArgParser then functionFault (hasDoc && autoDoc) md cd ocd overs else []) ++
        [genEvent.prcode "\x7d\n" []], 0)
  else ([], 0)

/-- The loop of `generateOrdinaryFunction` over the overloads, with the value of
`need_intro` before and after it. -/
def ordinaryBodiesLoop (g : generatorFlags) (self_unused : Bool) (md : memberDef)
    (c_scope : Option classDef) (mt_scope : Option mappedTypeDef) (mod : moduleDef) :
    List overDef → Bool → List genEvent × Int × Bool
  | [], need_intro => ([], 0, need_intro)
  | od :: rest, need_intro =>
    if od.common.addr = md.addr then
      if md.noArgParser then
        ([genEvent.other "generateCppCodeBlock" [] od.methodcode], 0, need_intro)
      else
        let intro :=
          if need_intro then
            [genEvent.prcode "    PyObject *sipParseErr = SIP_NULLPTR;\n" []] ++
            (if self_unused then [genEvent.prcode "\n    (void)sipSelf;\n" []] else [])
          else []
        if (generateFunctionBody g od c_scope mt_scope c_scope true mod).rc < 0 then
          (intro ++
            [genEvent.call "generateFunctionBody"
              (generateFunctionBody g od c_scope mt_scope c_scope true mod).out], -1, false)
        else
          (intro ++
            genEvent.call "generateFunctionBody"
                (generateFunctionBody g od c_scope mt_scope c_scope true mod).out ::
              (ordinaryBodiesLoop g self_unused md c_scope mt_scope mod rest false).1,
            (ordinaryBodiesLoop g self_unused md c_scope mt_scope mod rest false).2)
    else ordinaryBodiesLoop g self_unused md c_scope mt_scope mod rest need_intro

/-- The scope of `generateOrdinaryFunction`: the interface file of the mapped type or of
the class, `NULL` for a hidden namespace and for a function of the module. -/
def ordinaryScope (c_scope : Option classDef) (mt_scope : Option mappedTypeDef) :
    Option ifaceFileDef :=
  match mt_scope with
  | some mt => some mt.iff
  | none =>
    match c_scope with
    | some cd => if cd.isHiddenNamespace then none else some cd.iff
    | none => none

/-- What `generateOrdinaryFunction` emits before the blocks of the overloads. -/
def ordinaryHeader (g : generatorFlags) (hasDoc : Bool) (md : memberDef)
    (scope : Option ifaceFileDef) : List genEvent :=
  let kw := md.noArgParser || md.useKeywordArgs
  let kw_fw_decl := if kw then ", PyObject *" else ""
  let kw_decl := if kw then ", PyObject *sipKwds" else ""
  [genEvent.prcode "\n\n" []] ++
  (if hasDoc then
    [if scope.isSome then
        genEvent.prcode "PyDoc_STRVAR(doc_%L_%s, \"" [.scope scope, .s md.pyname]
      else genEvent.prcode "PyDoc_STRVAR(doc_%s, \"" [.s md.pyname],
      genEvent.other "generateMemberDocstring" [.nd md.pyname] [],
      genEvent.prcode "\");\n\n" []]
   else []) ++
  (if scope.isSome then
    (if !g.generating_c then
      [genEvent.prcode
        "extern \"C\" \x7bstatic PyObject *meth_%L_%s(PyObject *, PyObject *%s);\x7d\n"
        [.scope scope, .s md.pyname, .s kw_fw_decl]]
     else []) ++
    [genEvent.prcode "static PyObject *meth_%L_%s(PyObject *, PyObject *sipArgs%s)\n"
      [.scope scope, .s md.pyname, .s kw_decl]]
   else
    (if !g.generating_c then
      [genEvent.prcode
        "extern \"C\" \x7bstatic PyObject *func_%s(PyObject *, PyObject *%s);\x7d\n"
        [.s md.pyname, .s kw_fw_decl]]
     else []) ++
    [genEvent.prcode "static PyObject *func_%s(PyObject *%s, PyObject *sipArgs%s)\n"
      [.s md.pyname, .s (if g.generating_c then "sipSelf" else ""), .s kw_decl]]) ++
  [genEvent.prcode "\x7b\n" []]

/-- The no-match fault of `generateOrdinaryFunction`: the call of `sipNoFunction` and the
return that follows it. -/
def ordinaryFault (autoDoc : Bool) (md : memberDef) (scope : Option ifaceFileDef) :
    List genEvent :=
  [genEvent.prcode
      "\n    /* Raise an exception if the arguments couldn't be parsed. */\n    sipNoFunction(sipParseErr, %N, "
      [.nd md.pyname],
    (if autoDoc then
      (if scope.isSome then genEvent.prcode "doc_%L_%s" [.scope scope, .s md.pyname]
       else genEvent.prcode "doc_%s" [.s md.pyname])
     else genEvent.prcode "SIP_NULLPTR" []),
    genEvent.prcode ");\n\n    return SIP_NULLPTR;\n" []]

/-- The function `generateOrdinaryFunction`: generate an ordinary function; its output and
the value that it returns.  The list `overs` is `mt_scope->overs`, `c_scope->overs` or
`mod->overs`; the docstring is not modelled, as in `generateFunction`. -/
def generateOrdinaryFunction (g : generatorFlags) (hasDoc autoDoc : Bool) (mod : moduleDef)
    (c_scope : Option classDef) (mt_scope : Option mappedTypeDef) (md : memberDef)
    (overs : List overDef) : List genEvent × Int :=
  let scope := ordinaryScope c_scope mt_scope
  let self_unused := scope.isNone && g.generating_c
  let bodies := ordinaryBodiesLoop g self_unused md c_scope mt_scope mod overs true
  if bodies.2.1 < 0 then (ordinaryHeader g hasDoc md scope ++ bodies.1, -1)
  else
    (ordinaryHeader g hasDoc md scope ++ bodies.1 ++
      (if !bodies.2.2 then ordinaryFault (hasDoc && autoDoc) md scope else []) ++
      [genEvent.prcode "\x7d\n" []], 0)

/-- A class `Foo` without array helper. -/
def plainClass : classDef := { addr := 5, iff := { fqcname := ["", "Foo"] }, pyname := "Foo" }

/-- The number slot `Foo __add__(Foo /Array/)` of the class `Foo`, whose argument is
flagged as an array although it is not a pointer. -/
def arrayAdd : overDef :=
  { cppname := "operator+", common := { pyname := "__add__", slot := .add_slot },
    pysig := .mk (.mk { atype := .class_type } (.cd plainClass))
      [.mk { atype := .class_type, isInArg := true, isArray := true } (.cd plainClass)],
    cppsig := .mk (.mk { atype := .class_type } (.cd plainClass))
      [.mk { atype := .class_type, isInArg := true, isArray := true } (.cd plainClass)],
    cppsigIsPysig := true }

/-- The number slot `Foo __add__(Foo)` of the class `Foo`. -/
def plainAdd : overDef :=
  { cppname := "operator+", common := { pyname := "__add__", slot := .add_slot },
    pysig := .mk (.mk { atype := .class_type } (.cd plainClass))
      [.mk { atype := .class_type, isInArg := true } (.cd plainClass)],
    cppsig := .mk (.mk { atype := .class_type } (.cd plainClass))
      [.mk { atype := .class_type, isInArg := true } (.cd plainClass)],
    cppsigIsPysig := true }

/-- Whether an event is a call of `prcode` whose format raises the no-match fault, a call
of `sipNoMethod` or of `sipNoFunction`. -/
def genEvent.isFault : genEvent → Bool
  | .prcode fmt _ => strstr fmt "sipNoMethod(" || strstr fmt "sipNoFunction("
  | _ => false

/-- Whether an event is neither the block of an overload nor a no-match fault. -/
def genEvent.isPlain (ev : genEvent) : Bool :=
  !ev.isCall "generateFunctionBody" && !ev.isFault

/-- The overloads that the second loop of `generateFunction` handles, in list order: those
of the member that are not signals, not private abstract and not private. -/
def handledOverloads (md : memberDef) (cd ocd : classDef) (overs : List overDef) :
    List overDef :=
  overs.filter fun od => !skipOverload od md cd ocd false && !isPrivate od

/-- The overloads that the loop of `generateOrdinaryFunction` handles, in list order:
those of the member. -/
def memberOverloads (md : memberDef) (overs : List overDef) : List overDef :=
  overs.filter fun od => decide (od.common.addr = md.addr)

/-- The block of an overload in the output of `generateFunction`. -/
def functionBlock (g : generatorFlags) (cd ocd : classDef) (mod : moduleDef)
    (od : overDef) : genEvent :=
  .call "generateFunctionBody" (generateFunctionBody g od (some cd) none (some ocd) true mod).out

/-- The block of an overload in the output of `generateOrdinaryFunction`. -/
def ordinaryBlock (g : generatorFlags) (c_scope : Option classDef)
    (mt_scope : Option mappedTypeDef) (mod : moduleDef) (od : overDef) : genEvent :=
  .call "generateFunctionBody" (generateFunctionBody g od c_scope mt_scope c_scope true mod).out

/-- What `generateOrdinaryFunction` emits before the first block. -/
def ordinaryIntro (self_unused : Bool) : List genEvent :=
  [genEvent.prcode "    PyObject *sipParseErr = SIP_NULLPTR;\n" []] ++
  (if self_unused then [genEvent.prcode "\n    (void)sipSelf;\n" []] else [])

/-- The method `Foo::f` of the class `Foo`. -/
def memberF : memberDef := { addr := 1, pyname := "f" }

/-- The same method, flagged as having no argument parser. -/
def memberRaw : memberDef := { addr := 1, pyname := "f", noArgParser := true }

/-- Three overloads `f(int)`, `f(const char *)` and `f(Foo &)` of the member of address 1,
the second with method code. -/
def threeOverloads : List overDef :=
  [{ addr := 1, cppname := "f", common := memberF, pysig := .mk voidResult [intArg],
      cppsig := .mk voidResult [intArg], cppsigIsPysig := true },
    { addr := 2, cppname := "f", common := memberF, pysig := .mk voidResult [asciiArg],
      cppsig := .mk voidResult [asciiArg], cppsigIsPysig := true,
      methodcode := [{ frag := "sipCpp->f(a0);" }] },
    { addr := 3, cppname := "f", common := memberF,
      pysig := .mk voidResult [convertedInOutArg],
      cppsig := .mk voidResult [convertedInOutArg], cppsigIsPysig := true }]

/-- The three overloads as those of the member without argument parser. -/
def rawOverloads : List overDef :=
  threeOverloads.map fun od => { od with common := memberRaw }

/-! ## The wrappers of the protected methods -/

/-- Modelled from the spec: a `visibleList` node of `sip.h`, an entry of the list
`cd->visible` of the members visible from a class: the member, the class that defines it
and the overloads `vl->cd->overs` of that class. -/
structure visibleList where
  m : memberDef := {}
  cd : classDef := {}
  overs : List overDef := []

/-- The test of `isDuplicateProtected` on two overloads: the same C++ name and, strictly,
the same C++ signature. -/
def sameProtected (g : generatorFlags) (od target : overDef) : Bool :=
  decide (strcmp od.cppname target.cppname = 0) &&
    sameSignature g.abiVersion od.cppsig target.cppsig true

/-- The inner loop of `isDuplicateProtected` over the overloads of a class: `some` of the
value that it returns, `none` when it ends without returning. -/
def isDuplicateProtectedOvers (g : generatorFlags) (m : memberDef) (target : overDef) :
    List overDef → Option Bool
  | [] => none
  | od :: rest =>
    if od.common.addr ≠ m.addr ∨ od.isProtected = false then
      isDuplicateProtectedOvers g m target rest
    else if od.addr = target.addr then some false
    else if sameProtected g od target then some true
    else isDuplicateProtectedOvers g m target rest

/-- The outer loop of `isDuplicateProtected` over the visible members. -/
def isDuplicateProtectedLoop (g : generatorFlags) (target : overDef) :
    List visibleList → Bool
  | [] => false
  | vl :: rest =>
    if vl.m.slot ≠ .no_slot then isDuplicateProtectedLoop g target rest
    else
      match isDuplicateProtectedOvers g vl.m target vl.overs with
      | some b => b
      | none => isDuplicateProtectedLoop g target rest

/-- The function `isDuplicateProtected`: return TRUE if a protected method is a duplicate.
The list `visible` is `cd->visible`; the overloads are compared by address. -/
def isDuplicateProtected (g : generatorFlags) (visible : List visibleList)
    (target : overDef) : Bool :=
  isDuplicateProtectedLoop g target visible

/-- Whether a protected wrapper passes on the call through the virtual table or not: the
test `!isStatic(od) && !isAbstract(od) && (isVirtual(od) || isVirtualReimp(od))`. -/
def isProtectVirt (od : overDef) : Bool :=
  !od.isStatic && !od.isAbstract && (od.isVirtual || od.isVirtualReimp)

/-- The declaration that `generateProtectedDeclarations` emits for one overload. -/
def protectedDeclaration (cd : classDef) (od : overDef) : List genEvent :=
  [genEvent.prcode "    " []] ++
  (if od.isStatic then [genEvent.prcode "static " []] else []) ++
  [genEvent.other "generateBaseType" [.scope (some cd.iff), .ad od.cppsig.result] []] ++
  (if isProtectVirt od then
    [genEvent.prcode " sipProtectVirt_%s(bool" [.s od.cppname]] ++
    (if od.cppsig.nrArgs > 0 then [genEvent.prcode ", " []] else [])
   else [genEvent.prcode " sipProtect_%s(" [.s od.cppname]]) ++
  [genEvent.other "generateCalledArgs"
      (.scope (some cd.iff) :: od.cppsig.args.map prArg.ad) [],
    genEvent.prcode ")%s;\n" [.s (if od.isConst then " const" else "")]]

/-- The introduction that `generateProtectedDeclarations` emits before the first
declaration. -/
def protectedIntro : genEvent :=
  .prcode
    "\n    /*\n     * There is a public method for every protected method visible from\n     * this class.\n     */\n"
    []

/-- The inner loop of `generateProtectedDeclarations` over the overloads of a class, with
the value of `noIntro` before and after it. -/
def protectedDeclarationsOvers (g : generatorFlags) (visible : List visibleList)
    (cd : classDef) (m : memberDef) : List overDef → Bool → List genEvent × Bool
  | [], noIntro => ([], noIntro)
  | od :: rest, noIntro =>
    if od.common.addr ≠ m.addr ∨ od.isProtected = false then
      protectedDeclarationsOvers g visible cd m rest noIntro
    else if isDuplicateProtected g visible od then
      protectedDeclarationsOvers g visible cd m rest noIntro
    else
      ((if noIntro then [protectedIntro] else []) ++ protectedDeclaration cd od ++
          (protectedDeclarationsOvers g visible cd m rest false).1,
        (protectedDeclarationsOvers g visible cd m rest false).2)

/-- The outer loop of `generateProtectedDeclarations` over the visible members; `visible`
is the whole list `cd->visible`, which `isDuplicateProtected` reads. -/
def protectedDeclarationsLoop (g : generatorFlags) (visible : List visibleList)
    (cd : classDef) : List visibleList → Bool → List genEvent
  | [], _ => []
  | vl :: rest, noIntro =>
    if vl.m.slot ≠ .no_slot then protectedDeclarationsLoop g visible cd rest noIntro
    else
      (protectedDeclarationsOvers g visible cd vl.m vl.overs noIntro).1 ++
        protectedDeclarationsLoop g visible cd rest
          (protectedDeclarationsOvers g visible cd vl.m vl.overs noIntro).2

/-- The function `generateProtectedDeclarations`: generate the declarations of the
protected wrapper functions for a class. -/
def generateProtectedDeclarations (g : generatorFlags) (visible : List visibleList)
    (cd : classDef) : List genEvent :=
  protectedDeclarationsLoop g visible cd visible true

/-- The definition that `generateProtectedDefinitions` emits for one overload of the class
`vlcd`, which is `vl->cd`. -/
def protectedDefinition (mod : moduleDef) (cd vlcd : classDef) (od : overDef) :
    List genEvent :=
  let res := od.cppsig.result
  let isVoid := decide (res.atype = .void_type) && decide (res.nrderefs = 0)
  let castClass :=
    !isVoid && decide (res.atype = .class_type) && res.u.getCd.isProtectedClass
  let castEnum :=
    !isVoid && !castClass && decide (res.atype = .enum_type) && res.u.getEd.isProtectedEnum
  let viaTable := !od.isAbstract && (od.isVirtual || od.isVirtualReimp)
  let parens := 1 + (if castClass then 1 else 0) + (if viaTable then 1 else 0)
  [genEvent.prcode "\n" [],
    genEvent.other "generateBaseType" [.scope (some cd.iff), .ad res] []] ++
  (if isProtectVirt od then
    [genEvent.prcode " sip%C::sipProtectVirt_%s(bool sipSelfWasArg"
      [.snd cd.iff.fqcname, .s od.cppname]] ++
    (if od.cppsig.nrArgs > 0 then [genEvent.prcode ", " []] else [])
   else
    [genEvent.prcode " sip%C::sipProtect_%s(" [.snd cd.iff.fqcname, .s od.cppname]]) ++
  [genEvent.other "generateCalledArgs"
      (.mod mod :: .scope (some cd.iff) :: od.cppsig.args.map prArg.ad) [],
    genEvent.prcode ")%s\n\x7b\n" [.s (if od.isConst then " const" else "")]] ++
  (if isVoid then [genEvent.prcode "    " []]
   else
    [genEvent.prcode "    return " []] ++
    (if castClass then [genEvent.prcode "static_cast<%U *>(" [.cd res.u.getCd]]
     else if castEnum then [genEvent.prcode "(%E)" [.ed res.u.getEd]]
     else [])) ++
  (if !od.isAbstract then
    (if od.isVirtual || od.isVirtualReimp then
      [genEvent.prcode "(sipSelfWasArg ? %U::%s(" [.cd vlcd, .s od.cppname],
        genEvent.other "generateProtectedCallArgs"
          (.mod mod :: od.cppsig.args.map prArg.ad) [],
        genEvent.prcode ") : " []]
     else [genEvent.prcode "%U::" [.cd vlcd]])
   else []) ++
  [genEvent.prcode "%s(" [.s od.cppname],
    genEvent.other "generateProtectedCallArgs"
      (.mod mod :: od.cppsig.args.map prArg.ad) []] ++
  List.replicate parens (genEvent.prcode ")" []) ++
  [genEvent.prcode ";\n\x7d\n" []]

/-- The inner loop of `generateProtectedDefinitions` over the overloads of a class. -/
def protectedDefinitionsOvers (g : generatorFlags) (mod : moduleDef)
    (visible : List visibleList) (cd : classDef) (vl : visibleList) :
    List overDef → List genEvent
  | [] => []
  | od :: rest =>
    if od.common.addr ≠ vl.m.addr ∨ od.isProtected = false then
      protectedDefinitionsOvers g mod visible cd vl rest
    else if isDuplicateProtected g visible od then
      protectedDefinitionsOvers g mod visible cd vl rest
    else
      protectedDefinition mod cd vl.cd od ++
        protectedDefinitionsOvers g mod visible cd vl rest

/-- The outer loop of `generateProtectedDefinitions` over the visible members. -/
def protectedDefinitionsLoop (g : generatorFlags) (mod : moduleDef)
    (visible : List visibleList) (cd : classDef) : List visibleList → List genEvent
  | [] => []
  | vl :: rest =>
    if vl.m.slot ≠ .no_slot then protectedDefinitionsLoop g mod visible cd rest
    else
      protectedDefinitionsOvers g mod visible cd vl vl.overs ++
        protectedDefinitionsLoop g mod visible cd rest

/-- The function `generateProtectedDefinitions`: generate the definitions of the protected
wrapper functions for a class. -/
def generateProtectedDefinitions (g : generatorFlags) (mod : moduleDef)
    (visible : List visibleList) (cd : classDef) : List genEvent :=
  protectedDefinitionsLoop g mod visible cd visible

/-- The protected overloads of a member among the overloads of its class, in list order.
-/
def memberProtected (m : memberDef) (overs : List overDef) : List overDef :=
  overs.filter fun od => decide (od.common.addr = m.addr) && od.isProtected

/-- The protected overloads that the loops of the three functions visit, in the order of
the visits, each with the class `vl->cd` that defines it: for every visible member that
is not a slot, the protected overloads of the member among those of its class. -/
def protectedOverloads : List visibleList → List (classDef × overDef)
  | [] => []
  | vl :: rest =>
    (if vl.m.slot ≠ .no_slot then []
     else (memberProtected vl.m vl.overs).map fun od => (vl.cd, od)) ++
    protectedOverloads rest

/-- The scan that `isDuplicateProtected` makes of the protected overloads: FALSE at the
target, TRUE at an overload before it that has its name and signature. -/
def scanDuplicate (g : generatorFlags) (target : overDef) : List overDef → Bool
  | [] => false
  | od :: rest =>
    if od.addr = target.addr then false
    else if sameProtected g od target then true
    else scanDuplicate g target rest

/-- The overloads of a list that `isDuplicateProtected` does not report as duplicates. -/
def notDuplicates (g : generatorFlags) (visible : List visibleList) (l : List overDef) :
    List overDef :=
  l.filter fun od => !isDuplicateProtected g visible od

/-- The overloads for which a wrapper is generated, in order, each with the class that
defines it: the protected overloads that are not duplicates. -/
def wrappedOverloads (g : generatorFlags) (visible : List visibleList) :
    List (classDef × overDef) :=
  (protectedOverloads visible).filter fun p => !isDuplicateProtected g visible p.2

/-- The protected overloads of a part `vis` of the list `cd->visible` that are not
duplicates among those of the whole list `visible`. -/
def wrappedOverloadsOf (g : generatorFlags) (visible vis : List visibleList) :
    List (classDef × overDef) :=
  (protectedOverloads vis).filter fun p => !isDuplicateProtected g visible p.2

/-- Whether an overload has the shape of another: it is that overload, or it has its name
and, strictly, its signature. -/
def sameShape (g : generatorFlags) (target od : overDef) : Bool :=
  decide (od.addr = target.addr) || sameProtected g od target

/-- The protected overloads that the loops visit, in the order of the visits. -/
def visitedOverloads (visible : List visibleList) : List overDef :=
  (protectedOverloads visible).map Prod.snd

/-- The method `Foo::g` of the class `Foo`. -/
def memberG : memberDef := { addr := 2, pyname := "g" }

/-- Two protected overloads `f(struct Foo *)` and `f(struct ::Foo *)` of the member `f`. -/
def scopedOverloads : List overDef :=
  [{ addr := 1, cppname := "f", isProtected := true, common := memberF,
      pysig := .mk voidResult [structArg ["Foo"]],
      cppsig := .mk voidResult [structArg ["Foo"]], cppsigIsPysig := true },
    { addr := 2, cppname := "f", isProtected := true, common := memberF,
      pysig := .mk voidResult [structArg ["", "Foo"]],
      cppsig := .mk voidResult [structArg ["", "Foo"]], cppsigIsPysig := true }]

/-- The members visible from the class `Foo`: the member `f` with the two overloads. -/
def scopedVisible : List visibleList :=
  [{ m := memberF, cd := plainClass, overs := scopedOverloads }]

/-- The protected C++ method `f(int)` given under the two Python names `f` and `g`, and
the protected method `f(const char *)`. -/
def renamedOverloads : List overDef :=
  [{ addr := 1, cppname := "f", isProtected := true, common := memberF,
      pysig := .mk voidResult [intArg], cppsig := .mk voidResult [intArg],
      cppsigIsPysig := true },
    { addr := 2, cppname := "f", isProtected := true, common := memberG,
      pysig := .mk voidResult [intArg], cppsig := .mk voidResult [intArg],
      cppsigIsPysig := true },
    { addr := 3, cppname := "f", isProtected := true, common := memberF,
      pysig := .mk voidResult [asciiArg], cppsig := .mk voidResult [asciiArg],
      cppsigIsPysig := true }]

/-- The members visible from the class `Foo`: the members `f` and `g`. -/
def renamedVisible : List visibleList :=
  [{ m := memberF, cd := plainClass, overs := renamedOverloads },
    { m := memberG, cd := plainClass, overs := renamedOverloads }]

/-! ## The cast to zero (`generateCastZero`) -/

/-- The function `prEnumMemberScope`: the scope of a member of an unscoped enum.  The
member is given by its enum `emd->ed` and the class `emd->ed->ecd`, which the C function
dereferences without a test. -/
def prEnumMemberScope (ed : enumDef) (ecd : classDef) : List genEvent :=
  if ed.isProtectedEnum then [genEvent.prcode "sip%C" [.snd ecd.iff.fqcname]]
  else if ecd.isProtectedClass then [genEvent.prcode "%U" [.cd ecd]]
  else [genEvent.prcode "%S" [.snd ecd.iff.fqcname]]

/-- The function `generateCastZero`: generate a cast to zero.  The members of an enum
point back to it, so that `ed->members->ed` is `ed`.  The case of `enum_type` ends
without a `break` when the enum has no member: control goes on into the cases of the
Python objects. -/
def generateCastZero (ad : argDef) : List genEvent :=
  match ad.atype with
  | .enum_type =>
    let ed := ad.u.getEd
    match ed.members with
    | emd :: _ =>
      (if ed.isScopedEnum then [genEvent.prcode "%E" [.ed ed]]
       else match ed.ecd with
         | some ecd => prEnumMemberScope ed ecd
         | none => []) ++
      [genEvent.prcode "::%s" [.s emd.cname]]
    | [] => [genEvent.prcode "(%E)0" [.ed ed], genEvent.prcode "SIP_NULLPTR" []]
  | .pyobject_type | .pytuple_type | .pylist_type | .pydict_type | .pycallable_type
  | .pyslice_type | .pytype_type | .pybuffer_type | .pyenum_type | .ellipsis_type =>
    [genEvent.prcode "SIP_NULLPTR" []]
  | _ => [genEvent.prcode "0" []]

/-! ## The parts of a module (`generateCpp`) -/

/-- The value of an `int` expression whose mathematical value is `x`, on a machine whose
`int` has 32 bits and wraps; in C the overflow is undefined. -/
def wrapInt (x : Int) : Int := (x + 2147483648) % 4294967296 - 2147483648

/-- The test `iff->module == mod && iff->type != exception_iface` of `generateCpp`: the
interface files that get generated code in the module. -/
def isPartFile (mod : moduleDef) (iff : ifaceFileDef) : Bool :=
  iff.module == mod.addr && iff.type != .exception_iface

/-- The loop of `generateCpp` that counts the files: `++nr_files` for every interface file
of the module that is not an exception. -/
def nrFilesLoop (mod : moduleDef) : List ifaceFileDef → Int → Int
  | [], nr_files => nr_files
  | iff :: next, nr_files =>
    if isPartFile mod iff then nrFilesLoop mod next (wrapInt (nr_files + 1))
    else nrFilesLoop mod next nr_files

/-- The assignment `max_per_part = (nr_files + parts - 1) / parts` of `generateCpp`, the
division of C truncating. -/
def maxPerPart (nr_files parts : Int) : Int :=
  Int.tdiv (wrapInt (wrapInt (nr_files + parts) - 1)) parts

/-- The calls of `generateCpp` that can fail while the parts are written, as functions of
what they are given: `closeFile` of the file of a part (negative on failure),
`createCompilationUnit` of the file of a part (`false` for `NULL`) and `generateIfaceCpp`
of an interface file with its `need_postinc` and whether a file is passed to it (negative
on failure). -/
structure partCalls where
  closeFile : Int → Int
  createCompilationUnit : Int → Bool
  generateIfaceCpp : ifaceFileDef → Bool → Bool → Int

/-- A call of `generateIfaceCpp` by `generateCpp`: the part whose file is open, the
interface file, `need_postinc` and whether the file of the part is passed (the last
argument is `fp`, not `NULL`), so that the code of the interface file goes to the part. -/
structure partFile where
  part : Int
  iff : ifaceFileDef
  need_postinc : Bool
  toPart : Bool
  deriving DecidableEq, Repr

/-- The loop of `generateCpp` that generates the interface source files, from the values
of `files_in_part` and `this_part`: the final `this_part` and the calls of
`generateIfaceCpp`, or `none` where the C function returns `NULL`.  With `parts` zero the
two counters are not initialised and not read. -/
def generateCppLoop (env : partCalls) (mod : moduleDef) (parts max_per_part : Int) :
    List ifaceFileDef → Int → Int → Option (Int × List partFile)
  | [], _, this_part => some (this_part, [])
  | iff :: next, files_in_part, this_part =>
    if isPartFile mod iff then
      let toPart := parts != 0 && iff.file_extension.isNone
      if parts != 0 && files_in_part == max_per_part then
        if env.closeFile this_part < 0 then none
        else
          let this_part := wrapInt (this_part + 1)
          if !env.createCompilationUnit this_part then none
          else if env.generateIfaceCpp iff true toPart < 0 then none
          else
            (generateCppLoop env mod parts max_per_part next 1 this_part).map
              (fun r => (r.1, { part := this_part, iff := iff, need_postinc := true,
                                toPart := toPart } :: r.2))
      else
        let files_in_part := if parts != 0 then wrapInt (files_in_part + 1) else files_in_part
        if env.generateIfaceCpp iff false toPart < 0 then none
        else
          (generateCppLoop env mod parts max_per_part next files_in_part this_part).map
            (fun r => (r.1, { part := this_part, iff := iff, need_postinc := false,
                              toPart := toPart } :: r.2))
    else generateCppLoop env mod parts max_per_part next files_in_part this_part

/-- What `generateCpp` leaves of the splitting into parts: the value of `max_per_part`,
the value stored in `mod->parts` and the calls of `generateIfaceCpp`. -/
structure partsResult where
  max_per_part : Int
  parts : Int
  files : List partFile
  deriving DecidableEq, Repr

/-- The function `generateCpp`, as far as the parts are concerned: the count of the
files, the file of part 0 with the module code, the loop over the interface files, and
`mod->parts`.  The result is `none` where the C function returns `NULL` before
`mod->parts` is set. -/
def generateCpp (env : partCalls) (ifacefiles : List ifaceFileDef) (mod : moduleDef)
    (parts : Int) : Option partsResult :=
  let max_per_part := if parts != 0 then maxPerPart (nrFilesLoop mod ifacefiles 1) parts else 0
  if !env.createCompilationUnit 0 then none
  else
    match generateCppLoop env mod parts max_per_part ifacefiles 1 0 with
    | none => none
    | some (this_part, files) =>
      if env.closeFile this_part < 0 then none
      else
        some { max_per_part := max_per_part,
               parts := if parts != 0 then wrapInt (this_part + 1) else parts,
               files := files }

/-- The number of files that the part `p` receives: the module code, which is in part 0,
and each interface file whose code is written to the file of the part. -/
def filesInPart (files : List partFile) (p : Int) : Nat :=
  (if p = 0 then 1 else 0) + (files.filter (fun c => c.part == p && c.toPart)).length

/-- Calls that all succeed. -/
def partCallsOk : partCalls :=
  { closeFile := fun _ => 0, createCompilationUnit := fun _ => true,
    generateIfaceCpp := fun _ _ _ => 0 }

/-- The interface file of a class of the module of address 0. -/
def classFile (name : String) : ifaceFileDef := { fqcname := [name] }

/-! ## The text that `prcode` writes -/

/-- The output file of `prcode` together with the global `currentLineNr`: the characters
written so far and the line counter (an `int`, taken to stay below `INT_MAX`). -/
structure outFile where
  text : List Char := []
  currentLineNr : Int := 0
  deriving DecidableEq, Repr

/-- The C library's `fputc`: write one character. -/
def fputc (c : Char) (fp : outFile) : outFile := { fp with text := fp.text ++ [c] }

/-- The statement `++currentLineNr`. -/
def incLineNr (fp : outFile) : outFile := { fp with currentLineNr := fp.currentLineNr + 1 }

/-- The C library's `isprint` in the "C" locale: the characters from the space to the
tilde. -/
def isprint (c : Char) : Bool := decide (32 ≤ c.toNat ∧ c.toNat ≤ 126)

/-- The digit character of a value below 10. -/
def digitChar (n : Nat) : Char := Char.ofNat (48 + n)

/-- The C library's `fprintf(fp, "\\%03o", n)` for a value below 512: a backslash and the
three octal digits of the value. -/
def fprintfOctal (n : Nat) (fp : outFile) : outFile :=
  { fp with text := fp.text ++
      ['\\', digitChar (n / 64 % 8), digitChar (n / 8 % 8), digitChar (n % 8)] }

/-- The C library's `fprintf(fp, "%d", v)`: the decimal digits of the value, after a minus
sign when it is negative. -/
def fprintfDecimal (v : Int) (fp : outFile) : outFile :=
  { fp with text := fp.text ++
      (if v < 0 then '-' :: Nat.toDigits 10 v.natAbs else Nat.toDigits 10 v.natAbs) }

/-- The loop of the case `'s'` of `prcode`: write the characters of a string, counting
the lines. -/
def prcodeString : List Char → outFile → outFile
  | [], fp => fp
  | c :: cp, fp => prcodeString cp (fputc c (if c = '\n' then incLineNr fp else fp))

/-- The `switch` of `prcode` on the character after a `%`, other than the end of the
format: the arguments left and the file, or `none` for a directive whose printer is not
embedded here or whose argument is not of its kind.  The case `'c'` counts a line for a
newline and then writes the character only if it is printable, and else its octal
escape. -/
def prcodeDirective (ch : Char) (ap : List prArg) (fp : outFile) :
    Option (List prArg × outFile) :=
  if ch = 'c' then
    match ap with
    | .c c :: ap =>
      let fp := if c = '\n' then incLineNr fp else fp
      some (ap, if isprint c then fputc c fp else fprintfOctal (c.toNat % 256) fp)
    | _ => none
  else if ch = 'd' then
    match ap with
    | .d v :: ap => some (ap, fprintfDecimal v fp)
    | _ => none
  else if ch = 's' then
    match ap with
    | .s cp :: ap => some (ap, prcodeString cp.data fp)
    | _ => none
  else if ch = '\n' then some (ap, incLineNr (fputc '\n' fp))
  else if ch ∈ ['a', 'A', 'b', 'B', 'C', 'D', 'E', 'F', 'g', 'I', 'l', 'L', 'M', 'n', 'N',
      'O', 'S', 'T', 'u', 'U', 'V', 'x', 'X'] then none
  else some (ap, fputc ch fp)

/-- The loop of `prcode` over the characters of the format.  A `%` that ends the format is
written as it is. -/
def prcodeLoop : List Char → List prArg → outFile → Option outFile
  | [], _, fp => some fp
  | ch :: fmt, ap, fp =>
    if ch = '%' then
      match fmt with
      | [] => some (fputc '%' fp)
      | ch :: fmt =>
        match prcodeDirective ch ap fp with
        | none => none
        | some (ap, fp) => prcodeLoop fmt ap fp
    else if ch = '\n' then prcodeLoop fmt ap (incLineNr (fputc '\n' fp))
    else prcodeLoop fmt ap (fputc ch fp)

/-- The function `prcode`: print formatted code, as the text written and the line counter,
for the formats made of plain characters and of the directives `%s`, `%c` and `%d`. -/
def prcode (fmt : String) (ap : List prArg) (fp : outFile) : Option outFile :=
  prcodeLoop fmt.data ap fp

/-- The number of newline characters in a text. -/
def newlines (text : List Char) : Nat := text.count '\n'

/-! ## String literals (`generateExpression`) -/

/-- The test `strchr(s, c) != NULL` of the C library, for a character `c` other than the
terminator. -/
def strchr (s : String) (c : Char) : Bool := s.data.contains c

/-- The body of the loop of the case `string_value` of `generateExpression`, for one
character of the string. -/
def generateStringChar (ch : Char) (fp : outFile) : Option outFile :=
  let r : Bool × Char :=
    if strchr "\\\"" ch then (true, ch)
    else if ch = '\n' then (true, 'n')
    else if ch = '\r' then (true, 'r')
    else if ch = '\t' then (true, 't')
    else (false, ch)
  prcode "%s%c" [.s (if r.1 then "\\" else ""), .c r.2] fp

/-- The loop of the case `string_value` of `generateExpression` over the characters of
the string. -/
def generateStringChars : List Char → outFile → Option outFile
  | [], fp => some fp
  | ch :: cp, fp =>
    match generateStringChar ch fp with
    | none => none
    | some fp => generateStringChars cp fp

/-- The case `string_value` of `generateExpression`: the string `vd->u.vstr` between two
quotes, which are escaped inside a string. -/
def generateStringValue (in_str : Bool) (vstr : List Char) (fp : outFile) : Option outFile :=
  let quote := if in_str then "\\\"" else "\""
  match prcode "%s" [.s quote] fp with
  | none => none
  | some fp =>
    match generateStringChars vstr fp with
    | none => none
    | some fp => prcode "%s" [.s quote] fp

/-! ### Reading a string literal of C -/

/-- Whether a character is an octal digit. -/
def isOctalDigit (c : Char) : Bool := decide (48 ≤ c.toNat ∧ c.toNat ≤ 55)

/-- The value of a simple escape sequence of C, from the character after the backslash. -/
def simpleEscape (c : Char) : Option Char :=
  if c = 'n' then some '\n'
  else if c = 'r' then some '\r'
  else if c = 't' then some '\t'
  else if c = '\\' then some '\\'
  else if c = '"' then some '"'
  else if c = '\'' then some '\''
  else if c = '?' then some '?'
  else if c = 'a' then some (Char.ofNat 7)
  else if c = 'b' then some (Char.ofNat 8)
  else if c = 'f' then some (Char.ofNat 12)
  else if c = 'v' then some (Char.ofNat 11)
  else none

/-- The character of an octal escape sequence with the given digits, when its value is
that of a byte. -/
def octalEscape (digits : List Char) : Option Char :=
  let v := digits.foldl (fun acc d => 8 * acc + (d.toNat - 48)) 0
  if v < 256 then some (Char.ofNat v) else none

/-- The character that an escape sequence of C denotes, from the text after the
backslash, and the number of characters of that text that it takes: a simple escape
sequence, or an octal one of one to three digits.  An unknown escape sequence and the
hexadecimal and universal ones (which the generator never writes) give `none`. -/
def readEscape : List Char → Option (Char × Nat)
  | [] => none
  | e :: rest =>
    if isOctalDigit e then
      let digits := e :: (rest.take 2).takeWhile isOctalDigit
      match octalEscape digits with
      | some v => some (v, digits.length)
      | none => none
    else
      match simpleEscape e with
      | some v => some (v, 1)
      | none => none

/-- The characters that the body of a C string literal denotes, read up to the closing
quote, which must end the text: a plain character denotes itself, a backslash starts an
escape sequence.  The number `skip` is the number of characters still to pass over, which
belong to the escape sequence just read.  A newline inside the literal and a missing
quote give `none`. -/
def readStringBody : List Char → Nat → Option (List Char)
  | [], _ => none
  | _ :: rest, skip + 1 => readStringBody rest skip
  | c :: rest, 0 =>
    if c = '"' then (if rest.isEmpty then some [] else none)
    else if c = '\n' then none
    else if c = '\\' then
      match readEscape rest with
      | none => none
      | some (v, used) =>
        match readStringBody rest used with
        | some s => some (v :: s)
        | none => none
    else
      match readStringBody rest 0 with
      | some s => some (c :: s)
      | none => none

/-- The characters that a C string literal denotes: the text is an opening quote, the
body and the closing quote. -/
def readStringLiteral : List Char → Option (List Char)
  | [] => none
  | c :: rest => if c = '"' then readStringBody rest 0 else none

/-- The text by which the claim has a character of a string written in a literal: an
escape sequence for a quote, a backslash, a newline, a carriage return, a tab and a
character that is not printable, and the character itself otherwise. -/
def escapedChar (c : Char) : List Char :=
  if c = '"' then ['\\', '"']
  else if c = '\\' then ['\\', '\\']
  else if c = '\n' then ['\\', 'n']
  else if c = '\r' then ['\\', 'r']
  else if c = '\t' then ['\\', 't']
  else if isprint c then [c]
  else ['\\', digitChar (c.toNat / 64 % 8), digitChar (c.toNat / 8 % 8),
    digitChar (c.toNat % 8)]

/-- The text by which the claim has the characters of a string written in a literal,
between the quotes. -/
def escapedString : List Char → List Char
  | [] => []
  | c :: s => escapedChar c ++ escapedString s

/-! ## Sorted tables (`createFunctionTable`, `createMethodTable`, `generateEnumMemberTable`)

An array of pointers on the heap is the list of its entries, a zeroed entry (`NULL`) being
`none`.  Writing past the end of an array, and reading a `NULL` entry where the code
dereferences it, is an error, `none`. -/

/-- The function `sipCalloc` of heap.c for an array of `nr` pointers: the entries are all
zeroed.  `calloc` is taken to succeed (the code asserts it). -/
def sipCalloc {α : Type} (nr : Nat) : List (Option α) := List.replicate nr none

/-- The store `*p = v` through a pointer to entry `i` of an array; past the end of the
array it is an error. -/
def storeEntry {α : Type} (tab : List (Option α)) (i : Nat) (v : α) :
    Option (List (Option α)) :=
  if i < tab.length then some (tab.set i (some v)) else none

/-- A loop that stores values through a pointer that it increments after each store
(`mt->md = md; ++mt;` or `*et++ = emd;`), from entry `i`: the array and the position of
the pointer afterwards. -/
def storeAll {α : Type} : List α → List (Option α) → Nat → Option (List (Option α) × Nat)
  | [], tab, i => some (tab, i)
  | v :: rest, tab, i =>
    match storeEntry tab i v with
    | none => none
    | some tab => storeAll rest tab (i + 1)

/-- The values of the entries of an array when none of them is `NULL`. -/
def entries {α : Type} : List (Option α) → Option (List α)
  | [] => some []
  | none :: _ => none
  | some v :: rest =>
    match entries rest with
    | none => none
    | some vs => some (v :: vs)

/-- The C library's `qsort(base, nmemb, size, compar)` on an array of pointers that
`compar` dereferences: the first `nmemb` entries in an order in which `compar` is never
positive on an entry and a later one.  The order of entries that compare equal is not
specified by C; the model keeps the order of an insertion sort.  A number of entries
above the size of the array and a `NULL` entry among them are errors. -/
def qsort {α : Type} (base : List (Option α)) (nmemb : Nat) (compar : α → α → Int) :
    Option (List α) :=
  if nmemb ≤ base.length then
    match entries (base.take nmemb) with
    | none => none
    | some vs => some (vs.insertionSort (fun a b => compar a b ≤ 0))
  else none

/-- The function `compareMethTab`: the `qsort` helper that compares two `sortedMethTab`
structures, given by their members `md`, by the Python name of the method. -/
def compareMethTab (m1 m2 : memberDef) : Int := strcmp m1.pyname m2.pyname

/-- The first loop of `createFunctionTable`: `++nr` for each member, in the arithmetic of
`int`. -/
def functionTableCount : List memberDef → Int → Int
  | [], nr => nr
  | _ :: next, nr => functionTableCount next (wrapInt (nr + 1))

/-- The function `createFunctionTable`: "return a sorted array of relevant functions for
a namespace".  The result is the value stored in `*nrp` and the array returned, `NULL`
being `none`.  A negative count cannot be allocated. -/
def createFunctionTable (members : List memberDef) :
    Option (Int × Option (List memberDef)) :=
  let nr := functionTableCount members 0
  if nr = 0 then some (nr, none)
  else if nr < 0 then none
  else
    match storeAll members (sipCalloc nr.toNat) 0 with
    | none => none
    | some (mtab, _) =>
      match qsort mtab nr.toNat compareMethTab with
      | none => none
      | some mtab => some (nr, some mtab)

/-- The inner loop of the first pass of `createMethodTable` over the overloads of a
visible member: `++nr` and `break` at the first overload that is not skipped. -/
def methodTableCountOvers (cd : classDef) (vl : visibleList) : List overDef → Int → Int
  | [], nr => nr
  | od :: next, nr =>
    if od.isProtected && !cd.hasShadow then methodTableCountOvers cd vl next nr
    else if skipOverload od vl.m cd vl.cd true then methodTableCountOvers cd vl next nr
    else wrapInt (nr + 1)

/-- The first pass of `createMethodTable` over the visible members: the count of the
applicable methods. -/
def methodTableCount (cd : classDef) : List visibleList → Int → Int
  | [], nr => nr
  | vl :: next, nr =>
    if vl.m.slot ≠ .no_slot then methodTableCount cd next nr
    else methodTableCount cd next (methodTableCountOvers cd vl vl.overs nr)

/-- The inner loop of the second pass of `createMethodTable` over the overloads of a
visible member: the value of `need_method`. -/
def methodTableNeed (cd : classDef) (vl : visibleList) : List overDef → Bool → Bool
  | [], need_method => need_method
  | od :: next, need_method =>
    if od.isProtected && !cd.hasShadow then methodTableNeed cd vl next need_method
    else if !skipOverload od vl.m cd vl.cd true then methodTableNeed cd vl next true
    else methodTableNeed cd vl next need_method

/-- The second pass of `createMethodTable` over the visible members: the stores
`mt->md = vl->m; ++mt;` into the table, from entry `mt`. -/
def methodTableFill (cd : classDef) :
    List visibleList → List (Option memberDef) → Nat → Option (List (Option memberDef) × Nat)
  | [], mtab, mt => some (mtab, mt)
  | vl :: next, mtab, mt =>
    if vl.m.slot ≠ .no_slot then methodTableFill cd next mtab mt
    else if methodTableNeed cd vl vl.overs false then
      match storeEntry mtab mt vl.m with
      | none => none
      | some mtab => methodTableFill cd next mtab (mt + 1)
    else methodTableFill cd next mtab mt

/-- The function `createMethodTable`: "return a sorted array of relevant methods (either
lazy or non-lazy) for a class", from the class and its list `cd->visible`.  The result is
the value stored in `*nrp` and the array returned, `NULL` being `none`. -/
def createMethodTable (cd : classDef) (visible : List visibleList) :
    Option (Int × Option (List memberDef)) :=
  let nr := methodTableCount cd visible 0
  if nr = 0 then some (nr, none)
  else if nr < 0 then none
  else
    match methodTableFill cd visible (sipCalloc nr.toNat) 0 with
    | none => none
    | some (mtab, _) =>
      match qsort mtab nr.toNat compareMethTab with
      | none => none
      | some mtab => some (nr, some mtab)

/-- The visible members that get an entry in the table of `createMethodTable`: those
that are not slots and have an overload that is neither a protected one of a class
without shadow nor skipped. -/
def tableMethods (cd : classDef) (visible : List visibleList) : List memberDef :=
  (visible.filter fun vl =>
      decide (vl.m.slot = .no_slot) &&
        vl.overs.any fun od =>
          !(od.isProtected && !cd.hasShadow) && !skipOverload od vl.m cd vl.cd true).map
    fun vl => vl.m

/-- A function of a module, by its Python name. -/
def functionNamed (name : String) : memberDef := { pyname := name }

/-- The members visible from the class `Foo`, which has no shadow class: the method `f`
with its three overloads, a method `a` whose only overload is protected and a method `b`
with one public overload, all defined by `Foo`. -/
def tableVisible : List visibleList :=
  [{ m := memberF, cd := plainClass, overs := threeOverloads },
   { m := { addr := 2, pyname := "a" }, cd := plainClass,
     overs := [{ addr := 4, cppname := "a", common := { addr := 2, pyname := "a" },
                 isProtected := true }] },
   { m := { addr := 3, pyname := "b" }, cd := plainClass,
     overs := [{ addr := 5, cppname := "b", common := { addr := 3, pyname := "b" } }] }]

/-- The function `compareEnumMembers`: the `qsort` helper that compares two enum members,
each given with its enum `emd->ed`, by the Python name and then by the number of the
enum. -/
def compareEnumMembers (emd1 emd2 : enumDef × enumMemberDef) : Int :=
  let cmp := strcmp emd1.2.pyname emd2.2.pyname
  if cmp = 0 then
    if emd1.1.enumnr < emd2.1.enumnr then -1
    else if emd1.1.enumnr > emd2.1.enumnr then 1
    else cmp
  else cmp

/-- The tests of the first loop of `generateEnumMemberTable` on an enum: whether its
members are counted.  The function `pyScope` is not among the sources and is a parameter;
classes and mapped types are compared by address. -/
def enumMemberCounted (pyScope : Option classDef → Option classDef) (mod : moduleDef)
    (cd : Option classDef) (mtd : Option mappedTypeDef) (ed : enumDef) : Bool :=
  let ps := pyScope ed.ecd
  if ed.module ≠ mod.addr then false
  else
    match cd with
    | some cd =>
      if ps.map (fun c => c.addr) ≠ some cd.addr || (ed.isProtectedEnum && !cd.hasShadow)
      then false else true
    | none =>
      match mtd with
      | some mtd => if ed.emtd ≠ some mtd.addr then false else true
      | none => if ps.isSome || ed.emtd.isSome || ed.fqcname.isEmpty then false else true

/-- The tests of the second loop of `generateEnumMemberTable` on an enum: whether its
members are stored in the table.  For a class the only test is `ps != cd`. -/
def enumMemberStored (pyScope : Option classDef → Option classDef) (mod : moduleDef)
    (cd : Option classDef) (mtd : Option mappedTypeDef) (ed : enumDef) : Bool :=
  let ps := pyScope ed.ecd
  if ed.module ≠ mod.addr then false
  else
    match cd with
    | some cd => if ps.map (fun c => c.addr) ≠ some cd.addr then false else true
    | none =>
      match mtd with
      | some mtd => if ed.emtd ≠ some mtd.addr then false else true
      | none => if ps.isSome || ed.emtd.isSome || ed.fqcname.isEmpty then false else true

/-- The inner loop of the first pass of `generateEnumMemberTable`: `++nr_members` for each
member of an enum. -/
def enumMembersCount : List enumMemberDef → Int → Int
  | [], nr_members => nr_members
  | _ :: next, nr_members => enumMembersCount next (wrapInt (nr_members + 1))

/-- The first pass of `generateEnumMemberTable` over the enums of the specification: the
count of the members. -/
def enumMemberCount (pyScope : Option classDef → Option classDef) (mod : moduleDef)
    (cd : Option classDef) (mtd : Option mappedTypeDef) : List enumDef → Int → Int
  | [], nr_members => nr_members
  | ed :: next, nr_members =>
    if enumMemberCounted pyScope mod cd mtd ed then
      enumMemberCount pyScope mod cd mtd next (enumMembersCount ed.members nr_members)
    else enumMemberCount pyScope mod cd mtd next nr_members

/-- The second pass of `generateEnumMemberTable` over the enums of the specification: the
stores `*et++ = emd` into the table, from entry `et`. -/
def enumMemberFill (pyScope : Option classDef → Option classDef) (mod : moduleDef)
    (cd : Option classDef) (mtd : Option mappedTypeDef) :
    List enumDef → List (Option (enumDef × enumMemberDef)) → Nat →
      Option (List (Option (enumDef × enumMemberDef)) × Nat)
  | [], etab, et => some (etab, et)
  | ed :: next, etab, et =>
    if enumMemberStored pyScope mod cd mtd ed then
      match storeAll (ed.members.map fun emd => (ed, emd)) etab et with
      | none => none
      | some (etab, et) => enumMemberFill pyScope mod cd mtd next etab et
    else enumMemberFill pyScope mod cd mtd next etab et

/-- The line of the generated table for one enum member. -/
def enumMemberRow (emd : enumDef × enumMemberDef) : List genEvent :=
  [genEvent.prcode "    \x7b%N, " [.nd emd.2.pyname],
   genEvent.other "generateEnumMember" [.ed emd.1, .s emd.2.cname] [],
   genEvent.prcode ", %d\x7d,\n" [.d emd.1.enumnr]]

/-- The function `generateEnumMemberTable`: "generate the table of enum members for a
scope.  Return the number of them", from the enums `pt->enums` of the specification.  The
result is the output and the number returned, or `none` where a store passes the end of
the table or a `NULL` entry of the table is read. -/
def generateEnumMemberTable (pyScope : Option classDef → Option classDef)
    (enums : List enumDef) (mod : moduleDef) (cd : Option classDef)
    (mtd : Option mappedTypeDef) : Option (List genEvent × Int) :=
  let nr_members := enumMemberCount pyScope mod cd mtd enums 0
  if nr_members = 0 then some ([], 0)
  else if nr_members < 0 then none
  else
    match enumMemberFill pyScope mod cd mtd enums (sipCalloc nr_members.toNat) 0 with
    | none => none
    | some (etab, _) =>
      match qsort etab nr_members.toNat compareEnumMembers with
      | none => none
      | some etab =>
        some
          ((match cd, mtd with
            | none, none =>
              [genEvent.prcode "\n/* These are the enum members of all global enums. */\nstatic sipEnumMemberDef enummembers[] = \x7b\n" []]
            | some cd, _ =>
              [genEvent.prcode "\nstatic sipEnumMemberDef enummembers_%L[] = \x7b\n" [.scope (some cd.iff)]]
            | none, some mtd =>
              [genEvent.prcode "\nstatic sipEnumMemberDef enummembers_%L[] = \x7b\n" [.scope (some mtd.iff)]]) ++
            (etab.map enumMemberRow).flatten ++
            [genEvent.prcode "\x7d;\n" []],
           nr_members)

/-- The enums of the class `Foo`, which has no shadow class: the public enum `Foo::E1`
with the member `A` and the protected enum `Foo::E2` with the member `B`, both of the
module of address 0. -/
def fooEnums : List enumDef :=
  [{ addr := 1, fqcname := ["Foo", "E1"], ecd := some plainClass,
     members := [{ pyname := "A", cname := "A" }] },
   { addr := 2, fqcname := ["Foo", "E2"], ecd := some plainClass, isProtectedEnum := true,
     members := [{ pyname := "B", cname := "B" }], enumnr := 1 }]

/-! ## The catchers of the shadow class (`generateShadowClassDeclaration`) -/

/-- The loop of `generateShadowClassDeclaration` over the virtual members, "the catcher
around each virtual function in the hierarchy", at the member that follows those of
`before`, with the value of `noIntro`: the members for which a catcher is declared, each
with the output of its declaration. -/
def shadowCatcherDeclarations (abiVersion : Nat) (iff : ifaceFileDef)
    (before : List virtOverDef) :
    List virtOverDef → Bool → List (virtOverDef × List genEvent)
  | [], _ => []
  | vod :: rest, noIntro =>
    if isPrivate vod.od then
      shadowCatcherDeclarations abiVersion iff (before ++ [vod]) rest noIntro
    else if alreadyHandled abiVersion before vod.od then
      shadowCatcherDeclarations abiVersion iff (before ++ [vod]) rest noIntro
    else
      (vod,
        (if noIntro then
           [genEvent.prcode "\n    /*\n     * There is a protected method for every virtual method visible from\n     * this class.\n     */\nprotected:\n" []]
         else []) ++
        [genEvent.prcode "    " [],
         genEvent.other "generateOverloadDecl" [.scope (some iff), .s vod.od.cppname] [],
         genEvent.prcode ";\n" []]) ::
      shadowCatcherDeclarations abiVersion iff (before ++ [vod]) rest false

/-- The function `generateShadowClassDeclaration` from the catchers on: the declarations
of the catchers of the virtual members, the public and the private declarations, and the
array `sipPyMethods` with one entry for each member that `countVirtuals` counts.  What the
function writes before (the constructors, the destructor, the protected enums and
methods) does not depend on the virtual members. -/
def generateShadowClassDeclaration (abiVersion : Nat) (cd : classDef)
    (members : classMembers) : List genEvent :=
  let nrVirts := countVirtuals abiVersion members
  ((shadowCatcherDeclarations abiVersion cd.iff [] members.vmembers true).map
      fun d => d.2).flatten ++
    [genEvent.prcode "\npublic:\n    sipSimpleWrapper *sipPySelf;\n" [],
     genEvent.prcode "\nprivate:\n    sip%C(const sip%C &);\n    sip%C &operator = (const sip%C &);\n" [.snd cd.iff.fqcname, .snd cd.iff.fqcname, .snd cd.iff.fqcname, .snd cd.iff.fqcname]] ++
    (if nrVirts > 0 then
       [genEvent.prcode "\n    char sipPyMethods[%d];\n" [.d nrVirts]]
     else []) ++
    [genEvent.prcode "\x7d;\n" []]

/-- The virtual members that the loops select, at the member that follows those of
`before`: the members that are not private and that no member before them has already
handled. -/
def selectedVirtuals (abiVersion : Nat) (before : List virtOverDef) :
    List virtOverDef → List virtOverDef
  | [] => []
  | vod :: rest =>
    if !isPrivate vod.od && !alreadyHandled abiVersion before vod.od then
      vod :: selectedVirtuals abiVersion (before ++ [vod]) rest
    else selectedVirtuals abiVersion (before ++ [vod]) rest

/-! ## Declarations and uses of `sipSelfWasArg` and `sipOrigSelf` -/

/-- Whether an event is a call of `prcode` whose format holds the given text. -/
def genEvent.hasText (text : String) : genEvent → Bool
  | .prcode fmt _ => strstr fmt text
  | _ => false

/-- Whether an output declares `sipSelfWasArg`: a format of it holds the declaration
`bool sipSelfWasArg`. -/
def declaresSelfWasArg (out : List genEvent) : Bool :=
  (prcodesOf out).any (genEvent.hasText "bool sipSelfWasArg")

/-- Whether the generated code of an output refers to `sipSelfWasArg`: a format of it
holds the name other than in its declaration. -/
def usesSelfWasArg (out : List genEvent) : Bool :=
  (prcodesOf out).any fun ev =>
    ev.hasText "sipSelfWasArg" && !ev.hasText "bool sipSelfWasArg"

/-- Whether an output declares `sipOrigSelf`. -/
def declaresOrigSelf (out : List genEvent) : Bool :=
  (prcodesOf out).any (genEvent.hasText "PyObject *sipOrigSelf")

/-- Whether the generated code of an output refers to `sipOrigSelf` other than in its
declaration. -/
def usesOrigSelf (out : List genEvent) : Bool :=
  (prcodesOf out).any fun ev =>
    ev.hasText "sipOrigSelf" && !ev.hasText "PyObject *sipOrigSelf"

/-- A class `Bar` with a shadow class, derived from `Foo`. -/
def shadowedBar : classDef :=
  { addr := 6, iff := { fqcname := ["", "Bar"] }, pyname := "Bar", hasShadow := true }

/-- The overloads of the method `f` of the class `Foo`: a protected `void f(int)` that is
not virtual and a public virtual `void f(const char *)`. -/
def inheritedOverloads : List overDef :=
  [{ addr := 1, cppname := "f", common := memberF, isProtected := true,
     pysig := .mk voidResult [intArg], cppsig := .mk voidResult [intArg],
     cppsigIsPysig := true },
   { addr := 2, cppname := "f", common := memberF, isVirtual := true,
     pysig := .mk voidResult [asciiArg], cppsig := .mk voidResult [asciiArg],
     cppsigIsPysig := true }]

/-! ## Further example overloads -/

/-- A function `Py_ssize_t f()`. -/
def ssizeOnly : overDef :=
  { cppname := "f", pysig := .mk (.mk { atype := .ssize_type } .none) [] }

/-- A function `Py_ssize_t f(int *a0 /Out/)`, which returns two values. -/
def ssizeWithOut : overDef :=
  { cppname := "f",
    pysig := .mk (.mk { atype := .ssize_type } .none)
      [.mk { atype := .int_type, nrderefs := 1, isOutArg := true } .none] }

/-! ## The release code of a catch block, as the specification states it -/

/-- What the statements of a block must hold for the argument `ad` of index `a`, whenever
the argument has something to release: the `delete` of the instance created for an
out-argument; the `delete[]` (in C `sipFree`) of an array of classes or mapped types that
is not transferred; the `Py_DECREF` of the object kept for an encoded string; the
`sipFree` of the buffer of a wide string; the `sipReleaseType` of a value with conversion
code, with its state. -/
def releasesArgument (g : generatorFlags) (mod : moduleDef) (statements : List genEvent)
    (a : Nat) (ad : argDef) : Prop :=
  (needNewInstance ad = true →
    [genEvent.prcode "                delete %a;\n" [.mod mod, .ad ad, .d a]]
      <:+: statements) ∧
  (isArray ad = true → (ad.atype = .mapped_type ∨ ad.atype = .class_type) →
    isTransferred ad = false →
    [if g.generating_c then
        genEvent.prcode "            %ssipFree(%a);\n"
          [.s (if ad.atype = .class_type ∧ g.abiSupportsArray = true then "    " else ""),
            .mod mod, .ad ad, .d a]
      else
        genEvent.prcode "            %sdelete[] %a;\n"
          [.s (if ad.atype = .class_type ∧ g.abiSupportsArray = true then "    " else ""),
            .mod mod, .ad ad, .d a]]
      <:+: statements) ∧
  (isInArg ad = true →
    (ad.atype = .ascii_string_type ∨ ad.atype = .latin1_string_type ∨
      ad.atype = .utf8_string_type) →
    ad.nrderefs = 1 →
    [genEvent.prcode "            Py_%sDECREF(%aKeep);\n"
        [.s (if ad.defval ≠ none then "X" else ""), .mod mod, .ad ad, .d a]]
      <:+: statements) ∧
  (isInArg ad = true → ad.atype = .wstring_type → ad.nrderefs = 1 →
    [if g.generating_c = true ∨ isConstArg ad = false then
        genEvent.prcode "            sipFree(%a);\n" [.mod mod, .ad ad, .d a]
      else
        genEvent.prcode "            sipFree(const_cast<wchar_t *>(%a));\n"
          [.mod mod, .ad ad, .d a]]
      <:+: statements) ∧
  (isInArg ad = true → isArray ad = false → convertToCode ad ≠ [] →
    ¬ (ad.atype = .mapped_type ∧ ad.u.getMtd.noRelease = true) →
    ([genEvent.prcode "            sipReleaseType%s(" [.s (userStateSuffix g ad)],
        (if g.generating_c = true ∨ isConstArg ad = false then
          genEvent.prcode "%a" [.mod mod, .ad ad, .d a]
         else genEvent.prcode "const_cast<%b *>(%a)" [.ad ad, .mod mod, .ad ad, .d a]),
        genEvent.prcode ", sipType_%T, %aState" [.ad ad, .mod mod, .ad ad, .d a]] ++
      (if typeNeedsUserState ad then
        [genEvent.prcode ", %aUserState" [.mod mod, .ad ad, .d a]]
       else []) ++
      [genEvent.prcode ");\n" []])
      <:+: statements)

/-- A block releases what a signature holds: its statements, those of the generators it
calls included, hold the release of every argument of the signature. -/
def releasesSignature (g : generatorFlags) (mod : moduleDef) (sd : signatureDef)
    (block : List genEvent) : Prop :=
  ∀ p ∈ sd.args.enum, releasesArgument g mod (prcodesOf block) p.1 p.2

/-- A signature `void (const char *a0, Foo *a1 /Out/)`, with an encoded string and an
out-argument of a class. -/
def stringAndOut : signatureDef :=
  .mk voidResult
    [asciiArg, .mk { atype := .class_type, nrderefs := 1, isOutArg := true } (.cd { addr := 1 })]

/-! ## Lemmas on names -/

theorem strcmpChars_eq_zero_iff (cs ds : List Char) : strcmpChars cs ds = 0 ↔ cs = ds := by
  induction cs generalizing ds with
  | nil => cases ds <;> simp [strcmpChars]
  | cons c cs ih =>
    cases ds with
    | nil => simp [strcmpChars]
    | cons d ds =>
      simp only [strcmpChars]
      by_cases h1 : c.toNat < d.toNat
      · have hne : c ≠ d := by
          rintro rfl
          exact Nat.lt_irrefl _ h1
        simp [h1, hne]
      · by_cases h2 : d.toNat < c.toNat
        · have hne : c ≠ d := by
            rintro rfl
            exact Nat.lt_irrefl _ h2
          simp [h1, h2, hne]
        · have heq : c = d := by
            apply Char.ext
            apply UInt32.ext
            exact Nat.le_antisymm (Nat.le_of_not_lt h2) (Nat.le_of_not_lt h1)
          simp [h1, h2, heq, ih]

theorem strcmp_eq_zero_iff (s t : String) : strcmp s t = 0 ↔ s = t := by
  unfold strcmp
  rw [strcmpChars_eq_zero_iff]
  constructor
  · intro h
    exact String.ext h
  · intro h
    rw [h]

theorem compareScopedNamesLoop_eq_zero_iff (a b : scopedNameDef) :
    compareScopedNamesLoop a b = 0 ↔ a = b := by
  induction a generalizing b with
  | nil => cases b <;> simp [compareScopedNamesLoop]
  | cons n a ih =>
    cases b with
    | nil => simp [compareScopedNamesLoop]
    | cons m b =>
      simp only [compareScopedNamesLoop]
      by_cases h : strcmp n m = 0
      · have hnm : n = m := (strcmp_eq_zero_iff n m).1 h
        subst hnm
        simp [h, ih]
      · have hnm : n ≠ m := fun e => h ((strcmp_eq_zero_iff n m).2 e)
        simp [h, hnm]

theorem removeGlobalScope_of_not_global (a : scopedNameDef) (h : hasGlobalScope a = false) :
    removeGlobalScope a = a := by
  cases a with
  | nil => rfl
  | cons n a =>
    simp only [hasGlobalScope, decide_eq_false_iff_not] at h
    simp [removeGlobalScope, h]

/-- Between two names that agree on the explicit global scope, `compareScopedNames` is 0
exactly on equal names. -/
theorem compareScopedNames_eq_zero_iff (a b : scopedNameDef)
    (h : hasGlobalScope a = hasGlobalScope b) : compareScopedNames a b = 0 ↔ a = b := by
  unfold compareScopedNames
  cases b with
  | nil => simpa using compareScopedNamesLoop_eq_zero_iff a []
  | cons m b =>
    by_cases hm : m = ""
    · simpa [hm] using compareScopedNamesLoop_eq_zero_iff a ("" :: b)
    · have hb : hasGlobalScope (m :: b) = false := by simp [hasGlobalScope, hm]
      rw [hb] at h
      simp only [hm, ne_eq, not_false_eq_true, if_true]
      rw [removeGlobalScope_of_not_global a h]
      exact compareScopedNamesLoop_eq_zero_iff a (m :: b)

theorem compareScopedNames_zero_comm (a b : scopedNameDef)
    (h : hasGlobalScope a = hasGlobalScope b) :
    (compareScopedNames a b = 0) ↔ (compareScopedNames b a = 0) := by
  rw [compareScopedNames_eq_zero_iff a b h, compareScopedNames_eq_zero_iff b a h.symm]
  exact eq_comm

/-! ## Symmetry of the matcher between names of one scope style -/

theorem beq_zero_comm_of_iff {x y : Int} (h : x = 0 ↔ y = 0) : (x == 0) = (y == 0) := by
  by_cases hx : x = 0
  · have hy := h.1 hx
    simp [hx, hy]
  · have hy : ¬ y = 0 := fun e => hx (h.2 e)
    simp [hx, hy]

theorem argsScopeIs_cons (g : Bool) (ad : argDef) (rest : List argDef) :
    argsScopeIs g (ad :: rest) = (argScopeIs g ad && argsScopeIs g rest) := by
  rw [argsScopeIs]

theorem compareScopedNames_nil_right (a : scopedNameDef) :
    compareScopedNames a [] = 0 ↔ a = [] := by
  simpa [compareScopedNames] using compareScopedNamesLoop_eq_zero_iff a []

theorem compareScopedNames_nil_left (a : scopedNameDef) :
    compareScopedNames [] a = 0 ↔ a = [] := by
  have h := compareScopedNamesLoop_eq_zero_iff [] a
  cases a with
  | nil => simp [compareScopedNames, compareScopedNamesLoop]
  | cons m b =>
    by_cases hm : m = "" <;> simp [compareScopedNames, removeGlobalScope, hm, compareScopedNamesLoop]

theorem compareScopedNames_zero_comm_or (a b : scopedNameDef)
    (h : a = [] ∨ b = [] ∨ hasGlobalScope a = hasGlobalScope b) :
    (compareScopedNames a b == 0) = (compareScopedNames b a == 0) := by
  apply beq_zero_comm_of_iff
  rcases h with h | h | h
  · subst h
    rw [compareScopedNames_nil_left, compareScopedNames_nil_right]
  · subst h
    rw [compareScopedNames_nil_left, compareScopedNames_nil_right]
  · exact compareScopedNames_zero_comm a b h

/-- The chain of tests of `sameBaseType` on two different categories gives the same answer
in both orders. -/
theorem definedChain_symm (t1 t2 : argType) (x1 x2 x3 x4 x5 x6 : Bool) :
    (if t1 = .class_type ∧ t2 = .defined_type then x1
      else if t1 = .defined_type ∧ t2 = .class_type then x2
      else if t1 = .mapped_type ∧ t2 = .defined_type then x3
      else if t1 = .defined_type ∧ t2 = .mapped_type then x4
      else if t1 = .enum_type ∧ t2 = .defined_type then x5
      else if t1 = .defined_type ∧ t2 = .enum_type then x6
      else false)
    = (if t2 = .class_type ∧ t1 = .defined_type then x2
      else if t2 = .defined_type ∧ t1 = .class_type then x1
      else if t2 = .mapped_type ∧ t1 = .defined_type then x4
      else if t2 = .defined_type ∧ t1 = .mapped_type then x3
      else if t2 = .enum_type ∧ t1 = .defined_type then x6
      else if t2 = .defined_type ∧ t1 = .enum_type then x5
      else false) := by
  by_cases h1 : t1 = .defined_type
  · subst h1
    by_cases h2 : t2 = .class_type
    · subst h2; simp
    · by_cases h3 : t2 = .mapped_type
      · subst h3; simp
      · by_cases h4 : t2 = .enum_type
        · subst h4; simp
        · simp [h2, h3, h4]
  · by_cases h2 : t2 = .defined_type
    · subst h2
      by_cases h3 : t1 = .class_type
      · subst h3; simp
      · by_cases h4 : t1 = .mapped_type
        · subst h4; simp
        · by_cases h5 : t1 = .enum_type
          · subst h5; simp
          · simp [h3, h4, h5]
    · simp [h1, h2]

theorem ite_not_congr {p q : Prop} [Decidable p] [Decidable q] (h : p ↔ q) :
    (if ¬ p then false else true) = (if ¬ q then false else true) := by
  by_cases hp : p
  · have hq := h.1 hp
    simp [hp, hq]
  · have hq : ¬ q := fun e => hp (h.2 e)
    simp [hp, hq]

/-- Symmetry of `sameBaseType` when the two unions do not both hold a template. -/
theorem sameBaseType_symm_other (g : Bool) (c1 c2 : argCore) (u1 u2 : argU)
    (hu : ∀ t1 t2, u1 = .td t1 → u2 = .td t2 → False)
    (h1 : argScopeIs g (.mk c1 u1) = true) (h2 : argScopeIs g (.mk c2 u2) = true) :
    sameBaseType (.mk c1 u1) (.mk c2 u2) = sameBaseType (.mk c2 u2) (.mk c1 u1) := by
  rw [sameBaseType.eq_2 c1 u1 c2 u2 (fun _ _ _ _ _ _ e1 e2 => hu _ _ e1 e2),
    sameBaseType.eq_2 c2 u2 c1 u1 (fun _ _ _ _ _ _ e2 e1 => hu _ _ e1 e2)]
  by_cases hne : c1.atype = c2.atype
  · have hsn : (compareScopedNames u1.getSname u2.getSname == 0)
        = (compareScopedNames u2.getSname u1.getSname == 0) := by
      apply compareScopedNames_zero_comm_or
      cases u1 <;> cases u2 <;> simp_all [argScopeIs, argU.getSname]
    have hsd : (compareScopedNames u1.getSnd u2.getSnd == 0)
        = (compareScopedNames u2.getSnd u1.getSnd == 0) := by
      apply compareScopedNames_zero_comm_or
      cases u1 <;> cases u2 <;> simp_all [argScopeIs, argU.getSnd]
    have hsn2 : (compareScopedNames u1.getSname u2.getSname = 0)
        ↔ (compareScopedNames u2.getSname u1.getSname = 0) := by
      simpa using hsn
    have hsd2 : (compareScopedNames u1.getSnd u2.getSnd = 0)
        ↔ (compareScopedNames u2.getSnd u1.getSnd = 0) := by
      simpa using hsd
    simp only [hne, ne_eq, not_true_eq_false, if_false]
    cases c2.atype <;> simp only [] <;>
      first
        | rfl
        | exact ite_not_congr hsn2
        | exact ite_not_congr hsd2
        | exact ite_not_congr eq_comm
  · have hne2 : ¬ c2.atype = c1.atype := fun e => hne e.symm
    simp only [ne_eq, hne, hne2, not_false_eq_true, if_true]
    exact definedChain_symm _ _ _ _ _ _ _ _

/-- Symmetry of `sameBaseType` on two templates, from the symmetry of the loop over
their types. -/
theorem sameBaseType_symm_template (c1 c2 : argCore) (fq1 fq2 : scopedNameDef)
    (r1 r2 : argDef) (args1 args2 : List argDef)
    (hs : hasGlobalScope fq1 = hasGlobalScope fq2)
    (ih : args1.length = args2.length →
      sameTemplateArgs args1 args2 = sameTemplateArgs args2 args1) :
    sameBaseType (.mk c1 (.td (.mk fq1 (.mk r1 args1)))) (.mk c2 (.td (.mk fq2 (.mk r2 args2))))
      = sameBaseType (.mk c2 (.td (.mk fq2 (.mk r2 args2))))
          (.mk c1 (.td (.mk fq1 (.mk r1 args1)))) := by
  have hc := compareScopedNames_zero_comm fq1 fq2 hs
  rw [sameBaseType.eq_1, sameBaseType.eq_1]
  by_cases hne : c1.atype = c2.atype
  · simp only [hne, ne_eq, not_true_eq_false, if_false]
    cases c2.atype <;> simp only [] <;> try rfl
    by_cases hz : compareScopedNames fq1 fq2 = 0
    · have hz2 := hc.1 hz
      by_cases hl : args1.length = args2.length
      · simp [hz, hz2, hl, ih hl]
      · have hl2 : ¬ args2.length = args1.length := fun e => hl e.symm
        simp [hz, hz2, hl, hl2]
    · have hz2 : ¬ compareScopedNames fq2 fq1 = 0 := fun e => hz (hc.2 e)
      simp [hz, hz2]
  · have hne2 : ¬ c2.atype = c1.atype := fun e => hne e.symm
    simp only [ne_eq, hne, hne2, not_false_eq_true, if_true]
    exact definedChain_symm _ _ _ _ _ _ _ _

mutual
theorem sameBaseType_symm (g : Bool) : ∀ (a1 a2 : argDef),
    argScopeIs g a1 = true → argScopeIs g a2 = true → sameBaseType a1 a2 = sameBaseType a2 a1
  | .mk c1 u1, .mk c2 u2, h1, h2 => by
    cases u1 with
    | td t1 =>
      cases u2 with
      | td t2 =>
        cases t1 with
        | mk fq1 s1 =>
          cases s1 with
          | mk r1 args1 =>
            cases t2 with
            | mk fq2 s2 =>
              cases s2 with
              | mk r2 args2 =>
                simp only [argScopeIs, Bool.and_eq_true, beq_iff_eq] at h1 h2
                exact sameBaseType_symm_template c1 c2 fq1 fq2 r1 r2 args1 args2
                  (h1.1.trans h2.1.symm)
                  (fun hl => sameTemplateArgs_symm g args1 args2 hl h1.2 h2.2)
      | _ => exact sameBaseType_symm_other g _ _ _ _ (by intro _ _ _ e; cases e) h1 h2
    | _ => exact sameBaseType_symm_other g _ _ _ _ (by intro _ _ e; cases e) h1 h2
theorem sameTemplateArgs_symm (g : Bool) : ∀ (l1 l2 : List argDef), l1.length = l2.length →
    argsScopeIs g l1 = true → argsScopeIs g l2 = true →
    sameTemplateArgs l1 l2 = sameTemplateArgs l2 l1
  | [], [], _, _, _ => rfl
  | [], _ :: _, hl, _, _ => by simp at hl
  | _ :: _, [], hl, _, _ => by simp at hl
  | x :: r1, y :: r2, hl, h1, h2 => by
    rw [argsScopeIs_cons, Bool.and_eq_true] at h1 h2
    have hxy := sameBaseType_symm g x y h1.1 h2.1
    have hr := sameTemplateArgs_symm g r1 r2 (by simpa using hl) h1.2 h2.2
    rw [sameTemplateArgs, sameTemplateArgs, hxy, hr]
    by_cases hd : x.nrderefs = y.nrderefs
    · simp [hd]
    · have hd2 : ¬ y.nrderefs = x.nrderefs := fun e => hd e.symm
      simp [hd, hd2]
end

theorem sameArgType_symm (g : Bool) (abiVersion : Nat) (a1 a2 : argDef) (strict : Bool)
    (h1 : argScopeIs g a1 = true) (h2 : argScopeIs g a2 = true) :
    sameArgType abiVersion a1 a2 strict = sameArgType abiVersion a2 a1 strict := by
  have hb := sameBaseType_symm g a1 a2 h1 h2
  unfold sameArgType
  rw [hb]
  apply if_congr
  · constructor
    · rintro (h | h)
      · exact Or.inl (Ne.symm h)
      · exact Or.inr (Ne.symm h)
    · rintro (h | h)
      · exact Or.inl (Ne.symm h)
      · exact Or.inr (Ne.symm h)
  · rfl
  apply if_congr Iff.rfl
  · apply if_congr
    · exact ⟨Ne.symm, Ne.symm⟩
    · rfl
    · rfl
  apply if_congr
  · rw [Bool.and_comm]
  · exact Bool.decide_congr eq_comm
  apply if_congr
  · split_ifs
    · rw [Bool.or_comm]
      simp only [Bool.and_assoc, Bool.and_comm, Bool.and_left_comm]
    · rw [Bool.or_comm]
      simp only [Bool.and_assoc, Bool.and_comm, Bool.and_left_comm]
  · rfl
  apply if_congr (by rw [Bool.and_comm]) rfl
  apply if_congr (by rw [Bool.and_comm]) rfl
  apply if_congr (by rw [Bool.and_comm]) rfl
  apply if_congr (by rw [Bool.and_comm]) rfl
  apply if_congr (by rw [Bool.and_comm]) rfl
  apply if_congr (by rw [Bool.and_comm]) rfl
  rfl

theorem compulsoryArgs_eq_zero_iff (l : List argDef) :
    compulsoryArgs l = 0 ↔ l = [] ∨ ∃ a r, l = a :: r ∧ a.defval ≠ none := by
  cases l with
  | nil => simp [compulsoryArgs]
  | cons a r =>
    by_cases h : a.defval = none <;> simp [compulsoryArgs, h]

theorem sameSignatureArgs_loose_of_compulsory_zero (abiVersion : Nat) (l1 l2 : List argDef)
    (h : compulsoryArgs l1 = 0) : sameSignatureArgs abiVersion false l1 l2 = true := by
  rcases (compulsoryArgs_eq_zero_iff l1).1 h with h | ⟨a, r, h, hd⟩
  · subst h
    rfl
  · subst h
    simp [sameSignatureArgs, hd]

theorem sameSignatureArgs_symm_loose (g : Bool) (abiVersion : Nat) :
    ∀ (l1 l2 : List argDef), compulsoryArgs l1 = compulsoryArgs l2 →
      argsScopeIs g l1 = true → argsScopeIs g l2 = true →
      sameSignatureArgs abiVersion false l1 l2 = sameSignatureArgs abiVersion false l2 l1 := by
  intro l1
  induction l1 with
  | nil =>
    intro l2 hc _ _
    have h0 : compulsoryArgs l2 = 0 := by simpa [compulsoryArgs] using hc.symm
    rw [sameSignatureArgs_loose_of_compulsory_zero abiVersion l2 [] h0]
    rfl
  | cons a1 r1 ih =>
    intro l2 hc h1 h2
    by_cases hd : a1.defval = none
    · cases l2 with
      | nil => simp [compulsoryArgs, hd] at hc
      | cons a2 r2 =>
        by_cases hd2 : a2.defval = none
        · simp only [compulsoryArgs, hd, hd2, ne_eq, not_true_eq_false, if_false,
            Nat.add_right_cancel_iff] at hc
          rw [argsScopeIs_cons, Bool.and_eq_true] at h1 h2
          have hs := sameArgType_symm g abiVersion a1 a2 false h1.1 h2.1
          have hr := ih r2 hc h1.2 h2.2
          simp [sameSignatureArgs, hd, hd2, hs, hr]
        · simp [compulsoryArgs, hd, hd2] at hc
    · have h0 : compulsoryArgs (a1 :: r1) = 0 := by simp [compulsoryArgs, hd]
      rw [sameSignatureArgs_loose_of_compulsory_zero abiVersion _ l2 h0,
        sameSignatureArgs_loose_of_compulsory_zero abiVersion l2 _ (by rw [← hc, h0])]

theorem sameSignatureArgs_symm_strict (g : Bool) (abiVersion : Nat) :
    ∀ (l1 l2 : List argDef), l1.length = l2.length →
      argsScopeIs g l1 = true → argsScopeIs g l2 = true →
      sameSignatureArgs abiVersion true l1 l2 = sameSignatureArgs abiVersion true l2 l1 := by
  intro l1
  induction l1 with
  | nil =>
    intro l2 hl _ _
    cases l2 with
    | nil => rfl
    | cons a2 r2 => simp at hl
  | cons a1 r1 ih =>
    intro l2 hl h1 h2
    cases l2 with
    | nil => simp at hl
    | cons a2 r2 =>
      rw [argsScopeIs_cons, Bool.and_eq_true] at h1 h2
      have hs := sameArgType_symm g abiVersion a1 a2 true h1.1 h2.1
      have hr := ih r2 (by simpa using hl) h1.2 h2.2
      simp [sameSignatureArgs, hs, hr]

/-! ## Reflexivity of the matcher on well-formed arguments -/

theorem argsUnionOk_cons (ad : argDef) (rest : List argDef) :
    argsUnionOk (ad :: rest) = (argUnionOk ad && argsUnionOk rest) := by
  rw [argsUnionOk]

theorem compareScopedNames_self (a : scopedNameDef) : compareScopedNames a a = 0 :=
  (compareScopedNames_eq_zero_iff a a rfl).2 rfl

/-- Reflexivity of `sameBaseType` when the union does not hold a template. -/
theorem sameBaseType_refl_other (c : argCore) (u : argU) (hu : ∀ t, u ≠ .td t)
    (hc : c.atype ≠ .template_type) : sameBaseType (.mk c u) (.mk c u) = true := by
  rw [sameBaseType.eq_2 c u c u (fun _ _ _ _ _ _ e _ => hu _ e)]
  simp only [ne_eq, not_true_eq_false, if_false, compareScopedNames_self]
  revert hc
  cases c.atype <;> simp

mutual
theorem sameBaseType_refl : ∀ (a : argDef), argUnionOk a = true → sameBaseType a a = true
  | .mk c u, h => by
    cases u with
    | td t =>
      cases t with
      | mk fq s =>
        cases s with
        | mk r args =>
          simp only [argUnionOk, Bool.and_eq_true, decide_eq_true_eq] at h
          have ih := sameTemplateArgs_refl args h.2
          rw [sameBaseType.eq_1]
          simp [h.1, compareScopedNames_self, ih]
    | cd x =>
      exact sameBaseType_refl_other c _ (by intro _ e; cases e) (by simp [argUnionOk] at h; tauto)
    | ed x =>
      exact sameBaseType_refl_other c _ (by intro _ e; cases e) (by simp [argUnionOk] at h; tauto)
    | mtd x =>
      exact sameBaseType_refl_other c _ (by intro _ e; cases e) (by simp [argUnionOk] at h; tauto)
    | snd x =>
      exact sameBaseType_refl_other c _ (by intro _ e; cases e) (by simp [argUnionOk] at h; tauto)
    | sname x =>
      exact sameBaseType_refl_other c _ (by intro _ e; cases e) (by simp [argUnionOk] at h; tauto)
    | cap x =>
      exact sameBaseType_refl_other c _ (by intro _ e; cases e) (by simp [argUnionOk] at h; tauto)
    | none =>
      exact sameBaseType_refl_other c _ (by intro _ e; cases e) (by simp [argUnionOk] at h; tauto)
theorem sameTemplateArgs_refl : ∀ (l : List argDef), argsUnionOk l = true →
    sameTemplateArgs l l = true
  | [], _ => rfl
  | x :: r, h => by
    rw [argsUnionOk_cons, Bool.and_eq_true] at h
    have hx := sameBaseType_refl x h.1
    have hr := sameTemplateArgs_refl r h.2
    rw [sameTemplateArgs]
    simp [hx, hr]
end

/-- Reflexivity of `sameArgType` on a well-formed argument, for both values of `strict`. -/
theorem sameArgType_refl (abiVersion : Nat) (a : argDef) (strict : Bool)
    (h : argUnionOk a = true) : sameArgType abiVersion a a strict = true := by
  have hb := sameBaseType_refl a h
  unfold sameArgType
  simp only [ne_eq, not_true_eq_false, or_self, if_false, hb]
  cases strict <;> simp

/-! ## Loose matching looks at the compulsory arguments only -/

theorem compulsoryArgs_append_defaults (l extra : List argDef)
    (hdef : ∀ a ∈ extra, a.defval ≠ none) :
    compulsoryArgs (l ++ extra) = compulsoryArgs l := by
  induction l with
  | nil =>
    cases extra with
    | nil => rfl
    | cons e r =>
      have he := hdef e (List.mem_cons_self e r)
      simp [compulsoryArgs, he]
  | cons a r ih =>
    by_cases hd : a.defval = none <;> simp [compulsoryArgs, hd, ih]

theorem sameSignatureArgs_loose_eq_all (abiVersion : Nat) :
    ∀ (l1 l2 : List argDef), compulsoryArgs l1 = compulsoryArgs l2 →
      sameSignatureArgs abiVersion false l1 l2
        = ((l1.take (compulsoryArgs l1)).zip (l2.take (compulsoryArgs l2))).all
            (fun p => sameArgType abiVersion p.1 p.2 false) := by
  intro l1
  induction l1 with
  | nil =>
    intro l2 _
    simp [sameSignatureArgs, compulsoryArgs]
  | cons a1 r1 ih =>
    intro l2 hc
    by_cases hd : a1.defval = none
    · cases l2 with
      | nil => simp [compulsoryArgs, hd] at hc
      | cons a2 r2 =>
        by_cases hd2 : a2.defval = none
        · simp only [compulsoryArgs, hd, hd2, ne_eq, not_true_eq_false, if_false,
            Nat.add_right_cancel_iff] at hc
          have hr := ih r2 hc
          simp only [sameSignatureArgs, compulsoryArgs, hd, hd2, ne_eq, not_true_eq_false,
            if_false, hr, List.take_succ_cons, List.zip_cons_cons, List.all_cons]
          cases sameArgType abiVersion a1 a2 false <;> simp
        · simp [compulsoryArgs, hd, hd2] at hc
    · simp [sameSignatureArgs, compulsoryArgs, hd]

theorem sameSignatureArgs_loose_append_right (abiVersion : Nat) (extra : List argDef) :
    ∀ (l : List argDef), argsUnionOk l = true →
      sameSignatureArgs abiVersion false l (l ++ extra) = true := by
  intro l
  induction l with
  | nil => intro _; rfl
  | cons a r ih =>
    intro h
    rw [argsUnionOk_cons, Bool.and_eq_true] at h
    have ha := sameArgType_refl abiVersion a false h.1
    have hr := ih h.2
    by_cases hd : a.defval = none <;> simp [sameSignatureArgs, hd, ha, hr]

theorem sameSignatureArgs_loose_append_left (abiVersion : Nat) (extra : List argDef)
    (hdef : ∀ a ∈ extra, a.defval ≠ none) :
    ∀ (l : List argDef), argsUnionOk l = true →
      sameSignatureArgs abiVersion false (l ++ extra) l = true := by
  intro l
  induction l with
  | nil =>
    intro _
    apply sameSignatureArgs_loose_of_compulsory_zero
    rw [compulsoryArgs_append_defaults [] extra hdef]
    rfl
  | cons a r ih =>
    intro h
    rw [argsUnionOk_cons, Bool.and_eq_true] at h
    have ha := sameArgType_refl abiVersion a false h.1
    have hr := ih h.2
    by_cases hd : a.defval = none <;> simp [sameSignatureArgs, hd, ha, hr]

/-! ## Strict matching -/

theorem sameBaseType_strictView (a1 a2 : argDef) :
    sameBaseType (strictView a1) (strictView a2) = sameBaseType a1 a2 := by
  cases a1 with
  | mk c1 u1 =>
    cases a2 with
    | mk c2 u2 =>
      by_cases hu : ∃ t1 t2, u1 = .td t1 ∧ u2 = .td t2
      · obtain ⟨t1, t2, e1, e2⟩ := hu
        subst e1 e2
        cases t1 with
        | mk fq1 s1 =>
          cases s1 with
          | mk r1 args1 =>
            cases t2 with
            | mk fq2 s2 =>
              cases s2 with
              | mk r2 args2 =>
                simp only [strictView]
                rw [sameBaseType.eq_1, sameBaseType.eq_1]
      · have hu2 : ∀ (fq1 : scopedNameDef) (r1 : argDef) (l1 : List argDef)
            (fq2 : scopedNameDef) (r2 : argDef) (l2 : List argDef),
            u1 = .td (.mk fq1 (.mk r1 l1)) → u2 = .td (.mk fq2 (.mk r2 l2)) → False :=
          fun _ _ _ _ _ _ e1 e2 => hu ⟨_, _, e1, e2⟩
        simp only [strictView]
        rw [sameBaseType.eq_2 _ _ _ _ hu2, sameBaseType.eq_2 _ _ _ _ hu2]

theorem sameArgType_strict_iff (abiVersion : Nat) (a1 a2 : argDef) :
    sameArgType abiVersion a1 a2 true = true ↔
      isReference a1 = isReference a2 ∧ a1.nrderefs = a2.nrderefs ∧
        isConstArg a1 = isConstArg a2 ∧ sameBaseType a1 a2 = true := by
  unfold sameArgType
  by_cases h1 : isReference a1 = isReference a2 <;>
    by_cases h2 : a1.nrderefs = a2.nrderefs <;>
    by_cases h3 : isConstArg a1 = isConstArg a2 <;> simp [h1, h2, h3]

theorem sameArgType_strictView (abiVersion : Nat) (a1 a2 : argDef) :
    sameArgType abiVersion (strictView a1) (strictView a2) true
      = sameArgType abiVersion a1 a2 true := by
  have hb := sameBaseType_strictView a1 a2
  unfold sameArgType
  rw [hb]
  cases a1
  cases a2
  rfl

theorem sameSignatureArgs_strict_iff (abiVersion : Nat) :
    ∀ (l1 l2 : List argDef), l1.length = l2.length →
      (sameSignatureArgs abiVersion true l1 l2 = true ↔
        ∀ p ∈ l1.zip l2, sameArgType abiVersion p.1 p.2 true = true) := by
  intro l1
  induction l1 with
  | nil => intro l2 _; simp [sameSignatureArgs]
  | cons a1 r1 ih =>
    intro l2 hl
    cases l2 with
    | nil => simp at hl
    | cons a2 r2 =>
      have hr := ih r2 (by simpa using hl)
      simp only [sameSignatureArgs, Bool.not_true, Bool.false_and, Bool.false_eq_true,
        if_false, List.zip_cons_cons, List.mem_cons, forall_eq_or_imp]
      cases h : sameArgType abiVersion a1 a2 true <;> simp [hr]

theorem sameSignatureArgs_strictView (abiVersion : Nat) :
    ∀ (l1 l2 : List argDef),
      sameSignatureArgs abiVersion true (l1.map strictView) (l2.map strictView)
        = sameSignatureArgs abiVersion true l1 l2 := by
  intro l1
  induction l1 with
  | nil => intro l2; rfl
  | cons a1 r1 ih =>
    intro l2
    cases l2 with
    | nil => rfl
    | cons a2 r2 =>
      simp only [List.map_cons, sameSignatureArgs, sameArgType_strictView, ih, Bool.not_true,
        Bool.false_and, Bool.false_eq_true, if_false]

theorem sameTemplateArgs_eq_all :
    ∀ (l1 l2 : List argDef), l1.length = l2.length →
      sameTemplateArgs l1 l2
        = (l1.zip l2).all (fun p => decide (p.1.nrderefs = p.2.nrderefs) && sameBaseType p.1 p.2) := by
  intro l1
  induction l1 with
  | nil => intro l2 _; simp [sameTemplateArgs]
  | cons a1 r1 ih =>
    intro l2 hl
    cases l2 with
    | nil => simp at hl
    | cons a2 r2 =>
      have hr := ih r2 (by simpa using hl)
      rw [sameTemplateArgs, hr]
      by_cases hd : a1.nrderefs = a2.nrderefs <;> cases hb : sameBaseType a1 a2 <;>
        simp [hd, hb]

theorem sameBaseType_class (c1 c2 : argCore) (x y : classDef) :
    sameBaseType (.mk { c1 with atype := .class_type } (.cd x))
      (.mk { c2 with atype := .class_type } (.cd y)) = decide (x.addr = y.addr) := by
  rw [sameBaseType.eq_2 _ _ _ _ (by intro _ _ _ _ _ _ e; cases e)]
  by_cases h : x.addr = y.addr <;> simp [argU.getCd, h]

theorem sameBaseType_enum (c1 c2 : argCore) (x y : enumDef) :
    sameBaseType (.mk { c1 with atype := .enum_type } (.ed x))
      (.mk { c2 with atype := .enum_type } (.ed y)) = decide (x.addr = y.addr) := by
  rw [sameBaseType.eq_2 _ _ _ _ (by intro _ _ _ _ _ _ e; cases e)]
  by_cases h : x.addr = y.addr <;> simp [argU.getEd, h]

theorem sameBaseType_mapped (c1 c2 : argCore) (x y : mappedTypeDef) :
    sameBaseType (.mk { c1 with atype := .mapped_type } (.mtd x))
      (.mk { c2 with atype := .mapped_type } (.mtd y)) = decide (x.addr = y.addr) := by
  rw [sameBaseType.eq_2 _ _ _ _ (by intro _ _ _ _ _ _ e; cases e)]
  by_cases h : x.addr = y.addr <;> simp [argU.getMtd, h]

theorem sameBaseType_template (c1 c2 : argCore) (fq1 fq2 : scopedNameDef) (r1 r2 : argDef)
    (l1 l2 : List argDef) :
    sameBaseType (.mk { c1 with atype := .template_type } (.td (.mk fq1 (.mk r1 l1))))
        (.mk { c2 with atype := .template_type } (.td (.mk fq2 (.mk r2 l2))))
      = (decide (compareScopedNames fq1 fq2 = 0) && decide (l1.length = l2.length) &&
          (l1.zip l2).all
            (fun p => decide (p.1.nrderefs = p.2.nrderefs) && sameBaseType p.1 p.2)) := by
  rw [sameBaseType.eq_1]
  by_cases hz : compareScopedNames fq1 fq2 = 0
  · by_cases hl : l1.length = l2.length
    · simp [hz, hl, sameTemplateArgs_eq_all l1 l2 hl]
    · simp [hz, hl]
  · simp [hz]

/-! ## Loose matching on the categories that carry no union member -/

theorem sameBaseType_body_plain (c1 c2 : argCore) (u1 u2 : argU) (x : Bool)
    (h1 : readsUnion c1.atype = false) (h2 : readsUnion c2.atype = false) :
    (if c1.atype ≠ c2.atype then
        if c1.atype = .class_type ∧ c2.atype = .defined_type then
          compareScopedNames u1.getCd.iff.fqcname u2.getSnd == 0
        else if c1.atype = .defined_type ∧ c2.atype = .class_type then
          compareScopedNames u2.getCd.iff.fqcname u1.getSnd == 0
        else if c1.atype = .mapped_type ∧ c2.atype = .defined_type then
          compareScopedNames u1.getMtd.iff.fqcname u2.getSnd == 0
        else if c1.atype = .defined_type ∧ c2.atype = .mapped_type then
          compareScopedNames u2.getMtd.iff.fqcname u1.getSnd == 0
        else if c1.atype = .enum_type ∧ c2.atype = .defined_type then
          compareScopedNames u1.getEd.fqcname u2.getSnd == 0
        else if c1.atype = .defined_type ∧ c2.atype = .enum_type then
          compareScopedNames u2.getEd.fqcname u1.getSnd == 0
        else
          false
      else
        match c1.atype with
        | .class_type => if u1.getCd.addr ≠ u2.getCd.addr then false else true
        | .enum_type => if u1.getEd.addr ≠ u2.getEd.addr then false else true
        | .template_type => x
        | .struct_type | .union_type =>
          if compareScopedNames u1.getSname u2.getSname ≠ 0 then false else true
        | .defined_type =>
          if compareScopedNames u1.getSnd u2.getSnd ≠ 0 then false else true
        | .mapped_type => if u1.getMtd.addr ≠ u2.getMtd.addr then false else true
        | _ => true) = decide (c1.atype = c2.atype) := by
  have d1 : c1.atype ≠ .defined_type := by
    intro e
    simp [readsUnion, e] at h1
  have d2 : c2.atype ≠ .defined_type := by
    intro e
    simp [readsUnion, e] at h2
  by_cases he : c1.atype = c2.atype
  · simp only [he, ne_eq, not_true_eq_false, if_false, decide_True]
    revert h2
    cases c2.atype <;> simp [readsUnion]
  · simp [he, d1, d2]

/-- On two categories that carry no union member `sameBaseType` tests the equality of the
categories. -/
theorem sameBaseType_plain (a1 a2 : argDef) (h1 : readsUnion a1.atype = false)
    (h2 : readsUnion a2.atype = false) :
    sameBaseType a1 a2 = decide (a1.atype = a2.atype) := by
  cases a1 with
  | mk c1 u1 =>
    cases a2 with
    | mk c2 u2 =>
      by_cases hu : ∃ t1 t2, u1 = .td t1 ∧ u2 = .td t2
      · obtain ⟨t1, t2, e1, e2⟩ := hu
        subst e1 e2
        cases t1 with
        | mk fq1 s1 =>
          cases s1 with
          | mk r1 args1 =>
            cases t2 with
            | mk fq2 s2 =>
              cases s2 with
              | mk r2 args2 =>
                rw [sameBaseType.eq_1]
                exact sameBaseType_body_plain c1 c2 _ _ _ h1 h2
      · have hu2 : ∀ (fq1 : scopedNameDef) (r1 : argDef) (l1 : List argDef)
            (fq2 : scopedNameDef) (r2 : argDef) (l2 : List argDef),
            u1 = .td (.mk fq1 (.mk r1 l1)) → u2 = .td (.mk fq2 (.mk r2 l2)) → False :=
          fun _ _ _ _ _ _ e1 e2 => hu ⟨_, _, e1, e2⟩
        rw [sameBaseType.eq_2 _ _ _ _ hu2]
        exact sameBaseType_body_plain c1 c2 _ _ _ h1 h2

/-- Loose matching of two arguments with the same reference flag and number of
dereferences whose categories carry no union member: the chain of tests of `sameArgType`
on the two categories. -/
theorem sameArgType_loose_plain (abiVersion : Nat) (a1 a2 : argDef)
    (href : isReference a1 = isReference a2) (hder : a1.nrderefs = a2.nrderefs)
    (h1 : readsUnion a1.atype = false) (h2 : readsUnion a2.atype = false) :
    sameArgType abiVersion a1 a2 false =
      (if pyIsConstrained a1.atype && pyIsConstrained a2.atype then decide (a1.atype = a2.atype)
       else (pyAsString a1.atype && pyAsString a2.atype) ||
         (pyAsFloat a1.atype && pyAsFloat a2.atype) ||
         (pyAsInt a1.atype && pyAsInt a2.atype) ||
         (pyAsLong a1.atype && pyAsLong a2.atype) ||
         (pyAsULong a1.atype && pyAsULong a2.atype) ||
         (pyAsAuto a1.atype && pyAsAuto a2.atype) ||
         decide (a1.atype = a2.atype)) := by
  have e1 : a1.atype ≠ .enum_type := by
    intro e
    simp [readsUnion, e] at h1
  have e2 : a2.atype ≠ .enum_type := by
    intro e
    simp [readsUnion, e] at h2
  unfold sameArgType
  rw [sameBaseType_plain a1 a2 h1 h2]
  simp only [href, hder, ne_eq, not_true_eq_false, or_self, if_false, Bool.false_eq_true, e1,
    e2, decide_False, Bool.and_false, Bool.false_and, Bool.or_self, ite_self]
  cases pyIsConstrained a1.atype && pyIsConstrained a2.atype <;>
    cases pyAsString a1.atype && pyAsString a2.atype <;>
    cases pyAsFloat a1.atype && pyAsFloat a2.atype <;>
    cases pyAsInt a1.atype && pyAsInt a2.atype <;>
    cases pyAsLong a1.atype && pyAsLong a2.atype <;>
    cases pyAsULong a1.atype && pyAsULong a2.atype <;>
    cases pyAsAuto a1.atype && pyAsAuto a2.atype <;> simp

/-! ## The count of the virtual members -/

theorem alreadyHandled_append (abiVersion : Nat) (l1 l2 : List virtOverDef) (od : overDef) :
    alreadyHandled abiVersion (l1 ++ l2) od
      = (alreadyHandled abiVersion l1 od || alreadyHandled abiVersion l2 od) := by
  induction l1 with
  | nil => simp [alreadyHandled]
  | cons d r ih =>
    simp only [List.cons_append, alreadyHandled]
    split_ifs
    · simp
    · exact ih

theorem alreadyHandled_filter_split (abiVersion : Nat) (l : List virtOverDef) (od : overDef) :
    alreadyHandled abiVersion l od
      = (alreadyHandled abiVersion (l.filter (fun dvod => isPrivate dvod.od)) od ||
          alreadyHandled abiVersion (l.filter (fun dvod => !isPrivate dvod.od)) od) := by
  induction l with
  | nil => simp [alreadyHandled]
  | cons d r ih =>
    by_cases hp : isPrivate d.od = true
    · simp only [List.filter_cons, hp, if_true, Bool.not_true, Bool.false_eq_true, if_false,
        alreadyHandled, ih]
      split_ifs <;> simp
    · simp only [Bool.not_eq_true] at hp
      simp only [List.filter_cons, hp, Bool.false_eq_true, if_false, Bool.not_false, if_true,
        alreadyHandled, ih]
      split_ifs <;> simp

theorem countVirtualsLoop_shift (abiVersion : Nat) :
    ∀ (rest before : List virtOverDef) (nrvirts : Nat),
      countVirtualsLoop abiVersion before rest nrvirts
        = nrvirts + countVirtualsLoop abiVersion before rest 0 := by
  intro rest
  induction rest with
  | nil => intro _ n; simp [countVirtualsLoop]
  | cons v r ih =>
    intro before n
    simp only [countVirtualsLoop]
    split_ifs
    · exact ih _ _
    · rw [ih _ (n + 1), ih _ (0 + 1)]
      omega
    · exact ih _ _

/-- The loop of `generateShadowCode` when no catcher fails: it returns 0 and has called
`generateVirtualCatcher` once for each member that `countVirtuals` counts, with
consecutive numbers. -/
theorem generateShadowCatchers_ok (abiVersion : Nat) (catcher : Nat → virtOverDef → Int)
    (hc : ∀ virtNr vod, 0 ≤ catcher virtNr vod) :
    ∀ (rest before : List virtOverDef) (virtNr : Nat) (calls : List (Nat × virtOverDef)),
      (generateShadowCatchers abiVersion catcher before rest virtNr calls).1 = 0 ∧
        (generateShadowCatchers abiVersion catcher before rest virtNr calls).2.map Prod.fst
          = calls.map Prod.fst ++
              List.range' virtNr (countVirtualsLoop abiVersion before rest 0) := by
  intro rest
  induction rest with
  | nil => intro _ _ _; simp [generateShadowCatchers, countVirtualsLoop]
  | cons v r ih =>
    intro before virtNr calls
    have hcv : ¬ catcher virtNr v < 0 := not_lt.2 (hc virtNr v)
    simp only [generateShadowCatchers, countVirtualsLoop]
    split_ifs
    · exact ih _ _ _
    · have := ih (before ++ [v]) (virtNr + 1) (calls ++ [(virtNr, v)])
      refine ⟨this.1, ?_⟩
      rw [this.2, countVirtualsLoop_shift abiVersion r _ (0 + 1), Nat.zero_add,
        Nat.add_comm 1, List.range'_succ]
      simp
    · exact ih _ _ _

/-! ## The result formats -/

theorem parseResultFlags_lt (ad : argDef) (res_isref xfervh : Bool) :
    parseResultFlags ad res_isref xfervh < 8 := by
  unfold parseResultFlags
  simp only []
  split_ifs <;> decide

theorem type_formats_lookup (f : Nat) (h : f < 8) :
    ∃ s, type_formats[f]? = some s ∧ s ≠ " " ∧ s ≠ "" := by
  interval_cases f <;> exact ⟨_, rfl, by decide, by decide⟩

theorem type_formats_entry (f : Nat) (h : f < 8) :
    type_formats[f]? = some (String.mk ['H', Char.ofNat ('0'.toNat + f)]) := by
  interval_cases f <;> rfl

theorem getSubFormatFlags_le (ad : argDef) : getSubFormatFlags ad ≤ 31 := by
  unfold getSubFormatFlags
  simp only []
  split_ifs <;> decide

/-- The result formats on the categories that have a case: for every argument whose
category has a case in the switch of `getBuildResultFormat` and every combination of
flags, `getBuildResultFormat` returns a format code that is not its default, the empty
string; for every argument whose category has a case in the switch of
`getParseResultFormat`, and all values of `res_isref` and `xfervh`,
`getParseResultFormat` returns a format code, read inside its table, that is not its
default, a single blank; on an unresolved defined type or template, a function and the
ellipsis both return their default. -/
theorem resultFormat_defined (ad : argDef) (res_isref xfervh : Bool) :
    (inBuildResultSwitch ad.atype = true → getBuildResultFormat ad ≠ "") ∧
      (inParseResultSwitch ad.atype = true →
        ∃ s, getParseResultFormat ad res_isref xfervh = some s ∧ s ≠ " " ∧ s ≠ "") ∧
      (notReturned ad.atype = true →
        getBuildResultFormat ad = "" ∧
          getParseResultFormat ad res_isref xfervh = some " ") := by
  obtain ⟨s, hs, hs1, hs2⟩ :=
    type_formats_lookup _ (parseResultFlags_lt ad res_isref xfervh)
  refine ⟨?_, ?_, ?_⟩
  · intro h
    unfold getBuildResultFormat
    revert h
    cases ad.atype <;> intro h <;> first
      | (exact absurd h (by decide))
      | (simp only []; split_ifs <;> decide)
      | (simp only []; decide)
  · intro h
    unfold getParseResultFormat
    revert h
    cases ad.atype <;> intro h <;> first
      | (exact absurd h (by decide))
      | exact ⟨s, hs, hs1, hs2⟩
      | (simp only []; split_ifs <;> exact ⟨_, rfl, by decide, by decide⟩)
      | exact ⟨_, rfl, by decide, by decide⟩
  · intro h
    unfold getBuildResultFormat getParseResultFormat
    revert h
    cases ad.atype <;> intro h <;> first
      | (exact absurd h (by decide))
      | exact ⟨rfl, rfl⟩

/-! ## Lemmas on the exception guard and the cleanup -/

theorem deleteTempsLoop_append (g : generatorFlags) (mod : moduleDef) :
    ∀ (l1 l2 : List argDef) (a : Nat),
      deleteTempsLoop g mod (l1 ++ l2) a
        = deleteTempsLoop g mod l1 a ++ deleteTempsLoop g mod l2 (a + l1.length) := by
  intro l1
  induction l1 with
  | nil => intro l2 a; simp [deleteTempsLoop]
  | cons x r ih =>
    intro l2 a
    have e : a + 1 + r.length = a + (r.length + 1) := by omega
    rw [List.cons_append, deleteTempsLoop, deleteTempsLoop, ih, List.append_assoc,
      List.length_cons, e]

theorem generateCatchBlock_release (g : generatorFlags) (mod : moduleDef) (xd : exceptionDef)
    (sd : signatureDef) (rgil : Bool) :
    genEvent.call "deleteOuts" (deleteOuts mod sd) ∈ generateCatchBlock g mod xd (some sd) rgil ∧
      genEvent.call "deleteTemps" (deleteTemps g mod sd)
        ∈ generateCatchBlock g mod xd (some sd) rgil := by
  unfold generateCatchBlock
  simp

theorem generateCatch_guard (g : generatorFlags) (ta : Option throwArgs) :
    (g.exceptions &&
      (match ta with
        | none => true
        | some args => decide (args.length > 0))) = true ↔
      g.exceptions = true ∧ ¬ ta.map List.length = some 0 := by
  cases ta with
  | none => simp
  | some args => cases args <;> simp

/-- The shape of the output of `generateCatch` when the region is generated. -/
theorem generateCatch_eq (g : generatorFlags) (ta : Option throwArgs) (sd : signatureDef)
    (mod : moduleDef) (rgil : Bool)
    (hex : g.exceptions = true) (hta : ¬ ta.map List.length = some 0) :
    ∃ rest,
      generateCatch g ta sd mod rgil
        = [genEvent.prcode "            \x7d\n" []] ++
          (if useExceptionHandler g then []
           else
            (match ta with
              | some args => args
              | none => mod.defexception.toList).map
              (fun xd =>
                genEvent.call "generateCatchBlock"
                  (generateCatchBlock g mod xd (some sd) rgil))) ++
          ([genEvent.prcode "            catch (...)\n            \x7b\n" []] ++ rest) ∧
      genEvent.call "deleteOuts" (deleteOuts mod sd) ∈ rest ∧
      genEvent.call "deleteTemps" (deleteTemps g mod sd) ∈ rest ∧
      (∀ ev ∈ rest, genEvent.isCall "generateCatchBlock" ev = false) ∧
      rest.getLast? = some (genEvent.prcode
        "                sipRaiseUnknownException();\n                return SIP_NULLPTR;\n            \x7d\n" []) := by
  have hguard := (generateCatch_guard g ta).2 ⟨hex, hta⟩
  refine ⟨(if rgil then [genEvent.prcode "                Py_BLOCK_THREADS\n\n" []] else []) ++
    [genEvent.call "deleteOuts" (deleteOuts mod sd),
      genEvent.call "deleteTemps" (deleteTemps g mod sd)] ++
    (if useExceptionHandler g then
      [genEvent.prcode
        "                void *sipExcState = SIP_NULLPTR;\n                sipExceptionHandler sipExcHandler;\n                std::exception_ptr sipExcPtr = std::current_exception();\n\n                while ((sipExcHandler = sipNextExceptionHandler(&sipExcState)) != SIP_NULLPTR)\n                    if (sipExcHandler(sipExcPtr))\n                        return SIP_NULLPTR;\n\n" []]
     else []) ++
    [genEvent.prcode
      "                sipRaiseUnknownException();\n                return SIP_NULLPTR;\n            \x7d\n" []], ?_, ?_, ?_, ?_, ?_⟩
  · unfold generateCatch
    cases ta with
    | none =>
      cases hu : useExceptionHandler g <;> cases hd : mod.defexception <;>
        simp [hex, hu, hd]
    | some args =>
      cases args with
      | nil => simp at hta
      | cons x xs => cases hu : useExceptionHandler g <;> simp [hex, hu]
  · simp
  · simp
  · intro ev hev
    simp only [List.mem_append, List.mem_cons, List.mem_singleton, List.not_mem_nil,
      or_false] at hev
    rcases hev with ((hev | hev | hev) | hev) | hev
    · cases rgil <;> simp at hev
      subst hev
      rfl
    · subst hev; rfl
    · subst hev; rfl
    · cases hu : useExceptionHandler g <;> simp [hu] at hev
      subst hev
      rfl
    · subst hev; rfl
  · cases useExceptionHandler g <;> cases rgil <;> rfl

/-! ## Lemmas on the call of the C++ function -/

theorem countCharList_append (c : Char) (l1 l2 : List genEvent) :
    countCharList c (l1 ++ l2) = countCharList c l1 + countCharList c l2 := by
  induction l1 with
  | nil => simp [countCharList]
  | cons x r ih => simp [countCharList, ih, Nat.add_assoc]


theorem callArgInd_cases (ad : argDef) :
    callArgInd ad = none ∨ callArgInd ad = some "&" ∨ callArgInd ad = some "*" := by
  unfold callArgInd
  split <;> split_ifs <;> simp

theorem generateCallArgsArg_balanced (g : generatorFlags) (mod : moduleDef) (ad : argDef)
    (a : Nat) (py_ad : Option argDef) :
    countCharList '(' (generateCallArgsArg g mod ad a py_ad)
      = countCharList ')' (generateCallArgsArg g mod ad a py_ad) := by
  unfold generateCallArgsArg
  cases callArgPyAd ad py_ad with
  | none =>
    rcases callArgInd_cases ad with h | h | h <;> rw [h] <;>
      by_cases h1 : a > 0 <;> cases isArraySize ad <;> simp only [h1, if_true, if_false] <;>
      rfl
  | some p =>
    by_cases h1 : a > 0 <;> cases g.generating_c <;> simp only [h1, if_true, if_false] <;>
      rfl

theorem generateCallArgsLoop_balanced (g : generatorFlags) (mod : moduleDef)
    (py_args : Option (List argDef)) :
    ∀ (l : List argDef) (a : Nat),
      countCharList '(' (generateCallArgsLoop g mod py_args l a)
        = countCharList ')' (generateCallArgsLoop g mod py_args l a) := by
  intro l
  induction l with
  | nil => intro a; rfl
  | cons x r ih =>
    intro a
    rw [generateCallArgsLoop, countCharList_append, countCharList_append, ih,
      generateCallArgsArg_balanced]

theorem generateCallArgs_balanced (g : generatorFlags) (mod : moduleDef) (sd : signatureDef)
    (py_sd : Option signatureDef) :
    countCharList '(' (generateCallArgs g mod sd py_sd)
      = countCharList ')' (generateCallArgs g mod sd py_sd) :=
  generateCallArgsLoop_balanced g mod _ _ _

/-! ## Lemmas on the values that flow back -/

theorem buildResultFormatLoop_eq (l : List argDef) :
    buildResultFormatLoop l
      = (l.filter isOutArg).map (fun ad => genEvent.prcode "%s" [.s (getBuildResultFormat ad)]) := by
  induction l with
  | nil => rfl
  | cons x r ih =>
    rw [buildResultFormatLoop, ih]
    cases h : isOutArg x <;> simp [List.filter, h]

theorem buildResultValuesLoop_eq (mod : moduleDef) :
    ∀ (l : List argDef) (a : Nat),
      buildResultValuesLoop mod l a
        = ((l.enumFrom a).filter (fun p => isOutArg p.2)).flatMap
            (fun p => buildResultValue mod p.2 p.1) := by
  intro l
  induction l with
  | nil => intro a; rfl
  | cons x r ih =>
    intro a
    rw [buildResultValuesLoop, ih]
    cases h : isOutArg x <;> simp [List.enumFrom, List.filter, h]

theorem parseResultFormatLoop_eq (l : List argDef) :
    parseResultFormatLoop l
      = (l.filter isOutArg).map
          (fun ad => genEvent.prcode "%s" [.sopt (getParseResultFormat ad false false)]) := by
  induction l with
  | nil => rfl
  | cons x r ih =>
    rw [parseResultFormatLoop, ih]
    cases h : isOutArg x <;> simp [List.filter, h]

theorem parseResultDestLoop_eq (mod : moduleDef) :
    ∀ (l : List argDef) (a : Nat),
      parseResultDestLoop mod l a
        = ((l.enumFrom a).filter (fun p => isOutArg p.2)).flatMap
            (fun p => parseResultDest mod p.2 p.1) := by
  intro l
  induction l with
  | nil => intro a; rfl
  | cons x r ih =>
    intro a
    rw [parseResultDestLoop, ih]
    cases h : isOutArg x <;> simp [List.enumFrom, List.filter, h]

theorem enumFrom_filter_snd (p : argDef → Bool) :
    ∀ (l : List argDef) (a : Nat),
      ((l.enumFrom a).filter (fun q => p q.2)).map Prod.snd = l.filter p := by
  intro l
  induction l with
  | nil => intro a; rfl
  | cons x r ih =>
    intro a
    cases h : p x <;> simp [List.enumFrom, List.filter, h, ih]

theorem handleResultClass_returns (od : overDef) (res : argDef) (isNew : Bool) (nrvals : Nat)
    (has_owner : Bool) (prefixStr : String)
    (h : (handleResultClass od res isNew nrvals has_owner prefixStr).2 = true) :
    nrvals = 1 := by
  unfold handleResultClass at h
  simp only at h
  split at h
  · simp at h
  · split at h <;> simpa using h

theorem generateVirtualHandler_parse (mod : moduleDef) (vhd : virtHandlerDef)
    (hcode : vhd.virtcode = []) (hn : virtualHandlerNrvals vhd > 0) :
    ∃ pre post,
      (generateVirtualHandler mod vhd).1 = pre ++ virtualHandlerParse mod vhd ++ post := by
  unfold generateVirtualHandler
  simp only [hcode, ne_eq, not_true_eq_false, if_false]
  rw [if_neg (by omega)]
  split
  · exact ⟨_, _, rfl⟩
  · split
    · exact ⟨_, _, rfl⟩
    · exact ⟨_, _, rfl⟩

/-! ## Lemmas on the call of a function -/

theorem countP_ite (p : genEvent → Bool) (c : Prop) [Decidable c] (a b : List genEvent) :
    List.countP p (if c then a else b) = if c then List.countP p a else List.countP p b := by
  split <;> rfl

theorem newInstancesLoop_countP_call (fn : String) (mod : moduleDef) :
    ∀ (l : List argDef) (a : Nat),
      List.countP (genEvent.isCall fn) (newInstancesLoop mod l a) = 0 := by
  intro l
  induction l with
  | nil => intro a; rfl
  | cons x r ih =>
    intro a
    simp [newInstancesLoop, ih, countP_ite, List.countP_cons, genEvent.isCall]

theorem functionCallKeepLoop_countP_call (fn : String) (mod : moduleDef)
    (scope : Option ifaceFileDef) (od : overDef) (sf : Bool) :
    ∀ (l : List argDef) (a : Nat),
      List.countP (genEvent.isCall fn) (functionCallKeepLoop mod scope od sf l a) = 0 := by
  intro l
  induction l with
  | nil => intro a; rfl
  | cons x r ih =>
    intro a
    simp [functionCallKeepLoop, functionCallKeepArg, ih, countP_ite, List.countP_cons,
      genEvent.isCall]

theorem staticFactoryKeepLoop_countP_call (fn : String) (mod : moduleDef) :
    ∀ (l : List argDef) (a : Nat),
      List.countP (genEvent.isCall fn) (staticFactoryKeepLoop mod l a) = 0 := by
  intro l
  induction l with
  | nil => intro a; rfl
  | cons x r ih =>
    intro a
    simp [staticFactoryKeepLoop, staticFactoryKeepArg, ih, countP_ite, List.countP_cons,
      genEvent.isCall]

theorem functionCallSlot_no_deleteTemps (g : generatorFlags) (mod : moduleDef)
    (scope : Option ifaceFileDef) (o_scope : ifaceFileDef) (od : overDef) (deref : Bool) :
    List.countP (genEvent.isCall "deleteTemps") (functionCallSlot g mod scope o_scope od deref)
      = 0 := by
  unfold functionCallSlot
  split <;> rfl

theorem functionCallPrologue_no_deleteTemps (mod : moduleDef) (c_scope : Option classDef)
    (mt_scope : Option mappedTypeDef) (od : overDef) (res : argDef) :
    List.countP (genEvent.isCall "deleteTemps")
      (functionCallPrologue mod c_scope mt_scope od res) = 0 := by
  unfold functionCallPrologue
  simp only [List.countP_append, newInstancesLoop_countP_call, countP_ite, List.countP_cons,
    List.countP_nil, genEvent.isCall]
  cases od.prehook <;> cases functionCallPyname c_scope mt_scope <;> simp +decide [genEvent.isCall]

theorem functionCallNative_no_deleteTemps (g : generatorFlags) (mod : moduleDef)
    (c_scope : Option classDef) (scope : Option ifaceFileDef) (o_scope : ifaceFileDef)
    (od : overDef) (res : argDef) (needsNew is_result deref : Bool) :
    List.countP (genEvent.isCall "deleteTemps")
      (functionCallNative g mod c_scope scope o_scope od res needsNew is_result deref) = 0 := by
  unfold functionCallNative
  simp only [List.countP_append, functionCallSlot_no_deleteTemps, countP_ite, List.countP_cons,
    List.countP_nil, genEvent.isCall]
  cases c_scope <;> simp +decide [countP_ite, genEvent.isCall]

theorem functionCallErrorCheck_no_deleteTemps (od : overDef) :
    List.countP (genEvent.isCall "deleteTemps") (functionCallErrorCheck od) = 0 := by
  unfold functionCallErrorCheck
  simp only [List.countP_append, countP_ite, List.countP_cons, List.countP_nil,
    genEvent.isCall]
  cases od.posthook <;> simp +decide [genEvent.isCall]

theorem functionCallReturn_count_deleteTemps (g : generatorFlags) (mod : moduleDef)
    (scope : Option ifaceFileDef) (od odRes : overDef) (needsNew : Bool) :
    List.countP (genEvent.isCall "deleteTemps")
        (functionCallReturn g mod scope od odRes needsNew)
      = if functionCallHandlesResult od && !functionCallDeltemps od then 1 else 0 := by
  unfold functionCallReturn functionCallHandlesResult
  cases isVoidReturnSlot od.common
  · cases (isInplaceNumberSlot od.common || isInplaceSequenceSlot od.common)
    · cases (isIntReturnSlot od.common || isSSizeReturnSlot od.common ||
        isHashReturnSlot od.common)
      · simp only [List.countP_append, countP_ite, List.countP_cons, List.countP_nil,
          genEvent.isCall, staticFactoryKeepLoop_countP_call]
        cases functionCallDeltemps od <;> simp +decide
      · simp +decide [genEvent.isCall]
    · simp +decide [genEvent.isCall]
  · simp +decide [genEvent.isCall]

theorem functionCallStart_no_deleteTemps (g : generatorFlags) (c_scope : Option classDef)
    (mt_scope : Option mappedTypeDef) (o_scope : ifaceFileDef) (od : overDef) (deref : Bool)
    (mod : moduleDef) :
    List.countP (genEvent.isCall "deleteTemps")
      (functionCallStart g c_scope mt_scope o_scope od deref mod) = 0 := by
  unfold functionCallStart
  simp only [List.countP_append, functionCallPrologue_no_deleteTemps,
    functionCallNative_no_deleteTemps, functionCallKeepLoop_countP_call, countP_ite,
    List.countP_cons, List.countP_nil, genEvent.isCall]
  simp +decide

theorem functionCallEnd_no_deleteTemps (od : overDef) :
    List.countP (genEvent.isCall "deleteTemps") (functionCallEnd od) = 0 := by
  unfold functionCallEnd
  simp +decide [countP_ite, List.countP_cons, genEvent.isCall]

theorem generateFunctionCall_count_deleteTemps (g : generatorFlags) (c_scope : Option classDef)
    (mt_scope : Option mappedTypeDef) (o_scope : ifaceFileDef) (od : overDef) (deref : Bool)
    (mod : moduleDef)
    (hcall : (od.isProtected && !((c_scope.map classDef.hasShadow).getD false)) = false) :
    List.countP (genEvent.isCall "deleteTemps")
        (generateFunctionCall g c_scope mt_scope o_scope od deref mod)
      = (if functionCallDeltemps od && !isZeroArgSlot od.common then 1 else 0) +
        (if functionCallHandlesResult od && !functionCallDeltemps od then 1 else 0) := by
  unfold generateFunctionCall
  simp only [hcall, Bool.false_eq_true, if_false, List.countP_append,
    functionCallStart_no_deleteTemps, functionCallEnd_no_deleteTemps,
    functionCallErrorCheck_no_deleteTemps,
    functionCallReturn_count_deleteTemps, countP_ite, List.countP_cons, List.countP_nil,
    genEvent.isCall]
  simp +decide

theorem functionCallPostProcess_of_deferred (sf : Bool) (od : overDef)
    (hd : functionCallDeltemps od = false) : functionCallPostProcess sf od = true := by
  unfold functionCallDeltemps at hd
  unfold functionCallPostProcess
  simp only [Bool.not_eq_false', List.any_eq_true] at hd
  obtain ⟨x, hx, hc⟩ := hd
  simp only [Bool.or_eq_true, List.any_eq_true]
  exact Or.inr ⟨x, hx, Or.inr hc⟩

theorem functionCallReturn_deferred (g : generatorFlags) (mod : moduleDef)
    (scope : Option ifaceFileDef) (od odRes : overDef) (needsNew : Bool)
    (hd : functionCallDeltemps od = false) (hh : functionCallHandlesResult od = true) :
    ∃ post,
      functionCallReturn g mod scope od odRes needsNew
        = [genEvent.call "generateHandleResult"
              (generateHandleResult g mod odRes needsNew
                (functionCallResultSize od.pysig.args 0 (-1)) "sipResObj ="),
            genEvent.call "deleteTemps" (deleteTemps g mod od.pysig)] ++ post := by
  unfold functionCallHandlesResult at hh
  simp only [Bool.and_eq_true, Bool.not_eq_true'] at hh
  obtain ⟨⟨h1, h2⟩, h3⟩ := hh
  unfold functionCallReturn
  simp only [h1, h2, h3, Bool.false_eq_true, if_false, hd,
    functionCallPostProcess_of_deferred _ od hd, Bool.not_false, if_true]
  exact ⟨_, by simp only [List.append_assoc, List.singleton_append]; rfl⟩

/-! ## Lemmas on the calls of `sipKeepReference` -/

theorem prcodesOf_append (l1 l2 : List genEvent) :
    prcodesOf (l1 ++ l2) = prcodesOf l1 ++ prcodesOf l2 := by
  induction l1 with
  | nil => rfl
  | cons x r ih => simp [prcodesOf, ih]

theorem keepReferenceCalls_append (l1 l2 : List genEvent) :
    keepReferenceCalls (l1 ++ l2) = keepReferenceCalls l1 ++ keepReferenceCalls l2 := by
  simp [keepReferenceCalls, prcodesOf_append]

theorem keepReferenceCalls_nil : keepReferenceCalls [] = [] := rfl

theorem keepReferenceCalls_ite (c : Prop) [Decidable c] (a b : List genEvent) :
    keepReferenceCalls (if c then a else b)
      = if c then keepReferenceCalls a else keepReferenceCalls b := by
  split <;> rfl

theorem keepReferenceCalls_cons_call (fn : String) (out rest : List genEvent) :
    keepReferenceCalls (genEvent.call fn out :: rest)
      = keepReferenceCalls out ++ keepReferenceCalls rest := by
  simp [keepReferenceCalls, prcodesOf, genEvent.prcodes]

theorem keepReferenceCalls_cons_other (fn : String) (args : List prArg) (code : codeBlockList)
    (rest : List genEvent) :
    keepReferenceCalls (genEvent.other fn args code :: rest) = keepReferenceCalls rest := by
  simp [keepReferenceCalls, prcodesOf, genEvent.prcodes]

theorem keepReferenceCalls_cons_prcode (fmt : String) (args : List prArg)
    (rest : List genEvent) :
    keepReferenceCalls (genEvent.prcode fmt args :: rest)
      = (if strstr fmt "sipKeepReference" then [genEvent.prcode fmt args] else []) ++
        keepReferenceCalls rest := by
  simp only [keepReferenceCalls, prcodesOf, genEvent.prcodes, List.filter_append,
    List.filter_cons, genEvent.isKeepReference, List.filter_nil]

theorem strstrChars_short (needle : List Char) :
    ∀ (hay : List Char), hay.length < needle.length → strstrChars needle hay = false := by
  intro hay
  induction hay with
  | nil =>
    intro h
    cases needle with
    | nil => simp at h
    | cons c r => rfl
  | cons x r ih =>
    intro h
    rw [strstrChars, ih (by simp at h ⊢; omega), Bool.or_false]
    cases hp : needle.isPrefixOf (x :: r)
    · rfl
    · have := (List.isPrefixOf_iff_prefix.1 hp).length_le
      omega

theorem strstr_short (hay needle : String) (h : hay.length < needle.length) :
    strstr hay needle = false :=
  strstrChars_short _ _ h

theorem keepReferenceCalls_cons_ite (c : Prop) [Decidable c] (e1 e2 : genEvent)
    (rest : List genEvent) :
    keepReferenceCalls ((if c then e1 else e2) :: rest)
      = if c then keepReferenceCalls (e1 :: rest) else keepReferenceCalls (e2 :: rest) := by
  split <;> rfl

theorem deleteOutsLoop_no_keep (mod : moduleDef) :
    ∀ (l : List argDef) (a : Nat), keepReferenceCalls (deleteOutsLoop mod l a) = [] := by
  intro l
  induction l with
  | nil => intro a; rfl
  | cons x r ih =>
    intro a
    simp +decide [deleteOutsLoop, deleteOutsArg, ih, keepReferenceCalls_append,
      keepReferenceCalls_ite, keepReferenceCalls_cons_prcode, keepReferenceCalls_nil]

theorem deleteTempsArg_no_keep (g : generatorFlags) (mod : moduleDef) (ad : argDef) (a : Nat) :
    keepReferenceCalls (deleteTempsArg g mod ad a) = [] := by
  unfold deleteTempsArg
  simp +decide [keepReferenceCalls_append, keepReferenceCalls_ite,
    keepReferenceCalls_cons_prcode, keepReferenceCalls_nil, keepReferenceCalls_cons_ite]

theorem deleteTempsLoop_no_keep (g : generatorFlags) (mod : moduleDef) :
    ∀ (l : List argDef) (a : Nat), keepReferenceCalls (deleteTempsLoop g mod l a) = [] := by
  intro l
  induction l with
  | nil => intro a; rfl
  | cons x r ih =>
    intro a
    rw [deleteTempsLoop, keepReferenceCalls_append, ih, deleteTempsArg_no_keep]
    rfl

theorem gc_ellipsis_no_keep (sd : signatureDef) : keepReferenceCalls (gc_ellipsis sd) = [] := by
  unfold gc_ellipsis
  simp +decide [keepReferenceCalls_ite, keepReferenceCalls_cons_prcode, keepReferenceCalls_nil]

theorem generateTry_no_keep (g : generatorFlags) (ta : Option throwArgs) :
    keepReferenceCalls (generateTry g ta) = [] := by
  unfold generateTry
  simp +decide [keepReferenceCalls_ite, keepReferenceCalls_cons_prcode, keepReferenceCalls_nil]

set_option maxRecDepth 10000 in
theorem generateCatchBlock_no_keep (g : generatorFlags) (mod : moduleDef) (xd : exceptionDef)
    (sd : Option signatureDef) (rgil : Bool) :
    keepReferenceCalls (generateCatchBlock g mod xd sd rgil) = [] := by
  unfold generateCatchBlock
  cases sd <;>
    simp +decide [keepReferenceCalls_append, keepReferenceCalls_ite, deleteOuts, deleteTemps,
      keepReferenceCalls_cons_prcode, keepReferenceCalls_cons_call,
      keepReferenceCalls_cons_other, keepReferenceCalls_nil, deleteOutsLoop_no_keep,
      deleteTempsLoop_no_keep, keepReferenceCalls_cons_ite]

set_option maxRecDepth 10000 in
theorem generateCatch_no_keep (g : generatorFlags) (ta : Option throwArgs) (sd : signatureDef)
    (mod : moduleDef) (rgil : Bool) :
    keepReferenceCalls (generateCatch g ta sd mod rgil) = [] := by
  have hmap : ∀ (l : List exceptionDef),
      keepReferenceCalls (l.map (fun xd =>
        genEvent.call "generateCatchBlock" (generateCatchBlock g mod xd (some sd) rgil))) = [] := by
    intro l
    induction l with
    | nil => rfl
    | cons x r ih =>
      rw [List.map_cons, keepReferenceCalls_cons_call, ih, generateCatchBlock_no_keep]
      rfl
  unfold generateCatch
  cases ta with
  | none =>
    cases mod.defexception <;>
      simp +decide [keepReferenceCalls_append, keepReferenceCalls_ite, deleteOuts, deleteTemps,
        keepReferenceCalls_cons_prcode, keepReferenceCalls_cons_call,
        keepReferenceCalls_cons_other, keepReferenceCalls_nil, deleteOutsLoop_no_keep,
        deleteTempsLoop_no_keep, keepReferenceCalls_cons_ite, generateCatchBlock_no_keep]
  | some args =>
    simp +decide [keepReferenceCalls_append, keepReferenceCalls_ite, deleteOuts, deleteTemps,
      keepReferenceCalls_cons_prcode, keepReferenceCalls_cons_call,
      keepReferenceCalls_cons_other, keepReferenceCalls_nil, deleteOutsLoop_no_keep,
      deleteTempsLoop_no_keep, keepReferenceCalls_cons_ite, hmap]

theorem generateCallArgsArg_no_keep (g : generatorFlags) (mod : moduleDef) (ad : argDef)
    (a : Nat) (py_ad : Option argDef) :
    keepReferenceCalls (generateCallArgsArg g mod ad a py_ad) = [] := by
  unfold generateCallArgsArg
  cases callArgPyAd ad py_ad with
  | none =>
    rcases callArgInd_cases ad with h | h | h <;> rw [h] <;>
      simp +decide [keepReferenceCalls_append, keepReferenceCalls_ite,
        keepReferenceCalls_cons_prcode, keepReferenceCalls_nil]
  | some p =>
    simp +decide [keepReferenceCalls_append, keepReferenceCalls_ite,
      keepReferenceCalls_cons_prcode, keepReferenceCalls_nil]

theorem generateCallArgs_no_keep (g : generatorFlags) (mod : moduleDef) (sd : signatureDef)
    (py_sd : Option signatureDef) :
    keepReferenceCalls (generateCallArgs g mod sd py_sd) = [] := by
  have hloop : ∀ (py : Option (List argDef)) (l : List argDef) (a : Nat),
      keepReferenceCalls (generateCallArgsLoop g mod py l a) = [] := by
    intro py l
    induction l with
    | nil => intro a; rfl
    | cons x r ih =>
      intro a
      rw [generateCallArgsLoop, keepReferenceCalls_append, ih, generateCallArgsArg_no_keep]
      rfl
  exact hloop _ _ _

theorem generateCppFunctionCall_no_keep (g : generatorFlags) (mod : moduleDef)
    (scope : Option ifaceFileDef) (o_scope : ifaceFileDef) (od : overDef) :
    keepReferenceCalls (generateCppFunctionCall g mod scope o_scope od) = [] := by
  have hrep : ∀ n : Nat,
      keepReferenceCalls (List.replicate n (genEvent.prcode ")" [])) = [] := by
    intro n
    induction n with
    | zero => rfl
    | succ k ih =>
      rw [List.replicate_succ, keepReferenceCalls_cons_prcode, ih]
      rfl
  unfold generateCppFunctionCall
  cases scope with
  | none =>
    simp +decide [keepReferenceCalls_append, keepReferenceCalls_cons_prcode,
      keepReferenceCalls_cons_call, keepReferenceCalls_nil, generateCallArgs_no_keep]
  | some sc =>
    simp only
    split_ifs <;>
      simp +decide [keepReferenceCalls_append, keepReferenceCalls_cons_prcode,
        keepReferenceCalls_cons_call, keepReferenceCalls_nil, generateCallArgs_no_keep, hrep,
        keepReferenceCalls_ite]

theorem generateSlotArg_no_keep (mod : moduleDef) (sd : signatureDef) (argnr : Nat) :
    keepReferenceCalls (generateSlotArg mod sd argnr) = [] := by
  unfold generateSlotArg
  simp +decide [keepReferenceCalls_cons_prcode, keepReferenceCalls_nil]

theorem generateComparisonSlotCall_no_keep (mod : moduleDef) (scope : Option ifaceFileDef)
    (od : overDef) (op cop : String) (deref : Bool) :
    keepReferenceCalls (generateComparisonSlotCall mod scope od op cop deref) = [] := by
  unfold generateComparisonSlotCall
  cases od.common.ns_scope <;>
    simp +decide [keepReferenceCalls_append, keepReferenceCalls_ite,
      keepReferenceCalls_cons_prcode, keepReferenceCalls_cons_call, keepReferenceCalls_nil,
      generateSlotArg_no_keep]

theorem generateNumberSlotCall_no_keep (mod : moduleDef) (od : overDef) (op : String) :
    keepReferenceCalls (generateNumberSlotCall mod od op) = [] := by
  unfold generateNumberSlotCall
  simp +decide [keepReferenceCalls_cons_prcode, keepReferenceCalls_cons_call,
    keepReferenceCalls_nil, generateSlotArg_no_keep]

theorem functionCallSlot_no_keep (g : generatorFlags) (mod : moduleDef)
    (scope : Option ifaceFileDef) (o_scope : ifaceFileDef) (od : overDef) (deref : Bool) :
    keepReferenceCalls (functionCallSlot g mod scope o_scope od deref) = [] := by
  unfold functionCallSlot
  split <;>
    simp +decide [keepReferenceCalls_append, keepReferenceCalls_cons_prcode,
      keepReferenceCalls_cons_call, keepReferenceCalls_nil, generateSlotArg_no_keep,
      generateNumberSlotCall_no_keep, generateComparisonSlotCall_no_keep,
      generateBinarySlotCall, generateCppFunctionCall_no_keep, generateCallArgs_no_keep]

theorem generateResultVar_no_keep (scope : Option ifaceFileDef) (od : overDef) (res : argDef)
    (indent : String) :
    keepReferenceCalls (generateResultVar scope od res indent).1 = [] := by
  unfold generateResultVar
  simp only
  split <;>
    simp +decide [keepReferenceCalls_append, keepReferenceCalls_ite,
      keepReferenceCalls_cons_prcode, keepReferenceCalls_cons_other, keepReferenceCalls_nil]

theorem newInstancesLoop_no_keep (mod : moduleDef) :
    ∀ (l : List argDef) (a : Nat), keepReferenceCalls (newInstancesLoop mod l a) = [] := by
  intro l
  induction l with
  | nil => intro a; rfl
  | cons x r ih =>
    intro a
    simp +decide [newInstancesLoop, ih, keepReferenceCalls_append, keepReferenceCalls_ite,
      keepReferenceCalls_cons_prcode, keepReferenceCalls_nil]

set_option maxRecDepth 10000 in
theorem functionCallPrologue_no_keep (mod : moduleDef) (c_scope : Option classDef)
    (mt_scope : Option mappedTypeDef) (od : overDef) (res : argDef) :
    keepReferenceCalls (functionCallPrologue mod c_scope mt_scope od res) = [] := by
  unfold functionCallPrologue
  cases od.prehook <;> cases functionCallPyname c_scope mt_scope <;>
    simp +decide [keepReferenceCalls_append, keepReferenceCalls_ite,
      keepReferenceCalls_cons_prcode, keepReferenceCalls_cons_call,
      keepReferenceCalls_cons_other, keepReferenceCalls_nil, generateResultVar_no_keep,
      newInstancesLoop_no_keep]

set_option maxRecDepth 10000 in
theorem functionCallNative_no_keep (g : generatorFlags) (mod : moduleDef)
    (c_scope : Option classDef) (scope : Option ifaceFileDef) (o_scope : ifaceFileDef)
    (od : overDef) (res : argDef) (needsNew is_result deref : Bool) :
    keepReferenceCalls
      (functionCallNative g mod c_scope scope o_scope od res needsNew is_result deref) = [] := by
  unfold functionCallNative
  cases c_scope <;>
    simp +decide [keepReferenceCalls_append, keepReferenceCalls_ite,
      keepReferenceCalls_cons_prcode, keepReferenceCalls_cons_call,
      keepReferenceCalls_cons_other, keepReferenceCalls_nil, gc_ellipsis_no_keep,
      generateTry_no_keep, generateCatch_no_keep, functionCallSlot_no_keep]

set_option maxRecDepth 10000 in
theorem functionCallErrorCheck_no_keep (od : overDef) :
    keepReferenceCalls (functionCallErrorCheck od) = [] := by
  unfold functionCallErrorCheck
  cases od.posthook <;>
    simp +decide [keepReferenceCalls_append, keepReferenceCalls_ite,
      keepReferenceCalls_cons_prcode, keepReferenceCalls_nil]

theorem functionCallEnd_no_keep (od : overDef) :
    keepReferenceCalls (functionCallEnd od) = [] := by
  unfold functionCallEnd
  simp +decide [keepReferenceCalls_append, keepReferenceCalls_ite,
    keepReferenceCalls_cons_prcode, keepReferenceCalls_nil]

theorem handleResultClass_no_keep (od : overDef) (res : argDef) (isNew : Bool) (nrvals : Nat)
    (has_owner : Bool) (prefixStr : String) :
    keepReferenceCalls (handleResultClass od res isNew nrvals has_owner prefixStr).1 = [] := by
  unfold handleResultClass
  simp only
  split
  · rfl
  · split <;>
      simp +decide [keepReferenceCalls_append, keepReferenceCalls_ite,
        keepReferenceCalls_cons_prcode, keepReferenceCalls_nil, keepReferenceCalls_cons_ite]

theorem buildResultFormatLoop_no_keep :
    ∀ (l : List argDef), keepReferenceCalls (buildResultFormatLoop l) = [] := by
  intro l
  induction l with
  | nil => rfl
  | cons x r ih =>
    simp +decide [buildResultFormatLoop, ih, keepReferenceCalls_append, keepReferenceCalls_ite,
      keepReferenceCalls_cons_prcode, keepReferenceCalls_nil]

theorem buildResultValuesLoop_no_keep (mod : moduleDef) :
    ∀ (l : List argDef) (a : Nat), keepReferenceCalls (buildResultValuesLoop mod l a) = [] := by
  intro l
  induction l with
  | nil => intro a; rfl
  | cons x r ih =>
    intro a
    simp +decide [buildResultValuesLoop, buildResultValue, ih, keepReferenceCalls_append,
      keepReferenceCalls_ite, keepReferenceCalls_cons_prcode, keepReferenceCalls_nil]

theorem handleResultTuple_no_keep (mod : moduleDef) (od : overDef) (prefixStr : String) :
    keepReferenceCalls (handleResultTuple mod od prefixStr) = [] := by
  unfold handleResultTuple
  cases handleResultRes od <;>
    simp +decide [keepReferenceCalls_append, keepReferenceCalls_ite,
      keepReferenceCalls_cons_prcode, keepReferenceCalls_nil, buildResultFormatLoop_no_keep,
      buildResultValuesLoop_no_keep]

set_option maxRecDepth 10000 in
theorem handleResultSingle_no_keep (g : generatorFlags) (mod : moduleDef) (od : overDef)
    (ad : argDef) (vname : String) (result_size : Int) (prefixStr : String) :
    keepReferenceCalls (handleResultSingle g mod od ad vname result_size prefixStr) = [] := by
  unfold handleResultSingle
  simp only
  split <;>
    simp +decide [keepReferenceCalls_append, keepReferenceCalls_ite,
      keepReferenceCalls_cons_prcode, keepReferenceCalls_cons_other, keepReferenceCalls_nil,
      keepReferenceCalls_cons_ite]

theorem generateHandleResult_no_keep (g : generatorFlags) (mod : moduleDef) (od : overDef)
    (isNew : Bool) (result_size : Int) (prefixStr : String) :
    keepReferenceCalls (generateHandleResult g mod od isNew result_size prefixStr) = [] := by
  unfold generateHandleResult
  simp only
  cases handleResultRes od <;>
    simp +decide [keepReferenceCalls_append, keepReferenceCalls_ite,
      keepReferenceCalls_cons_prcode, keepReferenceCalls_nil, handleResultClass_no_keep,
      handleResultTuple_no_keep, handleResultSingle_no_keep, apply_ite keepReferenceCalls]

theorem functionCallKeepLoop_keep (mod : moduleDef) (scope : Option ifaceFileDef)
    (od : overDef) (sf : Bool) :
    ∀ (l : List argDef) (a : Nat),
      keepReferenceCalls (functionCallKeepLoop mod scope od sf l a)
        = if sf then []
          else ((l.enumFrom a).filter (fun p => isInArg p.2 && keepReference p.2)).map
            (fun p => keepReferenceCall mod scope od p.2 p.1) := by
  intro l
  induction l with
  | nil => intro a; cases sf <;> rfl
  | cons x r ih =>
    intro a
    rw [functionCallKeepLoop, keepReferenceCalls_append, ih, functionCallKeepArg]
    cases sf <;> cases hin : isInArg x <;> cases hk : keepReference x <;>
      simp +decide [keepReferenceCalls_append, keepReferenceCalls_ite,
        keepReferenceCalls_cons_prcode, keepReferenceCalls_nil, List.enumFrom, List.filter,
        hin, hk, keepReferenceCall]

theorem staticFactoryKeepLoop_keep (mod : moduleDef) :
    ∀ (l : List argDef) (a : Nat),
      keepReferenceCalls (staticFactoryKeepLoop mod l a)
        = ((l.enumFrom a).filter (fun p => isInArg p.2 && keepReference p.2)).map
            (fun p => keepReferenceCallStatic mod p.2 p.1) := by
  intro l
  induction l with
  | nil => intro a; rfl
  | cons x r ih =>
    intro a
    rw [staticFactoryKeepLoop, keepReferenceCalls_append, ih, staticFactoryKeepArg]
    cases hin : isInArg x <;> cases hk : keepReference x <;>
      simp +decide [keepReferenceCalls_append, keepReferenceCalls_ite,
        keepReferenceCalls_cons_prcode, keepReferenceCalls_nil, List.enumFrom, List.filter,
        hin, hk, keepReferenceCallStatic]

theorem functionCallStart_keep (g : generatorFlags) (c_scope : Option classDef)
    (mt_scope : Option mappedTypeDef) (o_scope : ifaceFileDef) (od : overDef) (deref : Bool)
    (mod : moduleDef) :
    keepReferenceCalls (functionCallStart g c_scope mt_scope o_scope od deref mod)
      = if isStaticFactory (functionCallScope c_scope mt_scope) od then []
        else (keepReferenceArguments od.pysig).map
          (fun p => keepReferenceCall mod (functionCallScope c_scope mt_scope) od p.2 p.1) := by
  unfold functionCallStart
  simp +decide [keepReferenceCalls_append, keepReferenceCalls_ite,
    keepReferenceCalls_cons_prcode, keepReferenceCalls_cons_call, keepReferenceCalls_cons_other,
    keepReferenceCalls_nil, functionCallPrologue_no_keep, functionCallNative_no_keep,
    functionCallKeepLoop_keep, gc_ellipsis_no_keep, keepReferenceArguments, List.enum]

theorem functionCallReturn_keep (g : generatorFlags) (mod : moduleDef)
    (scope : Option ifaceFileDef) (od odRes : overDef) (needsNew : Bool) :
    keepReferenceCalls (functionCallReturn g mod scope od odRes needsNew)
      = if functionCallHandlesResult od then
          (if keepReference od.pysig.result then [keepReferenceCallResult od] else []) ++
          (if isStaticFactory scope od then
            (keepReferenceArguments od.pysig).map
              (fun p => keepReferenceCallStatic mod p.2 p.1)
           else [])
        else [] := by
  unfold functionCallReturn functionCallHandlesResult
  cases isVoidReturnSlot od.common
  · cases (isInplaceNumberSlot od.common || isInplaceSequenceSlot od.common)
    · cases (isIntReturnSlot od.common || isSSizeReturnSlot od.common ||
        isHashReturnSlot od.common)
      · simp +decide [keepReferenceCalls_append, keepReferenceCalls_ite,
          keepReferenceCalls_cons_prcode, keepReferenceCalls_cons_call, keepReferenceCalls_nil,
          generateHandleResult_no_keep, deleteTemps, deleteTempsLoop_no_keep,
          staticFactoryKeepLoop_keep, keepReferenceArguments, List.enum,
          keepReferenceCallResult]
      · simp +decide [keepReferenceCalls_cons_prcode, keepReferenceCalls_nil]
    · simp +decide [keepReferenceCalls_cons_prcode, keepReferenceCalls_nil]
  · simp +decide [keepReferenceCalls_cons_prcode, keepReferenceCalls_nil]

theorem generateFunctionCall_keep (g : generatorFlags) (c_scope : Option classDef)
    (mt_scope : Option mappedTypeDef) (o_scope : ifaceFileDef) (od : overDef) (deref : Bool)
    (mod : moduleDef)
    (hcall : (od.isProtected && !((c_scope.map classDef.hasShadow).getD false)) = false) :
    keepReferenceCalls (generateFunctionCall g c_scope mt_scope o_scope od deref mod)
      = (if isStaticFactory (functionCallScope c_scope mt_scope) od then []
         else (keepReferenceArguments od.pysig).map
          (fun p => keepReferenceCall mod (functionCallScope c_scope mt_scope) od p.2 p.1)) ++
        (if functionCallHandlesResult od then
          (if keepReference od.pysig.result then [keepReferenceCallResult od] else []) ++
          (if isStaticFactory (functionCallScope c_scope mt_scope) od then
            (keepReferenceArguments od.pysig).map
              (fun p => keepReferenceCallStatic mod p.2 p.1)
           else [])
         else []) := by
  unfold generateFunctionCall
  simp only [hcall, Bool.false_eq_true, if_false, keepReferenceCalls_append,
    functionCallStart_keep, functionCallReturn_keep, functionCallErrorCheck_no_keep,
    functionCallEnd_no_keep, keepReferenceCalls_ite, keepReferenceCalls_cons_call,
    keepReferenceCalls_nil, deleteTemps, deleteTempsLoop_no_keep]
  simp +decide [keepReferenceCalls_cons_prcode, keepReferenceCalls_nil]

theorem generateDefaultValue_no_keep (mod : moduleDef) (ad : argDef) (argnr : Nat) :
    keepReferenceCalls (generateDefaultValue mod ad argnr) = [] := by
  unfold generateDefaultValue
  simp +decide [keepReferenceCalls_append, keepReferenceCalls_ite,
    keepReferenceCalls_cons_prcode, keepReferenceCalls_cons_other, keepReferenceCalls_nil]

theorem variableSupport_no_keep (g : generatorFlags) (mod : moduleDef) (ad : argDef)
    (argnr : Nat) : keepReferenceCalls (variableSupport g mod ad argnr) = [] := by
  unfold variableSupport
  simp only
  split <;>
    simp +decide [keepReferenceCalls_append, keepReferenceCalls_ite,
      keepReferenceCalls_cons_prcode, keepReferenceCalls_nil]

theorem generateVariable_no_keep (g : generatorFlags) (mod : moduleDef)
    (scope : Option ifaceFileDef) (ad : argDef) (argnr : Nat) :
    keepReferenceCalls (generateVariable g mod scope ad argnr) = [] := by
  unfold generateVariable
  simp +decide [keepReferenceCalls_append, keepReferenceCalls_ite,
    keepReferenceCalls_cons_prcode, keepReferenceCalls_cons_other,
    keepReferenceCalls_cons_call, keepReferenceCalls_nil, generateDefaultValue_no_keep,
    variableSupport_no_keep]

theorem argParserVariablesLoop_no_keep (g : generatorFlags) (mod : moduleDef)
    (scope : Option ifaceFileDef) :
    ∀ (l : List argDef) (a : Nat),
      keepReferenceCalls (argParserVariablesLoop g mod scope l a) = [] := by
  intro l
  induction l with
  | nil => intro a; rfl
  | cons x r ih =>
    intro a
    rw [argParserVariablesLoop, keepReferenceCalls_cons_call, ih, generateVariable_no_keep]
    rfl

theorem argParserKwdLoop_no_keep (kwargs : KwArgs) :
    ∀ (l : List argDef) (b : Bool), keepReferenceCalls (argParserKwdLoop kwargs l b) = [] := by
  intro l
  induction l with
  | nil => intro b; rfl
  | cons x r ih =>
    intro b
    rw [argParserKwdLoop]
    cases x.core.name <;>
      simp +decide [ih, keepReferenceCalls_append, keepReferenceCalls_ite,
        keepReferenceCalls_cons_prcode, keepReferenceCalls_nil, keepReferenceCalls_cons_ite]

theorem argParserFormat_short (g : generatorFlags) (ad : argDef) (fmt : String)
    (h : argParserFormat g ad = some fmt) : fmt.length ≤ 2 := by
  unfold argParserFormat at h
  split at h <;> (try split_ifs at h) <;> simp at h <;> subst h <;>
    first
      | decide
      | rfl

theorem argParserFormatLoop_no_keep (g : generatorFlags) :
    ∀ (l : List argDef) (optargs : Bool),
      keepReferenceCalls (argParserFormatLoop g l optargs).1 = [] := by
  intro l
  induction l with
  | nil => intro b; rfl
  | cons x r ih =>
    intro b
    rw [argParserFormatLoop]
    split
    · exact ih b
    · simp only
      cases hf : argParserFormat g x with
      | none =>
        simp +decide [keepReferenceCalls_ite, keepReferenceCalls_cons_prcode,
          keepReferenceCalls_nil]
      | some fmt =>
        have hs : strstr fmt "sipKeepReference" = false :=
          strstr_short _ _ (by
            have := argParserFormat_short g x fmt hf
            have h16 : "sipKeepReference".length = 16 := by decide
            omega)
        simp +decide [keepReferenceCalls_append, keepReferenceCalls_ite,
          keepReferenceCalls_cons_prcode, keepReferenceCalls_nil, ih, hs]

theorem argParserParamValue_no_keep (g : generatorFlags) (mod : moduleDef)
    (ct : Option ctorDef) (arraylen : Option argDef × Nat) (ad : argDef) (a : Nat) :
    keepReferenceCalls (argParserParamValue g mod ct arraylen ad a) = [] := by
  unfold argParserParamValue
  simp only
  split <;>
    simp +decide [keepReferenceCalls_append, keepReferenceCalls_ite,
      keepReferenceCalls_cons_prcode, keepReferenceCalls_nil]

theorem argParserParamsLoop_no_keep (g : generatorFlags) (mod : moduleDef)
    (ct : Option ctorDef) (arraylen : Option argDef × Nat) :
    ∀ (l : List argDef) (a : Nat),
      keepReferenceCalls (argParserParamsLoop g mod ct arraylen l a) = [] := by
  intro l
  induction l with
  | nil => intro a; rfl
  | cons x r ih =>
    intro a
    simp +decide [argParserParamsLoop, argParserParam, ih, keepReferenceCalls_append,
      keepReferenceCalls_ite, keepReferenceCalls_cons_prcode, keepReferenceCalls_nil,
      argParserParamValue_no_keep]

set_option maxRecDepth 10000 in
theorem argParserCall_no_keep (sd : signatureDef) (ct : Option ctorDef) (od : Option overDef) :
    keepReferenceCalls (argParserCall sd ct od).1 = [] := by
  unfold argParserCall
  simp only
  cases od with
  | none =>
    cases ct <;>
      simp +decide [keepReferenceCalls_append, keepReferenceCalls_ite,
        keepReferenceCalls_cons_prcode, keepReferenceCalls_nil, argParserKwdLoop_no_keep]
  | some o =>
    simp only
    split_ifs <;>
      simp +decide [keepReferenceCalls_append, keepReferenceCalls_ite,
        keepReferenceCalls_cons_prcode, keepReferenceCalls_nil, argParserKwdLoop_no_keep]

set_option maxRecDepth 10000 in
theorem generateArgParser_no_keep (g : generatorFlags) (mod : moduleDef) (sd : signatureDef)
    (c_scope : Option classDef) (mt_scope : Option mappedTypeDef) (ct : Option ctorDef)
    (od : Option overDef) :
    keepReferenceCalls (generateArgParser g mod sd c_scope mt_scope ct od).1 = [] := by
  unfold generateArgParser
  simp only
  split <;>
    simp +decide [keepReferenceCalls_append, keepReferenceCalls_ite,
      keepReferenceCalls_cons_prcode, keepReferenceCalls_nil, keepReferenceCalls_cons_ite,
      argParserVariablesLoop_no_keep, argParserCall_no_keep, argParserFormatLoop_no_keep,
      argParserParamsLoop_no_keep]

/-! ## Lemmas on the order of scoped names -/

theorem strcmpChars_antisymm (cs ds : List Char) :
    strcmpChars cs ds = - strcmpChars ds cs := by
  induction cs generalizing ds with
  | nil => cases ds <;> simp [strcmpChars]
  | cons c cs ih =>
    cases ds with
    | nil => simp [strcmpChars]
    | cons d ds =>
      simp only [strcmpChars]
      by_cases h1 : c.toNat < d.toNat
      · have h2 : ¬ d.toNat < c.toNat := by omega
        simp [h1, h2]
      · by_cases h2 : d.toNat < c.toNat
        · simp [h1, h2]
        · simp [h1, h2, ih ds]

theorem strcmp_antisymm (s t : String) : strcmp s t = - strcmp t s :=
  strcmpChars_antisymm _ _

theorem compareScopedNamesLoop_antisymm (a b : scopedNameDef) :
    compareScopedNamesLoop a b = - compareScopedNamesLoop b a := by
  induction a generalizing b with
  | nil => cases b <;> simp [compareScopedNamesLoop]
  | cons n a ih =>
    cases b with
    | nil => simp [compareScopedNamesLoop]
    | cons m b =>
      simp only [compareScopedNamesLoop]
      rw [strcmp_antisymm m n]
      by_cases h : strcmp n m = 0
      · simp [h, ih b]
      · simp [h]

theorem compareScopedNames_of_same_scope (a b : scopedNameDef)
    (h : hasGlobalScope a = hasGlobalScope b) :
    compareScopedNames a b = compareScopedNamesLoop a b := by
  unfold compareScopedNames
  cases b with
  | nil => rfl
  | cons m b =>
    by_cases hm : m = ""
    · simp [hm]
    · have hb : hasGlobalScope (m :: b) = false := by simp [hasGlobalScope, hm]
      rw [hb] at h
      simp only [hm, ne_eq, not_false_eq_true, if_true]
      rw [removeGlobalScope_of_not_global a h]


/-! ## Lemmas on the release of the lock -/

theorem threadSwitches_append (l1 l2 : List genEvent) :
    threadSwitches (l1 ++ l2) = threadSwitches l1 ++ threadSwitches l2 := by
  simp [threadSwitches, prcodesOf_append]

theorem threadSwitches_nil : threadSwitches [] = [] := rfl

theorem threadSwitches_ite (c : Prop) [Decidable c] (a b : List genEvent) :
    threadSwitches (if c then a else b)
      = if c then threadSwitches a else threadSwitches b := by
  split <;> rfl

theorem threadSwitches_cons_call (fn : String) (out rest : List genEvent) :
    threadSwitches (genEvent.call fn out :: rest)
      = threadSwitches out ++ threadSwitches rest := by
  simp [threadSwitches, prcodesOf, genEvent.prcodes]

theorem threadSwitches_cons_other (fn : String) (args : List prArg) (code : codeBlockList)
    (rest : List genEvent) :
    threadSwitches (genEvent.other fn args code :: rest) = threadSwitches rest := by
  simp [threadSwitches, prcodesOf, genEvent.prcodes]

theorem threadSwitches_cons_prcode (fmt : String) (args : List prArg)
    (rest : List genEvent) :
    threadSwitches (genEvent.prcode fmt args :: rest)
      = (if strstr fmt "_ALLOW_THREADS" then [genEvent.prcode fmt args] else []) ++
        threadSwitches rest := by
  simp only [threadSwitches, prcodesOf, genEvent.prcodes, List.filter_append,
    List.filter_cons, genEvent.isThreadSwitch, List.filter_nil]
theorem threadSwitches_cons_ite (c : Prop) [Decidable c] (e1 e2 : genEvent)
    (rest : List genEvent) :
    threadSwitches ((if c then e1 else e2) :: rest)
      = if c then threadSwitches (e1 :: rest) else threadSwitches (e2 :: rest) := by
  split <;> rfl

theorem deleteOutsLoop_no_switch (mod : moduleDef) :
    ∀ (l : List argDef) (a : Nat), threadSwitches (deleteOutsLoop mod l a) = [] := by
  intro l
  induction l with
  | nil => intro a; rfl
  | cons x r ih =>
    intro a
    simp +decide [deleteOutsLoop, deleteOutsArg, ih, threadSwitches_append,
      threadSwitches_ite, threadSwitches_cons_prcode, threadSwitches_nil]

theorem deleteTempsArg_no_switch (g : generatorFlags) (mod : moduleDef) (ad : argDef) (a : Nat) :
    threadSwitches (deleteTempsArg g mod ad a) = [] := by
  unfold deleteTempsArg
  simp +decide [threadSwitches_append, threadSwitches_ite,
    threadSwitches_cons_prcode, threadSwitches_nil, threadSwitches_cons_ite]

theorem deleteTempsLoop_no_switch (g : generatorFlags) (mod : moduleDef) :
    ∀ (l : List argDef) (a : Nat), threadSwitches (deleteTempsLoop g mod l a) = [] := by
  intro l
  induction l with
  | nil => intro a; rfl
  | cons x r ih =>
    intro a
    rw [deleteTempsLoop, threadSwitches_append, ih, deleteTempsArg_no_switch]
    rfl

theorem gc_ellipsis_no_switch (sd : signatureDef) : threadSwitches (gc_ellipsis sd) = [] := by
  unfold gc_ellipsis
  simp +decide [threadSwitches_ite, threadSwitches_cons_prcode, threadSwitches_nil]

theorem generateTry_no_switch (g : generatorFlags) (ta : Option throwArgs) :
    threadSwitches (generateTry g ta) = [] := by
  unfold generateTry
  simp +decide [threadSwitches_ite, threadSwitches_cons_prcode, threadSwitches_nil]

set_option maxRecDepth 10000 in
theorem generateCatchBlock_no_switch (g : generatorFlags) (mod : moduleDef) (xd : exceptionDef)
    (sd : Option signatureDef) (rgil : Bool) :
    threadSwitches (generateCatchBlock g mod xd sd rgil) = [] := by
  unfold generateCatchBlock
  cases sd <;>
    simp +decide [threadSwitches_append, threadSwitches_ite, deleteOuts, deleteTemps,
      threadSwitches_cons_prcode, threadSwitches_cons_call,
      threadSwitches_cons_other, threadSwitches_nil, deleteOutsLoop_no_switch,
      deleteTempsLoop_no_switch, threadSwitches_cons_ite]

set_option maxRecDepth 10000 in
theorem generateCatch_no_switch (g : generatorFlags) (ta : Option throwArgs) (sd : signatureDef)
    (mod : moduleDef) (rgil : Bool) :
    threadSwitches (generateCatch g ta sd mod rgil) = [] := by
  have hmap : ∀ (l : List exceptionDef),
      threadSwitches (l.map (fun xd =>
        genEvent.call "generateCatchBlock" (generateCatchBlock g mod xd (some sd) rgil))) = [] := by
    intro l
    induction l with
    | nil => rfl
    | cons x r ih =>
      rw [List.map_cons, threadSwitches_cons_call, ih, generateCatchBlock_no_switch]
      rfl
  unfold generateCatch
  cases ta with
  | none =>
    cases mod.defexception <;>
      simp +decide [threadSwitches_append, threadSwitches_ite, deleteOuts, deleteTemps,
        threadSwitches_cons_prcode, threadSwitches_cons_call,
        threadSwitches_cons_other, threadSwitches_nil, deleteOutsLoop_no_switch,
        deleteTempsLoop_no_switch, threadSwitches_cons_ite, generateCatchBlock_no_switch]
  | some args =>
    simp +decide [threadSwitches_append, threadSwitches_ite, deleteOuts, deleteTemps,
      threadSwitches_cons_prcode, threadSwitches_cons_call,
      threadSwitches_cons_other, threadSwitches_nil, deleteOutsLoop_no_switch,
      deleteTempsLoop_no_switch, threadSwitches_cons_ite, hmap]

theorem generateCallArgsArg_no_switch (g : generatorFlags) (mod : moduleDef) (ad : argDef)
    (a : Nat) (py_ad : Option argDef) :
    threadSwitches (generateCallArgsArg g mod ad a py_ad) = [] := by
  unfold generateCallArgsArg
  cases callArgPyAd ad py_ad with
  | none =>
    rcases callArgInd_cases ad with h | h | h <;> rw [h] <;>
      simp +decide [threadSwitches_append, threadSwitches_ite,
        threadSwitches_cons_prcode, threadSwitches_nil]
  | some p =>
    simp +decide [threadSwitches_append, threadSwitches_ite,
      threadSwitches_cons_prcode, threadSwitches_nil]

theorem generateCallArgs_no_switch (g : generatorFlags) (mod : moduleDef) (sd : signatureDef)
    (py_sd : Option signatureDef) :
    threadSwitches (generateCallArgs g mod sd py_sd) = [] := by
  have hloop : ∀ (py : Option (List argDef)) (l : List argDef) (a : Nat),
      threadSwitches (generateCallArgsLoop g mod py l a) = [] := by
    intro py l
    induction l with
    | nil => intro a; rfl
    | cons x r ih =>
      intro a
      rw [generateCallArgsLoop, threadSwitches_append, ih, generateCallArgsArg_no_switch]
      rfl
  exact hloop _ _ _

theorem generateCppFunctionCall_no_switch (g : generatorFlags) (mod : moduleDef)
    (scope : Option ifaceFileDef) (o_scope : ifaceFileDef) (od : overDef) :
    threadSwitches (generateCppFunctionCall g mod scope o_scope od) = [] := by
  have hrep : ∀ n : Nat,
      threadSwitches (List.replicate n (genEvent.prcode ")" [])) = [] := by
    intro n
    induction n with
    | zero => rfl
    | succ k ih =>
      rw [List.replicate_succ, threadSwitches_cons_prcode, ih]
      rfl
  unfold generateCppFunctionCall
  cases scope with
  | none =>
    simp +decide [threadSwitches_append, threadSwitches_cons_prcode,
      threadSwitches_cons_call, threadSwitches_nil, generateCallArgs_no_switch]
  | some sc =>
    simp only
    split_ifs <;>
      simp +decide [threadSwitches_append, threadSwitches_cons_prcode,
        threadSwitches_cons_call, threadSwitches_nil, generateCallArgs_no_switch, hrep,
        threadSwitches_ite]

theorem generateSlotArg_no_switch (mod : moduleDef) (sd : signatureDef) (argnr : Nat) :
    threadSwitches (generateSlotArg mod sd argnr) = [] := by
  unfold generateSlotArg
  simp +decide [threadSwitches_cons_prcode, threadSwitches_nil]

theorem generateComparisonSlotCall_no_switch (mod : moduleDef) (scope : Option ifaceFileDef)
    (od : overDef) (op cop : String) (deref : Bool) :
    threadSwitches (generateComparisonSlotCall mod scope od op cop deref) = [] := by
  unfold generateComparisonSlotCall
  cases od.common.ns_scope <;>
    simp +decide [threadSwitches_append, threadSwitches_ite,
      threadSwitches_cons_prcode, threadSwitches_cons_call, threadSwitches_nil,
      generateSlotArg_no_switch]

theorem generateNumberSlotCall_no_switch (mod : moduleDef) (od : overDef) (op : String) :
    threadSwitches (generateNumberSlotCall mod od op) = [] := by
  unfold generateNumberSlotCall
  simp +decide [threadSwitches_cons_prcode, threadSwitches_cons_call,
    threadSwitches_nil, generateSlotArg_no_switch]

theorem functionCallSlot_no_switch (g : generatorFlags) (mod : moduleDef)
    (scope : Option ifaceFileDef) (o_scope : ifaceFileDef) (od : overDef) (deref : Bool) :
    threadSwitches (functionCallSlot g mod scope o_scope od deref) = [] := by
  unfold functionCallSlot
  split <;>
    simp +decide [threadSwitches_append, threadSwitches_cons_prcode,
      threadSwitches_cons_call, threadSwitches_nil, generateSlotArg_no_switch,
      generateNumberSlotCall_no_switch, generateComparisonSlotCall_no_switch,
      generateBinarySlotCall, generateCppFunctionCall_no_switch, generateCallArgs_no_switch]

theorem generateResultVar_no_switch (scope : Option ifaceFileDef) (od : overDef) (res : argDef)
    (indent : String) :
    threadSwitches (generateResultVar scope od res indent).1 = [] := by
  unfold generateResultVar
  simp only
  split <;>
    simp +decide [threadSwitches_append, threadSwitches_ite,
      threadSwitches_cons_prcode, threadSwitches_cons_other, threadSwitches_nil]

theorem newInstancesLoop_no_switch (mod : moduleDef) :
    ∀ (l : List argDef) (a : Nat), threadSwitches (newInstancesLoop mod l a) = [] := by
  intro l
  induction l with
  | nil => intro a; rfl
  | cons x r ih =>
    intro a
    simp +decide [newInstancesLoop, ih, threadSwitches_append, threadSwitches_ite,
      threadSwitches_cons_prcode, threadSwitches_nil]

set_option maxRecDepth 10000 in
theorem functionCallPrologue_no_switch (mod : moduleDef) (c_scope : Option classDef)
    (mt_scope : Option mappedTypeDef) (od : overDef) (res : argDef) :
    threadSwitches (functionCallPrologue mod c_scope mt_scope od res) = [] := by
  unfold functionCallPrologue
  cases od.prehook <;> cases functionCallPyname c_scope mt_scope <;>
    simp +decide [threadSwitches_append, threadSwitches_ite,
      threadSwitches_cons_prcode, threadSwitches_cons_call,
      threadSwitches_cons_other, threadSwitches_nil, generateResultVar_no_switch,
      newInstancesLoop_no_switch]

set_option maxRecDepth 10000 in
theorem functionCallErrorCheck_no_switch (od : overDef) :
    threadSwitches (functionCallErrorCheck od) = [] := by
  unfold functionCallErrorCheck
  cases od.posthook <;>
    simp +decide [threadSwitches_append, threadSwitches_ite,
      threadSwitches_cons_prcode, threadSwitches_nil]

theorem functionCallEnd_no_switch (od : overDef) :
    threadSwitches (functionCallEnd od) = [] := by
  unfold functionCallEnd
  simp +decide [threadSwitches_append, threadSwitches_ite,
    threadSwitches_cons_prcode, threadSwitches_nil]

theorem handleResultClass_no_switch (od : overDef) (res : argDef) (isNew : Bool) (nrvals : Nat)
    (has_owner : Bool) (prefixStr : String) :
    threadSwitches (handleResultClass od res isNew nrvals has_owner prefixStr).1 = [] := by
  unfold handleResultClass
  simp only
  split
  · rfl
  · split <;>
      simp +decide [threadSwitches_append, threadSwitches_ite,
        threadSwitches_cons_prcode, threadSwitches_nil, threadSwitches_cons_ite]

theorem buildResultFormatLoop_no_switch :
    ∀ (l : List argDef), threadSwitches (buildResultFormatLoop l) = [] := by
  intro l
  induction l with
  | nil => rfl
  | cons x r ih =>
    simp +decide [buildResultFormatLoop, ih, threadSwitches_append, threadSwitches_ite,
      threadSwitches_cons_prcode, threadSwitches_nil]

theorem buildResultValuesLoop_no_switch (mod : moduleDef) :
    ∀ (l : List argDef) (a : Nat), threadSwitches (buildResultValuesLoop mod l a) = [] := by
  intro l
  induction l with
  | nil => intro a; rfl
  | cons x r ih =>
    intro a
    simp +decide [buildResultValuesLoop, buildResultValue, ih, threadSwitches_append,
      threadSwitches_ite, threadSwitches_cons_prcode, threadSwitches_nil]

theorem handleResultTuple_no_switch (mod : moduleDef) (od : overDef) (prefixStr : String) :
    threadSwitches (handleResultTuple mod od prefixStr) = [] := by
  unfold handleResultTuple
  cases handleResultRes od <;>
    simp +decide [threadSwitches_append, threadSwitches_ite,
      threadSwitches_cons_prcode, threadSwitches_nil, buildResultFormatLoop_no_switch,
      buildResultValuesLoop_no_switch]

set_option maxRecDepth 10000 in
theorem handleResultSingle_no_switch (g : generatorFlags) (mod : moduleDef) (od : overDef)
    (ad : argDef) (vname : String) (result_size : Int) (prefixStr : String) :
    threadSwitches (handleResultSingle g mod od ad vname result_size prefixStr) = [] := by
  unfold handleResultSingle
  simp only
  split <;>
    simp +decide [threadSwitches_append, threadSwitches_ite,
      threadSwitches_cons_prcode, threadSwitches_cons_other, threadSwitches_nil,
      threadSwitches_cons_ite]

theorem generateHandleResult_no_switch (g : generatorFlags) (mod : moduleDef) (od : overDef)
    (isNew : Bool) (result_size : Int) (prefixStr : String) :
    threadSwitches (generateHandleResult g mod od isNew result_size prefixStr) = [] := by
  unfold generateHandleResult
  simp only
  cases handleResultRes od <;>
    simp +decide [threadSwitches_append, threadSwitches_ite,
      threadSwitches_cons_prcode, threadSwitches_nil, handleResultClass_no_switch,
      handleResultTuple_no_switch, handleResultSingle_no_switch, apply_ite threadSwitches]
theorem functionCallKeepLoop_no_switch (mod : moduleDef) (scope : Option ifaceFileDef)
    (od : overDef) (sf : Bool) :
    ∀ (l : List argDef) (a : Nat),
      threadSwitches (functionCallKeepLoop mod scope od sf l a) = [] := by
  intro l
  induction l with
  | nil => intro a; rfl
  | cons x r ih =>
    intro a
    simp +decide [functionCallKeepLoop, functionCallKeepArg, ih, threadSwitches_append,
      threadSwitches_ite, threadSwitches_cons_prcode, threadSwitches_nil]

theorem staticFactoryKeepLoop_no_switch (mod : moduleDef) :
    ∀ (l : List argDef) (a : Nat), threadSwitches (staticFactoryKeepLoop mod l a) = [] := by
  intro l
  induction l with
  | nil => intro a; rfl
  | cons x r ih =>
    intro a
    simp +decide [staticFactoryKeepLoop, staticFactoryKeepArg, ih, threadSwitches_append,
      threadSwitches_ite, threadSwitches_cons_prcode, threadSwitches_nil]

set_option maxRecDepth 10000 in
theorem functionCallReturn_no_switch (g : generatorFlags) (mod : moduleDef)
    (scope : Option ifaceFileDef) (od odRes : overDef) (needsNew : Bool) :
    threadSwitches (functionCallReturn g mod scope od odRes needsNew) = [] := by
  unfold functionCallReturn
  simp only
  split_ifs <;>
    simp +decide [threadSwitches_append, threadSwitches_ite, threadSwitches_cons_prcode,
      threadSwitches_cons_call, threadSwitches_nil, generateHandleResult_no_switch,
      staticFactoryKeepLoop_no_switch, deleteTemps, deleteTempsLoop_no_switch]

theorem functionCallNative_eq (g : generatorFlags) (mod : moduleDef)
    (c_scope : Option classDef) (scope : Option ifaceFileDef) (o_scope : ifaceFileDef)
    (od : overDef) (res : argDef) (needsNew is_result deref : Bool) :
    functionCallNative g mod c_scope scope o_scope od res needsNew is_result deref
      = functionCallBeforeRelease g mod c_scope od res needsNew ++
        (if releasesGIL g od then [beginAllowThreads] else []) ++
        ([genEvent.call "generateTry" (generateTry g od.exceptions)] ++
          functionCallAssign g od res needsNew is_result ++
          functionCallSlot g mod scope o_scope od deref ++
          functionCallClose g od res needsNew is_result ++
          [genEvent.call "generateCatch"
            (generateCatch g od.exceptions od.pysig mod (releasesGIL g od))]) ++
        (if releasesGIL g od then [endAllowThreads] else []) := by
  unfold functionCallNative functionCallBeforeRelease functionCallAssign functionCallClose
    releasesGIL beginAllowThreads endAllowThreads
  cases c_scope <;> simp only [List.append_assoc, List.cons_append, List.nil_append]

set_option maxRecDepth 10000 in
theorem functionCallBeforeRelease_no_switch (g : generatorFlags) (mod : moduleDef)
    (c_scope : Option classDef) (od : overDef) (res : argDef) (needsNew : Bool) :
    threadSwitches (functionCallBeforeRelease g mod c_scope od res needsNew) = [] := by
  unfold functionCallBeforeRelease
  cases c_scope <;>
    simp +decide [threadSwitches_append, threadSwitches_ite, threadSwitches_cons_prcode,
      threadSwitches_cons_call, threadSwitches_cons_other, threadSwitches_nil,
      gc_ellipsis_no_switch]

theorem functionCallAssign_no_switch (g : generatorFlags) (od : overDef) (res : argDef)
    (needsNew is_result : Bool) :
    threadSwitches (functionCallAssign g od res needsNew is_result) = [] := by
  unfold functionCallAssign
  simp +decide [threadSwitches_append, threadSwitches_ite, threadSwitches_cons_prcode,
    threadSwitches_nil]

theorem functionCallClose_no_switch (g : generatorFlags) (od : overDef) (res : argDef)
    (needsNew is_result : Bool) :
    threadSwitches (functionCallClose g od res needsNew is_result) = [] := by
  unfold functionCallClose
  simp +decide [threadSwitches_append, threadSwitches_ite, threadSwitches_cons_prcode,
    threadSwitches_nil]

theorem threadSwitches_release (c : Bool) :
    threadSwitches (if c then [beginAllowThreads] else [])
      = if c then [beginAllowThreads] else [] := by
  cases c <;> rfl

theorem threadSwitches_reacquire (c : Bool) :
    threadSwitches (if c then [endAllowThreads] else [])
      = if c then [endAllowThreads] else [] := by
  cases c <;> rfl

/-- The events of `generateFunctionCall` before the call, for an overload without method
code whose call is generated. -/
theorem generateFunctionCall_split (g : generatorFlags) (c_scope : Option classDef)
    (mt_scope : Option mappedTypeDef) (o_scope : ifaceFileDef) (od : overDef) (deref : Bool)
    (mod : moduleDef) (hr : functionCallReached c_scope od = true) (hm : od.methodcode = []) :
    ∃ pre post,
      generateFunctionCall g c_scope mt_scope o_scope od deref mod
        = pre ++ (if releasesGIL g od then [beginAllowThreads] else []) ++
          ([genEvent.call "generateTry" (generateTry g od.exceptions)] ++
            functionCallAssign g od (functionCallOverload od).pysig.result
              (needsHeapCopy od.pysig.result false)
              (generateResultVar (functionCallScope c_scope mt_scope) od
                (functionCallOverload od).pysig.result "            ").2 ++
            functionCallSlot g mod (functionCallScope c_scope mt_scope) o_scope od deref ++
            functionCallClose g od (functionCallOverload od).pysig.result
              (needsHeapCopy od.pysig.result false)
              (generateResultVar (functionCallScope c_scope mt_scope) od
                (functionCallOverload od).pysig.result "            ").2 ++
            [genEvent.call "generateCatch"
              (generateCatch g od.exceptions od.pysig mod (releasesGIL g od))]) ++
          (if releasesGIL g od then [endAllowThreads] else []) ++ post ∧
      threadSwitches pre = [] ∧ threadSwitches post = [] := by
  have hp : (od.isProtected && !((c_scope.map classDef.hasShadow).getD false)) = false := by
    unfold functionCallReached at hr
    exact (Bool.not_eq_true' _).mp hr
  refine ⟨[genEvent.prcode "        \x7b\n" []] ++
      functionCallPrologue mod c_scope mt_scope od (functionCallOverload od).pysig.result ++
      functionCallBeforeRelease g mod c_scope od (functionCallOverload od).pysig.result
        (needsHeapCopy od.pysig.result false),
    functionCallKeepLoop mod (functionCallScope c_scope mt_scope) od
        (isStaticFactory (functionCallScope c_scope mt_scope) od) od.pysig.args 0 ++
      (if od.isThisTransferredMeth then
        [genEvent.prcode "\n            sipTransferTo(sipSelf, SIP_NULLPTR);\n" []]
       else []) ++
      [genEvent.call "gc_ellipsis" (gc_ellipsis od.pysig)] ++
      (if functionCallDeltemps od && !isZeroArgSlot od.common then
        [genEvent.call "deleteTemps" (deleteTemps g mod od.pysig)]
       else []) ++
      [genEvent.prcode "\n" []] ++
      functionCallErrorCheck od ++
      functionCallReturn g mod (functionCallScope c_scope mt_scope) od (functionCallOverload od)
        (needsHeapCopy od.pysig.result false) ++
      functionCallEnd od, ?_, ?_, ?_⟩
  · unfold generateFunctionCall functionCallStart
    rw [hp]
    simp only [Bool.false_eq_true, if_false, hm, ne_eq, not_true_eq_false,
      functionCallNative_eq, List.append_assoc]
  · simp +decide [threadSwitches_append, threadSwitches_cons_prcode, threadSwitches_nil,
      functionCallPrologue_no_switch, functionCallBeforeRelease_no_switch]
  · simp +decide [threadSwitches_append, threadSwitches_ite, threadSwitches_cons_prcode,
      threadSwitches_cons_call, threadSwitches_nil, functionCallKeepLoop_no_switch,
      gc_ellipsis_no_switch, deleteTemps, deleteTempsLoop_no_switch,
      functionCallErrorCheck_no_switch, functionCallReturn_no_switch,
      functionCallEnd_no_switch]

/-- The releases and reacquisitions of the lock in the output of `generateFunctionCall`. -/
theorem generateFunctionCall_switches (g : generatorFlags) (c_scope : Option classDef)
    (mt_scope : Option mappedTypeDef) (o_scope : ifaceFileDef) (od : overDef) (deref : Bool)
    (mod : moduleDef) :
    threadSwitches (generateFunctionCall g c_scope mt_scope o_scope od deref mod)
      = if functionCallReached c_scope od = true ∧ od.methodcode = [] ∧
            releasesGIL g od = true then
          [beginAllowThreads, endAllowThreads]
        else [] := by
  by_cases hr : functionCallReached c_scope od = true
  · by_cases hm : od.methodcode = []
    · obtain ⟨pre, post, e, h1, h2⟩ :=
        generateFunctionCall_split g c_scope mt_scope o_scope od deref mod hr hm
      rw [e]
      simp only [threadSwitches_append, h1, h2, threadSwitches_cons_call, threadSwitches_nil,
        generateTry_no_switch, functionCallAssign_no_switch, functionCallSlot_no_switch,
        functionCallClose_no_switch, generateCatch_no_switch, threadSwitches_release,
        threadSwitches_reacquire, hr, hm, true_and]
      cases releasesGIL g od <;> rfl
    · have hp : (od.isProtected && !((c_scope.map classDef.hasShadow).getD false)) = false := by
        unfold functionCallReached at hr
        exact (Bool.not_eq_true' _).mp hr
      unfold generateFunctionCall functionCallStart
      rw [hp]
      simp +decide [hm, threadSwitches_append, threadSwitches_ite, threadSwitches_cons_prcode,
        threadSwitches_cons_call, threadSwitches_cons_other, threadSwitches_nil,
        functionCallPrologue_no_switch, functionCallKeepLoop_no_switch,
        gc_ellipsis_no_switch, deleteTemps, deleteTempsLoop_no_switch,
        functionCallErrorCheck_no_switch, functionCallReturn_no_switch,
        functionCallEnd_no_switch]
  · have hp : (od.isProtected && !((c_scope.map classDef.hasShadow).getD false)) = true := by
      unfold functionCallReached at hr
      cases h : (od.isProtected && !((c_scope.map classDef.hasShadow).getD false))
      · rw [h] at hr
        exact absurd rfl hr
      · rfl
    unfold generateFunctionCall
    rw [hp]
    simp +decide [hr, threadSwitches_cons_prcode, threadSwitches_nil]


/-! ## Lemmas on the heap instances of arguments -/

theorem newInstancesLoop_eq (mod : moduleDef) :
    ∀ (l : List argDef) (a : Nat),
      newInstancesLoop mod l a
        = ((l.enumFrom a).filter (fun p => needNewInstance p.2)).map
            (fun p => genEvent.prcode "            %a = new %b();\n"
              [.mod mod, .ad p.2, .d p.1, .ad p.2]) := by
  intro l
  induction l with
  | nil => intro a; rfl
  | cons x r ih =>
    intro a
    rw [newInstancesLoop, ih]
    cases h : needNewInstance x <;> simp [List.enumFrom, List.filter, h]

theorem deleteOutsLoop_eq (mod : moduleDef) :
    ∀ (l : List argDef) (a : Nat),
      deleteOutsLoop mod l a
        = ((l.enumFrom a).filter (fun p => needNewInstance p.2)).map
            (fun p => genEvent.prcode "                delete %a;\n"
              [.mod mod, .ad p.2, .d p.1]) := by
  intro l
  induction l with
  | nil => intro a; rfl
  | cons x r ih =>
    intro a
    rw [deleteOutsLoop, ih, deleteOutsArg]
    cases h : needNewInstance x <;> simp [List.enumFrom, List.filter, h]


/-! ## Lemmas on heap strings -/

theorem strlen_le (s : List Char) : strlen s ≤ s.length := by
  induction s with
  | nil => simp [strlen]
  | cons c r ih =>
    by_cases h : c = '\x00'
    · simp [strlen, h]
    · simp [strlen, h, ih]

theorem strlen_lt_of_mem (s : List Char) (h : '\x00' ∈ s) : strlen s < s.length := by
  induction s with
  | nil => simp at h
  | cons c r ih =>
    by_cases hc : c = '\x00'
    · simp [strlen, hc]
    · have : '\x00' ∈ r := by
        rcases List.mem_cons.1 h with h | h
        · exact absurd h.symm hc
        · exact h
      simp [strlen, hc, ih this]

theorem strlen_append_nul (a r : List Char) (ha : ∀ c ∈ a, c ≠ '\x00') :
    strlen (a ++ '\x00' :: r) = a.length := by
  induction a with
  | nil => simp [strlen]
  | cons c a ih =>
    have hc : c ≠ '\x00' := ha c (List.mem_cons_self _ _)
    simp [strlen, hc, ih (fun d hd => ha d (List.mem_cons_of_mem _ hd))]

theorem cstring_no_nul (s : List Char) : ∀ c ∈ cstring s, c ≠ '\x00' := by
  induction s with
  | nil => simp [cstring, strlen]
  | cons d r ih =>
    by_cases hd : d = '\x00'
    · simp [cstring, strlen, hd]
    · intro c hc
      simp only [cstring, strlen, hd, if_false, List.take_succ_cons, List.mem_cons] at hc
      rcases hc with hc | hc
      · rw [hc]; exact hd
      · exact ih c hc

theorem cstring_length (s : List Char) : (cstring s).length = strlen s := by
  simp [cstring, strlen_le]

theorem cstring_append_nul (a r : List Char) (ha : ∀ c ∈ a, c ≠ '\x00') :
    cstring (a ++ '\x00' :: r) = a := by
  simp [cstring, strlen_append_nul a r ha]

/-- What `strcat` does to a buffer that holds the string `a` followed by at least as many
characters as the string of `src` has. -/
theorem strcat_eq (a r src : List Char) (ha : ∀ c ∈ a, c ≠ '\x00') (hs : '\x00' ∈ src)
    (hr : strlen src ≤ r.length) :
    strcat (a ++ '\x00' :: r) src
      = some ((a ++ cstring src) ++ '\x00' :: r.drop (strlen src)) := by
  unfold strcat
  rw [strlen_append_nul a r ha]
  have h1 : strlen src < src.length := strlen_lt_of_mem src hs
  have h2 : a.length + strlen src + 1 ≤ (a ++ '\x00' :: r).length := by
    simp; omega
  rw [if_pos ⟨h1, h2⟩]
  have e : (a ++ '\x00' :: r).drop (a.length + strlen src + 1) = r.drop (strlen src) := by
    rw [List.drop_append_eq_append_drop]
    have h0 : List.drop (a.length + strlen src + 1) a = [] :=
      List.drop_eq_nil_of_le (by omega)
    have : a.length + strlen src + 1 - a.length = strlen src + 1 := by omega
    rw [h0, this]
    rfl
  simp [e]

theorem cstring_split (s : List Char) (h : '\x00' ∈ s) :
    ∃ t, s = cstring s ++ '\x00' :: t := by
  induction s with
  | nil => simp at h
  | cons c r ih =>
    by_cases hc : c = '\x00'
    · exact ⟨r, by simp [cstring, strlen, hc]⟩
    · have hr : '\x00' ∈ r := by
        rcases List.mem_cons.1 h with h | h
        · exact absurd h.symm hc
        · exact h
      obtain ⟨t, ht⟩ := ih hr
      refine ⟨t, ?_⟩
      simp only [cstring, strlen, hc, if_false, List.take_succ_cons, List.cons_append]
      rw [List.cons_inj_right]
      exact ht

theorem take_string (a t : List Char) (m : Nat) :
    (a ++ '\x00' :: t).take (a.length + m + 1) = a ++ '\x00' :: t.take m := by
  rw [List.take_append_eq_append_take]
  have h0 : List.take (a.length + m + 1) a = a := List.take_of_length_le (by omega)
  have h3 : a.length + m + 1 - a.length = m + 1 := by omega
  rw [h0, h3]
  rfl

theorem concatCopy_eq :
    ∀ (strs : List (List Char)) (a r : List Char), (∀ c ∈ a, c ≠ '\x00') →
      (∀ s ∈ strs, '\x00' ∈ s) → (strs.map strlen).sum ≤ r.length →
      concatCopy strs (a ++ '\x00' :: r)
        = some ((a ++ (strs.map cstring).flatten) ++
            '\x00' :: r.drop ((strs.map strlen).sum)) := by
  intro strs
  induction strs with
  | nil => intro a r _ _ _; simp [concatCopy]
  | cons s rest ih =>
    intro a r ha hs hr
    simp only [List.map_cons, List.sum_cons] at hr
    rw [concatCopy, strcat_eq a r s ha (hs s (List.mem_cons_self _ _)) (by omega)]
    simp only [Option.some_bind]
    rw [ih (a ++ cstring s) (r.drop (strlen s))
      (by
        intro c hc
        rcases List.mem_append.1 hc with h | h
        · exact ha c h
        · exact cstring_no_nul s c h)
      (fun t ht => hs t (List.mem_cons_of_mem _ ht))
      (by simp; omega)]
    simp [List.drop_drop, Nat.add_comm]

theorem concatLength_eq :
    ∀ (strs : List (List Char)) (len : Nat), len + (strs.map strlen).sum ≤ SIZE_MAX →
      concatLength strs len = len + (strs.map strlen).sum := by
  intro strs
  induction strs with
  | nil => intro len _; simp [concatLength]
  | cons s rest ih =>
    intro len h
    simp only [List.map_cons, List.sum_cons] at h ⊢
    rw [concatLength, Nat.mod_eq_of_lt (by omega), ih _ (by omega)]
    omega

theorem concatArgs_eq (strs : List (List Char)) (rest : List (Option (List Char))) :
    concatArgs (strs.map some ++ none :: rest) = some strs := by
  induction strs with
  | nil => rfl
  | cons s r ih => simp [concatArgs, ih]

theorem concat_eq (strs : List (List Char)) (rest : List (Option (List Char)))
    (hs : ∀ s ∈ strs, '\x00' ∈ s) (hlen : (strs.map strlen).sum + 1 ≤ SIZE_MAX) :
    concat (strs.map some ++ none :: rest)
      = some ((strs.map cstring).flatten ++ ['\x00']) := by
  unfold concat
  rw [concatArgs_eq]
  simp only [Option.some_bind]
  rw [concatLength_eq strs 1 (by omega)]
  rw [if_neg (by omega)]
  have e : (sipMalloc (1 + (strs.map strlen).sum)).set 0 '\x00'
      = [] ++ '\x00' :: List.replicate ((strs.map strlen).sum) '\x00' := by
    simp [sipMalloc, Nat.add_comm 1, List.replicate_succ]
  rw [e, concatCopy_eq strs [] _ (by simp) hs (by simp)]
  simp

theorem append_eq (s new : List Char) (junk : Nat → Char) (hs : '\x00' ∈ s)
    (hn : '\x00' ∈ new) (hlen : strlen s + strlen new + 1 ≤ SIZE_MAX) :
    append s new junk = some (cstring s ++ cstring new ++ ['\x00']) := by
  unfold append
  rw [Nat.mod_eq_of_lt (by omega)]
  have h1 := strlen_lt_of_mem s hs
  obtain ⟨r, hr, hlr⟩ : ∃ r, realloc s (strlen s + strlen new + 1) junk
      = cstring s ++ '\x00' :: r ∧ r.length = strlen new := by
    obtain ⟨t, ht⟩ := cstring_split s hs
    have hl : s.length = strlen s + 1 + t.length := by
      have := congrArg List.length ht
      simp [cstring_length] at this
      omega
    refine ⟨t.take (strlen new) ++
      (List.range (strlen s + strlen new + 1 - s.length)).map junk, ?_, ?_⟩
    · unfold realloc
      have e : s.take (strlen s + strlen new + 1)
          = cstring s ++ '\x00' :: t.take (strlen new) := by
        have h := take_string (cstring s) t (strlen new)
        rw [cstring_length, ← ht] at h
        exact h
      rw [e]
      simp
    · simp
      omega
  rw [hr, strcat_eq _ _ _ (cstring_no_nul s) hn (by omega)]
  simp [← hlr]

theorem cstrings_no_nul (strs : List (List Char)) :
    ∀ c ∈ (strs.map cstring).flatten, c ≠ '\x00' := by
  intro c hc
  obtain ⟨l, hl, hcl⟩ := List.mem_flatten.1 hc
  obtain ⟨s, _, rfl⟩ := List.mem_map.1 hl
  exact cstring_no_nul s c hcl


/-! ## Lemmas on the protected flags -/

theorem normaliseArg_classes (st : flagStore) (ad : argDef) (a : Nat) :
    (normaliseArg st ad).classes a
      = if pointsToClass a ad then normaliseFlags (st.classes a) else st.classes a := by
  unfold normaliseArg pointsToClass normaliseFlags
  by_cases h1 : ad.atype = .class_type
  · by_cases h2 : ad.u.getCd.addr = a
    · subst h2
      by_cases h3 : (st.classes ad.u.getCd.addr).isProtected = true <;> simp [h1, h3]
    · by_cases h3 : (st.classes ad.u.getCd.addr).isProtected = true <;>
        simp [h1, h2, h3, Function.update_noteq (Ne.symm h2)]
  · by_cases h4 : ad.atype = .enum_type ∧ (st.enums ad.u.getEd.addr).isProtected = true <;>
      simp [h1, h4]

theorem normaliseArg_enums (st : flagStore) (ad : argDef) (a : Nat) :
    (normaliseArg st ad).enums a
      = if pointsToEnum a ad then normaliseFlags (st.enums a) else st.enums a := by
  unfold normaliseArg pointsToEnum normaliseFlags
  by_cases h1 : ad.atype = .class_type
  · have h0 : ad.atype ≠ .enum_type := by rw [h1]; decide
    by_cases h3 : (st.classes ad.u.getCd.addr).isProtected = true <;> simp [h1, h3]
  · by_cases h0 : ad.atype = .enum_type
    · by_cases h2 : ad.u.getEd.addr = a
      · subst h2
        by_cases h3 : (st.enums ad.u.getEd.addr).isProtected = true <;> simp [h0, h3]
      · by_cases h3 : (st.enums ad.u.getEd.addr).isProtected = true <;>
          simp [h0, h2, h3, Function.update_noteq (Ne.symm h2)]
    · simp [h1, h0]

theorem restoreArg_classes (st : flagStore) (ad : argDef) (a : Nat) :
    (restoreArg st ad).classes a
      = if pointsToClass a ad then restoreFlags (st.classes a) else st.classes a := by
  unfold restoreArg pointsToClass restoreFlags
  by_cases h1 : ad.atype = .class_type
  · by_cases h2 : ad.u.getCd.addr = a
    · subst h2
      by_cases h3 : (st.classes ad.u.getCd.addr).wasProtected = true <;> simp [h1, h3]
    · by_cases h3 : (st.classes ad.u.getCd.addr).wasProtected = true <;>
        simp [h1, h2, h3, Function.update_noteq (Ne.symm h2)]
  · by_cases h4 : ad.atype = .enum_type ∧ (st.enums ad.u.getEd.addr).wasProtected = true <;>
      simp [h1, h4]

theorem restoreArg_enums (st : flagStore) (ad : argDef) (a : Nat) :
    (restoreArg st ad).enums a
      = if pointsToEnum a ad then restoreFlags (st.enums a) else st.enums a := by
  unfold restoreArg pointsToEnum restoreFlags
  by_cases h1 : ad.atype = .class_type
  · have h0 : ad.atype ≠ .enum_type := by rw [h1]; decide
    by_cases h3 : (st.classes ad.u.getCd.addr).wasProtected = true <;> simp [h1, h3]
  · by_cases h0 : ad.atype = .enum_type
    · by_cases h2 : ad.u.getEd.addr = a
      · subst h2
        by_cases h3 : (st.enums ad.u.getEd.addr).wasProtected = true <;> simp [h0, h3]
      · by_cases h3 : (st.enums ad.u.getEd.addr).wasProtected = true <;>
          simp [h0, h2, h3, Function.update_noteq (Ne.symm h2)]
    · simp [h1, h0]

theorem normaliseFlags_idem (f : protectedFlags) :
    normaliseFlags (normaliseFlags f) = normaliseFlags f := by
  unfold normaliseFlags
  cases h : f.isProtected <;> simp [h]

theorem restoreFlags_idem (f : protectedFlags) :
    restoreFlags (restoreFlags f) = restoreFlags f := by
  unfold restoreFlags
  cases h : f.wasProtected <;> simp [h]

theorem restoreFlags_normaliseFlags (f : protectedFlags) (h : f.wasProtected = false) :
    restoreFlags (normaliseFlags f) = f := by
  cases f with
  | mk p w =>
    simp only at h
    subst h
    cases p <;> rfl

theorem normaliseFlags_isProtected (f : protectedFlags) :
    (normaliseFlags f).isProtected = false := by
  unfold normaliseFlags
  cases h : f.isProtected <;> simp [h]

theorem normaliseArgsLoop_classes (a : Nat) :
    ∀ (l : List argDef) (st : flagStore),
      (normaliseArgsLoop st l).classes a
        = if l.any (pointsToClass a) then normaliseFlags (st.classes a) else st.classes a := by
  intro l
  induction l with
  | nil => intro st; rfl
  | cons ad rest ih =>
    intro st
    rw [normaliseArgsLoop, ih, normaliseArg_classes, List.any_cons]
    cases pointsToClass a ad <;> cases rest.any (pointsToClass a) <;>
      simp [normaliseFlags_idem]

theorem normaliseArgsLoop_enums (a : Nat) :
    ∀ (l : List argDef) (st : flagStore),
      (normaliseArgsLoop st l).enums a
        = if l.any (pointsToEnum a) then normaliseFlags (st.enums a) else st.enums a := by
  intro l
  induction l with
  | nil => intro st; rfl
  | cons ad rest ih =>
    intro st
    rw [normaliseArgsLoop, ih, normaliseArg_enums, List.any_cons]
    cases pointsToEnum a ad <;> cases rest.any (pointsToEnum a) <;>
      simp [normaliseFlags_idem]

theorem restoreArgsLoop_classes (a : Nat) :
    ∀ (l : List argDef) (st : flagStore),
      (restoreArgsLoop st l).classes a
        = if l.any (pointsToClass a) then restoreFlags (st.classes a) else st.classes a := by
  intro l
  induction l with
  | nil => intro st; rfl
  | cons ad rest ih =>
    intro st
    rw [restoreArgsLoop, ih, restoreArg_classes, List.any_cons]
    cases pointsToClass a ad <;> cases rest.any (pointsToClass a) <;>
      simp [restoreFlags_idem]

theorem restoreArgsLoop_enums (a : Nat) :
    ∀ (l : List argDef) (st : flagStore),
      (restoreArgsLoop st l).enums a
        = if l.any (pointsToEnum a) then restoreFlags (st.enums a) else st.enums a := by
  intro l
  induction l with
  | nil => intro st; rfl
  | cons ad rest ih =>
    intro st
    rw [restoreArgsLoop, ih, restoreArg_enums, List.any_cons]
    cases pointsToEnum a ad <;> cases rest.any (pointsToEnum a) <;>
      simp [restoreFlags_idem]

theorem flagStore_ext (s t : flagStore) (hc : ∀ a, s.classes a = t.classes a)
    (he : ∀ a, s.enums a = t.enums a) : s = t := by
  cases s
  cases t
  simp only [flagStore.mk.injEq]
  exact ⟨funext hc, funext he⟩

theorem restore_normalise_loop (st : flagStore) (l : List argDef)
    (h : noWasProtected st l) :
    restoreArgsLoop (normaliseArgsLoop st l) l = st := by
  apply flagStore_ext
  · intro a
    rw [restoreArgsLoop_classes, normaliseArgsLoop_classes]
    cases hp : l.any (pointsToClass a)
    · simp
    · obtain ⟨ad, had, hpt⟩ := List.any_eq_true.1 hp
      simp only [pointsToClass, Bool.and_eq_true, decide_eq_true_eq] at hpt
      have hw := (h ad had).1 hpt.1
      rw [hpt.2] at hw
      simp [restoreFlags_normaliseFlags _ hw]
  · intro a
    rw [restoreArgsLoop_enums, normaliseArgsLoop_enums]
    cases hp : l.any (pointsToEnum a)
    · simp
    · obtain ⟨ad, had, hpt⟩ := List.any_eq_true.1 hp
      simp only [pointsToEnum, Bool.and_eq_true, decide_eq_true_eq] at hpt
      have hw := (h ad had).2 hpt.1
      rw [hpt.2] at hw
      simp [restoreFlags_normaliseFlags _ hw]

theorem normalise_loop_unprotected (st : flagStore) (l : List argDef) :
    ∀ ad ∈ l,
      (ad.atype = .class_type →
        ((normaliseArgsLoop st l).classes ad.u.getCd.addr).isProtected = false) ∧
      (ad.atype = .enum_type →
        ((normaliseArgsLoop st l).enums ad.u.getEd.addr).isProtected = false) := by
  intro ad had
  constructor
  · intro hc
    rw [normaliseArgsLoop_classes]
    have : l.any (pointsToClass ad.u.getCd.addr) = true :=
      List.any_eq_true.2 ⟨ad, had, by simp [pointsToClass, hc]⟩
    simp [this, normaliseFlags_isProtected]
  · intro hc
    rw [normaliseArgsLoop_enums]
    have : l.any (pointsToEnum ad.u.getEd.addr) = true :=
      List.any_eq_true.2 ⟨ad, had, by simp [pointsToEnum, hc]⟩
    simp [this, normaliseFlags_isProtected]

theorem restoreFlags_of_not_was (f : protectedFlags) (h : f.wasProtected = false) :
    restoreFlags f = f := by
  unfold restoreFlags
  simp [h]

theorem restore_normalise_catcher (st : flagStore) (res : argDef) (l : List argDef)
    (h : noWasProtected st (res :: l)) :
    restoreArg (restoreArgsLoop (normaliseArgsLoop (normaliseArg st res) l) l) res = st := by
  have hres := h res (List.mem_cons_self _ _)
  apply flagStore_ext
  · intro a
    rw [restoreArg_classes, restoreArgsLoop_classes, normaliseArgsLoop_classes,
      normaliseArg_classes]
    have hw : (pointsToClass a res = true ∨ l.any (pointsToClass a) = true) →
        (st.classes a).wasProtected = false := by
      rintro (hp | hp)
      · simp only [pointsToClass, Bool.and_eq_true, decide_eq_true_eq] at hp
        have := hres.1 hp.1
        rwa [hp.2] at this
      · obtain ⟨ad, had, hpt⟩ := List.any_eq_true.1 hp
        simp only [pointsToClass, Bool.and_eq_true, decide_eq_true_eq] at hpt
        have := (h ad (List.mem_cons_of_mem _ had)).1 hpt.1
        rwa [hpt.2] at this
    cases hp : pointsToClass a res <;> cases hq : l.any (pointsToClass a) <;>
      simp [hp, hq] at hw ⊢ <;>
      simp [restoreFlags_normaliseFlags _ hw, restoreFlags_idem, normaliseFlags_idem,
        restoreFlags_of_not_was _ hw]
  · intro a
    rw [restoreArg_enums, restoreArgsLoop_enums, normaliseArgsLoop_enums,
      normaliseArg_enums]
    have hw : (pointsToEnum a res = true ∨ l.any (pointsToEnum a) = true) →
        (st.enums a).wasProtected = false := by
      rintro (hp | hp)
      · simp only [pointsToEnum, Bool.and_eq_true, decide_eq_true_eq] at hp
        have := hres.2 hp.1
        rwa [hp.2] at this
      · obtain ⟨ad, had, hpt⟩ := List.any_eq_true.1 hp
        simp only [pointsToEnum, Bool.and_eq_true, decide_eq_true_eq] at hpt
        have := (h ad (List.mem_cons_of_mem _ had)).2 hpt.1
        rwa [hpt.2] at this
    cases hp : pointsToEnum a res <;> cases hq : l.any (pointsToEnum a) <;>
      simp [hp, hq] at hw ⊢ <;>
      simp [restoreFlags_normaliseFlags _ hw, restoreFlags_idem, normaliseFlags_idem,
        restoreFlags_of_not_was _ hw]


/-! ## Lemmas on the keys of the kept references -/

theorem allocKeys_append (a b : List Nat) :
    ∀ ks : keyStore,
      allocKeys ks (a ++ b)
        = ((allocKeys ks a).1 ++ (allocKeys (allocKeys ks a).2 b).1,
            (allocKeys (allocKeys ks a).2 b).2) := by
  induction a with
  | nil => intro ks; rfl
  | cons m rest ih =>
    intro ks
    rw [List.cons_append]
    simp only [allocKeys]
    rw [ih]
    rfl

theorem takeKey_other (ks : keyStore) (m m0 : Nat) (h : m0 ≠ m) :
    (takeKey ks m0).2 m = ks m := by
  unfold takeKey
  simp only [Function.update_apply]
  rw [if_neg (Ne.symm h)]

theorem takeKey_same (ks : keyStore) (m : Nat) (h : INT_MIN < ks m) :
    (takeKey ks m).2 m = ks m - 1 := by
  unfold takeKey
  simp only [Function.update_same]
  rw [if_neg (by omega)]

/-- The keys that successive allocations hand out from one counter are strictly
decreasing, and none is above the counter, as long as no allocation hands out `INT_MIN`.
-/
theorem allocKeys_decreasing (m : Nat) :
    ∀ (ms : List Nat) (ks : keyStore), (∀ p ∈ (allocKeys ks ms).1, INT_MIN < p.2) →
      (∀ k ∈ keysOf m (allocKeys ks ms).1, k ≤ ks m) ∧
        (keysOf m (allocKeys ks ms).1).Pairwise (fun a b => a > b) := by
  intro ms
  induction ms with
  | nil => intro ks _; simp [allocKeys, keysOf]
  | cons m0 rest ih =>
    intro ks h
    have hhead : INT_MIN < ks m0 := h (m0, (takeKey ks m0).1) (by simp [allocKeys])
    have hrest : ∀ p ∈ (allocKeys (takeKey ks m0).2 rest).1, INT_MIN < p.2 := by
      intro p hp
      exact h p (by simp [allocKeys, hp])
    obtain ⟨ih1, ih2⟩ := ih (takeKey ks m0).2 hrest
    by_cases e : m0 = m
    · subst e
      have hk : keysOf m0 (allocKeys ks (m0 :: rest)).1
          = ks m0 :: keysOf m0 (allocKeys (takeKey ks m0).2 rest).1 := by
        simp [allocKeys, keysOf, takeKey]
      rw [hk]
      rw [takeKey_same ks m0 hhead] at ih1
      constructor
      · intro k hk'
        rcases List.mem_cons.1 hk' with e | e
        · omega
        · have := ih1 k e
          omega
      · refine List.Pairwise.cons ?_ ih2
        intro k hk'
        have := ih1 k hk'
        omega
    · have hk : keysOf m (allocKeys ks (m0 :: rest)).1
          = keysOf m (allocKeys (takeKey ks m0).2 rest).1 := by
        simp [allocKeys, keysOf, e]
      rw [hk]
      rw [takeKey_other ks m m0 e] at ih1
      exact ⟨ih1, ih2⟩

theorem generateVariableGetter_alloc (g : generatorFlags) (ks : keyStore) (fp : lineState)
    (scope : Option ifaceFileDef) (vd : varDef) :
    ((generateVariableGetter g ks fp scope vd).log,
        (generateVariableGetter g ks fp scope vd).keys)
      = allocKeys ks (variableKeyModules vd) := by
  unfold generateVariableGetter variableKeyLog variableKeyStore variableKeyModules
    variableVarKey variableSelfKey
  cases variableNeedsKeys vd <;> cases vd.isStaticVar <;> rfl

theorem virtHandlerKeysLoop_alloc (m : Nat) :
    ∀ (l : List argDef) (ks : keyStore),
      ((virtHandlerKeysLoop m ks l).2.2, (virtHandlerKeysLoop m ks l).2.1)
        = allocKeys ks ((l.filter virtHandlerKeeps).map (fun _ => m)) := by
  intro l
  induction l with
  | nil => intro ks; rfl
  | cons ad rest ih =>
    intro ks
    cases h : virtHandlerKeeps ad
    · simp only [virtHandlerKeysLoop, h, Bool.false_eq_true, if_false, List.filter_cons]
      exact ih ks
    · simp only [virtHandlerKeysLoop, h, if_true, List.filter_cons, List.map_cons, allocKeys]
      have := ih (takeKey ks m).2
      rw [← this]

theorem generateVirtHandlerCall_alloc (ks : keyStore) (mod : moduleDef) (cd : classDef)
    (od : overDef) (vhd : virtHandlerDef) (res : Option argDef) (indent : String) :
    ((generateVirtHandlerCall ks mod cd od vhd res indent).log,
        (generateVirtHandlerCall ks mod cd od vhd res indent).keys)
      = allocKeys ks (virtHandlerKeyModules mod od res) := by
  unfold generateVirtHandlerCall virtHandlerKeyModules
  simp only
  rw [allocKeys_append]
  cases res with
  | none =>
    have := virtHandlerKeysLoop_alloc mod.addr od.cppsig.args ks
    simp only [Bool.false_eq_true, if_false, List.nil_append, allocKeys]
    rw [← this]
  | some r =>
    cases h : keepPyReference r
    · have := virtHandlerKeysLoop_alloc mod.addr od.cppsig.args ks
      simp only [h, Bool.false_eq_true, if_false, List.nil_append, allocKeys]
      rw [← this]
    · have := virtHandlerKeysLoop_alloc mod.addr od.cppsig.args (takeKey ks mod.addr).2
      simp only [h, if_true, allocKeys, List.singleton_append, List.cons_append,
        List.nil_append]
      rw [← this]

theorem keyRun_alloc (ks : keyStore) (r : keyRun) :
    ((r.run ks).log, (r.run ks).keys) = allocKeys ks r.modules := by
  cases r with
  | variableGetter g fp scope vd => exact generateVariableGetter_alloc g ks fp scope vd
  | virtHandlerCall mod cd od vhd res indent =>
    exact generateVirtHandlerCall_alloc ks mod cd od vhd res indent

theorem runAll_alloc :
    ∀ (runs : List keyRun) (ks : keyStore),
      runAll ks runs = allocKeys ks (runs.flatMap keyRun.modules) := by
  intro runs
  induction runs with
  | nil => intro ks; rfl
  | cons r rest ih =>
    intro ks
    have h := keyRun_alloc ks r
    rw [List.flatMap_cons, allocKeys_append, ← h, runAll, ih]

/-- The counter of a module after a sequence of allocations: it went down by the number of
keys handed out from it, as long as no allocation handed out `INT_MIN`. -/
theorem allocKeys_counter (m : Nat) :
    ∀ (ms : List Nat) (ks : keyStore), (∀ p ∈ (allocKeys ks ms).1, INT_MIN < p.2) →
      (allocKeys ks ms).2 m = ks m - (ms.count m : Nat) := by
  intro ms
  induction ms with
  | nil => intro ks _; simp [allocKeys]
  | cons m0 rest ih =>
    intro ks h
    have hhead : INT_MIN < ks m0 := h (m0, (takeKey ks m0).1) (by simp [allocKeys])
    have hrest : ∀ p ∈ (allocKeys (takeKey ks m0).2 rest).1, INT_MIN < p.2 := by
      intro p hp
      exact h p (by simp [allocKeys, hp])
    have := ih (takeKey ks m0).2 hrest
    simp only [allocKeys]
    rw [this]
    by_cases e : m0 = m
    · subst e
      rw [takeKey_same ks m0 hhead, List.count_cons_self]
      push_cast
      omega
    · rw [takeKey_other ks m m0 e, List.count_cons_of_ne (fun h => e h.symm)]

theorem takeKey_congr (ks1 ks2 : keyStore) (m : Nat) (h : ks1 m = ks2 m) :
    (takeKey ks1 m).1 = (takeKey ks2 m).1 ∧ (takeKey ks1 m).2 m = (takeKey ks2 m).2 m := by
  unfold takeKey
  simp [h]

theorem virtHandlerKeysLoop_congr (m : Nat) :
    ∀ (l : List argDef) (ks1 ks2 : keyStore), ks1 m = ks2 m →
      (virtHandlerKeysLoop m ks1 l).1 = (virtHandlerKeysLoop m ks2 l).1 ∧
        (virtHandlerKeysLoop m ks1 l).2.2 = (virtHandlerKeysLoop m ks2 l).2.2 := by
  intro l
  induction l with
  | nil => intro ks1 ks2 _; exact ⟨rfl, rfl⟩
  | cons ad rest ih =>
    intro ks1 ks2 h
    obtain ⟨e1, e2⟩ := takeKey_congr ks1 ks2 m h
    cases hk : virtHandlerKeeps ad
    · simp only [virtHandlerKeysLoop, hk, Bool.false_eq_true, if_false]
      obtain ⟨i1, i2⟩ := ih ks1 ks2 h
      rw [i1, i2]
      exact ⟨rfl, rfl⟩
    · simp only [virtHandlerKeysLoop, hk, if_true]
      obtain ⟨i1, i2⟩ := ih (takeKey ks1 m).2 (takeKey ks2 m).2 e2
      rw [i1, i2, e1]
      exact ⟨rfl, rfl⟩

theorem generateVirtHandlerCall_congr (ks1 ks2 : keyStore) (mod : moduleDef) (cd : classDef)
    (od : overDef) (vhd : virtHandlerDef) (res : Option argDef) (indent : String)
    (h : ks1 mod.addr = ks2 mod.addr) :
    (generateVirtHandlerCall ks1 mod cd od vhd res indent).out
        = (generateVirtHandlerCall ks2 mod cd od vhd res indent).out ∧
      (generateVirtHandlerCall ks1 mod cd od vhd res indent).log
        = (generateVirtHandlerCall ks2 mod cd od vhd res indent).log ∧
      (generateVirtHandlerCall ks1 mod cd od vhd res indent).res
        = (generateVirtHandlerCall ks2 mod cd od vhd res indent).res ∧
      (generateVirtHandlerCall ks1 mod cd od vhd res indent).args
        = (generateVirtHandlerCall ks2 mod cd od vhd res indent).args := by
  obtain ⟨e1, e2⟩ := takeKey_congr ks1 ks2 mod.addr h
  have hl : ∀ c : Bool,
      (virtHandlerKeysLoop mod.addr (if c then (takeKey ks1 mod.addr).2 else ks1)
            od.cppsig.args).1
          = (virtHandlerKeysLoop mod.addr (if c then (takeKey ks2 mod.addr).2 else ks2)
            od.cppsig.args).1 ∧
        (virtHandlerKeysLoop mod.addr (if c then (takeKey ks1 mod.addr).2 else ks1)
            od.cppsig.args).2.2
          = (virtHandlerKeysLoop mod.addr (if c then (takeKey ks2 mod.addr).2 else ks2)
            od.cppsig.args).2.2 := by
    intro c
    cases c
    · exact virtHandlerKeysLoop_congr mod.addr od.cppsig.args ks1 ks2 h
    · exact virtHandlerKeysLoop_congr mod.addr od.cppsig.args _ _ e2
  unfold generateVirtHandlerCall
  simp only
  obtain ⟨l1, l2⟩ := hl (match res with
    | some r => keepPyReference r
    | none => false)
  rw [l1, l2, e1]
  exact ⟨rfl, rfl, rfl, rfl⟩

theorem generateVariableGetter_congr (g : generatorFlags) (ks1 ks2 : keyStore)
    (fp : lineState) (scope : Option ifaceFileDef) (vd : varDef)
    (h1 : ks1 vd.type.u.getCd.iff.module = ks2 vd.type.u.getCd.iff.module)
    (h2 : ks1 vd.module = ks2 vd.module) :
    (generateVariableGetter g ks1 fp scope vd).out
        = (generateVariableGetter g ks2 fp scope vd).out ∧
      (generateVariableGetter g ks1 fp scope vd).log
        = (generateVariableGetter g ks2 fp scope vd).log := by
  have ev : variableVarKey ks1 vd = variableVarKey ks2 vd := by
    unfold variableVarKey takeKey
    simp only [h1]
  have es : variableSelfKey ks1 vd = variableSelfKey ks2 vd := by
    unfold variableSelfKey takeKey
    simp only [Function.update_apply, h1, h2]
  unfold generateVariableGetter variableKeyLog
  simp only [ev, es, and_self]

theorem keyRun_counter (r : keyRun) (ks : keyStore) (m : Nat)
    (h : ∀ p ∈ (r.run ks).log, INT_MIN < p.2) :
    (r.run ks).keys m = ks m - (r.modules.count m : Nat) := by
  have e := keyRun_alloc ks r
  have e1 : (r.run ks).log = (allocKeys ks r.modules).1 := congrArg Prod.fst e
  have e2 : (r.run ks).keys = (allocKeys ks r.modules).2 := congrArg Prod.snd e
  rw [e1] at h
  rw [e2]
  exact allocKeys_counter m r.modules ks h

theorem keyRun_no_keys (r : keyRun) (ks : keyStore) (h : r.modules = []) :
    (r.run ks).keys = ks ∧ (r.run ks).log = [] := by
  have e := keyRun_alloc ks r
  rw [h] at e
  exact ⟨congrArg Prod.snd e, congrArg Prod.fst e⟩


/-- A second run of a generator that handed out keys hands out other keys: its first key
is below the first key of the first run. -/
theorem keyRun_rerun_differs (r : keyRun) (ks : keyStore) (hm : r.modules ≠ [])
    (h : ∀ p ∈ (r.run ks).log, INT_MIN < p.2) :
    (r.run (r.run ks).keys).log ≠ (r.run ks).log := by
  have e1 : (r.run ks).log = (allocKeys ks r.modules).1 := congrArg Prod.fst (keyRun_alloc ks r)
  have e2 : (r.run (r.run ks).keys).log = (allocKeys (r.run ks).keys r.modules).1 :=
    congrArg Prod.fst (keyRun_alloc _ r)
  have hc := keyRun_counter r ks
  cases hmod : r.modules with
  | nil => exact absurd hmod hm
  | cons m rest =>
    rw [e2, e1, hmod]
    simp only [allocKeys]
    intro heq
    have h1 := (List.cons.inj heq).1
    have h2 : (r.run ks).keys m = ks m := by
      have := congrArg Prod.snd h1
      simpa [takeKey] using this
    have h3 := hc m h
    rw [hmod, List.count_cons_self] at h3
    push_cast at h3
    omega

/-! ## The handwritten code of a getter and the lines of the output file -/

theorem generateCppCodeBlockLoop_no_filename :
    ∀ (cbl : codeBlockList), (∀ cb ∈ cbl, cb.filename = none) →
      (generateCppCodeBlockLoop cbl).2.1 = false ∧
        (generateCppCodeBlockLoop cbl).1
          = cbl.map (fun cb => genEvent.prcode "%s" [.s cb.frag]) := by
  intro cbl
  induction cbl with
  | nil => intro _; exact ⟨rfl, rfl⟩
  | cons cb rest ih =>
    intro h
    have h0 := h cb (List.mem_cons_self _ _)
    obtain ⟨i1, i2⟩ := ih (fun x hx => h x (List.mem_cons_of_mem _ hx))
    simp only [generateCppCodeBlockLoop, h0, i1, i2, Option.isSome_none, Bool.or_self,
      List.nil_append, List.singleton_append, List.map_cons, and_self]

theorem generateCppCodeBlockLoop_filename :
    ∀ (cbl : codeBlockList), (∃ cb ∈ cbl, cb.filename ≠ none) →
      (generateCppCodeBlockLoop cbl).2.1 = true := by
  intro cbl
  induction cbl with
  | nil => rintro ⟨cb, hcb, _⟩; simp at hcb
  | cons cb rest ih =>
    rintro ⟨x, hx, hf⟩
    simp only [generateCppCodeBlockLoop, Bool.or_eq_true]
    rcases List.mem_cons.1 hx with e | e
    · left
      rw [← e]
      exact Option.isSome_iff_ne_none.2 hf
    · right
      exact ih ⟨x, e, hf⟩

/-- Code blocks without a file name are copied as they are, whatever the line and the name
of the output file. -/
theorem generateCppCodeBlock_no_filename (fp : lineState) (cbl : codeBlockList)
    (h : ∀ cb ∈ cbl, cb.filename = none) :
    generateCppCodeBlock fp cbl = cbl.map (fun cb => genEvent.prcode "%s" [.s cb.frag]) := by
  obtain ⟨h1, h2⟩ := generateCppCodeBlockLoop_no_filename cbl h
  unfold generateCppCodeBlock
  rw [h1, h2]
  simp

/-- The output of `generateVariableGetter` does not depend on the line and the name of the
output file when no block of the handwritten code has a file name. -/
theorem generateVariableGetter_line_free (g : generatorFlags) (ks : keyStore)
    (fp1 fp2 : lineState) (scope : Option ifaceFileDef) (vd : varDef)
    (h : ∀ cb ∈ vd.getcode, cb.filename = none) :
    (generateVariableGetter g ks fp1 scope vd).out
      = (generateVariableGetter g ks fp2 scope vd).out := by
  unfold generateVariableGetter variableGetterOutput
  simp only
  rw [generateCppCodeBlock_no_filename _ _ h, generateCppCodeBlock_no_filename _ _ h]

/-- With a block of handwritten code that has a file name, `generateVariableGetter` ends
the code with a `#line` directive for the line after the current one of the output file,
under the name of the output file. -/
theorem generateVariableGetter_line_reset (g : generatorFlags) (ks : keyStore)
    (fp : lineState) (scope : Option ifaceFileDef) (vd : varDef)
    (h : ∃ cb ∈ vd.getcode, cb.filename ≠ none) :
    genEvent.call "generateCppCodeBlock"
        ((generateCppCodeBlockLoop vd.getcode).1 ++
          generatePreprocLine
            ((variableGetterLine g fp vd).currentLineNr +
              (generateCppCodeBlockLoop vd.getcode).2.2 + 1)
            fp.currentFileName)
      ∈ (generateVariableGetter g ks fp scope vd).out := by
  have hne : vd.getcode ≠ [] := by
    obtain ⟨cb, hcb, _⟩ := h
    exact List.ne_nil_of_mem hcb
  have ht := generateCppCodeBlockLoop_filename vd.getcode h
  unfold generateVariableGetter variableGetterOutput generateCppCodeBlock
  simp only [ht, if_true, hne, ne_eq, not_false_eq_true, if_false]
  simp [variableGetterLine]

/-! ## Lemmas on the functions of a member -/

/-- The Python signature that `generateFunctionBody` leaves: the one it was given when it
returns 0, the one it generated from, padded for a number slot with one argument, when it
returns an error. -/
theorem generateFunctionBody_pysig (g : generatorFlags) (od : overDef)
    (c_scope : Option classDef) (mt_scope : Option mappedTypeDef) (ocd : Option classDef)
    (deref : Bool) (mod : moduleDef) :
    ((generateFunctionBody g od c_scope mt_scope ocd deref mod).rc = 0 ∨
        (generateFunctionBody g od c_scope mt_scope ocd deref mod).rc = -1) ∧
      ((generateFunctionBody g od c_scope mt_scope ocd deref mod).rc = 0 →
        (generateFunctionBody g od c_scope mt_scope ocd deref mod).pysig = od.pysig) ∧
      ((generateFunctionBody g od c_scope mt_scope ocd deref mod).rc = -1 →
        (generateFunctionBody g od c_scope mt_scope ocd deref mod).pysig
          = functionBodyPysig od ocd) := by
  unfold generateFunctionBody
  simp only
  split
  · refine ⟨Or.inr rfl, fun h => by simp at h, fun _ => ?_⟩
    unfold functionBodyOverload
    split
    · rfl
    · rename_i h
      unfold functionBodyPysig
      rw [if_neg h]
  · exact ⟨Or.inl rfl, fun _ => rfl, fun h => by simp at h⟩

theorem handledOverloads_cons (md : memberDef) (cd ocd : classDef) (od : overDef)
    (rest : List overDef) :
    handledOverloads md cd ocd (od :: rest)
      = if (!skipOverload od md cd ocd false && !isPrivate od) = true then
          od :: handledOverloads md cd ocd rest
        else handledOverloads md cd ocd rest := by
  unfold handledOverloads
  rw [List.filter_cons]

theorem memberOverloads_cons (md : memberDef) (od : overDef) (rest : List overDef) :
    memberOverloads md (od :: rest)
      = if od.common.addr = md.addr then od :: memberOverloads md rest
        else memberOverloads md rest := by
  unfold memberOverloads
  rw [List.filter_cons]
  simp only [decide_eq_true_eq]

theorem functionBodiesLoop_eq (g : generatorFlags) (md : memberDef) (cd ocd : classDef)
    (mod : moduleDef) (hp : md.noArgParser = false) :
    ∀ (overs : List overDef),
      (∀ od ∈ handledOverloads md cd ocd overs,
        (generateFunctionBody g od (some cd) none (some ocd) true mod).rc = 0) →
      functionBodiesLoop g md cd ocd mod overs
        = ((handledOverloads md cd ocd overs).map (functionBlock g cd ocd mod), 0) := by
  intro overs
  induction overs with
  | nil => intro _; rfl
  | cons od rest ih =>
    intro h
    rw [functionBodiesLoop]
    by_cases h1 : skipOverload od md cd ocd false = true
    · have hf : ¬ (!skipOverload od md cd ocd false && !isPrivate od) = true := by simp [h1]
      rw [handledOverloads_cons, if_neg hf] at h ⊢
      rw [if_pos h1]
      exact ih h
    · by_cases h2 : isPrivate od = true
      · have hf : ¬ (!skipOverload od md cd ocd false && !isPrivate od) = true := by
          simp [h2]
        rw [handledOverloads_cons, if_neg hf] at h ⊢
        rw [if_neg h1, if_pos h2]
        exact ih h
      · have hf : (!skipOverload od md cd ocd false && !isPrivate od) = true := by
          simp [h1, h2]
        rw [handledOverloads_cons, if_pos hf] at h ⊢
        have hrc := h od (List.mem_cons_self _ _)
        have ih' := ih (fun o ho => h o (List.mem_cons_of_mem _ ho))
        rw [if_neg h1, if_neg h2, hp, if_neg (by simp), if_neg (by rw [hrc]; decide), ih']
        rfl

theorem functionBodiesLoop_raw (g : generatorFlags) (md : memberDef) (cd ocd : classDef)
    (mod : moduleDef) (hp : md.noArgParser = true) :
    ∀ (overs : List overDef),
      functionBodiesLoop g md cd ocd mod overs
        = (match (handledOverloads md cd ocd overs).head? with
            | some od => [genEvent.other "generateCppCodeBlock" [] od.methodcode]
            | none => [], 0) := by
  intro overs
  induction overs with
  | nil => rfl
  | cons od rest ih =>
    rw [functionBodiesLoop]
    by_cases h1 : skipOverload od md cd ocd false = true
    · have hf : ¬ (!skipOverload od md cd ocd false && !isPrivate od) = true := by simp [h1]
      rw [handledOverloads_cons, if_neg hf, if_pos h1]
      exact ih
    · by_cases h2 : isPrivate od = true
      · have hf : ¬ (!skipOverload od md cd ocd false && !isPrivate od) = true := by
          simp [h2]
        rw [handledOverloads_cons, if_neg hf, if_neg h1, if_pos h2]
        exact ih
      · have hf : (!skipOverload od md cd ocd false && !isPrivate od) = true := by
          simp [h1, h2]
        rw [handledOverloads_cons, if_pos hf, if_neg h1, if_neg h2, if_pos hp]
        rfl

theorem ordinaryBodiesLoop_eq (g : generatorFlags) (self_unused : Bool) (md : memberDef)
    (c_scope : Option classDef) (mt_scope : Option mappedTypeDef) (mod : moduleDef)
    (hp : md.noArgParser = false) :
    ∀ (overs : List overDef) (need_intro : Bool),
      (∀ od ∈ memberOverloads md overs,
        (generateFunctionBody g od c_scope mt_scope c_scope true mod).rc = 0) →
      ordinaryBodiesLoop g self_unused md c_scope mt_scope mod overs need_intro
        = ((if need_intro && !(memberOverloads md overs).isEmpty then
              ordinaryIntro self_unused
            else []) ++
            (memberOverloads md overs).map (ordinaryBlock g c_scope mt_scope mod),
          0, need_intro && (memberOverloads md overs).isEmpty) := by
  intro overs
  induction overs with
  | nil => intro need_intro _; simp [ordinaryBodiesLoop, memberOverloads]
  | cons od rest ih =>
    intro need_intro h
    rw [ordinaryBodiesLoop]
    by_cases h1 : od.common.addr = md.addr
    · rw [memberOverloads_cons, if_pos h1] at h ⊢
      have hrc := h od (List.mem_cons_self _ _)
      have ih' := ih false (fun o ho => h o (List.mem_cons_of_mem _ ho))
      rw [if_pos h1, hp, if_neg (by simp)]
      simp only
      rw [if_neg (by rw [hrc]; decide), ih']
      cases need_intro <;> simp [ordinaryIntro, ordinaryBlock]
    · rw [memberOverloads_cons, if_neg h1] at h ⊢
      rw [if_neg h1]
      exact ih need_intro h

theorem ordinaryBodiesLoop_raw (g : generatorFlags) (self_unused : Bool) (md : memberDef)
    (c_scope : Option classDef) (mt_scope : Option mappedTypeDef) (mod : moduleDef)
    (hp : md.noArgParser = true) :
    ∀ (overs : List overDef),
      ordinaryBodiesLoop g self_unused md c_scope mt_scope mod overs true
        = (match (memberOverloads md overs).head? with
            | some od => [genEvent.other "generateCppCodeBlock" [] od.methodcode]
            | none => [], 0, true) := by
  intro overs
  induction overs with
  | nil => rfl
  | cons od rest ih =>
    rw [ordinaryBodiesLoop]
    by_cases h1 : od.common.addr = md.addr
    · rw [memberOverloads_cons, if_pos h1, if_pos h1, if_pos hp]
      rfl
    · rw [memberOverloads_cons, if_neg h1, if_neg h1]
      exact ih

set_option maxRecDepth 10000 in
theorem functionHeader_plain (g : generatorFlags) (hasDoc : Bool) (md : memberDef)
    (cd ocd : classDef) (overs : List overDef) :
    (functionHeader g hasDoc md cd ocd overs).all genEvent.isPlain = true := by
  unfold functionHeader
  simp only [List.all_append, Bool.and_eq_true]
  refine ⟨⟨⟨⟨⟨?_, ?_⟩, ?_⟩, ?_⟩, ?_⟩, ?_⟩
  · decide
  · cases hasDoc <;> simp +decide [genEvent.isPlain, genEvent.isCall, genEvent.isFault]
  · cases g.generating_c <;> simp +decide [genEvent.isPlain, genEvent.isCall, genEvent.isFault]
  · simp +decide [genEvent.isPlain, genEvent.isCall, genEvent.isFault]
  · cases g.tracing <;> simp +decide [genEvent.isPlain, genEvent.isCall, genEvent.isFault]
  · cases md.noArgParser <;> cases functionNeedArgs md cd ocd overs <;>
      cases functionNeedSelfArg g md cd ocd overs <;>
      cases functionNeedOrigSelf g md cd ocd overs <;>
      by_cases h : g.abiVersion ≥ ABI_13_0 <;>
      simp +decide [genEvent.isPlain, genEvent.isCall, genEvent.isFault, h]

set_option maxRecDepth 10000 in
theorem ordinaryHeader_plain (g : generatorFlags) (hasDoc : Bool) (md : memberDef)
    (scope : Option ifaceFileDef) :
    (ordinaryHeader g hasDoc md scope).all genEvent.isPlain = true := by
  unfold ordinaryHeader
  cases scope <;> cases hasDoc <;> cases g.generating_c <;>
    simp +decide [genEvent.isPlain, genEvent.isCall, genEvent.isFault]

theorem ordinaryIntro_plain (self_unused : Bool) :
    (ordinaryIntro self_unused).all genEvent.isPlain = true := by
  cases self_unused <;> decide

theorem functionFault_count (autoDoc : Bool) (md : memberDef) (cd ocd : classDef)
    (overs : List overDef) :
    (functionFault autoDoc md cd ocd overs).countP genEvent.isFault = 1 := by
  unfold functionFault
  cases autoDoc <;> simp +decide [List.countP_cons, genEvent.isFault]

set_option maxRecDepth 10000 in
theorem ordinaryFault_count (autoDoc : Bool) (md : memberDef) (scope : Option ifaceFileDef) :
    (ordinaryFault autoDoc md scope).countP genEvent.isFault = 1 := by
  unfold ordinaryFault
  cases autoDoc <;> cases scope <;> simp +decide [List.countP_cons, genEvent.isFault]

theorem countP_isFault_of_plain (l : List genEvent) (h : l.all genEvent.isPlain = true) :
    l.countP genEvent.isFault = 0 := by
  rw [List.countP_eq_zero]
  intro ev hev
  have := List.all_eq_true.1 h ev hev
  unfold genEvent.isPlain at this
  simp only [Bool.and_eq_true, Bool.not_eq_true'] at this
  simp [this.2]

theorem countP_isFault_map_call (f : overDef → List genEvent) (l : List overDef) :
    (l.map (fun od => genEvent.call "generateFunctionBody" (f od))).countP genEvent.isFault
      = 0 := by
  rw [List.countP_eq_zero]
  intro ev hev
  obtain ⟨od, _, rfl⟩ := List.mem_map.1 hev
  simp [genEvent.isFault]

theorem countP_isCall_map_call (f : overDef → List genEvent) (l : List overDef) :
    (l.map (fun od => genEvent.call "generateFunctionBody" (f od))).countP
        (genEvent.isCall "generateFunctionBody")
      = l.length := by
  induction l with
  | nil => rfl
  | cons od rest ih =>
    rw [List.map_cons, List.countP_cons_of_pos _ _ (by simp [genEvent.isCall]), ih,
      List.length_cons]

theorem generateFunction_eq (g : generatorFlags) (hasDoc autoDoc : Bool) (md : memberDef)
    (overs : List overDef) (cd ocd : classDef) (mod : moduleDef)
    (hn : functionNeedMethod md cd ocd overs = true) (hp : md.noArgParser = false)
    (hrc : ∀ od ∈ handledOverloads md cd ocd overs,
      (generateFunctionBody g od (some cd) none (some ocd) true mod).rc = 0) :
    generateFunction g hasDoc autoDoc md overs cd ocd mod
      = (functionHeader g hasDoc md cd ocd overs ++
          (handledOverloads md cd ocd overs).map (functionBlock g cd ocd mod) ++
          functionFault (hasDoc && autoDoc) md cd ocd overs ++
          [genEvent.prcode "\x7d\n" []], 0) := by
  unfold generateFunction
  rw [if_pos hn]
  simp only [functionBodiesLoop_eq g md cd ocd mod hp overs hrc, hp]
  rfl

theorem generateOrdinaryFunction_eq (g : generatorFlags) (hasDoc autoDoc : Bool)
    (mod : moduleDef) (c_scope : Option classDef) (mt_scope : Option mappedTypeDef)
    (md : memberDef) (overs : List overDef) (hp : md.noArgParser = false)
    (hne : (memberOverloads md overs).isEmpty = false)
    (hrc : ∀ od ∈ memberOverloads md overs,
      (generateFunctionBody g od c_scope mt_scope c_scope true mod).rc = 0) :
    generateOrdinaryFunction g hasDoc autoDoc mod c_scope mt_scope md overs
      = (ordinaryHeader g hasDoc md (ordinaryScope c_scope mt_scope) ++
          (ordinaryIntro ((ordinaryScope c_scope mt_scope).isNone && g.generating_c) ++
            (memberOverloads md overs).map (ordinaryBlock g c_scope mt_scope mod)) ++
          ordinaryFault (hasDoc && autoDoc) md (ordinaryScope c_scope mt_scope) ++
          [genEvent.prcode "\x7d\n" []], 0) := by
  unfold generateOrdinaryFunction
  simp only [ordinaryBodiesLoop_eq g _ md c_scope mt_scope mod hp overs true hrc, hne]
  rfl

theorem functionFault_no_block (autoDoc : Bool) (md : memberDef) (cd ocd : classDef)
    (overs : List overDef) :
    (functionFault autoDoc md cd ocd overs).countP (genEvent.isCall "generateFunctionBody")
      = 0 := by
  unfold functionFault
  cases autoDoc <;> simp +decide [List.countP_cons, genEvent.isCall]

theorem ordinaryFault_no_block (autoDoc : Bool) (md : memberDef)
    (scope : Option ifaceFileDef) :
    (ordinaryFault autoDoc md scope).countP (genEvent.isCall "generateFunctionBody") = 0 := by
  unfold ordinaryFault
  cases autoDoc <;> cases scope <;> simp +decide [List.countP_cons, genEvent.isCall]

theorem countP_isCall_of_plain (l : List genEvent) (h : l.all genEvent.isPlain = true) :
    l.countP (genEvent.isCall "generateFunctionBody") = 0 := by
  rw [List.countP_eq_zero]
  intro ev hev
  have := List.all_eq_true.1 h ev hev
  unfold genEvent.isPlain at this
  simp only [Bool.and_eq_true, Bool.not_eq_true'] at this
  simp [this.1]

theorem generateFunction_raw (g : generatorFlags) (hasDoc autoDoc : Bool) (md : memberDef)
    (overs : List overDef) (cd ocd : classDef) (mod : moduleDef)
    (hn : functionNeedMethod md cd ocd overs = true) (hp : md.noArgParser = true) :
    generateFunction g hasDoc autoDoc md overs cd ocd mod
      = (functionHeader g hasDoc md cd ocd overs ++
          (match (handledOverloads md cd ocd overs).head? with
            | some od => [genEvent.other "generateCppCodeBlock" [] od.methodcode]
            | none => []) ++
          [genEvent.prcode "\x7d\n" []], 0) := by
  unfold generateFunction
  rw [if_pos hn]
  simp only [functionBodiesLoop_raw g md cd ocd mod hp overs, hp]
  simp

theorem generateOrdinaryFunction_raw (g : generatorFlags) (hasDoc autoDoc : Bool)
    (mod : moduleDef) (c_scope : Option classDef) (mt_scope : Option mappedTypeDef)
    (md : memberDef) (overs : List overDef) (hp : md.noArgParser = true) :
    generateOrdinaryFunction g hasDoc autoDoc mod c_scope mt_scope md overs
      = (ordinaryHeader g hasDoc md (ordinaryScope c_scope mt_scope) ++
          (match (memberOverloads md overs).head? with
            | some od => [genEvent.other "generateCppCodeBlock" [] od.methodcode]
            | none => []) ++
          [genEvent.prcode "\x7d\n" []], 0) := by
  unfold generateOrdinaryFunction
  simp only [ordinaryBodiesLoop_raw g _ md c_scope mt_scope mod hp overs]
  simp


/-! ## Lemmas on the wrappers of the protected methods -/

theorem memberProtected_cons (m : memberDef) (od : overDef) (rest : List overDef) :
    memberProtected m (od :: rest)
      = if od.common.addr ≠ m.addr ∨ od.isProtected = false then memberProtected m rest
        else od :: memberProtected m rest := by
  unfold memberProtected
  rw [List.filter_cons]
  by_cases h1 : od.common.addr = m.addr <;> cases h2 : od.isProtected <;> simp [h1, h2]

theorem isDuplicateProtectedOvers_scan (g : generatorFlags) (m : memberDef)
    (target : overDef) (tail : List overDef) :
    ∀ overs : List overDef,
      (match isDuplicateProtectedOvers g m target overs with
        | some b => b
        | none => scanDuplicate g target tail)
        = scanDuplicate g target (memberProtected m overs ++ tail) := by
  intro overs
  induction overs with
  | nil => rfl
  | cons od rest ih =>
    rw [isDuplicateProtectedOvers, memberProtected_cons]
    by_cases h : od.common.addr ≠ m.addr ∨ od.isProtected = false
    · rw [if_pos h, if_pos h]
      exact ih
    · rw [if_neg h, if_neg h, List.cons_append, scanDuplicate]
      by_cases h1 : od.addr = target.addr
      · rw [if_pos h1, if_pos h1]
      · rw [if_neg h1, if_neg h1]
        by_cases h2 : sameProtected g od target = true
        · rw [if_pos h2, if_pos h2]
        · rw [if_neg h2, if_neg h2]
          exact ih

theorem protectedOverloads_cons (vl : visibleList) (rest : List visibleList) :
    (protectedOverloads (vl :: rest)).map Prod.snd
      = (if vl.m.slot ≠ .no_slot then [] else memberProtected vl.m vl.overs) ++
          (protectedOverloads rest).map Prod.snd := by
  rw [protectedOverloads, List.map_append]
  by_cases h : vl.m.slot ≠ .no_slot
  · simp [h]
  · simp [h, List.map_map, Function.comp_def]

/-- The function `isDuplicateProtected` is the scan of the protected overloads in the
order of the visits. -/
theorem isDuplicateProtected_eq_scan (g : generatorFlags) (target : overDef) :
    ∀ visible : List visibleList,
      isDuplicateProtected g visible target
        = scanDuplicate g target ((protectedOverloads visible).map Prod.snd) := by
  intro visible
  unfold isDuplicateProtected
  induction visible with
  | nil => rfl
  | cons vl rest ih =>
    rw [isDuplicateProtectedLoop, protectedOverloads_cons]
    by_cases h : vl.m.slot ≠ .no_slot
    · rw [if_pos h, if_pos h, List.nil_append]
      exact ih
    · rw [if_neg h, if_neg h, ih]
      exact isDuplicateProtectedOvers_scan g vl.m target _ vl.overs

theorem notDuplicates_cons (g : generatorFlags) (visible : List visibleList)
    (m : memberDef) (od : overDef) (rest : List overDef) :
    notDuplicates g visible (memberProtected m (od :: rest))
      = if od.common.addr ≠ m.addr ∨ od.isProtected = false then
          notDuplicates g visible (memberProtected m rest)
        else if isDuplicateProtected g visible od = true then
          notDuplicates g visible (memberProtected m rest)
        else od :: notDuplicates g visible (memberProtected m rest) := by
  rw [memberProtected_cons]
  by_cases h : od.common.addr ≠ m.addr ∨ od.isProtected = false
  · rw [if_pos h, if_pos h]
  · rw [if_neg h, if_neg h]
    unfold notDuplicates
    rw [List.filter_cons]
    cases isDuplicateProtected g visible od <;> simp

theorem protectedDeclarationsOvers_eq (g : generatorFlags) (visible : List visibleList)
    (cd : classDef) (m : memberDef) :
    ∀ (overs : List overDef) (noIntro : Bool),
      protectedDeclarationsOvers g visible cd m overs noIntro
        = ((if noIntro && !(notDuplicates g visible (memberProtected m overs)).isEmpty then
              [protectedIntro]
            else []) ++
            (notDuplicates g visible (memberProtected m overs)).flatMap
              (protectedDeclaration cd),
          noIntro && (notDuplicates g visible (memberProtected m overs)).isEmpty) := by
  intro overs
  induction overs with
  | nil => intro noIntro; simp [protectedDeclarationsOvers, memberProtected, notDuplicates]
  | cons od rest ih =>
    intro noIntro
    rw [protectedDeclarationsOvers, notDuplicates_cons]
    by_cases h : od.common.addr ≠ m.addr ∨ od.isProtected = false
    · simp only [if_pos h]
      exact ih noIntro
    · simp only [if_neg h]
      by_cases hd : isDuplicateProtected g visible od = true
      · simp only [if_pos hd]
        exact ih noIntro
      · simp only [if_neg hd]
        rw [ih false]
        cases noIntro <;> simp

theorem protectedOverloads_filter (g : generatorFlags) (visible : List visibleList)
    (vl : visibleList) (rest : List visibleList) :
    wrappedOverloadsOf g visible (vl :: rest)
      = (if vl.m.slot ≠ .no_slot then []
         else (notDuplicates g visible (memberProtected vl.m vl.overs)).map
          fun od => (vl.cd, od)) ++
          wrappedOverloadsOf g visible rest := by
  unfold wrappedOverloadsOf
  rw [protectedOverloads, List.filter_append]
  by_cases h : vl.m.slot ≠ .no_slot
  · simp [h]
  · simp [h, notDuplicates, List.filter_map, Function.comp_def]

theorem protectedDeclarationsLoop_eq (g : generatorFlags) (visible : List visibleList)
    (cd : classDef) :
    ∀ (vis : List visibleList) (noIntro : Bool),
      protectedDeclarationsLoop g visible cd vis noIntro
        = (if noIntro && !(wrappedOverloadsOf g visible vis).isEmpty then [protectedIntro]
          else []) ++
          (wrappedOverloadsOf g visible vis).flatMap
            (fun p => protectedDeclaration cd p.2) := by
  intro vis
  induction vis with
  | nil =>
    intro noIntro
    simp [protectedDeclarationsLoop, wrappedOverloadsOf, protectedOverloads]
  | cons vl rest ih =>
    intro noIntro
    rw [protectedDeclarationsLoop, protectedOverloads_filter]
    by_cases h : vl.m.slot ≠ .no_slot
    · simp only [if_pos h, List.nil_append]
      exact ih noIntro
    · simp only [if_neg h]
      rw [protectedDeclarationsOvers_eq, ih]
      cases notDuplicates g visible (memberProtected vl.m vl.overs) with
      | nil =>
        cases noIntro
        · simp
        · cases hW : (wrappedOverloadsOf g visible rest).isEmpty <;> simp [hW]
      | cons a l => cases noIntro <;> simp [List.flatMap_map, Function.comp_def]

theorem protectedDefinitionsOvers_eq (g : generatorFlags) (mod : moduleDef)
    (visible : List visibleList) (cd : classDef) (vl : visibleList) :
    ∀ (overs : List overDef),
      protectedDefinitionsOvers g mod visible cd vl overs
        = (notDuplicates g visible (memberProtected vl.m overs)).flatMap
            (protectedDefinition mod cd vl.cd) := by
  intro overs
  induction overs with
  | nil => simp [protectedDefinitionsOvers, memberProtected, notDuplicates]
  | cons od rest ih =>
    rw [protectedDefinitionsOvers, notDuplicates_cons]
    by_cases h : od.common.addr ≠ vl.m.addr ∨ od.isProtected = false
    · simp only [if_pos h]
      exact ih
    · simp only [if_neg h]
      by_cases hd : isDuplicateProtected g visible od = true
      · simp only [if_pos hd]
        exact ih
      · simp only [if_neg hd]
        rw [ih]
        simp

theorem protectedDefinitionsLoop_eq (g : generatorFlags) (mod : moduleDef)
    (visible : List visibleList) (cd : classDef) :
    ∀ (vis : List visibleList),
      protectedDefinitionsLoop g mod visible cd vis
        = (wrappedOverloadsOf g visible vis).flatMap
            (fun p => protectedDefinition mod cd p.1 p.2) := by
  intro vis
  induction vis with
  | nil => simp [protectedDefinitionsLoop, wrappedOverloadsOf, protectedOverloads]
  | cons vl rest ih =>
    rw [protectedDefinitionsLoop, protectedOverloads_filter]
    by_cases h : vl.m.slot ≠ .no_slot
    · simp only [if_pos h, List.nil_append]
      exact ih
    · simp only [if_neg h]
      rw [protectedDefinitionsOvers_eq, ih]
      simp only [List.flatMap_append, List.flatMap_map]

theorem scanDuplicate_split (g : generatorFlags) (t : overDef) (B : List overDef) :
    ∀ A : List overDef, (∀ a ∈ A, a.addr ≠ t.addr) →
      scanDuplicate g t (A ++ t :: B) = A.any (fun a => sameProtected g a t) := by
  intro A
  induction A with
  | nil => intro _; simp [scanDuplicate]
  | cons a rest ih =>
    intro h
    have ha : a.addr ≠ t.addr := h a (List.mem_cons_self _ _)
    rw [List.cons_append, scanDuplicate, if_neg ha, List.any_cons,
      ih (fun x hx => h x (List.mem_cons_of_mem _ hx))]
    cases sameProtected g a t <;> simp

theorem first_split (P : overDef → Bool) :
    ∀ (L : List overDef) (x : overDef), x ∈ L → P x = true →
      ∃ A f B, L = A ++ f :: B ∧ P f = true ∧ ∀ a ∈ A, P a = false := by
  intro L
  induction L with
  | nil => intro x hx; simp at hx
  | cons y rest ih =>
    intro x hx hp
    cases hy : P y
    · rcases List.mem_cons.1 hx with e | e
      · rw [e, hy] at hp
        exact absurd hp (by decide)
      · obtain ⟨A, f, B, e1, e2, e3⟩ := ih x e hp
        refine ⟨y :: A, f, B, by rw [e1]; rfl, e2, ?_⟩
        intro a ha
        rcases List.mem_cons.1 ha with e | e
        · rw [e]; exact hy
        · exact e3 a e
    · exact ⟨[], y, rest, rfl, hy, by simp⟩

theorem addr_ne_of_nodup (X Y : List overDef) (o : overDef)
    (h : ((X ++ o :: Y).map overDef.addr).Nodup) :
    (∀ a ∈ X, a.addr ≠ o.addr) ∧ (∀ b ∈ Y, b.addr ≠ o.addr) := by
  rw [List.map_append, List.map_cons] at h
  have h1 := List.nodup_append.1 h
  constructor
  · intro a ha e
    exact h1.2.2 (List.mem_map_of_mem _ ha) (by rw [e]; exact List.mem_cons_self _ _)
  · intro b hb e
    have h2 := List.nodup_cons.1 h1.2.1
    exact h2.1 (by rw [← e]; exact List.mem_map_of_mem _ hb)

/-- Among the overloads of a list without repeated address, on which the test of the
duplicates is symmetric and transitive, the scan reports as not duplicate exactly one
overload of the shape of a given member of the list: the first of that shape. -/
theorem scanDuplicate_unique (g : generatorFlags) (L : List overDef) (t : overDef)
    (hnd : (L.map overDef.addr).Nodup)
    (hsym : ∀ a ∈ L, ∀ b ∈ L, sameProtected g a b = true → sameProtected g b a = true)
    (htr : ∀ a ∈ L, ∀ b ∈ L, ∀ c ∈ L, sameProtected g a b = true →
      sameProtected g b c = true → sameProtected g a c = true)
    (ht : t ∈ L) :
    ∃ A f B, L = A ++ f :: B ∧ (∀ a ∈ A, sameShape g t a = false) ∧
      sameShape g t f = true ∧
      L.filter (fun o => sameShape g t o && !scanDuplicate g o L) = [f] := by
  have htt : sameShape g t t = true := by simp [sameShape]
  obtain ⟨A, f, B, e, hf, hA⟩ := first_split (sameShape g t) L t ht htt
  refine ⟨A, f, B, e, hA, hf, ?_⟩
  have hfL : f ∈ L := by rw [e]; simp
  have hinj : ∀ x ∈ L, ∀ y ∈ L, x.addr = y.addr → x = y :=
    List.inj_on_of_nodup_map hnd
  -- the shape of the target, as a relation
  have hshape : ∀ o ∈ L, sameShape g t o = true → o = t ∨ sameProtected g o t = true := by
    intro o ho h
    unfold sameShape at h
    rcases Bool.or_eq_true _ _ ▸ h with h | h
    · exact Or.inl (hinj o ho t ht (by simpa using h))
    · exact Or.inr h
  have hAL : ∀ a ∈ A, a ∈ L := by
    intro a ha
    rw [e]
    exact List.mem_append_left _ ha
  have hBL : ∀ b ∈ B, b ∈ L := by
    intro b hb
    rw [e]
    exact List.mem_append_right _ (List.mem_cons_of_mem _ hb)
  -- the first of the shape is not a duplicate
  have hfnot : scanDuplicate g f L = false := by
    rw [e] at hnd ⊢
    rw [scanDuplicate_split g f B A (addr_ne_of_nodup A B f hnd).1]
    rw [List.any_eq_false]
    intro a ha hs
    have haL := hAL a ha
    have : sameShape g t a = true := by
      unfold sameShape
      rcases hshape f hfL hf with h | h
      · rw [h] at hs
        simp [hs]
      · simp [htr a haL f hfL t ht hs h]
    rw [hA a ha] at this
    exact absurd this (by decide)
  -- the others of the shape are duplicates
  have hdup : ∀ o ∈ B, sameShape g t o = true → scanDuplicate g o L = true := by
    intro o ho hs
    have hoL := hBL o ho
    have hne : o ≠ f := by
      intro h
      rw [e] at hnd
      exact (addr_ne_of_nodup A B f hnd).2 o ho (by rw [h])
    have hfo : sameProtected g f o = true := by
      rcases hshape f hfL hf with h1 | h1 <;> rcases hshape o hoL hs with h2 | h2
      · exact absurd (h2.trans h1.symm) hne
      · rw [h1]
        exact hsym o hoL t ht h2
      · rw [h2]
        exact h1
      · exact htr f hfL t ht o hoL h1 (hsym o hoL t ht h2)
    obtain ⟨B1, B2, eB⟩ := List.append_of_mem ho
    have eL : L = (A ++ f :: B1) ++ o :: B2 := by
      rw [e, eB]
      simp
    have hnd2 := hnd
    rw [eL] at hnd2
    conv_lhs => rw [eL]
    rw [scanDuplicate_split g o B2 _ (addr_ne_of_nodup _ B2 o hnd2).1]
    rw [List.any_eq_true]
    exact ⟨f, by simp, hfo⟩
  rw [e, List.filter_append, List.filter_cons]
  have h1 : A.filter (fun o => sameShape g t o && !scanDuplicate g o (A ++ f :: B)) = [] := by
    rw [List.filter_eq_nil_iff]
    intro a ha
    simp [hA a ha]
  have h2 : B.filter (fun o => sameShape g t o && !scanDuplicate g o (A ++ f :: B)) = [] := by
    rw [List.filter_eq_nil_iff]
    intro b hb
    cases hs : sameShape g t b
    · simp
    · have := hdup b hb hs
      rw [e] at this
      simp [this]
  rw [e] at hfnot
  rw [h1, h2]
  simp [hf, hfnot]



/-! ## Lemmas on the parts of a module -/

theorem wrapInt_of_range (x : Int) (h1 : -2147483648 ≤ x) (h2 : x ≤ 2147483647) :
    wrapInt x = x := by
  unfold wrapInt
  omega

theorem nrFilesLoop_eq (mod : moduleDef) :
    ∀ (l : List ifaceFileDef) (nr : Int), 0 ≤ nr →
      nr + ((l.filter (isPartFile mod)).length : Int) ≤ 2147483647 →
      nrFilesLoop mod l nr = nr + ((l.filter (isPartFile mod)).length : Int) := by
  intro l
  induction l with
  | nil => intro nr _ _; simp [nrFilesLoop]
  | cons iff next ih =>
    intro nr h0 h
    by_cases hf : isPartFile mod iff = true
    · simp only [List.filter_cons, hf, if_true, List.length_cons, Nat.cast_add,
        Nat.cast_one] at h ⊢
      simp only [nrFilesLoop, hf, if_true]
      rw [wrapInt_of_range (nr + 1) (by omega) (by omega), ih (nr + 1) (by omega) (by omega)]
      omega
    · simp only [List.filter_cons, hf, if_false] at h ⊢
      simp only [nrFilesLoop, hf, if_false]
      exact ih nr h0 h

/-- The value of `max_per_part` is the quotient rounded up: it is at least 1, and
`parts` times it is the first multiple of `parts` that reaches `nr_files`. -/
theorem maxPerPart_ceil (nr_files parts : Int) (hp : 1 ≤ parts) (hn : 1 ≤ nr_files)
    (h : nr_files + parts ≤ 2147483647) :
    1 ≤ maxPerPart nr_files parts ∧ maxPerPart nr_files parts ≤ 2147483647 ∧
      nr_files ≤ parts * maxPerPart nr_files parts ∧
      parts * (maxPerPart nr_files parts - 1) < nr_files := by
  unfold maxPerPart
  rw [wrapInt_of_range (nr_files + parts) (by omega) (by omega),
    wrapInt_of_range (nr_files + parts - 1) (by omega) (by omega),
    Int.tdiv_eq_ediv (by omega) (by omega)]
  have hd := Int.emod_add_ediv (nr_files + parts - 1) parts
  have hm1 := Int.emod_nonneg (nr_files + parts - 1) (show parts ≠ 0 by omega)
  have hm2 := Int.emod_lt_of_pos (nr_files + parts - 1) (show 0 < parts by omega)
  have hq : 1 ≤ (nr_files + parts - 1) / parts := by
    by_contra hc
    have : (nr_files + parts - 1) / parts ≤ 0 := by omega
    nlinarith
  refine ⟨hq, ?_, ?_, ?_⟩
  · by_contra hc
    have : parts * ((nr_files + parts - 1) / parts) ≥ (nr_files + parts - 1) / parts := by
      nlinarith
    omega
  · nlinarith
  · nlinarith

/-- The number of interface files of a list of calls that the part `p` receives. -/
theorem filesInPart_cons (c : partFile) (files : List partFile) (p : Int) :
    ((c :: files).filter (fun c => c.part == p && c.toPart)).length
      ≤ (files.filter (fun c => c.part == p && c.toPart)).length + 1 := by
  simp only [List.filter_cons]
  split_ifs <;> simp

theorem filesInPart_cons_other (c : partFile) (files : List partFile) (p : Int)
    (h : c.part ≠ p) :
    ((c :: files).filter (fun c => c.part == p && c.toPart)).length
      = (files.filter (fun c => c.part == p && c.toPart)).length := by
  have : (c.part == p) = false := by simpa using h
  simp [List.filter_cons, this]

/-- The invariant of the loop of `generateCpp` over the interface files: from counters
with `1 ≤ files_in_part ≤ max_per_part` the loop ends with such counters, the files
counted are `this_part * max_per_part + files_in_part` throughout, no call is for a part
before the current one, and no part receives more than `max_per_part` files, the
`files_in_part` files already in the current part included. -/
theorem generateCppLoop_invariant (env : partCalls) (mod : moduleDef) (parts mx : Int)
    (hp : 1 ≤ parts) (hmx : 1 ≤ mx) :
    ∀ (l : List ifaceFileDef) (f t : Int) (r : Int × List partFile),
      1 ≤ f → f ≤ mx → 0 ≤ t →
      t * mx + f + ((l.filter (isPartFile mod)).length : Int) ≤ 2147483647 →
      generateCppLoop env mod parts mx l f t = some r →
      (∃ f1 : Int, 1 ≤ f1 ∧ f1 ≤ mx ∧
          r.1 * mx + f1 = t * mx + f + ((l.filter (isPartFile mod)).length : Int)) ∧
        t ≤ r.1 ∧ (∀ c ∈ r.2, t ≤ c.part) ∧
        ∀ p : Int, ((r.2.filter (fun c => c.part == p && c.toPart)).length : Int)
            + (if p = t then f else 0) ≤ mx := by
  have hparts : (parts != 0) = true := by
    simp only [bne_iff_ne, ne_eq]
    omega
  intro l
  induction l with
  | nil =>
    intro f t r h1 h2 h3 _ hr
    simp only [generateCppLoop, Option.some.injEq] at hr
    subst hr
    refine ⟨⟨f, h1, h2, by simp⟩, le_refl _, by simp, ?_⟩
    intro p
    simp only [List.filter_nil, List.length_nil, Nat.cast_zero, zero_add]
    split_ifs <;> omega
  | cons iff next ih =>
    intro f t r h1 h2 h3 hlen hr
    by_cases hf : isPartFile mod iff = true
    · simp only [List.filter_cons, hf, if_true, List.length_cons, Nat.cast_add,
        Nat.cast_one] at hlen ⊢
      simp only [generateCppLoop, hf, if_true, hparts, Bool.true_and] at hr
      have htm : 0 ≤ t * mx := mul_nonneg h3 (by omega)
      by_cases he : (f == mx) = true
      · have hfe : f = mx := by simpa using he
        simp only [he, if_true] at hr
        split_ifs at hr
        rw [wrapInt_of_range (t + 1) (by omega) (by nlinarith), Option.map_eq_some'] at hr
        obtain ⟨r1, hr1, hr2⟩ := hr
        subst hr2
        obtain ⟨⟨f1, hf1, hf2, hf3⟩, ht, hmem, hcount⟩ :=
          ih 1 (t + 1) r1 (le_refl 1) hmx (by omega) (by nlinarith) hr1
        dsimp only
        refine ⟨⟨f1, hf1, hf2, by nlinarith⟩, by omega, ?_, ?_⟩
        · intro c hc
          rcases List.mem_cons.1 hc with hc | hc
          · subst hc
            show t ≤ t + 1
            omega
          · have := hmem c hc
            omega
        · intro p
          have hcons := filesInPart_cons
            { part := t + 1, iff := iff, need_postinc := true,
              toPart := iff.file_extension.isNone } r1.2 p
          have hp1 := hcount p
          by_cases hpt : p = t
          · have hne : ((r1.2.filter (fun c => c.part == p && c.toPart)).length : Int) = 0 := by
              have : r1.2.filter (fun c => c.part == p && c.toPart) = [] := by
                rw [List.filter_eq_nil_iff]
                intro c hc
                have := hmem c hc
                have hcp : (c.part == p) = false := by
                  simp only [beq_eq_false_iff_ne, ne_eq]
                  omega
                simp [hcp]
              simp [this]
            rw [filesInPart_cons_other _ _ _ (show (t + 1 : Int) ≠ p by omega), hne, if_pos hpt]
            omega
          · rw [if_neg hpt]
            by_cases hpt1 : p = t + 1
            · rw [if_pos hpt1] at hp1
              omega
            · rw [filesInPart_cons_other _ _ _ (show (t + 1 : Int) ≠ p by omega)]
              rw [if_neg hpt1] at hp1
              omega
      · have hfe : f ≠ mx := by simpa using he
        simp only [he, Bool.false_eq_true, if_false, if_true] at hr
        split_ifs at hr
        rw [wrapInt_of_range (f + 1) (by omega) (by omega), Option.map_eq_some'] at hr
        obtain ⟨r1, hr1, hr2⟩ := hr
        subst hr2
        obtain ⟨⟨f1, hf1, hf2, hf3⟩, ht, hmem, hcount⟩ :=
          ih (f + 1) t r1 (by omega) (by omega) h3 (by omega) hr1
        dsimp only
        refine ⟨⟨f1, hf1, hf2, by omega⟩, ht, ?_, ?_⟩
        · intro c hc
          rcases List.mem_cons.1 hc with hc | hc
          · subst hc
            exact le_refl _
          · exact hmem c hc
        · intro p
          have hcons := filesInPart_cons
            { part := t, iff := iff, need_postinc := false,
              toPart := iff.file_extension.isNone } r1.2 p
          have hp1 := hcount p
          by_cases hpt : p = t
          · rw [if_pos hpt] at hp1 ⊢
            omega
          · rw [if_neg hpt] at hp1 ⊢
            rw [filesInPart_cons_other _ _ _ (show (t : Int) ≠ p by omega)]
            omega
    · simp only [List.filter_cons, hf, if_false] at hlen ⊢
      simp only [generateCppLoop, hf, if_false] at hr
      exact ih f t r h1 h2 h3 hlen hr

/-- The loop of `generateCpp` returns when no call fails. -/
theorem generateCppLoop_ok (mod : moduleDef) (parts mx : Int) :
    ∀ (l : List ifaceFileDef) (f t : Int),
      (generateCppLoop partCallsOk mod parts mx l f t).isSome = true := by
  intro l
  induction l with
  | nil => intro _ _; simp [generateCppLoop]
  | cons iff next ih =>
    intro f t
    simp only [generateCppLoop, partCallsOk, lt_self_iff_false, if_false, Bool.not_true,
      Bool.false_eq_true]
    split_ifs <;> first | exact ih _ _ | (rw [Option.isSome_map']; exact ih _ _)


/-! ## Lemmas on string literals -/

theorem digitChar_octal (k : Nat) (h : k < 8) :
    isOctalDigit (digitChar k) = true ∧ (digitChar k).toNat - 48 = k := by
  interval_cases k <;> exact ⟨rfl, rfl⟩

theorem prcode_string_char (e : String) (c : Char) (fp : outFile) :
    prcode "%s%c" [.s e, .c c] fp
      = some (if isprint c then
                fputc c (if c = '\n' then incLineNr (prcodeString e.data fp)
                  else prcodeString e.data fp)
              else fprintfOctal (c.toNat % 256)
                (if c = '\n' then incLineNr (prcodeString e.data fp)
                  else prcodeString e.data fp)) := by
  rfl

theorem prcode_quote (fp : outFile) :
    prcode "%s" [.s "\""] fp = some { fp with text := fp.text ++ ['"'] } := by
  rfl

/-- One character of the string, as `generateExpression` writes it: the text of the claim,
and no line is counted. -/
theorem generateStringChar_eq (ch : Char) (fp : outFile) (h : ch.toNat < 256) :
    generateStringChar ch fp = some { fp with text := fp.text ++ escapedChar ch } := by
  unfold generateStringChar
  rw [prcode_string_char]
  by_cases h1 : ch = '"'
  · subst h1
    simp +decide [strchr, escapedChar, isprint, prcodeString, fputc, incLineNr]
  by_cases h2 : ch = '\\'
  · subst h2
    simp +decide [strchr, escapedChar, isprint, prcodeString, fputc, incLineNr]
  by_cases h3 : ch = '\n'
  · subst h3
    simp +decide [strchr, escapedChar, isprint, prcodeString, fputc, incLineNr]
  by_cases h4 : ch = '\r'
  · subst h4
    simp +decide [strchr, escapedChar, isprint, prcodeString, fputc, incLineNr]
  by_cases h5 : ch = '\t'
  · subst h5
    simp +decide [strchr, escapedChar, isprint, prcodeString, fputc, incLineNr]
  have hs : strchr "\\\"" ch = false := by
    have hd : "\\\"".data = ['\\', '"'] := rfl
    simp [strchr, hd, h1, h2]
  simp only [hs, Bool.false_eq_true, if_false, h3, h4, h5, prcodeString, escapedChar, h1, h2]
  by_cases hp : isprint ch = true
  · simp [hp, fputc]
  · simp [hp, fprintfOctal, Nat.mod_eq_of_lt h]

/-- The characters of the string, as `generateExpression` writes them. -/
theorem generateStringChars_eq :
    ∀ (vstr : List Char) (fp : outFile), (∀ c ∈ vstr, c.toNat < 256) →
      generateStringChars vstr fp = some { fp with text := fp.text ++ escapedString vstr } := by
  intro vstr
  induction vstr with
  | nil => intro fp _; simp [generateStringChars, escapedString]
  | cons ch cp ih =>
    intro fp h
    simp only [generateStringChars, generateStringChar_eq ch fp (h ch (List.mem_cons_self _ _))]
    rw [ih _ (fun c hc => h c (List.mem_cons_of_mem _ hc))]
    simp [escapedString]

/-- The reader of string literals takes the text written for one character back to the
character. -/
theorem readStringBody_escapedChar (c : Char) (rest : List Char) (h0 : 0 < c.toNat)
    (h : c.toNat < 256) :
    readStringBody (escapedChar c ++ rest) 0
      = (readStringBody rest 0).map (fun s => c :: s) := by
  unfold escapedChar
  by_cases h1 : c = '"'
  · subst h1
    simp +decide [readStringBody, readEscape, isOctalDigit, simpleEscape]
    cases readStringBody rest 0 <;> rfl
  by_cases h2 : c = '\\'
  · subst h2
    simp +decide [readStringBody, readEscape, isOctalDigit, simpleEscape]
    cases readStringBody rest 0 <;> rfl
  by_cases h3 : c = '\n'
  · subst h3
    simp +decide [readStringBody, readEscape, isOctalDigit, simpleEscape]
    cases readStringBody rest 0 <;> rfl
  by_cases h4 : c = '\r'
  · subst h4
    simp +decide [readStringBody, readEscape, isOctalDigit, simpleEscape]
    cases readStringBody rest 0 <;> rfl
  by_cases h5 : c = '\t'
  · subst h5
    simp +decide [readStringBody, readEscape, isOctalDigit, simpleEscape]
    cases readStringBody rest 0 <;> rfl
  simp only [h1, h2, h3, h4, h5, if_false]
  by_cases hp : isprint c = true
  · simp only [hp, if_true, List.singleton_append, readStringBody, h1, h2, h3, if_false]
    cases readStringBody rest 0 <;> rfl
  · obtain ⟨a1, a2⟩ := digitChar_octal (c.toNat / 64 % 8) (Nat.mod_lt _ (by decide))
    obtain ⟨b1, b2⟩ := digitChar_octal (c.toNat / 8 % 8) (Nat.mod_lt _ (by decide))
    obtain ⟨c1, c2⟩ := digitChar_octal (c.toNat % 8) (Nat.mod_lt _ (by decide))
    have hv : 8 * (8 * (c.toNat / 64 % 8) + c.toNat / 8 % 8) + c.toNat % 8 = c.toNat := by
      omega
    simp only [hp, Bool.false_eq_true, if_false, List.cons_append, List.nil_append,
      readStringBody, readEscape, a1, if_true, List.take, List.takeWhile, b1, c1,
      octalEscape, List.foldl, a2, b2, c2, Nat.mul_zero, Nat.zero_add, hv, h,
      Char.ofNat_toNat, List.length_cons, List.length_nil]
    cases readStringBody rest 0 <;> rfl

/-- The reader of string literals takes the text written for a string, followed by the
closing quote, back to the string. -/
theorem readStringBody_escapedString :
    ∀ (vstr : List Char), (∀ c ∈ vstr, 0 < c.toNat ∧ c.toNat < 256) →
      readStringBody (escapedString vstr ++ ['"']) 0 = some vstr := by
  intro vstr
  induction vstr with
  | nil => intro _; simp +decide [escapedString, readStringBody]
  | cons ch cp ih =>
    intro h
    have hc := h ch (List.mem_cons_self _ _)
    rw [escapedString, List.append_assoc, readStringBody_escapedChar ch _ hc.1 hc.2,
      ih (fun c hc => h c (List.mem_cons_of_mem _ hc))]
    rfl


/-! ## Lemmas on sorted tables -/

theorem strcmpChars_le_trans :
    ∀ (a b c : List Char), strcmpChars a b ≤ 0 → strcmpChars b c ≤ 0 → strcmpChars a c ≤ 0 := by
  intro a
  induction a with
  | nil => intro b c _ _; cases c <;> simp [strcmpChars]
  | cons x a ih =>
    intro b c hab hbc
    cases b with
    | nil => simp [strcmpChars] at hab
    | cons y b =>
      cases c with
      | nil => simp [strcmpChars] at hbc
      | cons z c =>
        simp only [strcmpChars] at hab hbc ⊢
        by_cases h1 : x.toNat < y.toNat
        · by_cases h2 : y.toNat < z.toNat
          · rw [if_pos (by omega)]
            decide
          · by_cases h3 : z.toNat < y.toNat
            · simp [h2, h3] at hbc
            · rw [if_pos (by omega)]
              decide
        · by_cases h1b : y.toNat < x.toNat
          · simp [h1, h1b] at hab
          · simp only [h1, h1b, if_false] at hab
            by_cases h2 : y.toNat < z.toNat
            · rw [if_pos (by omega)]
              decide
            · by_cases h3 : z.toNat < y.toNat
              · simp [h2, h3] at hbc
              · simp only [h2, h3, if_false] at hbc
                rw [if_neg (by omega), if_neg (by omega)]
                exact ih b c hab hbc

theorem strcmpChars_le_total (a b : List Char) :
    strcmpChars a b ≤ 0 ∨ strcmpChars b a ≤ 0 := by
  have := strcmpChars_antisymm a b
  omega

theorem compareMethTab_total (a b : memberDef) :
    compareMethTab a b ≤ 0 ∨ compareMethTab b a ≤ 0 :=
  strcmpChars_le_total _ _

theorem compareMethTab_trans (a b c : memberDef) (h1 : compareMethTab a b ≤ 0)
    (h2 : compareMethTab b c ≤ 0) : compareMethTab a c ≤ 0 :=
  strcmpChars_le_trans _ _ _ h1 h2

theorem functionTableCount_eq :
    ∀ (members : List memberDef) (nr : Int), 0 ≤ nr →
      nr + (members.length : Int) ≤ 2147483647 →
      functionTableCount members nr = nr + (members.length : Int) := by
  intro members
  induction members with
  | nil => intro nr _ _; simp [functionTableCount]
  | cons md next ih =>
    intro nr h0 h
    simp only [List.length_cons, Nat.cast_add, Nat.cast_one] at h ⊢
    simp only [functionTableCount]
    rw [wrapInt_of_range (nr + 1) (by omega) (by omega), ih (nr + 1) (by omega) (by omega)]
    omega

theorem entries_map_some {α : Type} (vs : List α) : entries (vs.map some) = some vs := by
  induction vs with
  | nil => rfl
  | cons v rest ih => simp [entries, ih]

/-- A loop of stores into an array whose entries before the pointer are filled and whose
other entries are zeroed, when the values are not more than the zeroed entries: the
values follow the filled entries, and the pointer ends after the last value. -/
theorem storeAll_fill {α : Type} :
    ∀ (vs done : List α) (k : Nat), vs.length ≤ k →
      storeAll vs (done.map some ++ List.replicate k none) done.length
        = some ((done ++ vs).map some ++ List.replicate (k - vs.length) none,
            done.length + vs.length) := by
  intro vs
  induction vs with
  | nil => intro done k _; simp [storeAll]
  | cons v rest ih =>
    intro done k h
    simp only [List.length_cons] at h
    obtain ⟨k1, rfl⟩ : ∃ k1, k = k1 + 1 := ⟨k - 1, by omega⟩
    have hset : (done.map some ++ List.replicate (k1 + 1) none).set done.length (some v)
        = (done ++ [v]).map some ++ List.replicate k1 (none : Option α) := by
      rw [List.set_append]
      simp [List.replicate_succ]
    have hlt : done.length < done.length + (k1 + 1) := by omega
    simp only [storeAll, storeEntry, List.length_append, List.length_map, List.length_replicate,
      hlt, if_true, hset]
    have := ih (done ++ [v]) k1 (by omega)
    simp only [List.length_append, List.length_singleton, List.append_assoc,
      List.singleton_append] at this
    rw [this]
    simp only [List.length_cons, Option.some.injEq, Prod.mk.injEq]
    exact ⟨by rw [Nat.add_sub_add_right], by omega⟩

/-- A loop of stores of more values than the array has zeroed entries left goes past the
end of the array: it is an error. -/
theorem storeAll_overrun {α : Type} :
    ∀ (vs done : List α) (k : Nat), k < vs.length →
      storeAll vs (done.map some ++ List.replicate k none) done.length = none := by
  intro vs
  induction vs with
  | nil => intro done k h; simp at h
  | cons v rest ih =>
    intro done k h
    simp only [List.length_cons] at h
    cases k with
    | zero => simp [storeAll, storeEntry]
    | succ k1 =>
      have hset : (done.map some ++ List.replicate (k1 + 1) none).set done.length (some v)
          = (done ++ [v]).map some ++ List.replicate k1 (none : Option α) := by
        rw [List.set_append]
        simp [List.replicate_succ]
      have hlt : done.length < done.length + (k1 + 1) := by omega
      simp only [storeAll, storeEntry, List.length_append, List.length_map,
        List.length_replicate, hlt, if_true, hset]
      have := ih (done ++ [v]) k1 (by omega)
      simp only [List.length_append, List.length_singleton] at this
      exact this

/-- A zeroed array that a loop of stores fills with as many values as it has entries
holds these values, in their order. -/
theorem storeAll_sipCalloc {α : Type} (vs : List α) :
    storeAll vs (sipCalloc vs.length) 0 = some (vs.map some, vs.length) := by
  have := storeAll_fill vs [] vs.length (le_refl _)
  simpa [sipCalloc] using this

/-- The sort of a filled array: a permutation of its entries in which `compar` is never
positive on an entry and a later one. -/
theorem qsort_filled {α : Type} (vs : List α) (compar : α → α → Int)
    (htotal : ∀ a b, compar a b ≤ 0 ∨ compar b a ≤ 0)
    (htrans : ∀ a b c, compar a b ≤ 0 → compar b c ≤ 0 → compar a c ≤ 0) :
    ∃ t, qsort (vs.map some) vs.length compar = some t ∧ t.Perm vs ∧
      t.Sorted (fun a b => compar a b ≤ 0) := by
  haveI : IsTotal α (fun a b => compar a b ≤ 0) := ⟨htotal⟩
  haveI : IsTrans α (fun a b => compar a b ≤ 0) := ⟨htrans⟩
  refine ⟨vs.insertionSort (fun a b => compar a b ≤ 0), ?_, List.perm_insertionSort _ _,
    List.sorted_insertionSort _ _⟩
  unfold qsort
  have hl : (vs.map some).take vs.length = vs.map some := by
    rw [List.take_of_length_le (by simp)]
  simp only [List.length_map, le_refl, if_true, hl, entries_map_some]

theorem methodTableCountOvers_eq (cd : classDef) (vl : visibleList) :
    ∀ (overs : List overDef) (nr : Int),
      methodTableCountOvers cd vl overs nr
        = if overs.any (fun od =>
              !(od.isProtected && !cd.hasShadow) && !skipOverload od vl.m cd vl.cd true)
          then wrapInt (nr + 1) else nr := by
  intro overs
  induction overs with
  | nil => intro nr; simp [methodTableCountOvers]
  | cons od next ih =>
    intro nr
    simp only [methodTableCountOvers, List.any_cons]
    by_cases h1 : (od.isProtected && !cd.hasShadow) = true
    · simp only [h1, if_true, Bool.not_true, Bool.false_and, Bool.false_or]
      exact ih nr
    · simp only [Bool.not_eq_true] at h1
      by_cases h2 : skipOverload od vl.m cd vl.cd true = true
      · simp only [h1, Bool.false_eq_true, if_false, h2, if_true, Bool.not_false, Bool.not_true,
          Bool.and_false, Bool.false_or]
        exact ih nr
      · simp only [Bool.not_eq_true] at h2
        simp [h1, h2]

theorem methodTableNeed_eq (cd : classDef) (vl : visibleList) :
    ∀ (overs : List overDef) (need_method : Bool),
      methodTableNeed cd vl overs need_method
        = (need_method || overs.any (fun od =>
              !(od.isProtected && !cd.hasShadow) && !skipOverload od vl.m cd vl.cd true)) := by
  intro overs
  induction overs with
  | nil => intro n; simp [methodTableNeed]
  | cons od next ih =>
    intro n
    simp only [methodTableNeed, List.any_cons]
    by_cases h1 : (od.isProtected && !cd.hasShadow) = true
    · simp only [h1, if_true, Bool.not_true, Bool.false_and, Bool.false_or]
      exact ih n
    · simp only [Bool.not_eq_true] at h1
      by_cases h2 : skipOverload od vl.m cd vl.cd true = true
      · simp only [h1, Bool.false_eq_true, if_false, h2, Bool.not_true, Bool.not_false,
          Bool.and_false, Bool.false_or]
        exact ih n
      · simp only [Bool.not_eq_true] at h2
        simp [h1, h2, ih]

theorem tableMethods_cons (cd : classDef) (vl : visibleList) (next : List visibleList) :
    tableMethods cd (vl :: next)
      = if (decide (vl.m.slot = .no_slot) &&
            vl.overs.any fun od =>
              !(od.isProtected && !cd.hasShadow) && !skipOverload od vl.m cd vl.cd true) = true
        then vl.m :: tableMethods cd next else tableMethods cd next := by
  unfold tableMethods
  rw [List.filter_cons]
  split_ifs <;> rfl

theorem tableMethods_length_le (cd : classDef) (visible : List visibleList) :
    (tableMethods cd visible).length ≤ visible.length := by
  unfold tableMethods
  rw [List.length_map]
  exact List.length_filter_le _ _

/-- The first pass of `createMethodTable` counts the members of `tableMethods`. -/
theorem methodTableCount_eq (cd : classDef) :
    ∀ (visible : List visibleList) (nr : Int), 0 ≤ nr →
      nr + ((tableMethods cd visible).length : Int) ≤ 2147483647 →
      methodTableCount cd visible nr = nr + ((tableMethods cd visible).length : Int) := by
  intro visible
  induction visible with
  | nil => intro nr _ _; simp [methodTableCount, tableMethods]
  | cons vl next ih =>
    intro nr h0 h
    rw [tableMethods_cons] at h ⊢
    simp only [methodTableCount, methodTableCountOvers_eq]
    by_cases hs : vl.m.slot = .no_slot
    · by_cases ha : (vl.overs.any fun od =>
          !(od.isProtected && !cd.hasShadow) && !skipOverload od vl.m cd vl.cd true) = true
      · simp only [hs, ha, decide_True, Bool.and_self, if_true, List.length_cons, Nat.cast_add,
          Nat.cast_one, ne_eq, not_true_eq_false, if_false] at h ⊢
        rw [wrapInt_of_range (nr + 1) (by omega) (by omega), ih (nr + 1) (by omega) (by omega)]
        omega
      · simp only [hs, ha, decide_True, Bool.and_false, Bool.false_eq_true, if_false, ne_eq,
          not_true_eq_false] at h ⊢
        exact ih nr h0 h
    · simp only [hs, decide_False, Bool.false_and, Bool.false_eq_true, if_false, ne_eq,
        not_false_eq_true, if_true] at h ⊢
      exact ih nr h0 h

/-- The second pass of `createMethodTable` stores the members of `tableMethods`, in their
order. -/
theorem methodTableFill_eq (cd : classDef) :
    ∀ (visible : List visibleList) (mtab : List (Option memberDef)) (mt : Nat),
      methodTableFill cd visible mtab mt = storeAll (tableMethods cd visible) mtab mt := by
  intro visible
  induction visible with
  | nil => intro _ _; rfl
  | cons vl next ih =>
    intro mtab mt
    rw [tableMethods_cons]
    simp only [methodTableFill, methodTableNeed_eq, Bool.false_or]
    by_cases hs : vl.m.slot = .no_slot
    · by_cases ha : (vl.overs.any fun od =>
          !(od.isProtected && !cd.hasShadow) && !skipOverload od vl.m cd vl.cd true) = true
      · simp only [hs, ha, decide_True, Bool.and_self, if_true, ne_eq, not_true_eq_false,
          if_false, storeAll]
        cases storeEntry mtab mt vl.m with
        | none => rfl
        | some tab => exact ih tab (mt + 1)
      · simp only [hs, ha, decide_True, Bool.and_false, Bool.false_eq_true, if_false, ne_eq,
          not_true_eq_false]
        exact ih mtab mt
    · simp only [hs, decide_False, Bool.false_and, Bool.false_eq_true, if_false, ne_eq,
        not_false_eq_true, if_true]
      exact ih mtab mt


/-! ## Lemmas on the catchers of the shadow class -/

/-- The loop of `countVirtuals` counts the selected members. -/
theorem countVirtualsLoop_selected (abiVersion : Nat) :
    ∀ (rest before : List virtOverDef) (nrvirts : Nat),
      countVirtualsLoop abiVersion before rest nrvirts
        = nrvirts + (selectedVirtuals abiVersion before rest).length := by
  intro rest
  induction rest with
  | nil => intro _ _; simp [countVirtualsLoop, selectedVirtuals]
  | cons vod rest ih =>
    intro before n
    simp only [countVirtualsLoop, selectedVirtuals]
    by_cases hp : isPrivate vod.od = true
    · simp only [hp, if_true, Bool.not_true, Bool.false_and, Bool.false_eq_true, if_false]
      exact ih _ _
    · simp only [Bool.not_eq_true] at hp
      by_cases hh : alreadyHandled abiVersion before vod.od = true
      · simp only [hp, hh, Bool.false_eq_true, if_false, Bool.not_true, Bool.not_false,
          Bool.and_false]
        exact ih _ _
      · simp only [Bool.not_eq_true] at hh
        simp only [hp, hh, Bool.false_eq_true, if_false, Bool.not_false, Bool.and_self, if_true,
          List.length_cons]
        rw [ih]
        omega

/-- The loop of `generateShadowClassDeclaration` declares a catcher for the selected
members, in their order. -/
theorem shadowCatcherDeclarations_selected (abiVersion : Nat) (iff : ifaceFileDef) :
    ∀ (rest before : List virtOverDef) (noIntro : Bool),
      (shadowCatcherDeclarations abiVersion iff before rest noIntro).map (fun d => d.1)
        = selectedVirtuals abiVersion before rest := by
  intro rest
  induction rest with
  | nil => intro _ _; rfl
  | cons vod rest ih =>
    intro before noIntro
    simp only [shadowCatcherDeclarations, selectedVirtuals]
    by_cases hp : isPrivate vod.od = true
    · simp only [hp, if_true, Bool.not_true, Bool.false_and, Bool.false_eq_true, if_false]
      exact ih _ _
    · simp only [Bool.not_eq_true] at hp
      by_cases hh : alreadyHandled abiVersion before vod.od = true
      · simp only [hp, hh, Bool.false_eq_true, if_false, if_true, Bool.not_true, Bool.not_false,
          Bool.and_false]
        exact ih _ _
      · simp only [Bool.not_eq_true] at hh
        simp only [hp, hh, Bool.false_eq_true, if_false, Bool.not_false, Bool.and_self, if_true,
          List.map_cons, ih]

/-- The loop of `generateShadowCode` calls `generateVirtualCatcher` for the first `k` of
the selected members, in their order and with consecutive numbers; it returns 0 only
after all of them, and it returns 0 when no call fails. -/
theorem generateShadowCatchers_selected (abiVersion : Nat) (catcher : Nat → virtOverDef → Int) :
    ∀ (rest before : List virtOverDef) (virtNr : Nat) (calls : List (Nat × virtOverDef)),
      ∃ k, k ≤ (selectedVirtuals abiVersion before rest).length ∧
        (generateShadowCatchers abiVersion catcher before rest virtNr calls).2
          = calls ++ List.zip (List.range' virtNr k)
              ((selectedVirtuals abiVersion before rest).take k) ∧
        ((generateShadowCatchers abiVersion catcher before rest virtNr calls).1 = 0 →
          k = (selectedVirtuals abiVersion before rest).length) ∧
        ((∀ n vod, 0 ≤ catcher n vod) →
          (generateShadowCatchers abiVersion catcher before rest virtNr calls).1 = 0) := by
  intro rest
  induction rest with
  | nil =>
    intro _ _ _
    exact ⟨0, by simp [selectedVirtuals], by simp [generateShadowCatchers],
      by simp [selectedVirtuals], by simp [generateShadowCatchers]⟩
  | cons vod rest ih =>
    intro before virtNr calls
    simp only [generateShadowCatchers, selectedVirtuals]
    by_cases hp : isPrivate vod.od = true
    · simp only [hp, if_true, Bool.not_true, Bool.false_and, Bool.false_eq_true, if_false]
      exact ih _ _ _
    · simp only [Bool.not_eq_true] at hp
      by_cases hh : alreadyHandled abiVersion before vod.od = true
      · simp only [hp, hh, Bool.false_eq_true, if_false, Bool.not_true, Bool.not_false,
          Bool.and_false]
        exact ih _ _ _
      · simp only [Bool.not_eq_true] at hh
        simp only [hp, hh, Bool.false_eq_true, if_false, Bool.not_false, Bool.and_self, if_true,
          List.length_cons]
        by_cases hc : catcher virtNr vod < 0
        · simp only [hc, if_true]
          refine ⟨1, by omega, by simp [List.range'], by simp, ?_⟩
          intro hall
          have := hall virtNr vod
          omega
        · simp only [hc, if_false]
          obtain ⟨k, hk, hcalls, hzero, hall⟩ :=
            ih (before ++ [vod]) (virtNr + 1) (calls ++ [(virtNr, vod)])
          refine ⟨k + 1, by omega, ?_, ?_, hall⟩
          · rw [hcalls]
            simp [List.range'_succ]
          · intro h0
            rw [hzero h0]


/-! ## Lemmas on the deferred cleanup -/

/-- Where `generateFunctionCall` emits the cleanup, for an overload that is not a protected
member of a class without a shadow class.  If no argument is both input and output with
conversion code, and the overload is not a slot without arguments, the call of
`deleteTemps` is emitted right before the check of the error flag and the return of the
result.  If some argument is of that kind and the result is handled by
`generateHandleResult` (the overload is not a slot that returns void, itself or an
integer), the call of `deleteTemps` is emitted right after the call of
`generateHandleResult`.  In both cases it is emitted exactly once. -/
theorem generateFunctionCall_deferred_cleanup (g : generatorFlags) (c_scope : Option classDef)
    (mt_scope : Option mappedTypeDef) (o_scope : ifaceFileDef) (od : overDef) (deref : Bool)
    (mod : moduleDef)
    (hcall : (od.isProtected && !((c_scope.map classDef.hasShadow).getD false)) = false) :
    (functionCallDeltemps od = true → isZeroArgSlot od.common = false →
      List.countP (genEvent.isCall "deleteTemps")
        (generateFunctionCall g c_scope mt_scope o_scope od deref mod) = 1 ∧
      ∃ pre post,
        generateFunctionCall g c_scope mt_scope o_scope od deref mod
          = pre ++
            [genEvent.call "deleteTemps" (deleteTemps g mod od.pysig), genEvent.prcode "\n" []] ++
            functionCallErrorCheck od ++
            functionCallReturn g mod (functionCallScope c_scope mt_scope) od
              (functionCallOverload od) (needsHeapCopy od.pysig.result false) ++
            post) ∧
    (functionCallDeltemps od = false → functionCallHandlesResult od = true →
      List.countP (genEvent.isCall "deleteTemps")
        (generateFunctionCall g c_scope mt_scope o_scope od deref mod) = 1 ∧
      ∃ pre post,
        generateFunctionCall g c_scope mt_scope o_scope od deref mod
          = pre ++
            [genEvent.prcode "\n" []] ++
            functionCallErrorCheck od ++
            [genEvent.call "generateHandleResult"
                (generateHandleResult g mod (functionCallOverload od)
                  (needsHeapCopy od.pysig.result false)
                  (functionCallResultSize od.pysig.args 0 (-1))
                  "sipResObj ="),
              genEvent.call "deleteTemps" (deleteTemps g mod od.pysig)] ++
            post ∧
        List.countP (genEvent.isCall "deleteTemps") pre = 0) := by
  have hcount := generateFunctionCall_count_deleteTemps g c_scope mt_scope o_scope od deref mod
    hcall
  constructor
  · intro hd hz
    refine ⟨by rw [hcount, hd, hz]; simp, ?_⟩
    unfold generateFunctionCall
    simp only [hcall, Bool.false_eq_true, if_false, hd, hz, Bool.not_false, Bool.and_self,
      if_true]
    exact ⟨functionCallStart g c_scope mt_scope o_scope od deref mod, functionCallEnd od,
      by simp only [List.append_assoc, List.cons_append, List.nil_append]⟩
  · intro hd hh
    refine ⟨by rw [hcount, hd, hh]; simp, ?_⟩
    obtain ⟨post, hpost⟩ := functionCallReturn_deferred g mod
      (functionCallScope c_scope mt_scope) od (functionCallOverload od)
      (needsHeapCopy od.pysig.result false) hd hh
    unfold generateFunctionCall
    simp only [hcall, Bool.false_eq_true, if_false, hd, Bool.false_and, hpost]
    exact ⟨functionCallStart g c_scope mt_scope o_scope od deref mod,
      post ++ functionCallEnd od,
      by simp only [List.append_assoc, List.cons_append, List.nil_append],
      functionCallStart_no_deleteTemps g c_scope mt_scope o_scope od deref mod⟩


/-! ## Lemmas on the release code of the catch blocks -/

theorem prcodesOf_deleteOutsLoop (mod : moduleDef) :
    ∀ (l : List argDef) (a : Nat), prcodesOf (deleteOutsLoop mod l a) = deleteOutsLoop mod l a := by
  intro l
  induction l with
  | nil => intro _; rfl
  | cons x r ih =>
    intro a
    rw [deleteOutsLoop, prcodesOf_append, ih, deleteOutsArg]
    split_ifs <;> rfl

theorem prcodesOf_deleteTempsArg (g : generatorFlags) (mod : moduleDef) (ad : argDef) (a : Nat) :
    prcodesOf (deleteTempsArg g mod ad a) = deleteTempsArg g mod ad a := by
  unfold deleteTempsArg
  split_ifs <;> rfl

theorem prcodesOf_deleteTempsLoop (g : generatorFlags) (mod : moduleDef) :
    ∀ (l : List argDef) (a : Nat),
      prcodesOf (deleteTempsLoop g mod l a) = deleteTempsLoop g mod l a := by
  intro l
  induction l with
  | nil => intro _; rfl
  | cons x r ih =>
    intro a
    rw [deleteTempsLoop, prcodesOf_append, ih, prcodesOf_deleteTempsArg]

/-- What `deleteOuts` emits for an argument is a part of what it emits for the
signature. -/
theorem deleteOutsArg_within (mod : moduleDef) :
    ∀ (l : List argDef) (a : Nat) (p : Nat × argDef), p ∈ l.enumFrom a →
      deleteOutsArg mod p.2 p.1 <:+: deleteOutsLoop mod l a := by
  intro l
  induction l with
  | nil => intro a p hp; simp at hp
  | cons x r ih =>
    intro a p hp
    rw [List.enumFrom_cons, List.mem_cons] at hp
    rw [deleteOutsLoop]
    rcases hp with hp | hp
    · subst hp
      exact ⟨[], deleteOutsLoop mod r (a + 1), by simp⟩
    · obtain ⟨s, t, hst⟩ := ih (a + 1) p hp
      exact ⟨deleteOutsArg mod x a ++ s, t, by simp [← hst]⟩

/-- What `deleteTemps` emits for an argument is a part of what it emits for the
signature. -/
theorem deleteTempsArg_within (g : generatorFlags) (mod : moduleDef) :
    ∀ (l : List argDef) (a : Nat) (p : Nat × argDef), p ∈ l.enumFrom a →
      deleteTempsArg g mod p.2 p.1 <:+: deleteTempsLoop g mod l a := by
  intro l
  induction l with
  | nil => intro a p hp; simp at hp
  | cons x r ih =>
    intro a p hp
    rw [List.enumFrom_cons, List.mem_cons] at hp
    rw [deleteTempsLoop]
    rcases hp with hp | hp
    · subst hp
      exact ⟨[], deleteTempsLoop g mod r (a + 1), by simp⟩
    · obtain ⟨s, t, hst⟩ := ih (a + 1) p hp
      exact ⟨deleteTempsArg g mod x a ++ s, t, by simp [← hst]⟩

/-- The calls of `prcode` of an embedded generator are a part of those of the output that
holds its call. -/
theorem prcodesOf_call_within (fn : String) (out : List genEvent) :
    ∀ (block : List genEvent), genEvent.call fn out ∈ block →
      prcodesOf out <:+: prcodesOf block := by
  intro block h
  obtain ⟨s, t, rfl⟩ := List.append_of_mem h
  refine ⟨prcodesOf s, prcodesOf t, ?_⟩
  rw [prcodesOf_append, prcodesOf, genEvent.prcodes, List.append_assoc]

/-- The release statement of `deleteOuts` for an out-argument that got a new instance. -/
theorem deleteOutsArg_new (mod : moduleDef) (ad : argDef) (a : Nat)
    (h : needNewInstance ad = true) :
    deleteOutsArg mod ad a
      = [genEvent.prcode "                delete %a;\n" [.mod mod, .ad ad, .d a]] := by
  simp [deleteOutsArg, h]

/-- The release statement of `deleteTemps` for an array of classes or mapped types that is
not transferred. -/
theorem deleteTempsArg_array (g : generatorFlags) (mod : moduleDef) (ad : argDef) (a : Nat)
    (h1 : isArray ad = true) (h2 : ad.atype = .mapped_type ∨ ad.atype = .class_type)
    (h3 : isTransferred ad = false) :
    [if g.generating_c then
        genEvent.prcode "            %ssipFree(%a);\n"
          [.s (if ad.atype = .class_type ∧ g.abiSupportsArray = true then "    " else ""),
            .mod mod, .ad ad, .d a]
      else
        genEvent.prcode "            %sdelete[] %a;\n"
          [.s (if ad.atype = .class_type ∧ g.abiSupportsArray = true then "    " else ""),
            .mod mod, .ad ad, .d a]]
      <:+: deleteTempsArg g mod ad a := by
  unfold deleteTempsArg
  simp only [h1, h2, h3, and_self, if_true]
  exact ⟨_, [], by rw [List.append_nil]⟩

/-- The release statement of `deleteTemps` for an encoded string. -/
theorem deleteTempsArg_encoded (g : generatorFlags) (mod : moduleDef) (ad : argDef) (a : Nat)
    (h1 : isInArg ad = true)
    (h2 : ad.atype = .ascii_string_type ∨ ad.atype = .latin1_string_type ∨
      ad.atype = .utf8_string_type)
    (h3 : ad.nrderefs = 1) :
    deleteTempsArg g mod ad a
      = [genEvent.prcode "            Py_%sDECREF(%aKeep);\n"
          [.s (if ad.defval ≠ none then "X" else ""), .mod mod, .ad ad, .d a]] := by
  unfold deleteTempsArg
  rcases h2 with h | h | h <;> simp [h, h1, h3]

/-- The release statement of `deleteTemps` for a wide string. -/
theorem deleteTempsArg_wide (g : generatorFlags) (mod : moduleDef) (ad : argDef) (a : Nat)
    (h1 : isInArg ad = true) (h2 : ad.atype = .wstring_type) (h3 : ad.nrderefs = 1) :
    deleteTempsArg g mod ad a
      = [if g.generating_c = true ∨ isConstArg ad = false then
          genEvent.prcode "            sipFree(%a);\n" [.mod mod, .ad ad, .d a]
         else
          genEvent.prcode "            sipFree(const_cast<wchar_t *>(%a));\n"
            [.mod mod, .ad ad, .d a]] := by
  unfold deleteTempsArg
  simp only [h2, h1, h3]
  split_ifs <;> simp_all

/-- The release statement of `deleteTemps` for an argument with conversion code. -/
theorem deleteTempsArg_converted (g : generatorFlags) (mod : moduleDef) (ad : argDef) (a : Nat)
    (h1 : isInArg ad = true) (h2 : isArray ad = false) (h3 : convertToCode ad ≠ [])
    (h4 : ¬ (ad.atype = .mapped_type ∧ ad.u.getMtd.noRelease = true)) :
    deleteTempsArg g mod ad a
      = [genEvent.prcode "            sipReleaseType%s(" [.s (userStateSuffix g ad)],
          (if g.generating_c = true ∨ isConstArg ad = false then
            genEvent.prcode "%a" [.mod mod, .ad ad, .d a]
           else genEvent.prcode "const_cast<%b *>(%a)" [.ad ad, .mod mod, .ad ad, .d a]),
          genEvent.prcode ", sipType_%T, %aState" [.ad ad, .mod mod, .ad ad, .d a]] ++
        (if typeNeedsUserState ad then
          [genEvent.prcode ", %aUserState" [.mod mod, .ad ad, .d a]]
         else []) ++
        [genEvent.prcode ");\n" []] := by
  have hty : ad.atype = .class_type ∨ ad.atype = .mapped_type := by
    unfold convertToCode at h3
    split_ifs at h3 with c1 c2
    · exact Or.inl c1.1
    · exact Or.inr c2.1
    · exact absurd rfl h3
  unfold deleteTempsArg
  rcases hty with h | h
  · simp only [h, h1, h2] at h4 ⊢
    simp [h3]
  · simp only [h, h1, h2] at h4 ⊢
    simp [h3, h4]

/-- A block that holds the calls of `deleteOuts` and of `deleteTemps` holds the release
statement of every argument that has something to release. -/
theorem release_in_block (g : generatorFlags) (mod : moduleDef) (sd : signatureDef)
    (block : List genEvent)
    (ho : genEvent.call "deleteOuts" (deleteOuts mod sd) ∈ block)
    (ht : genEvent.call "deleteTemps" (deleteTemps g mod sd) ∈ block)
    (p : Nat × argDef) (hp : p ∈ sd.args.enum) :
    deleteOutsArg mod p.2 p.1 <:+: prcodesOf block ∧
      deleteTempsArg g mod p.2 p.1 <:+: prcodesOf block := by
  have h1 := prcodesOf_call_within _ _ block ho
  have h2 := prcodesOf_call_within _ _ block ht
  rw [deleteOuts, prcodesOf_deleteOutsLoop] at h1
  rw [deleteTemps, prcodesOf_deleteTempsLoop] at h2
  exact ⟨(deleteOutsArg_within mod sd.args 0 p hp).trans h1,
    (deleteTempsArg_within g mod sd.args 0 p hp).trans h2⟩

/-! ## Lemmas on the distinct shapes of the virtual members -/

theorem strictDuplicate_comm (abiVersion : Nat) (a b : overDef) :
    strictDuplicate abiVersion a b = strictDuplicate abiVersion b a := by
  unfold strictDuplicate
  exact Bool.or_comm _ _

/-- The inner loop of `countVirtuals` is a search with `sameVirtual` among the members
before. -/
theorem alreadyHandled_eq_any (abiVersion : Nat) (before : List virtOverDef) (od : overDef) :
    alreadyHandled abiVersion before od
      = before.any (fun dvod => sameVirtual abiVersion dvod.od od) := by
  induction before with
  | nil => rfl
  | cons d r ih =>
    simp only [alreadyHandled, List.any_cons, sameVirtual]
    split_ifs with h
    · simp [h]
    · rw [ih]
      simp only [Bool.not_eq_true] at h
      simp [h, sameVirtual]

theorem mem_nonPrivateOverloads (l : List virtOverDef) (vod : virtOverDef) (h : vod ∈ l)
    (hp : isPrivate vod.od = false) : vod.od ∈ nonPrivateOverloads l := by
  unfold nonPrivateOverloads
  exact List.mem_map.2 ⟨vod, List.mem_filter.2 ⟨h, by simp [hp]⟩, rfl⟩

theorem nonPrivateOverloads_append (l1 l2 : List virtOverDef) :
    nonPrivateOverloads (l1 ++ l2) = nonPrivateOverloads l1 ++ nonPrivateOverloads l2 := by
  simp [nonPrivateOverloads]

/-- When no private member before is a strict duplicate of `od` and the test gives the same
answer in both orders on the others, the inner loop of `countVirtuals` finds a member
exactly when a non-private overload before is a strict duplicate of `od`. -/
theorem alreadyHandled_eq_strictDuplicate (abiVersion : Nat) (od : overDef) :
    ∀ (before : List virtOverDef),
      (∀ d ∈ before, isPrivate d.od = true → strictDuplicate abiVersion d.od od = false) →
      (∀ d ∈ before, isPrivate d.od = false →
        sameVirtual abiVersion d.od od = sameVirtual abiVersion od d.od) →
      alreadyHandled abiVersion before od
        = (nonPrivateOverloads before).any (fun d => strictDuplicate abiVersion d od) := by
  intro before
  rw [alreadyHandled_eq_any]
  induction before with
  | nil => intro _ _; rfl
  | cons d r ih =>
    intro hpriv hsymm
    have ih1 := ih (fun x hx => hpriv x (List.mem_cons_of_mem _ hx))
      (fun x hx => hsymm x (List.mem_cons_of_mem _ hx))
    by_cases hp : isPrivate d.od = true
    · have h1 := hpriv d (List.mem_cons_self _ _) hp
      unfold strictDuplicate at h1
      rw [Bool.or_eq_false_iff] at h1
      simp only [List.any_cons, h1.1, Bool.false_or, ih1, nonPrivateOverloads,
        List.filter_cons, hp, Bool.not_true, Bool.false_eq_true, if_false]
    · simp only [Bool.not_eq_true] at hp
      have h1 := hsymm d (List.mem_cons_self _ _) hp
      have h2 : strictDuplicate abiVersion d.od od = sameVirtual abiVersion d.od od := by
        unfold strictDuplicate
        rw [← h1, Bool.or_self]
      simp only [nonPrivateOverloads] at ih1
      simp only [List.any_cons, ih1, nonPrivateOverloads, List.filter_cons, hp,
        Bool.not_false, if_true, List.map_cons, h2]

/-- The members that the loops of `countVirtuals` and `generateShadowCode` select are the
first overloads of each shape among the non-private ones. -/
theorem selectedVirtuals_firstOfShape (abiVersion : Nat) (l : List virtOverDef)
    (hsymm : ∀ a ∈ nonPrivateOverloads l, ∀ b ∈ nonPrivateOverloads l,
      sameVirtual abiVersion a b = sameVirtual abiVersion b a)
    (hpriv : ∀ a ∈ l, isPrivate a.od = true → ∀ b ∈ nonPrivateOverloads l,
      strictDuplicate abiVersion a.od b = false) :
    ∀ (rest before : List virtOverDef), (∀ x ∈ before, x ∈ l) → (∀ x ∈ rest, x ∈ l) →
      (selectedVirtuals abiVersion before rest).map (fun vod => vod.od)
        = firstOfShape abiVersion (nonPrivateOverloads before) (nonPrivateOverloads rest) := by
  intro rest
  induction rest with
  | nil => intro _ _ _; rfl
  | cons vod rest ih =>
    intro before hb hr
    have hvl : vod ∈ l := hr vod (List.mem_cons_self _ _)
    have ih1 := ih (before ++ [vod])
      (fun x hx => by
        rcases List.mem_append.1 hx with h | h
        · exact hb x h
        · rw [List.mem_singleton] at h
          rw [h]
          exact hvl)
      (fun x hx => hr x (List.mem_cons_of_mem _ hx))
    rw [nonPrivateOverloads_append] at ih1
    by_cases hp : isPrivate vod.od = true
    · have e1 : nonPrivateOverloads [vod] = [] := by simp [nonPrivateOverloads, hp]
      have e2 : nonPrivateOverloads (vod :: rest) = nonPrivateOverloads rest := by
        simp [nonPrivateOverloads, hp]
      rw [e1, List.append_nil] at ih1
      rw [e2, ← ih1]
      simp [selectedVirtuals, hp]
    · simp only [Bool.not_eq_true] at hp
      have hvn : vod.od ∈ nonPrivateOverloads l := mem_nonPrivateOverloads l vod hvl hp
      have e1 : nonPrivateOverloads [vod] = [vod.od] := by simp [nonPrivateOverloads, hp]
      have e2 : nonPrivateOverloads (vod :: rest) = vod.od :: nonPrivateOverloads rest := by
        simp [nonPrivateOverloads, hp]
      have hah := alreadyHandled_eq_strictDuplicate abiVersion vod.od before
        (fun d hd hdp => hpriv d (hb d hd) hdp vod.od hvn)
        (fun d hd hdp => hsymm d.od (mem_nonPrivateOverloads l d (hb d hd) hdp) vod.od hvn)
      rw [e1] at ih1
      rw [e2]
      simp only [selectedVirtuals, firstOfShape, hp, Bool.not_false, Bool.true_and, hah]
      by_cases hany : (nonPrivateOverloads before).any
          (fun d => strictDuplicate abiVersion d vod.od) = true
      · simp only [hany, Bool.not_true, Bool.false_eq_true, if_false, if_true]
        exact ih1
      · simp only [Bool.not_eq_true] at hany
        simp only [hany, Bool.not_false, if_true, Bool.false_eq_true, if_false, List.map_cons,
          ih1]

theorem firstOfShape_add_duplicates (abiVersion : Nat) :
    ∀ (rest before : List overDef),
      (firstOfShape abiVersion before rest).length + strictDuplicatesFrom abiVersion before rest
        = rest.length := by
  intro rest
  induction rest with
  | nil => intro _; rfl
  | cons od rest ih =>
    intro before
    simp only [firstOfShape, strictDuplicatesFrom, List.length_cons]
    have := ih (before ++ [od])
    split_ifs
    · omega
    · simp only [List.length_cons]
      omega

theorem firstOfShape_mem (abiVersion : Nat) :
    ∀ (rest before : List overDef) (r : overDef),
      r ∈ firstOfShape abiVersion before rest → r ∈ rest := by
  intro rest
  induction rest with
  | nil => intro _ _ h; simp [firstOfShape] at h
  | cons od rest ih =>
    intro before r h
    simp only [firstOfShape] at h
    split_ifs at h
    · exact List.mem_cons_of_mem _ (ih _ _ h)
    · rcases List.mem_cons.1 h with h | h
      · rw [h]
        exact List.mem_cons_self _ _
      · exact List.mem_cons_of_mem _ (ih _ _ h)

/-- No two of the first overloads of each shape are strict duplicates, and none is a strict
duplicate of an overload of `before`. -/
theorem firstOfShape_pairwise (abiVersion : Nat) :
    ∀ (rest before : List overDef),
      (∀ r ∈ firstOfShape abiVersion before rest, ∀ b ∈ before,
          strictDuplicate abiVersion b r = false) ∧
        (firstOfShape abiVersion before rest).Pairwise
          (fun a b => strictDuplicate abiVersion a b = false) := by
  intro rest
  induction rest with
  | nil => intro _; simp [firstOfShape]
  | cons od rest ih =>
    intro before
    have ih1 := ih (before ++ [od])
    simp only [firstOfShape]
    by_cases hany : before.any (fun d => strictDuplicate abiVersion d od) = true
    · simp only [hany, if_true]
      exact ⟨fun r hr b hbm => ih1.1 r hr b (List.mem_append_left _ hbm), ih1.2⟩
    · simp only [hany, Bool.false_eq_true, if_false]
      simp only [Bool.not_eq_true, List.any_eq_false] at hany
      refine ⟨?_, ?_⟩
      · intro r hr b hbm
        rcases List.mem_cons.1 hr with h | h
        · rw [h]
          simpa using hany b hbm
        · exact ih1.1 r h b (List.mem_append_left _ hbm)
      · rw [List.pairwise_cons]
        exact ⟨fun r hr => ih1.1 r hr od (List.mem_append_right _ (List.mem_singleton_self _)),
          ih1.2⟩

/-- Every overload is a strict duplicate of the first overload of its shape, or of an
overload of `before`, when the test is reflexive and transitive on the overloads of
`l`. -/
theorem firstOfShape_cover (abiVersion : Nat) (l : List overDef)
    (hrefl : ∀ a ∈ l, strictDuplicate abiVersion a a = true)
    (htrans : ∀ a ∈ l, ∀ b ∈ l, ∀ c ∈ l, strictDuplicate abiVersion a b = true →
      strictDuplicate abiVersion b c = true → strictDuplicate abiVersion a c = true) :
    ∀ (rest before : List overDef), (∀ x ∈ before, x ∈ l) → (∀ x ∈ rest, x ∈ l) →
      ∀ v ∈ rest,
        (∃ r ∈ firstOfShape abiVersion before rest, strictDuplicate abiVersion r v = true) ∨
          (∃ b ∈ before, strictDuplicate abiVersion b v = true) := by
  intro rest
  induction rest with
  | nil => intro _ _ _ v hv; simp at hv
  | cons od rest ih =>
    intro before hb hr v hv
    have hodl : od ∈ l := hr od (List.mem_cons_self _ _)
    have ih1 := ih (before ++ [od])
      (fun x hx => by
        rcases List.mem_append.1 hx with h | h
        · exact hb x h
        · rw [List.mem_singleton] at h
          rw [h]
          exact hodl)
      (fun x hx => hr x (List.mem_cons_of_mem _ hx))
    simp only [firstOfShape]
    by_cases hany : before.any (fun d => strictDuplicate abiVersion d od) = true
    · simp only [hany, if_true]
      obtain ⟨b0, hb0, hb0od⟩ := List.any_eq_true.1 hany
      rcases List.mem_cons.1 hv with h | h
      · rw [h]
        exact Or.inr ⟨b0, hb0, hb0od⟩
      · rcases ih1 v h with ⟨r, hrm, hrv⟩ | ⟨b, hbm, hbv⟩
        · exact Or.inl ⟨r, hrm, hrv⟩
        · rcases List.mem_append.1 hbm with h1 | h1
          · exact Or.inr ⟨b, h1, hbv⟩
          · rw [List.mem_singleton] at h1
            rw [h1] at hbv
            exact Or.inr ⟨b0, hb0, htrans b0 (hb b0 hb0) od hodl v
              (hr v (List.mem_cons_of_mem _ h)) hb0od hbv⟩
    · simp only [hany, Bool.false_eq_true, if_false]
      rcases List.mem_cons.1 hv with h | h
      · rw [h]
        exact Or.inl ⟨od, List.mem_cons_self _ _, hrefl od hodl⟩
      · rcases ih1 v h with ⟨r, hrm, hrv⟩ | ⟨b, hbm, hbv⟩
        · exact Or.inl ⟨r, List.mem_cons_of_mem _ hrm, hrv⟩
        · rcases List.mem_append.1 hbm with h1 | h1
          · exact Or.inr ⟨b, h1, hbv⟩
          · rw [List.mem_singleton] at h1
            rw [h1] at hbv
            exact Or.inl ⟨od, List.mem_cons_self _ _, hbv⟩

/-- When the strict duplicate test is reflexive and transitive on the overloads of `l`,
the number of distinct shapes among them is the number of the first overloads of each
shape. -/
theorem distinct_shapes_eq_firstOfShape (abiVersion : Nat) (l : List overDef)
    (hrefl : ∀ a ∈ l, strictDuplicate abiVersion a a = true)
    (htrans : ∀ a ∈ l, ∀ b ∈ l, ∀ c ∈ l, strictDuplicate abiVersion a b = true →
      strictDuplicate abiVersion b c = true → strictDuplicate abiVersion a c = true) :
    ((l.map (shapeOf abiVersion l)).dedup).length = (firstOfShape abiVersion [] l).length := by
  have hmem : ∀ r ∈ firstOfShape abiVersion [] l, r ∈ l :=
    fun r hr => firstOfShape_mem abiVersion l [] r hr
  have hnodup : ((firstOfShape abiVersion [] l).map (shapeOf abiVersion l)).Nodup := by
    unfold List.Nodup
    rw [List.pairwise_map]
    refine List.Pairwise.imp_of_mem ?_ (firstOfShape_pairwise abiVersion l []).2
    intro a b _ hbm hab heq
    have hbl := hmem b hbm
    have h1 := List.map_inj_left.1 heq b hbl
    rw [hrefl b hbl, hab] at h1
    exact Bool.false_ne_true h1
  have hsame : ∀ x, x ∈ (l.map (shapeOf abiVersion l)).dedup
      ↔ x ∈ (firstOfShape abiVersion [] l).map (shapeOf abiVersion l) := by
    intro x
    rw [List.mem_dedup, List.mem_map, List.mem_map]
    constructor
    · rintro ⟨v, hv, rfl⟩
      rcases firstOfShape_cover abiVersion l hrefl htrans l [] (fun _ h => by simp at h)
        (fun _ h => h) v hv with ⟨r, hrm, hrv⟩ | ⟨b, hbm, _⟩
      · refine ⟨r, hrm, ?_⟩
        have hrl := hmem r hrm
        unfold shapeOf
        apply List.map_inj_left.2
        intro w hw
        rw [Bool.eq_iff_iff]
        constructor
        · intro h
          have hvr : strictDuplicate abiVersion v r = true := by
            rw [strictDuplicate_comm]
            exact hrv
          exact htrans v hv r hrl w hw hvr h
        · intro h
          exact htrans r hrl v hv w hw hrv h
      · simp at hbm
    · rintro ⟨r, hrm, rfl⟩
      exact ⟨r, hmem r hrm, rfl⟩
  rw [((List.perm_ext_iff_of_nodup (List.nodup_dedup _) hnodup).2 hsame).length_eq,
    List.length_map]

/-! ## The properties of the specification -/

/-- C1, counterexample: `sameSignature` is not symmetric.  With either value of `strict`,
the signature `(struct ::Foo *)` is the same as `(struct Foo *)`, because
`compareScopedNames` strips the global scope of its first name when the second has none,
while `(struct Foo *)` is not the same as `(struct ::Foo *)`. -/
theorem sameSignature_not_symmetric :
    sameSignature ABI_13_0 (.mk voidResult [structArg ["", "Foo"]])
        (.mk voidResult [structArg ["Foo"]]) true = true ∧
      sameSignature ABI_13_0 (.mk voidResult [structArg ["Foo"]])
        (.mk voidResult [structArg ["", "Foo"]]) true = false ∧
      sameSignature ABI_13_0 (.mk voidResult [structArg ["", "Foo"]])
        (.mk voidResult [structArg ["Foo"]]) false = true ∧
      sameSignature ABI_13_0 (.mk voidResult [structArg ["Foo"]])
        (.mk voidResult [structArg ["", "Foo"]]) false = false := by
  decide

/-- C1, amended: for every ABI version, both values of `strict` and every two signatures
whose struct, union, defined-type and template names (the types of a template included)
are all written with an explicit global scope, or all without one,
`sameSignature sd1 sd2 strict = sameSignature sd2 sd1 strict`. -/
theorem sameSignature_symm_same_scope (g : Bool) (abiVersion : Nat) (sd1 sd2 : signatureDef)
    (strict : Bool) (h1 : sigScopeIs g sd1 = true) (h2 : sigScopeIs g sd2 = true) :
    sameSignature abiVersion sd1 sd2 strict = sameSignature abiVersion sd2 sd1 strict := by
  unfold sigScopeIs at h1 h2
  unfold sameSignature signatureDef.nrArgs
  cases strict with
  | true =>
    by_cases hl : sd1.args.length = sd2.args.length
    · have e1 : decide (sd1.args.length ≠ sd2.args.length) = false := by simpa using hl
      have e2 : decide (sd2.args.length ≠ sd1.args.length) = false := by simpa using hl.symm
      simp only [if_true, e1, e2, Bool.false_eq_true, if_false]
      exact sameSignatureArgs_symm_strict g abiVersion _ _ hl h1 h2
    · have e1 : decide (sd1.args.length ≠ sd2.args.length) = true := by simpa using hl
      have e2 : decide (sd2.args.length ≠ sd1.args.length) = true := by
        simpa using fun e => hl (Eq.symm e)
      simp only [if_true, e1, e2]
  | false =>
    by_cases hl : compulsoryArgs sd1.args = compulsoryArgs sd2.args
    · have e1 : decide (compulsoryArgs sd1.args ≠ compulsoryArgs sd2.args) = false := by
        simpa using hl
      have e2 : decide (compulsoryArgs sd2.args ≠ compulsoryArgs sd1.args) = false := by
        simpa using hl.symm
      simp only [Bool.false_eq_true, if_false, e1, e2]
      exact sameSignatureArgs_symm_loose g abiVersion _ _ hl h1 h2
    · have e1 : decide (compulsoryArgs sd1.args ≠ compulsoryArgs sd2.args) = true := by
        simpa using hl
      have e2 : decide (compulsoryArgs sd2.args ≠ compulsoryArgs sd1.args) = true := by
        simpa using fun e => hl (Eq.symm e)
      simp only [Bool.false_eq_true, if_false, if_true, e1, e2]

/-- C1, witness: the amended symmetry at the signatures `(struct Foo *, int)` and
`(struct Bar *, int)`, whose names have no global scope. -/
theorem sameSignature_symm_same_scope_witness :
    sigScopeIs false (.mk voidResult [structArg ["Foo"], intArg]) = true ∧
      sigScopeIs false (.mk voidResult [structArg ["Bar"], intArg]) = true ∧
      sameSignature ABI_13_0 (.mk voidResult [structArg ["Foo"], intArg])
          (.mk voidResult [structArg ["Bar"], intArg]) true
        = sameSignature ABI_13_0 (.mk voidResult [structArg ["Bar"], intArg])
          (.mk voidResult [structArg ["Foo"], intArg]) true :=
  ⟨by decide, by decide,
    sameSignature_symm_same_scope false ABI_13_0 _ _ true (by decide) (by decide)⟩

/-- C2: default-argument folding.  With `strict = false`, `sameSignature` compares the
numbers of compulsory arguments (those before the first argument with a default value)
and then only the compulsory arguments, pair by pair.  So a signature with well-formed
arguments and the same signature extended by trailing arguments that all have default
values are the same under loose matching, in either order, whatever the two results are;
with `strict = true` they are not the same, in either order, because the argument counts
differ. -/
theorem sameSignature_default_folding (abiVersion : Nat) (sd1 sd2 : signatureDef)
    (res res' : argDef) (args extra : List argDef)
    (hwf : argsUnionOk args = true) (hne : extra ≠ [])
    (hdef : ∀ a ∈ extra, a.defval ≠ none) :
    sameSignature abiVersion sd1 sd2 false
        = (decide (compulsoryArgs sd1.args = compulsoryArgs sd2.args) &&
            ((sd1.args.take (compulsoryArgs sd1.args)).zip
                (sd2.args.take (compulsoryArgs sd2.args))).all
              (fun p => sameArgType abiVersion p.1 p.2 false)) ∧
      sameSignature abiVersion (.mk res args) (.mk res' (args ++ extra)) false = true ∧
      sameSignature abiVersion (.mk res' (args ++ extra)) (.mk res args) false = true ∧
      sameSignature abiVersion (.mk res args) (.mk res' (args ++ extra)) true = false ∧
      sameSignature abiVersion (.mk res' (args ++ extra)) (.mk res args) true = false := by
  have hlen : 0 < extra.length := List.length_pos.2 hne
  have hc := compulsoryArgs_append_defaults args extra hdef
  refine ⟨?_, ?_, ?_, ?_, ?_⟩
  · unfold sameSignature
    by_cases h : compulsoryArgs sd1.args = compulsoryArgs sd2.args
    · have e1 : decide (compulsoryArgs sd1.args ≠ compulsoryArgs sd2.args) = false := by
        simpa using h
      have e2 : decide (compulsoryArgs sd1.args = compulsoryArgs sd2.args) = true := by
        simpa using h
      simp only [Bool.false_eq_true, if_false, e1, e2, Bool.true_and]
      exact sameSignatureArgs_loose_eq_all abiVersion _ _ h
    · have e1 : decide (compulsoryArgs sd1.args ≠ compulsoryArgs sd2.args) = true := by
        simpa using h
      have e2 : decide (compulsoryArgs sd1.args = compulsoryArgs sd2.args) = false := by
        simpa using h
      simp only [Bool.false_eq_true, if_false, if_true, e1, e2, Bool.false_and]
  · simp only [sameSignature, signatureDef.args, hc, Bool.false_eq_true, if_false, ne_eq,
      not_true_eq_false, decide_False]
    exact sameSignatureArgs_loose_append_right abiVersion extra args hwf
  · simp only [sameSignature, signatureDef.args, hc, Bool.false_eq_true, if_false, ne_eq,
      not_true_eq_false, decide_False]
    exact sameSignatureArgs_loose_append_left abiVersion extra hdef args hwf
  · have hl : args.length ≠ (args ++ extra).length := by
      rw [List.length_append]
      omega
    simp [sameSignature, signatureDef.nrArgs, signatureDef.args, hne]
  · have hl : (args ++ extra).length ≠ args.length := by
      rw [List.length_append]
      omega
    simp [sameSignature, signatureDef.nrArgs, signatureDef.args, hne]

/-- C2, witness: the folding at `(int x)` and `(int x, int y = 0)`. -/
theorem sameSignature_default_folding_witness :
    sameSignature ABI_13_0 (.mk voidResult [intArg]) (.mk voidResult ([intArg] ++ [intArgDefault]))
        false = true ∧
      sameSignature ABI_13_0 (.mk voidResult ([intArg] ++ [intArgDefault])) (.mk voidResult [intArg])
        false = true ∧
      sameSignature ABI_13_0 (.mk voidResult [intArg]) (.mk voidResult ([intArg] ++ [intArgDefault]))
        true = false ∧
      sameSignature ABI_13_0 (.mk voidResult ([intArg] ++ [intArgDefault])) (.mk voidResult [intArg])
        true = false :=
  (sameSignature_default_folding ABI_13_0 (.mk voidResult [intArg]) (.mk voidResult [intArg])
    voidResult voidResult [intArg] [intArgDefault] (by decide) (List.cons_ne_nil _ _)
    (by decide)).2

/-- C3: with `strict = true`, `sameSignature sd1 sd2` is TRUE exactly when the two argument
counts are equal and every positional pair of arguments agrees on the reference flag, the
number of dereferences, the const flag and the base type (`sameBaseType`); the answer is
unchanged when every argument is reduced to its category, reference flag, const flag,
number of dereferences and union (dropping default values, names, the in and out flags
and the other flags) and the two results are replaced by any others.  On two classes, two
enums or two mapped types `sameBaseType` is TRUE exactly when they are the same node; on
two templates, exactly when `compareScopedNames` finds the names equal, the numbers of
types are equal and the types agree pairwise on the number of dereferences and on
`sameBaseType`. -/
theorem sameSignature_strict_iff (abiVersion : Nat) (sd1 sd2 : signatureDef)
    (res1 res2 : argDef) :
    (sameSignature abiVersion sd1 sd2 true = true ↔
        sd1.nrArgs = sd2.nrArgs ∧
          ∀ p ∈ sd1.args.zip sd2.args,
            isReference p.1 = isReference p.2 ∧ p.1.nrderefs = p.2.nrderefs ∧
              isConstArg p.1 = isConstArg p.2 ∧ sameBaseType p.1 p.2 = true) ∧
      sameSignature abiVersion (.mk res1 (sd1.args.map strictView))
          (.mk res2 (sd2.args.map strictView)) true
        = sameSignature abiVersion sd1 sd2 true ∧
      (∀ (c1 c2 : argCore) (x y : classDef),
        sameBaseType (.mk { c1 with atype := .class_type } (.cd x))
          (.mk { c2 with atype := .class_type } (.cd y)) = decide (x.addr = y.addr)) ∧
      (∀ (c1 c2 : argCore) (x y : enumDef),
        sameBaseType (.mk { c1 with atype := .enum_type } (.ed x))
          (.mk { c2 with atype := .enum_type } (.ed y)) = decide (x.addr = y.addr)) ∧
      (∀ (c1 c2 : argCore) (x y : mappedTypeDef),
        sameBaseType (.mk { c1 with atype := .mapped_type } (.mtd x))
          (.mk { c2 with atype := .mapped_type } (.mtd y)) = decide (x.addr = y.addr)) ∧
      (∀ (c1 c2 : argCore) (fq1 fq2 : scopedNameDef) (r1 r2 : argDef) (l1 l2 : List argDef),
        sameBaseType (.mk { c1 with atype := .template_type } (.td (.mk fq1 (.mk r1 l1))))
            (.mk { c2 with atype := .template_type } (.td (.mk fq2 (.mk r2 l2))))
          = (decide (compareScopedNames fq1 fq2 = 0) && decide (l1.length = l2.length) &&
              (l1.zip l2).all
                (fun p => decide (p.1.nrderefs = p.2.nrderefs) && sameBaseType p.1 p.2))) := by
  refine ⟨?_, ?_, sameBaseType_class, sameBaseType_enum, sameBaseType_mapped,
    sameBaseType_template⟩
  · unfold sameSignature signatureDef.nrArgs
    by_cases hl : sd1.args.length = sd2.args.length
    · have e1 : decide (sd1.args.length ≠ sd2.args.length) = false := by simpa using hl
      have hchar := sameSignatureArgs_strict_iff abiVersion _ _ hl
      rw [if_pos rfl, e1, if_neg Bool.false_ne_true, hchar]
      constructor
      · intro h
        exact ⟨hl, fun p hp => (sameArgType_strict_iff abiVersion p.1 p.2).1 (h p hp)⟩
      · intro h p hp
        exact (sameArgType_strict_iff abiVersion p.1 p.2).2 (h.2 p hp)
    · have e1 : decide (sd1.args.length ≠ sd2.args.length) = true := by simpa using hl
      rw [if_pos rfl, e1, if_pos rfl]
      constructor
      · intro h
        cases h
      · intro h
        exact absurd h.1 hl
  · cases sd1 with
    | mk r1 l1 =>
      cases sd2 with
      | mk r2 l2 =>
        simp only [sameSignature, signatureDef.nrArgs, signatureDef.args, List.length_map,
          sameSignatureArgs_strictView, if_true]

/-- C4, counterexample: a wide string is not in the class of the other string encodings.
The arguments `wchar_t *` and `char *` have the same reference flag and the same number of
dereferences, and `sameArgType` with `strict = false` is FALSE on them, in both orders. -/
theorem sameArgType_wide_string_not_string :
    isReference (pointerArg .wstring_type) = isReference (pointerArg .string_type) ∧
      (pointerArg .wstring_type).nrderefs = (pointerArg .string_type).nrderefs ∧
      sameArgType ABI_13_0 (pointerArg .wstring_type) (pointerArg .string_type) false = false ∧
      sameArgType ABI_13_0 (pointerArg .string_type) (pointerArg .wstring_type) false = false := by
  decide

/-- C4, amended: under loose matching the string encodings form two classes.  For every
two arguments with the same reference flag and number of dereferences whose categories are
string categories (the six of `pyAsString`: plain, signed and unsigned char strings, ASCII,
Latin-1 and UTF-8 strings; or wide strings), `sameArgType` is TRUE exactly when both are
among the six of `pyAsString` or both are wide strings. -/
theorem sameArgType_loose_strings (abiVersion : Nat) (a1 a2 : argDef)
    (href : isReference a1 = isReference a2) (hder : a1.nrderefs = a2.nrderefs)
    (h1 : pyAsString a1.atype = true ∨ a1.atype = .wstring_type)
    (h2 : pyAsString a2.atype = true ∨ a2.atype = .wstring_type) :
    sameArgType abiVersion a1 a2 false
      = (decide (a1.atype = .wstring_type) == decide (a2.atype = .wstring_type)) := by
  have p1 : readsUnion a1.atype = false := by
    revert h1
    cases a1.atype <;> simp [pyAsString, readsUnion]
  have p2 : readsUnion a2.atype = false := by
    revert h2
    cases a2.atype <;> simp [pyAsString, readsUnion]
  rw [sameArgType_loose_plain abiVersion a1 a2 href hder p1 p2]
  generalize a1.atype = t1 at *
  generalize a2.atype = t2 at *
  cases t1 <;> simp [pyAsString] at h1 <;> cases t2 <;> simp [pyAsString] at h2 <;> rfl

/-- C4, witness: the amended statement at `char *` and a UTF-8 `char *`. -/
theorem sameArgType_loose_strings_witness :
    sameArgType ABI_13_0 (pointerArg .string_type) (pointerArg .utf8_string_type) false
      = (decide ((pointerArg .string_type).atype = .wstring_type)
          == decide ((pointerArg .utf8_string_type).atype = .wstring_type)) :=
  sameArgType_loose_strings ABI_13_0 (pointerArg .string_type) (pointerArg .utf8_string_type)
    (by decide) (by decide) (by decide) (by decide)

/-- C5, counterexample: the float and double categories are not one class.  A constrained
float and a constrained double, with the same reference flag and number of dereferences,
are not the same under loose matching, in either order. -/
theorem sameArgType_cfloat_not_cdouble :
    isReference (plainArg .cfloat_type) = isReference (plainArg .cdouble_type) ∧
      (plainArg .cfloat_type).nrderefs = (plainArg .cdouble_type).nrderefs ∧
      sameArgType ABI_13_0 (plainArg .cfloat_type) (plainArg .cdouble_type) false = false ∧
      sameArgType ABI_13_0 (plainArg .cdouble_type) (plainArg .cfloat_type) false = false := by
  decide

/-- C5, amended: for every two arguments with the same reference flag and number of
dereferences whose categories are both among float, double, constrained float and
constrained double, `sameArgType` with `strict = false` is TRUE unless the two categories
are both constrained and differ (constrained float against constrained double). -/
theorem sameArgType_loose_floats (abiVersion : Nat) (a1 a2 : argDef)
    (href : isReference a1 = isReference a2) (hder : a1.nrderefs = a2.nrderefs)
    (h1 : pyAsFloat a1.atype = true) (h2 : pyAsFloat a2.atype = true) :
    sameArgType abiVersion a1 a2 false
      = !(pyIsConstrained a1.atype && pyIsConstrained a2.atype &&
            !decide (a1.atype = a2.atype)) := by
  have p1 : readsUnion a1.atype = false := by
    revert h1
    cases a1.atype <;> simp [pyAsFloat, readsUnion]
  have p2 : readsUnion a2.atype = false := by
    revert h2
    cases a2.atype <;> simp [pyAsFloat, readsUnion]
  rw [sameArgType_loose_plain abiVersion a1 a2 href hder p1 p2]
  generalize a1.atype = t1 at *
  generalize a2.atype = t2 at *
  cases t1 <;> simp [pyAsFloat] at h1 <;> cases t2 <;> simp [pyAsFloat] at h2 <;> rfl

/-- C5, witness: the amended statement at a constrained float and a double. -/
theorem sameArgType_loose_floats_witness :
    sameArgType ABI_13_0 (plainArg .cfloat_type) (plainArg .double_type) false
      = !(pyIsConstrained (plainArg .cfloat_type).atype &&
            pyIsConstrained (plainArg .double_type).atype &&
            !decide ((plainArg .cfloat_type).atype = (plainArg .double_type).atype)) :=
  sameArgType_loose_floats ABI_13_0 (plainArg .cfloat_type) (plainArg .double_type)
    (by decide) (by decide) (by decide) (by decide)

/-- C6: under loose matching two constrained fundamental types are the same only when
they are the same category.  For every two arguments with the same reference flag and
number of dereferences whose categories are both constrained (constrained bool, int,
float, double), `sameArgType` with `strict = false` is TRUE if and only if the two
categories are identical. -/
theorem sameArgType_loose_constrained (abiVersion : Nat) (a1 a2 : argDef)
    (href : isReference a1 = isReference a2) (hder : a1.nrderefs = a2.nrderefs)
    (h1 : pyIsConstrained a1.atype = true) (h2 : pyIsConstrained a2.atype = true) :
    sameArgType abiVersion a1 a2 false = true ↔ a1.atype = a2.atype := by
  unfold sameArgType
  simp [href, hder, h1, h2]

/-- C6, witness: a constrained int against a constrained bool. -/
theorem sameArgType_loose_constrained_witness :
    sameArgType ABI_13_0 (plainArg .cint_type) (plainArg .cbool_type) false = true ↔
      (plainArg .cint_type).atype = (plainArg .cbool_type).atype :=
  sameArgType_loose_constrained ABI_13_0 (plainArg .cint_type) (plainArg .cbool_type)
    (by decide) (by decide) (by decide) (by decide)

/-- C7: under loose matching an anonymous enum (ABI 13 and later), respectively an enum
that is not flagged constrained (earlier ABIs), is the same as every argument of an
int-family category (`pyAsInt`: bool, byte, short, int, their signed and unsigned variants,
the size types and the hash type) with the same reference flag and number of
dereferences, in both argument orders. -/
theorem sameArgType_loose_enum_int (abiVersion : Nat) (c : argCore) (ed : enumDef)
    (a : argDef) (hc : c.atype = .enum_type)
    (hed : if abiVersion ≥ ABI_13_0 then ed.fqcname = [] else c.isConstrained = false)
    (ha : pyAsInt a.atype = true)
    (href : isReference (.mk c (.ed ed)) = isReference a)
    (hder : (argDef.mk c (.ed ed)).nrderefs = a.nrderefs) :
    sameArgType abiVersion (.mk c (.ed ed)) a false = true ∧
      sameArgType abiVersion a (.mk c (.ed ed)) false = true := by
  have hk : pyIsConstrained argType.enum_type = false := by decide
  have he : (argDef.mk c (.ed ed)).atype = .enum_type := hc
  have hu : (argDef.mk c (.ed ed)).u.getEd = ed := rfl
  have hcon : isConstrained (argDef.mk c (.ed ed)) = c.isConstrained := rfl
  unfold sameArgType
  rw [he, hu, hcon]
  by_cases habi : abiVersion ≥ ABI_13_0
  · rw [if_pos habi] at hed
    simp [href, hder, ha, hk, habi, hed]
  · rw [if_neg habi] at hed
    simp [href, hder, ha, hk, habi, hed]

/-- C7, witness: an anonymous enum against an `unsigned short` under ABI 13.0, and an
unconstrained named enum against an `int` under ABI 12.8. -/
theorem sameArgType_loose_enum_int_witness :
    (sameArgType ABI_13_0 (.mk { atype := .enum_type } (.ed { addr := 1 }))
          (plainArg .ushort_type) false = true ∧
        sameArgType ABI_13_0 (plainArg .ushort_type)
          (.mk { atype := .enum_type } (.ed { addr := 1 })) false = true) ∧
      (sameArgType 0x0C08 (.mk { atype := .enum_type } (.ed { addr := 1, fqcname := ["E"] }))
          (plainArg .int_type) false = true ∧
        sameArgType 0x0C08 (plainArg .int_type)
          (.mk { atype := .enum_type } (.ed { addr := 1, fqcname := ["E"] })) false = true) :=
  ⟨sameArgType_loose_enum_int ABI_13_0 { atype := .enum_type } { addr := 1 }
      (plainArg .ushort_type) rfl (by decide) (by decide) (by decide) (by decide),
    sameArgType_loose_enum_int 0x0C08 { atype := .enum_type } { addr := 1, fqcname := ["E"] }
      (plainArg .int_type) rfl (by decide) (by decide) (by decide) (by decide)⟩

/-- C8: the loose equivalence is not transitive.  Under every ABI version the value
arguments `a` (constrained int), `b` (int) and `c` (float) have the same reference flag and
number of dereferences, `sameArgType a b` and `sameArgType b c` are TRUE with
`strict = false`, and `sameArgType a c` is FALSE. -/
theorem sameArgType_loose_not_transitive (abiVersion : Nat) :
    ∃ a b c : argDef,
      isReference a = isReference b ∧ isReference b = isReference c ∧
        a.nrderefs = b.nrderefs ∧ b.nrderefs = c.nrderefs ∧
        sameArgType abiVersion a b false = true ∧
        sameArgType abiVersion b c false = true ∧
        sameArgType abiVersion a c false = false := by
  refine ⟨plainArg .cint_type, plainArg .int_type, plainArg .float_type, rfl, rfl, rfl, rfl,
    ?_, ?_, ?_⟩
  · rw [sameArgType_loose_plain abiVersion (plainArg .cint_type) (plainArg .int_type) rfl rfl
      (by decide) (by decide)]
    decide
  · rw [sameArgType_loose_plain abiVersion (plainArg .int_type) (plainArg .float_type) rfl rfl
      (by decide) (by decide)]
    decide
  · rw [sameArgType_loose_plain abiVersion (plainArg .cint_type) (plainArg .float_type) rfl rfl
      (by decide) (by decide)]
    decide

/-- C9, counterexample: the count of `countVirtuals` is not the number of distinct shapes
among the non-private virtual overloads.  For a class whose virtual members are
`void f(struct Foo *)` followed by `void f(struct ::Foo *)`, neither private, the second
overload is a strict duplicate of the first (the strict test holds with the second taken
first), so there is one shape and M is 1 of N = 2; `countVirtuals` is 2, because its loop
applies the test with the earlier member first, and in that order it fails. -/
theorem countVirtuals_scoped_duplicate :
    countVirtuals ABI_13_0 { vmembers := [virtualStruct, virtualGlobalStruct] } = 2 ∧
      distinctShapes ABI_13_0 { vmembers := [virtualStruct, virtualGlobalStruct] } = 1 ∧
      strictDuplicates ABI_13_0 { vmembers := [virtualStruct, virtualGlobalStruct] } = 1 ∧
      sameVirtual ABI_13_0 virtualGlobalStruct.od virtualStruct.od = true ∧
      sameVirtual ABI_13_0 virtualStruct.od virtualGlobalStruct.od = false := by
  decide

/-- C9, amended: for every class on whose non-private virtual overloads the strict test
(same C++ name, strictly equal C++ signature) gives the same answer in both orders and
is reflexive and transitive, and none of whose private virtual members is a strict
duplicate of a non-private one, `countVirtuals` equals the number of distinct shapes
among the non-private virtual overloads, which is N - M when M of the N overloads are
strict duplicates of another one; and when no call of `generateVirtualCatcher` fails,
`generateShadowCode` succeeds and calls it exactly `countVirtuals` times, with the numbers
0, 1, ... in order. -/
theorem countVirtuals_eq_distinctShapes (abiVersion : Nat) (cd : classMembers)
    (catcher : Nat → virtOverDef → Int)
    (hrefl : ∀ a ∈ nonPrivateOverloads cd.vmembers, sameVirtual abiVersion a a = true)
    (hsymm : ∀ a ∈ nonPrivateOverloads cd.vmembers, ∀ b ∈ nonPrivateOverloads cd.vmembers,
      sameVirtual abiVersion a b = sameVirtual abiVersion b a)
    (htrans : ∀ a ∈ nonPrivateOverloads cd.vmembers, ∀ b ∈ nonPrivateOverloads cd.vmembers,
      ∀ c ∈ nonPrivateOverloads cd.vmembers, strictDuplicate abiVersion a b = true →
        strictDuplicate abiVersion b c = true → strictDuplicate abiVersion a c = true)
    (hpriv : ∀ a ∈ cd.vmembers, isPrivate a.od = true →
      ∀ b ∈ nonPrivateOverloads cd.vmembers, strictDuplicate abiVersion a.od b = false)
    (hc : ∀ virtNr vod, 0 ≤ catcher virtNr vod) :
    countVirtuals abiVersion cd = distinctShapes abiVersion cd ∧
      countVirtuals abiVersion cd + strictDuplicates abiVersion cd
        = (nonPrivateOverloads cd.vmembers).length ∧
      (generateShadowCode abiVersion catcher cd).1 = 0 ∧
      (generateShadowCode abiVersion catcher cd).2.map Prod.fst
        = List.range (countVirtuals abiVersion cd) := by
  have hsel := selectedVirtuals_firstOfShape abiVersion cd.vmembers hsymm hpriv cd.vmembers []
    (fun _ h => by simp at h) (fun _ h => h)
  have hcount : countVirtuals abiVersion cd
      = (firstOfShape abiVersion [] (nonPrivateOverloads cd.vmembers)).length := by
    unfold countVirtuals
    rw [countVirtualsLoop_selected, Nat.zero_add, ← List.length_map, hsel]
    rfl
  have hrefl2 : ∀ a ∈ nonPrivateOverloads cd.vmembers, strictDuplicate abiVersion a a = true := by
    intro a ha
    unfold strictDuplicate
    rw [hrefl a ha, Bool.or_self]
  have hshadow := generateShadowCatchers_ok abiVersion catcher hc cd.vmembers [] 0 []
  refine ⟨?_, ?_, hshadow.1, ?_⟩
  · rw [hcount]
    unfold distinctShapes
    rw [distinct_shapes_eq_firstOfShape abiVersion _ hrefl2 htrans]
  · rw [hcount]
    unfold strictDuplicates
    exact firstOfShape_add_duplicates abiVersion _ []
  · unfold generateShadowCode countVirtuals
    rw [hshadow.2, List.map_nil, List.nil_append, List.range_eq_range']

/-- C9, witness: a class with the virtual members `void f(int)`, `void g(struct Foo *)`, a
private `void h(int)` and a second `void f(int)`, every catcher generated without error:
two shapes among three non-private overloads, one of them a duplicate, and the catchers
0 and 1. -/
theorem countVirtuals_eq_distinctShapes_witness :
    countVirtuals ABI_13_0 { vmembers := [virtualF false, virtualG, virtualH, virtualF false] }
        = 2 ∧
      distinctShapes ABI_13_0 { vmembers := [virtualF false, virtualG, virtualH, virtualF false] }
        = 2 ∧
      strictDuplicates ABI_13_0
        { vmembers := [virtualF false, virtualG, virtualH, virtualF false] } = 1 ∧
      (generateShadowCode ABI_13_0 (fun _ _ => 0)
        { vmembers := [virtualF false, virtualG, virtualH, virtualF false] }).1 = 0 ∧
      (generateShadowCode ABI_13_0 (fun _ _ => 0)
          { vmembers := [virtualF false, virtualG, virtualH, virtualF false] }).2.map Prod.fst
        = [0, 1] := by
  have h := countVirtuals_eq_distinctShapes ABI_13_0
    { vmembers := [virtualF false, virtualG, virtualH, virtualF false] } (fun _ _ => 0)
    (by decide) (by decide) (by decide) (by decide) (fun _ _ => le_refl 0)
  have hcv : countVirtuals ABI_13_0
      { vmembers := [virtualF false, virtualG, virtualH, virtualF false] } = 2 := by decide
  refine ⟨hcv, ?_, ?_, h.2.2.1, ?_⟩
  · rw [← h.1, hcv]
  · have h2 := h.2.1
    rw [hcv] at h2
    have hn : (nonPrivateOverloads
        ({ vmembers := [virtualF false, virtualG, virtualH, virtualF false] } :
          classMembers).vmembers).length = 3 := by decide
    omega
  · rw [h.2.2.2, hcv]
    rfl

/-- C10: the result formats are not defined for every category.  For an argument of
category `ssize_type` (`Py_ssize_t`) or `hash_type` (`Py_hash_t`), whatever its flags,
`getBuildResultFormat` returns its "should never get here" default, the empty string, and
`getParseResultFormat` returns its default, a single blank; `getParseResultFormat` also
returns it for `pycallable_type`, for which `getBuildResultFormat` has the code `R`.  Yet
`generateHandleResult` converts a single `Py_ssize_t` value with `PyLong_FromSsize_t`, and
for `Py_ssize_t f(int *a0 /Out/)` it builds the format `(i)`, one code, for the two values
`sipRes` and `a0`. -/
theorem resultFormat_default_on_ssize :
    (∀ (c : argCore) (u : argU) (res_isref xfervh : Bool),
      getBuildResultFormat (.mk { c with atype := .ssize_type } u) = "" ∧
        getParseResultFormat (.mk { c with atype := .ssize_type } u) res_isref xfervh
          = some " " ∧
        getBuildResultFormat (.mk { c with atype := .hash_type } u) = "" ∧
        getParseResultFormat (.mk { c with atype := .hash_type } u) res_isref xfervh
          = some " " ∧
        getBuildResultFormat (.mk { c with atype := .pycallable_type } u) = "R" ∧
        getParseResultFormat (.mk { c with atype := .pycallable_type } u) res_isref xfervh
          = some " ") ∧
      generateHandleResult {} {} ssizeOnly false (-1) "return"
        = [genEvent.prcode "            %s PyLong_FromSsize_t(%s);\n"
            [.s "return", .s "sipRes"]] ∧
      generateHandleResult {} {} ssizeWithOut false (-1) "return"
        = [genEvent.prcode "            %s sipBuildResult(0, \"(" [.s "return"],
            genEvent.prcode "%s" [.s ""],
            genEvent.prcode "%s" [.s "i"],
            genEvent.prcode ")\"" [],
            genEvent.prcode ", sipRes" [],
            genEvent.prcode ", %a"
              [.mod {}, .ad (.mk { atype := .int_type, nrderefs := 1, isOutArg := true } .none),
                .d 0],
            genEvent.prcode ");\n" []] :=
  ⟨fun _ _ _ _ => ⟨rfl, rfl, rfl, rfl, rfl, rfl⟩, rfl, rfl⟩

/-- C11: the result sub-format of a class, mapped type or fake void is chosen by table
lookup over a 3-bit value.  For every such argument and all values of `res_isref`,
`xfervh` and of the flags of the argument, the index `f` that `getParseResultFormat`
computes is at most 7, the table `type_formats` has eight entries, and the function
returns entry `f` of it, read inside the table: the string made of `H` and the digit
`f`. -/
theorem getParseResultFormat_table (ad : argDef) (res_isref xfervh : Bool)
    (h : ad.atype = .class_type ∨ ad.atype = .mapped_type ∨ ad.atype = .fake_void_type) :
    parseResultFlags ad res_isref xfervh ≤ 7 ∧
      type_formats.length = 8 ∧
      getParseResultFormat ad res_isref xfervh
        = type_formats[parseResultFlags ad res_isref xfervh]? ∧
      getParseResultFormat ad res_isref xfervh
        = some (String.mk ['H', Char.ofNat ('0'.toNat + parseResultFlags ad res_isref xfervh)]) := by
  have hlt := parseResultFlags_lt ad res_isref xfervh
  have hlook : getParseResultFormat ad res_isref xfervh
      = type_formats[parseResultFlags ad res_isref xfervh]? := by
    unfold getParseResultFormat
    rcases h with h | h | h <;> rw [h]
  refine ⟨by omega, rfl, hlook, ?_⟩
  rw [hlook]
  exact type_formats_entry _ hlt

/-- C11, witness: an out pointer to a class with `xfervh` set has the index 6 and the
format `H6`. -/
theorem getParseResultFormat_table_witness :
    parseResultFlags
        (.mk { atype := .class_type, nrderefs := 1, isOutArg := true } (.cd { addr := 1 }))
        false true ≤ 7 ∧
      getParseResultFormat
        (.mk { atype := .class_type, nrderefs := 1, isOutArg := true } (.cd { addr := 1 }))
        false true = some "H6" :=
  ⟨(getParseResultFormat_table
      (.mk { atype := .class_type, nrderefs := 1, isOutArg := true } (.cd { addr := 1 }))
      false true (Or.inl rfl)).1,
    by decide⟩

/-- C12, counterexample: the flag value of `getSubFormatChar` is not confined to 0..7.
For a pointer to a class that has no conversion code the value is 8 and the format is
`J8`. -/
theorem getSubFormatChar_class_pointer :
    getSubFormatFlags classPointerArg = 8 ∧ getSubFormatChar 'J' classPointerArg = "J8" := by
  decide

/-- C12, amended: the sub-format of a class or mapped-type argument is selected by a
5-bit flag combination.  For every argument the flag value that `getSubFormatChar`
encodes in the second character of its result (`'0' + flags`) lies in 0..31 and its bits
are: bit 0x01, set exactly for a class or mapped type that has no dereference or is
flagged disallow-none; bit 0x02, set exactly for an argument flagged transferred; bit
0x04, set exactly for an argument flagged transferred back; bit 0x08, set exactly for a
class or mapped type that is constrained or is a class without conversion code; bit 0x10,
set exactly for a class or mapped type flagged this-transferred.  So the value is the sum
of the bits that are set, and for a class or mapped-type argument it lies in 0..7 exactly
when the argument is not flagged this-transferred and neither is constrained nor is a
class without conversion code. -/
theorem getSubFormatFlags_five_bits (fc : Char) (ad : argDef) :
    getSubFormatFlags ad ≤ 31 ∧
      getSubFormatChar fc ad = String.mk [fc, Char.ofNat ('0'.toNat + getSubFormatFlags ad)] ∧
      ((getSubFormatFlags ad).testBit 0 = true ↔
        (ad.atype = .class_type ∨ ad.atype = .mapped_type) ∧
          (ad.nrderefs = 0 ∨ isDisallowNone ad = true)) ∧
      ((getSubFormatFlags ad).testBit 1 = true ↔ isTransferred ad = true) ∧
      ((getSubFormatFlags ad).testBit 2 = true ↔ isTransferredBack ad = true) ∧
      ((getSubFormatFlags ad).testBit 3 = true ↔
        (ad.atype = .class_type ∨ ad.atype = .mapped_type) ∧
          (isConstrained ad = true ∨
            (ad.atype = .class_type ∧ ad.u.getCd.convtocode = []))) ∧
      ((getSubFormatFlags ad).testBit 4 = true ↔
        (ad.atype = .class_type ∨ ad.atype = .mapped_type) ∧ isThisTransferred ad = true) ∧
      getSubFormatFlags ad
        = (if (ad.atype = .class_type ∨ ad.atype = .mapped_type) ∧
              (ad.nrderefs = 0 ∨ isDisallowNone ad = true) then 1 else 0) +
          (if isTransferred ad = true then 2 else 0) +
          (if isTransferredBack ad = true then 4 else 0) +
          (if (ad.atype = .class_type ∨ ad.atype = .mapped_type) ∧
              (isConstrained ad = true ∨
                (ad.atype = .class_type ∧ ad.u.getCd.convtocode = [])) then 8 else 0) +
          (if (ad.atype = .class_type ∨ ad.atype = .mapped_type) ∧
              isThisTransferred ad = true then 16 else 0) ∧
      (ad.atype = .class_type ∨ ad.atype = .mapped_type →
        (getSubFormatFlags ad ≤ 7 ↔
          isThisTransferred ad = false ∧
            ¬ (isConstrained ad = true ∨
                (ad.atype = .class_type ∧ ad.u.getCd.convtocode = [])))) := by
  refine ⟨getSubFormatFlags_le ad, rfl, ?_⟩
  unfold getSubFormatFlags
  by_cases h : (ad.atype = .class_type ∨ ad.atype = .mapped_type) <;>
    by_cases h1 : isTransferred ad = true <;> by_cases h2 : isTransferredBack ad = true <;>
    by_cases h3 : (ad.nrderefs = 0 ∨ isDisallowNone ad = true) <;>
    by_cases h4 : isThisTransferred ad = true <;>
    by_cases h5 : (isConstrained ad = true ∨
      (ad.atype = .class_type ∧ ad.u.getCd.convtocode = [])) <;>
    simp +decide [h, h1, h2, h3, h4, h5]

/-- C12, witness: a pointer to a class without conversion code that is flagged transferred
and this-transferred has the flag value 26, the bits 0x02, 0x08 and 0x10, beyond the three
bits 0..7. -/
theorem getSubFormatFlags_five_bits_witness :
    getSubFormatFlags
        (.mk { atype := .class_type, nrderefs := 1, isTransferred := true,
               isThisTransferred := true } (.cd {})) = 26 ∧
      ((getSubFormatFlags
          (.mk { atype := .class_type, nrderefs := 1, isTransferred := true,
                 isThisTransferred := true } (.cd {}))).testBit 1 = true ↔
        isTransferred
          (.mk { atype := .class_type, nrderefs := 1, isTransferred := true,
                 isThisTransferred := true } (.cd {})) = true) ∧
      ((getSubFormatFlags
          (.mk { atype := .class_type, nrderefs := 1, isTransferred := true,
                 isThisTransferred := true } (.cd {}))).testBit 2 = true ↔
        isTransferredBack
          (.mk { atype := .class_type, nrderefs := 1, isTransferred := true,
                 isThisTransferred := true } (.cd {})) = true) :=
  ⟨by decide,
    (getSubFormatFlags_five_bits 'J'
      (.mk { atype := .class_type, nrderefs := 1, isTransferred := true,
             isThisTransferred := true } (.cd {}))).2.2.2.1,
    (getSubFormatFlags_five_bits 'J'
      (.mk { atype := .class_type, nrderefs := 1, isTransferred := true,
             isThisTransferred := true } (.cd {}))).2.2.2.2.1⟩

/-- C13: the exception guard.  `generateTry` and `generateCatch` decide with the same
condition, so a try block is opened exactly when catch blocks are emitted; the region is
omitted if and only if exception support is off or the throw specifier is present and
empty; and `generateThrowSpecifier` emits `noexcept` exactly when exception support is on
and the region is omitted. -/
theorem exception_guard_presence (g : generatorFlags) (ta : Option throwArgs)
    (sd : signatureDef) (mod : moduleDef) (rgil : Bool) :
    (generateTry g ta ≠ [] ↔ generateCatch g ta sd mod rgil ≠ []) ∧
      (generateTry g ta = [] ↔ g.exceptions = false ∨ ta = some []) ∧
      (generateCatch g ta sd mod rgil = [] ↔ g.exceptions = false ∨ ta = some []) ∧
      (generateTry g ta = [] ∨
        generateTry g ta = [.prcode "            try\n            \x7b\n" []]) ∧
      (generateThrowSpecifier g ta = [.prcode " noexcept" []] ↔
        g.exceptions = true ∧ generateTry g ta = []) ∧
      (generateThrowSpecifier g ta = [] ↔
        ¬ (g.exceptions = true ∧ generateTry g ta = [])) := by
  unfold generateTry generateCatch generateThrowSpecifier
  cases hex : g.exceptions <;> cases ta with
  | none => simp
  | some args => cases args <;> simp

/-- C14, counterexample: under an ABI that has exception handlers (here 13.1) an overload
that declares the exception type `E1` gets no typed catch clause; `generateCatch` emits the
catch-all clause only.  Under ABI 13.0 the same overload gets its typed clause. -/
theorem generateCatch_handler_abi_no_typed_clause :
    (generateCatch { abiVersion := ABI_13_1 } (some [classException])
        (.mk voidResult [intArg]) {} false).any (genEvent.isCall "generateCatchBlock") = false ∧
      (generateCatch { abiVersion := ABI_13_1 } (some [classException])
        (.mk voidResult [intArg]) {} false).any
          (genEvent.isPrcode "            catch (...)\n            \x7b\n") = true ∧
      (generateCatch { abiVersion := ABI_13_0 } (some [classException])
        (.mk voidResult [intArg]) {} false).any (genEvent.isCall "generateCatchBlock") = true := by
  decide

/-- C14, amended: for every overload that declares exception types E1..En (n > 0) with
exception support enabled, `generateCatch` closes the try block and, when the ABI has no
exception handlers, emits one typed catch clause per declared type, in declaration order
(under an ABI with exception handlers it emits no typed clause); then it emits one
unconditional `catch (...)` clause, which holds no typed clause and ends by raising the
unknown-exception fault and returning the failure value.  Each typed clause starts with
`catch (E &ref)` for its type, raises the host exception (by the copy of a wrapped class
or by the raise code of the exception) and ends by returning the failure value. -/
theorem generateCatch_typed_clauses (g : generatorFlags) (args : throwArgs)
    (sd : signatureDef) (mod : moduleDef) (rgil : Bool)
    (hex : g.exceptions = true) (hn : args.length > 0) :
    (∃ rest,
      generateCatch g (some args) sd mod rgil
        = [genEvent.prcode "            \x7d\n" []] ++
          (if useExceptionHandler g then []
           else args.map (fun xd =>
              genEvent.call "generateCatchBlock"
                (generateCatchBlock g mod xd (some sd) rgil))) ++
          ([genEvent.prcode "            catch (...)\n            \x7b\n" []] ++ rest) ∧
      (∀ ev ∈ rest, genEvent.isCall "generateCatchBlock" ev = false) ∧
      rest.getLast? = some
        (genEvent.prcode
          "                sipRaiseUnknownException();\n                return SIP_NULLPTR;\n            \x7d\n" [])) ∧
    (∀ xd ∈ args,
      (generateCatchBlock g mod xd (some sd) rgil).head? = some
        (genEvent.prcode "            catch (%V &%s)\n            \x7b\n"
          [.snd xd.iff.fqcname,
            .s (if xd.cd.isSome = true ∨ usedInCode xd.raisecode "sipExceptionRef" = true then
                  "sipExceptionRef" else "")]) ∧
      (if xd.cd.isSome then
        genEvent.prcode
          "                /* Hope that there is a valid copy ctor. */\n                %S *sipExceptionCopy = new %S(sipExceptionRef);\n\n                sipRaiseTypeException(sipType_%C, sipExceptionCopy);\n"
          [.snd xd.iff.fqcname, .snd xd.iff.fqcname, .snd xd.iff.fqcname]
       else genEvent.other "generateCppCodeBlock" [] xd.raisecode)
        ∈ generateCatchBlock g mod xd (some sd) rgil ∧
      (generateCatchBlock g mod xd (some sd) rgil).getLast? = some
        (genEvent.prcode "\n                return %s;\n            \x7d\n"
          [.s "SIP_NULLPTR"])) := by
  have hta : ¬ (some args).map List.length = some 0 := by
    simp only [Option.map_some', Option.some.injEq]
    omega
  obtain ⟨rest, h1, _, _, h4, h5⟩ := generateCatch_eq g (some args) sd mod rgil hex hta
  refine ⟨⟨rest, h1, h4, h5⟩, ?_⟩
  intro xd _
  refine ⟨?_, ?_, ?_⟩
  · unfold generateCatchBlock
    rfl
  · unfold generateCatchBlock
    simp
  · unfold generateCatchBlock
    cases rgil <;> simp

/-- C14, witness: the declared exceptions `E1` and `E2` under ABI 13.0; the clause of
`E2` ends by returning the failure value. -/
theorem generateCatch_typed_clauses_witness :
    (generateCatchBlock {} {} codeException (some (.mk voidResult [intArg])) false).getLast?
      = some
        (genEvent.prcode "\n                return %s;\n            \x7d\n"
          [.s "SIP_NULLPTR"]) :=
  ((generateCatch_typed_clauses {} [classException, codeException]
    (.mk voidResult [intArg]) {} false rfl (by decide)).2 codeException
      (List.mem_cons_of_mem _ (List.mem_singleton.2 rfl))).2.2

/-- C15: whenever `generateCatch` emits a try/catch region for a call signature, every
catch block it emits releases what the signature holds.  Every typed catch block in its
output holds the calls of `deleteOuts` and `deleteTemps` for the signature, and its
statements hold, for every argument of the signature, the release of what the argument
holds (`releasesArgument`: the `delete` of an out-argument instance, the `delete[]` of an
array, the `Py_DECREF` of the object kept for an encoded string, the `sipFree` of a wide
string, the `sipReleaseType` of a converted value); the output splits at `catch (...)`
into the typed blocks and the body of the catch-all, and that body holds the same. -/
theorem generateCatch_releases_on_every_path (g : generatorFlags) (ta : Option throwArgs)
    (sd : signatureDef) (mod : moduleDef) (rgil : Bool)
    (hne : generateCatch g ta sd mod rgil ≠ []) :
    (∀ out, genEvent.call "generateCatchBlock" out ∈ generateCatch g ta sd mod rgil →
      genEvent.call "deleteOuts" (deleteOuts mod sd) ∈ out ∧
        genEvent.call "deleteTemps" (deleteTemps g mod sd) ∈ out ∧
        releasesSignature g mod sd out) ∧
    (∃ typed body,
      generateCatch g ta sd mod rgil
        = typed ++ [genEvent.prcode "            catch (...)\n            \x7b\n" []] ++ body ∧
      (∀ ev ∈ body, genEvent.isCall "generateCatchBlock" ev = false) ∧
      genEvent.call "deleteOuts" (deleteOuts mod sd) ∈ body ∧
      genEvent.call "deleteTemps" (deleteTemps g mod sd) ∈ body ∧
      releasesSignature g mod sd body) := by
  have hrel : ∀ block : List genEvent,
      genEvent.call "deleteOuts" (deleteOuts mod sd) ∈ block →
      genEvent.call "deleteTemps" (deleteTemps g mod sd) ∈ block →
      releasesSignature g mod sd block := by
    intro block ho ht p hp
    obtain ⟨h1, h2⟩ := release_in_block g mod sd block ho ht p hp
    refine ⟨?_, ?_, ?_, ?_, ?_⟩
    · intro h
      rw [← deleteOutsArg_new mod p.2 p.1 h]
      exact h1
    · intro a1 a2 a3
      exact (deleteTempsArg_array g mod p.2 p.1 a1 a2 a3).trans h2
    · intro a1 a2 a3
      rw [← deleteTempsArg_encoded g mod p.2 p.1 a1 a2 a3]
      exact h2
    · intro a1 a2 a3
      rw [← deleteTempsArg_wide g mod p.2 p.1 a1 a2 a3]
      exact h2
    · intro a1 a2 a3 a4
      rw [← deleteTempsArg_converted g mod p.2 p.1 a1 a2 a3 a4]
      exact h2
  have hg : g.exceptions = true ∧ ¬ ta.map List.length = some 0 := by
    rw [← generateCatch_guard]
    by_contra hc
    apply hne
    unfold generateCatch
    rw [if_neg hc]
  obtain ⟨rest, h1, h2, h3, h4, _⟩ := generateCatch_eq g ta sd mod rgil hg.1 hg.2
  refine ⟨?_, ?_⟩
  · intro out hout
    rw [h1] at hout
    simp only [List.mem_append, List.mem_cons, List.mem_singleton, List.not_mem_nil,
      or_false] at hout
    rcases hout with (hout | hout) | hout | hout
    · cases hout
    · cases hu : useExceptionHandler g
      · rw [hu] at hout
        simp only [Bool.false_eq_true, if_false, List.mem_map] at hout
        obtain ⟨xd, _, hxd⟩ := hout
        cases hxd
        obtain ⟨r1, r2⟩ := generateCatchBlock_release g mod xd sd rgil
        exact ⟨r1, r2, hrel _ r1 r2⟩
      · rw [hu] at hout
        simp at hout
    · cases hout
    · have := h4 _ hout
      simp [genEvent.isCall] at this
  · rw [← List.append_assoc] at h1
    exact ⟨_, rest, h1, h4, h2, h3, hrel _ h2 h3⟩

/-- C15, witness: the region of an overload that declares `E1` and takes an ASCII string
and an out-argument of a class; the typed block of `E1` holds the `Py_DECREF` of the
object kept for the string and the `delete` of the instance of the out-argument. -/
theorem generateCatch_releases_on_every_path_witness :
    generateCatch {} (some [classException]) stringAndOut {} false ≠ [] ∧
      [genEvent.prcode "            Py_%sDECREF(%aKeep);\n"
          [.s "", .mod {}, .ad asciiArg, .d 0]]
        <:+: prcodesOf (generateCatchBlock {} {} classException (some stringAndOut) false) ∧
      [genEvent.prcode "                delete %a;\n"
          [.mod {},
            .ad (.mk { atype := .class_type, nrderefs := 1, isOutArg := true }
              (.cd { addr := 1 })),
            .d 1]]
        <:+: prcodesOf (generateCatchBlock {} {} classException (some stringAndOut) false) :=
  ⟨by simp [generateCatch],
    (((generateCatch_releases_on_every_path {} (some [classException]) stringAndOut {} false
      (by simp [generateCatch])).1 _
        (List.mem_cons_of_mem _ (List.mem_cons_self _ _))).2.2 (0, asciiArg)
          (List.Mem.head _)).2.2.1 rfl (Or.inl rfl) rfl,
    (((generateCatch_releases_on_every_path {} (some [classException]) stringAndOut {} false
      (by simp [generateCatch])).1 _
        (List.mem_cons_of_mem _ (List.mem_cons_self _ _))).2.2
          (1, .mk { atype := .class_type, nrderefs := 1, isOutArg := true } (.cd { addr := 1 }))
          (List.Mem.tail _ (List.Mem.head _))).1 rfl⟩

/-- C16, counterexample: for two string arguments `deleteTemps` emits the cleanup of the
first argument (`a0`) before the cleanup of the second (`a1`), which is the order of
acquisition and not its reverse. -/
theorem deleteTemps_two_strings :
    deleteTemps {} {} (.mk voidResult [asciiArg, asciiArg])
      = [genEvent.prcode "            Py_%sDECREF(%aKeep);\n" [.s "", .mod {}, .ad asciiArg, .d 0],
          genEvent.prcode "            Py_%sDECREF(%aKeep);\n"
            [.s "", .mod {}, .ad asciiArg, .d 1]] := by
  rfl

/-- C16, amended: the cleanup actions that `deleteTemps` emits for a signature run in the
order of the arguments in the signature: the output is the concatenation, in ascending
order of the index, of the cleanup of each argument, so that the cleanup of an earlier
argument is emitted before the cleanup of a later argument. -/
theorem deleteTemps_ascending (g : generatorFlags) (mod : moduleDef) (res : argDef)
    (l1 l2 l3 : List argDef) (x y : argDef) :
    deleteTemps g mod (.mk res (l1 ++ x :: (l2 ++ y :: l3)))
      = deleteTempsLoop g mod l1 0 ++
        (deleteTempsArg g mod x l1.length ++
          (deleteTempsLoop g mod l2 (l1.length + 1) ++
            (deleteTempsArg g mod y (l1.length + 1 + l2.length) ++
              deleteTempsLoop g mod l3 (l1.length + 1 + l2.length + 1)))) := by
  unfold deleteTemps
  simp only [signatureDef.args]
  rw [deleteTempsLoop_append, deleteTempsLoop, deleteTempsLoop_append, deleteTempsLoop]
  simp only [Nat.zero_add]

/-- C17: the deferred cleanup is not always emitted.  The slot
`__setitem__(int, Foo & /In,Out/)`, whose second argument has conversion code, delays the
destruction of the temporaries (`deltemps` is FALSE); `deleteTemps` has a release to emit
for it, the call of `sipReleaseType` on the argument and its state; and as the slot
returns `0` and not the result of `generateHandleResult`, neither the call of
`deleteTemps` nor any call of `sipReleaseType` is emitted on its success path, that is
outside the catch blocks of `generateCatch`. -/
theorem generateFunctionCall_cleanup_missing :
    functionCallDeltemps setitemInOut = false ∧
      deleteTemps {} {} setitemInOut.pysig
        = [genEvent.prcode "            sipReleaseType%s(" [.s ""],
            genEvent.prcode "%a" [.mod {}, .ad convertedInOutArg, .d 1],
            genEvent.prcode ", sipType_%T, %aState"
              [.ad convertedInOutArg, .mod {}, .ad convertedInOutArg, .d 1],
            genEvent.prcode ");\n" []] ∧
      List.countP (genEvent.isCall "deleteTemps")
        (generateFunctionCall {} (some convertedClass) none {} setitemInOut false {}) = 0 ∧
      List.countP (genEvent.isCall "generateHandleResult")
        (generateFunctionCall {} (some convertedClass) none {} setitemInOut false {}) = 0 ∧
      (prcodesOf
          ((generateFunctionCall {} (some convertedClass) none {} setitemInOut false {}).filter
            fun ev => !genEvent.isCall "generateCatch" ev)).any
        (genEvent.hasText "sipReleaseType") = false ∧
      (prcodesOf
          (generateFunctionCall {} (some convertedClass) none {} setitemInOut false {})).any
        (genEvent.hasText "            return 0;") = true := by
  refine ⟨by decide, rfl, by decide, by decide, by decide, by decide⟩

/-- C18: the aggregate order.  When a call returns more than one value,
`generateHandleResult` emits, after the conversion of a class or mapped-type result, the
call of `sipBuildResult` with the format `(`, the code of the result if there is one, the
codes of the out-arguments in signature order and `)`, and then passes the values in that
same order: `sipRes` first, then the out-arguments in signature order.
`generateVirtualHandler`, for a handler without handwritten code that expects a value,
emits the call of `sipParseResultEx` with the format of the result first and then those of
the out-arguments in signature order, between `(` and `)` exactly when more than one value
is expected, and then the destinations in that same order: `&sipRes` for the result, and
for each out-argument in signature order the extra arguments of its format followed by
the argument itself, by its index, taken by address when it is a reference. -/
theorem aggregate_order (g : generatorFlags) (mod : moduleDef) (od : overDef) (isNew : Bool)
    (result_size : Int) (prefixStr : String) (vhd : virtHandlerDef) :
    (handleResultNrvals od > 1 →
      generateHandleResult g mod od isNew result_size prefixStr
        = (match handleResultRes od with
            | some res =>
              (handleResultClass od res isNew (handleResultNrvals od)
                (handleResultHasOwner od) prefixStr).1
            | none => []) ++
          [genEvent.prcode "            %s sipBuildResult(0, \"(" [.s prefixStr]] ++
          (match handleResultRes od with
            | some res =>
              [genEvent.prcode "%s"
                [.s (if res.atype = .mapped_type ∨ res.atype = .class_type then "R"
                     else getBuildResultFormat res)]]
            | none => []) ++
          (outArguments od.pysig).map
            (fun p => genEvent.prcode "%s" [.s (getBuildResultFormat p.2)]) ++
          [genEvent.prcode ")\"" []] ++
          (match handleResultRes od with
            | some res =>
              [genEvent.prcode ", sipRes" []] ++
              (if res.atype = .mapped_type ∨ res.atype = .class_type then
                [genEvent.prcode "Obj" []]
               else if res.atype = .enum_type ∧ res.u.getEd.fqcname ≠ [] then
                [genEvent.prcode ", sipType_%C" [.snd res.u.getEd.fqcname]]
               else [])
            | none => []) ++
          (outArguments od.pysig).flatMap (fun p => buildResultValue mod p.2 p.1) ++
          [genEvent.prcode ");\n" []]) ∧
    (vhd.virtcode = [] → virtualHandlerNrvals vhd > 0 →
      ∃ pre post,
        (generateVirtualHandler mod vhd).1
          = pre ++
            [genEvent.prcode
              ");\n\n    %ssipParseResultEx(sipGILState, sipErrorHandler, sipPySelf, sipMethod, sipResObj, \""
              [.s (if virtualHandlerResIsRef vhd || vhd.abortOnExceptionVH then "int sipRc = "
                   else "")]] ++
            (if virtualHandlerNrvals vhd > 1 then [genEvent.prcode "(" []] else []) ++
            (match virtualHandlerRes vhd with
              | some res =>
                [genEvent.prcode "%s"
                  [.sopt (getParseResultFormat res (virtualHandlerResIsRef vhd)
                    vhd.isTransferVH)]]
              | none => []) ++
            (outArguments vhd.pysig).map
              (fun p => genEvent.prcode "%s" [.sopt (getParseResultFormat p.2 false false)]) ++
            (if virtualHandlerNrvals vhd > 1 then [genEvent.prcode ")" []] else []) ++
            [genEvent.prcode "\"" []] ++
            (match virtualHandlerRes vhd with
              | some res =>
                [genEvent.call "generateParseResultExtraArgs"
                    (generateParseResultExtraArgs mod res (-1)),
                  genEvent.prcode ", &sipRes" []]
              | none => []) ++
            (outArguments vhd.pysig).flatMap
              (fun p =>
                [genEvent.call "generateParseResultExtraArgs"
                    (generateParseResultExtraArgs mod p.2 p.1),
                  genEvent.prcode ", %s%a"
                    [.s (if isReference p.2 then "&" else ""), .mod mod, .ad p.2, .d p.1]]) ++
            [genEvent.prcode ");\n" []] ++
            post) := by
  constructor
  · intro hn
    have hmap : (outArguments od.pysig).map
          (fun p => genEvent.prcode "%s" [.s (getBuildResultFormat p.2)])
        = buildResultFormatLoop od.pysig.args := by
      rw [buildResultFormatLoop_eq, ← enumFrom_filter_snd isOutArg od.pysig.args 0,
        List.map_map]
      rfl
    have hval : (outArguments od.pysig).flatMap (fun p => buildResultValue mod p.2 p.1)
        = buildResultValuesLoop mod od.pysig.args 0 := by
      rw [buildResultValuesLoop_eq]
      rfl
    rw [hmap, hval]
    unfold generateHandleResult
    simp only
    rw [if_neg (by omega)]
    have hret : ∀ res, (handleResultClass od res isNew (handleResultNrvals od)
        (handleResultHasOwner od) prefixStr).2 = false := by
      intro res
      cases h : (handleResultClass od res isNew (handleResultNrvals od)
        (handleResultHasOwner od) prefixStr).2
      · rfl
      · have := handleResultClass_returns _ _ _ _ _ _ h
        omega
    cases hres : handleResultRes od with
    | none =>
      simp only [Bool.false_eq_true, if_false, if_pos hn, handleResultTuple, hres,
        List.append_assoc]
    | some res =>
      simp only [hret res, Bool.false_eq_true, if_false, if_pos hn, handleResultTuple, hres,
        List.append_assoc]
  · intro hcode hn
    have hmap : (outArguments vhd.pysig).map
          (fun p => genEvent.prcode "%s" [.sopt (getParseResultFormat p.2 false false)])
        = parseResultFormatLoop vhd.pysig.args := by
      rw [parseResultFormatLoop_eq, ← enumFrom_filter_snd isOutArg vhd.pysig.args 0,
        List.map_map]
      rfl
    have hval : (outArguments vhd.pysig).flatMap
          (fun p =>
            [genEvent.call "generateParseResultExtraArgs"
                (generateParseResultExtraArgs mod p.2 p.1),
              genEvent.prcode ", %s%a"
                [.s (if isReference p.2 then "&" else ""), .mod mod, .ad p.2, .d p.1]])
        = parseResultDestLoop mod vhd.pysig.args 0 := by
      rw [parseResultDestLoop_eq]
      rfl
    rw [hmap, hval]
    obtain ⟨pre, post, h⟩ := generateVirtualHandler_parse mod vhd hcode hn
    refine ⟨pre, post, ?_⟩
    rw [h]
    unfold virtualHandlerParse virtualHandlerFormat virtualHandlerDests
    simp only
    rw [if_neg (show ¬ virtualHandlerNrvals vhd = 0 by omega)]
    simp only [List.append_assoc]

/-- C18, witness: `int f(int a0, int *a1 /Out/, int *a2 /Out/)` returns three values; the
format of `sipBuildResult` is `(iii)` with the values `sipRes`, `a1`, `a2`, and its
virtual handler parses the format `(iii)` into the destinations `&sipRes`, `a1`, `a2`. -/
theorem aggregate_order_witness :
    generateHandleResult {} {} twoOutsOverload false (-1) "return"
        = [genEvent.prcode "            %s sipBuildResult(0, \"(" [.s "return"],
            genEvent.prcode "%s" [.s "i"],
            genEvent.prcode "%s" [.s "i"],
            genEvent.prcode "%s" [.s "i"],
            genEvent.prcode ")\"" [],
            genEvent.prcode ", sipRes" [],
            genEvent.prcode ", %a"
              [.mod {}, .ad (.mk { atype := .int_type, nrderefs := 1, isOutArg := true } .none),
                .d 1],
            genEvent.prcode ", %a"
              [.mod {}, .ad (.mk { atype := .int_type, nrderefs := 1, isOutArg := true } .none),
                .d 2],
            genEvent.prcode ");\n" []] ∧
      ∃ pre post,
        (generateVirtualHandler {} twoOutsHandler).1
          = pre ++
            [genEvent.prcode
              ");\n\n    %ssipParseResultEx(sipGILState, sipErrorHandler, sipPySelf, sipMethod, sipResObj, \""
              [.s ""]] ++
            [genEvent.prcode "(" []] ++
            [genEvent.prcode "%s" [.sopt (some "i")]] ++
            [genEvent.prcode "%s" [.sopt (some "i")], genEvent.prcode "%s" [.sopt (some "i")]] ++
            [genEvent.prcode ")" []] ++
            [genEvent.prcode "\"" []] ++
            [genEvent.call "generateParseResultExtraArgs" [],
              genEvent.prcode ", &sipRes" []] ++
            [genEvent.call "generateParseResultExtraArgs" [],
              genEvent.prcode ", %s%a"
                [.s "", .mod {},
                  .ad (.mk { atype := .int_type, nrderefs := 1, isOutArg := true } .none), .d 1],
              genEvent.call "generateParseResultExtraArgs" [],
              genEvent.prcode ", %s%a"
                [.s "", .mod {},
                  .ad (.mk { atype := .int_type, nrderefs := 1, isOutArg := true } .none),
                  .d 2]] ++
            [genEvent.prcode ");\n" []] ++
            post :=
  ⟨(aggregate_order {} {} twoOutsOverload false (-1) "return" twoOutsHandler).1 (by decide),
    (aggregate_order {} {} twoOutsOverload false (-1) "return" twoOutsHandler).2 rfl
      (by decide)⟩

/-- C19, counterexample: an input argument flagged keep-reference does not always get its
call of `sipKeepReference`.  The protected method `void setName(const char *
/KeepReference/)` of a class without a shadow class gets the body "never reached", and the
factory function `make(const char * /KeepReference/)` bound to the slot `__len__`, whose
return is `sipRes` and not the result of `generateHandleResult`, gets no call either;
each has one input argument flagged keep-reference. -/
theorem generateFunctionCall_keep_reference_missing :
    (keepReferenceArguments (keepingMethod true).pysig).length = 1 ∧
      keepReferenceCalls
        (generateFunctionCall {} (some {}) none {} (keepingMethod true) false {}) = [] ∧
      (keepReferenceArguments (keepingFactory .len_slot).pysig).length = 1 ∧
      keepReferenceCalls
        (generateFunctionCall {} none none {} (keepingFactory .len_slot) false {}) = [] := by
  refine ⟨by decide, by rfl, by decide, ?_⟩
  rw [generateFunctionCall_keep {} none none {} (keepingFactory .len_slot) false {} rfl]
  rfl

/-- C19, amended: the ownership round-trip, for an overload that is not a protected member
of a class without a shadow class.  If the overload is not a static factory, the calls of
`sipKeepReference` that `generateFunctionCall` emits are one call for each input argument
flagged keep-reference, in signature order, followed by the call for a result flagged
keep-reference when `generateHandleResult` handles the result.  If the overload is a static
factory whose result `generateHandleResult` handles, they are the call for the result, if
it is flagged, followed by one call for each input argument flagged keep-reference, which
the result keeps.  The parse attempt that `generateArgParser` emits holds no call of
`sipKeepReference`. -/
theorem generateFunctionCall_keep_reference_once (g : generatorFlags)
    (c_scope : Option classDef) (mt_scope : Option mappedTypeDef) (o_scope : ifaceFileDef)
    (od : overDef) (deref : Bool) (mod : moduleDef) (sd : signatureDef)
    (ct : Option ctorDef) (parsed : Option overDef)
    (hcall : (od.isProtected && !((c_scope.map classDef.hasShadow).getD false)) = false) :
    (isStaticFactory (functionCallScope c_scope mt_scope) od = false →
      keepReferenceCalls (generateFunctionCall g c_scope mt_scope o_scope od deref mod)
        = (keepReferenceArguments od.pysig).map
            (fun p => keepReferenceCall mod (functionCallScope c_scope mt_scope) od p.2 p.1) ++
          (if functionCallHandlesResult od && keepReference od.pysig.result then
            [keepReferenceCallResult od]
           else [])) ∧
    (isStaticFactory (functionCallScope c_scope mt_scope) od = true →
      functionCallHandlesResult od = true →
      keepReferenceCalls (generateFunctionCall g c_scope mt_scope o_scope od deref mod)
        = (if keepReference od.pysig.result then [keepReferenceCallResult od] else []) ++
          (keepReferenceArguments od.pysig).map
            (fun p => keepReferenceCallStatic mod p.2 p.1)) ∧
    keepReferenceCalls (generateArgParser g mod sd c_scope mt_scope ct parsed).1 = [] := by
  have h := generateFunctionCall_keep g c_scope mt_scope o_scope od deref mod hcall
  refine ⟨?_, ?_, generateArgParser_no_keep g mod sd c_scope mt_scope ct parsed⟩
  · intro hs
    rw [h, hs]
    cases functionCallHandlesResult od <;> cases keepReference od.pysig.result <;> simp
  · intro hs hh
    rw [h, hs, hh]
    simp

/-- C19, witness: the method `void setName(const char * /KeepReference/)` of a class gets
one call of `sipKeepReference` for its argument, kept by `self`. -/
theorem generateFunctionCall_keep_reference_once_witness :
    keepReferenceCalls
        (generateFunctionCall {} (some convertedClass) none fooIface (keepingMethod false)
          false {})
      = [genEvent.prcode "\n            sipKeepReference(%s, %d, %a%s);\n"
          [.s "sipSelf", .d (-1), .mod {},
            .ad (.mk { atype := .ascii_string_type, nrderefs := 1, isConstArg := true,
                       isInArg := true, keepReference := true, key := -1 } .none),
            .d 0, .s "Keep"]] :=
  (generateFunctionCall_keep_reference_once {} (some convertedClass) none fooIface
    (keepingMethod false) false {} (keepingMethod false).pysig none (some (keepingMethod false))
    rfl).1 rfl

/-- C20: for a non-static, non-abstract, non-protected virtual (or reimplemented) method of
a class, `generateCppFunctionCall` emits the single conditional expression
`(sipSelfWasArg ? sipCpp->Scope::name(args) : sipCpp->name(args))`: the explicitly scoped
call, then the plain virtual call, both with the output of `generateCallArgs` for the same
signatures as their argument list, then the two closing parentheses; the format strings of
this output hold as many opening as closing parentheses.  A protected member of a class
is always called through its wrapper: the output starts with the call of `sipProtect_` or
of `sipProtectVirt_`. -/
theorem generateCppFunctionCall_virtual_both_forms (g : generatorFlags) (mod : moduleDef)
    (scope o_scope : ifaceFileDef) (od : overDef)
    (hclass : scope.type ≠ .namespace_iface) :
    (od.isStatic = false → od.isAbstract = false → od.isProtected = false →
      (od.isVirtual || od.isVirtualReimp) = true →
      generateCppFunctionCall g mod (some scope) o_scope od
        = [genEvent.prcode "(sipSelfWasArg ? sipCpp->%S::%s("
              [.snd o_scope.fqcname, .s od.cppname],
            genEvent.call "generateCallArgs" (generateCallArgs g mod od.cppsig od.pysigOther),
            genEvent.prcode ") : sipCpp->%s(" [.s od.cppname],
            genEvent.call "generateCallArgs" (generateCallArgs g mod od.cppsig od.pysigOther),
            genEvent.prcode ")" [],
            genEvent.prcode ")" []] ∧
      countCharList '(' (generateCppFunctionCall g mod (some scope) o_scope od)
        = countCharList ')' (generateCppFunctionCall g mod (some scope) o_scope od)) ∧
    (od.isProtected = true →
      ∃ fmt args rest,
        generateCppFunctionCall g mod (some scope) o_scope od
          = genEvent.prcode fmt args :: rest ∧
        (fmt = "sip%C::sipProtect_%s(" ∨ fmt = "sipCpp->sipProtectVirt_%s(sipSelfWasArg" ∨
          fmt = "sipCpp->sipProtect_%s(")) := by
  constructor
  · intro hs ha hp hv
    have heq : generateCppFunctionCall g mod (some scope) o_scope od
        = [genEvent.prcode "(sipSelfWasArg ? sipCpp->%S::%s("
              [.snd o_scope.fqcname, .s od.cppname],
            genEvent.call "generateCallArgs" (generateCallArgs g mod od.cppsig od.pysigOther),
            genEvent.prcode ") : sipCpp->%s(" [.s od.cppname],
            genEvent.call "generateCallArgs" (generateCallArgs g mod od.cppsig od.pysigOther),
            genEvent.prcode ")" [],
            genEvent.prcode ")" []] := by
      unfold generateCppFunctionCall
      simp only [hclass, hs, ha, hp, hv, if_false, Bool.false_eq_true, Bool.not_false,
        Bool.true_and, if_true]
      rfl
    refine ⟨heq, ?_⟩
    rw [heq]
    simp only [countCharList, genEvent.countChar,
      generateCallArgs_balanced g mod od.cppsig od.pysigOther]
    have h1 : "(sipSelfWasArg ? sipCpp->%S::%s(".data.count '(' = 2 := by decide
    have h2 : "(sipSelfWasArg ? sipCpp->%S::%s(".data.count ')' = 0 := by decide
    have h3 : ") : sipCpp->%s(".data.count '(' = 1 := by decide
    have h4 : ") : sipCpp->%s(".data.count ')' = 1 := by decide
    have h5 : ")".data.count '(' = 0 := by decide
    have h6 : ")".data.count ')' = 1 := by decide
    rw [h1, h2, h3, h4, h5, h6]
    omega
  · intro hp
    unfold generateCppFunctionCall
    simp only [hclass, hp, if_false, if_true]
    cases od.isStatic <;> cases od.isAbstract <;> cases od.isVirtual <;>
      cases od.isVirtualReimp <;> simp

/-- C20, witness: the virtual method `Foo::bar(int)`. -/
theorem generateCppFunctionCall_virtual_both_forms_witness :
    generateCppFunctionCall {} {} (some fooIface) fooIface virtualMethod
      = [genEvent.prcode "(sipSelfWasArg ? sipCpp->%S::%s(" [.snd ["", "Foo"], .s "bar"],
          genEvent.call "generateCallArgs" [genEvent.prcode "%a" [.mod {}, .ad intArg, .d 0]],
          genEvent.prcode ") : sipCpp->%s(" [.s "bar"],
          genEvent.call "generateCallArgs" [genEvent.prcode "%a" [.mod {}, .ad intArg, .d 0]],
          genEvent.prcode ")" [],
          genEvent.prcode ")" []] :=
  ((generateCppFunctionCall_virtual_both_forms {} {} fooIface fooIface virtualMethod
    (by decide)).1 rfl rfl rfl rfl).1

/-- C21, counterexample: the method `void g(Foo &)` of the class `Foo` has no method code
and is not flagged to hold the lock, and with the default flags the output of
`generateFunctionCall` for it holds neither `Py_BEGIN_ALLOW_THREADS` nor
`Py_END_ALLOW_THREADS`: the lock is released only on request. -/
theorem generateFunctionCall_lock_not_released :
    inOutMethod.methodcode = [] ∧ inOutMethod.isHoldGIL = false ∧
      threadSwitches
          (generateFunctionCall {} (some convertedClass) none fooIface inOutMethod false {})
        = [] :=
  ⟨rfl, rfl,
    (generateFunctionCall_switches {} (some convertedClass) none fooIface inOutMethod false
      {}).trans rfl⟩

/-- C21, amended: the lock discipline of forward calls.  The output of
`generateFunctionCall`, that of the embedded generators included, holds exactly one
`Py_BEGIN_ALLOW_THREADS` followed by exactly one `Py_END_ALLOW_THREADS` when the call is
generated, the overload has no method code, the release of the lock is requested (for all
overloads by the flag of the generator, or for this one by its own flag) and the overload
is not flagged to hold the lock; in every other case it holds neither.  When the call of an
overload without method code is generated, the release stands right before the `try` of the
call, and the reacquisition right after its `catch` clauses, the call itself being between
the two. -/
theorem generateFunctionCall_lock_discipline (g : generatorFlags) (c_scope : Option classDef)
    (mt_scope : Option mappedTypeDef) (o_scope : ifaceFileDef) (od : overDef) (deref : Bool)
    (mod : moduleDef) :
    threadSwitches (generateFunctionCall g c_scope mt_scope o_scope od deref mod)
      = (if functionCallReached c_scope od = true ∧ od.methodcode = [] ∧
            ((g.release_gil = true ∨ od.isReleaseGIL = true) ∧ od.isHoldGIL = false) then
          [beginAllowThreads, endAllowThreads]
        else []) ∧
    (functionCallReached c_scope od = true → od.methodcode = [] →
      ∃ pre post assign close,
        generateFunctionCall g c_scope mt_scope o_scope od deref mod
          = pre ++ (if releasesGIL g od then [beginAllowThreads] else []) ++
            ([genEvent.call "generateTry" (generateTry g od.exceptions)] ++ assign ++
              functionCallSlot g mod (functionCallScope c_scope mt_scope) o_scope od deref ++
              close ++
              [genEvent.call "generateCatch"
                (generateCatch g od.exceptions od.pysig mod (releasesGIL g od))]) ++
            (if releasesGIL g od then [endAllowThreads] else []) ++ post ∧
        threadSwitches pre = [] ∧ threadSwitches assign = [] ∧ threadSwitches close = [] ∧
          threadSwitches post = []) := by
  constructor
  · rw [generateFunctionCall_switches]
    have e : (releasesGIL g od = true)
        = ((g.release_gil = true ∨ od.isReleaseGIL = true) ∧ od.isHoldGIL = false) := by
      unfold releasesGIL
      cases g.release_gil <;> cases od.isReleaseGIL <;> cases od.isHoldGIL <;> simp
    simp only [e]
  · intro hr hm
    obtain ⟨pre, post, e, h1, h2⟩ :=
      generateFunctionCall_split g c_scope mt_scope o_scope od deref mod hr hm
    exact ⟨pre, post, _, _, e, h1, functionCallAssign_no_switch _ _ _ _ _,
      functionCallClose_no_switch _ _ _ _ _, h2⟩

/-- C21, witness: the method `void g(Foo &)` of the class `Foo`, flagged to release the
lock. -/
theorem generateFunctionCall_lock_discipline_witness :
    functionCallReached (some convertedClass) { inOutMethod with isReleaseGIL := true } = true ∧
      ({ inOutMethod with isReleaseGIL := true } : overDef).methodcode = [] ∧
      threadSwitches
          (generateFunctionCall {} (some convertedClass) none fooIface
            { inOutMethod with isReleaseGIL := true } false {})
        = [beginAllowThreads, endAllowThreads] ∧
      ∃ pre post,
        generateFunctionCall {} (some convertedClass) none fooIface
            { inOutMethod with isReleaseGIL := true } false {}
          = pre ++ [beginAllowThreads] ++ post ∧ threadSwitches pre = [] :=
  ⟨rfl, rfl,
    (generateFunctionCall_lock_discipline {} (some convertedClass) none fooIface
      { inOutMethod with isReleaseGIL := true } false {}).1.trans rfl,
    match (generateFunctionCall_lock_discipline {} (some convertedClass) none fooIface
      { inOutMethod with isReleaseGIL := true } false {}).2 rfl rfl with
    | ⟨pre, post, _, _, e, h, _⟩ => ⟨pre, _, e.trans (by simp only [List.append_assoc]; rfl), h⟩⟩


/-- C22, counterexample: for a member flagged as having no argument parser, three of whose
overloads are handled, `generateFunction` and `generateOrdinaryFunction` emit no block and
no no-match fault. -/
theorem noArgParser_no_fault :
    (handledOverloads memberRaw convertedClass convertedClass rawOverloads).length = 3 ∧
      (generateFunction {} false false memberRaw rawOverloads convertedClass convertedClass
          {}).1.countP genEvent.isFault = 0 ∧
      (generateFunction {} false false memberRaw rawOverloads convertedClass convertedClass
          {}).1.countP (genEvent.isCall "generateFunctionBody") = 0 ∧
      (generateOrdinaryFunction {} false false {} none none memberRaw
          rawOverloads).1.countP genEvent.isFault = 0 ∧
      (generateOrdinaryFunction {} false false {} none none memberRaw
          rawOverloads).1.countP (genEvent.isCall "generateFunctionBody") = 0 := by
  decide

/-- C22, amended: the trial order of the overloads.  For a member that has an argument
parser, when the generation of no block fails: `generateFunction`, when at least one
overload needs the method, emits its header, then one block per handled overload of the
member, in the list order of the overloads, then the call of `sipNoMethod`, then the
closing brace; `generateOrdinaryFunction`, when the member has an overload, emits its
header and the declaration of the parse error, then one block per overload of the member,
in list order, then the call of `sipNoFunction`, then the closing brace.  In both outputs
exactly one event is a no-match fault and it stands after all the blocks.  For a member
without argument parser both emit, in place of the blocks and the fault, the method code
of the first handled overload. -/
theorem overload_trial_order (g : generatorFlags) (hasDoc autoDoc : Bool) (md : memberDef)
    (overs : List overDef) (cd ocd : classDef) (c_scope : Option classDef)
    (mt_scope : Option mappedTypeDef) (mod : moduleDef) :
    (functionNeedMethod md cd ocd overs = true → md.noArgParser = false →
      (∀ od ∈ handledOverloads md cd ocd overs,
        (generateFunctionBody g od (some cd) none (some ocd) true mod).rc = 0) →
      generateFunction g hasDoc autoDoc md overs cd ocd mod
          = (functionHeader g hasDoc md cd ocd overs ++
              (handledOverloads md cd ocd overs).map (functionBlock g cd ocd mod) ++
              functionFault (hasDoc && autoDoc) md cd ocd overs ++
              [genEvent.prcode "\x7d\n" []], 0) ∧
        (generateFunction g hasDoc autoDoc md overs cd ocd mod).1.countP genEvent.isFault
          = 1 ∧
        (generateFunction g hasDoc autoDoc md overs cd ocd mod).1.countP
            (genEvent.isCall "generateFunctionBody")
          = (handledOverloads md cd ocd overs).length) ∧
    (md.noArgParser = false → (memberOverloads md overs).isEmpty = false →
      (∀ od ∈ memberOverloads md overs,
        (generateFunctionBody g od c_scope mt_scope c_scope true mod).rc = 0) →
      generateOrdinaryFunction g hasDoc autoDoc mod c_scope mt_scope md overs
          = (ordinaryHeader g hasDoc md (ordinaryScope c_scope mt_scope) ++
              (ordinaryIntro ((ordinaryScope c_scope mt_scope).isNone && g.generating_c) ++
                (memberOverloads md overs).map (ordinaryBlock g c_scope mt_scope mod)) ++
              ordinaryFault (hasDoc && autoDoc) md (ordinaryScope c_scope mt_scope) ++
              [genEvent.prcode "\x7d\n" []], 0) ∧
        (generateOrdinaryFunction g hasDoc autoDoc mod c_scope mt_scope md
            overs).1.countP genEvent.isFault
          = 1 ∧
        (generateOrdinaryFunction g hasDoc autoDoc mod c_scope mt_scope md
            overs).1.countP (genEvent.isCall "generateFunctionBody")
          = (memberOverloads md overs).length) ∧
    ((functionHeader g hasDoc md cd ocd overs).all genEvent.isPlain = true ∧
      (ordinaryHeader g hasDoc md (ordinaryScope c_scope mt_scope)).all genEvent.isPlain
        = true ∧
      (ordinaryIntro ((ordinaryScope c_scope mt_scope).isNone && g.generating_c)).all
          genEvent.isPlain
        = true) ∧
    (functionNeedMethod md cd ocd overs = true → md.noArgParser = true →
      generateFunction g hasDoc autoDoc md overs cd ocd mod
        = (functionHeader g hasDoc md cd ocd overs ++
            (match (handledOverloads md cd ocd overs).head? with
              | some od => [genEvent.other "generateCppCodeBlock" [] od.methodcode]
              | none => []) ++
            [genEvent.prcode "\x7d\n" []], 0)) ∧
    (md.noArgParser = true →
      generateOrdinaryFunction g hasDoc autoDoc mod c_scope mt_scope md overs
        = (ordinaryHeader g hasDoc md (ordinaryScope c_scope mt_scope) ++
            (match (memberOverloads md overs).head? with
              | some od => [genEvent.other "generateCppCodeBlock" [] od.methodcode]
              | none => []) ++
            [genEvent.prcode "\x7d\n" []], 0)) := by
  have hclose : [genEvent.prcode "\x7d\n" []].countP genEvent.isFault = 0 := by decide
  have hclose2 :
      [genEvent.prcode "\x7d\n" []].countP (genEvent.isCall "generateFunctionBody") = 0 := by
    decide
  refine ⟨?_, ?_, ⟨functionHeader_plain g hasDoc md cd ocd overs,
    ordinaryHeader_plain g hasDoc md _, ordinaryIntro_plain _⟩,
    generateFunction_raw g hasDoc autoDoc md overs cd ocd mod,
    generateOrdinaryFunction_raw g hasDoc autoDoc mod c_scope mt_scope md overs⟩
  · intro hn hp hrc
    have e := generateFunction_eq g hasDoc autoDoc md overs cd ocd mod hn hp hrc
    refine ⟨e, ?_, ?_⟩
    · rw [e]
      simp only [List.countP_append, hclose, functionFault_count,
        countP_isFault_of_plain _ (functionHeader_plain g hasDoc md cd ocd overs)]
      unfold functionBlock
      rw [countP_isFault_map_call]
    · rw [e]
      simp only [List.countP_append, hclose2, functionFault_no_block,
        countP_isCall_of_plain _ (functionHeader_plain g hasDoc md cd ocd overs)]
      unfold functionBlock
      rw [countP_isCall_map_call]
      omega
  · intro hp hne hrc
    have e := generateOrdinaryFunction_eq g hasDoc autoDoc mod c_scope mt_scope md overs hp
      hne hrc
    refine ⟨e, ?_, ?_⟩
    · rw [e]
      simp only [List.countP_append, hclose, ordinaryFault_count,
        countP_isFault_of_plain _ (ordinaryHeader_plain g hasDoc md _),
        countP_isFault_of_plain _ (ordinaryIntro_plain _)]
      unfold ordinaryBlock
      rw [countP_isFault_map_call]
    · rw [e]
      simp only [List.countP_append, hclose2, ordinaryFault_no_block,
        countP_isCall_of_plain _ (ordinaryHeader_plain g hasDoc md _),
        countP_isCall_of_plain _ (ordinaryIntro_plain _)]
      unfold ordinaryBlock
      rw [countP_isCall_map_call]
      omega

/-- C22, witness: the member `f` of the class `Foo` with its three overloads `f(int)`,
`f(const char *)` and `f(Foo &)`, as a method of the class and as a function of the
module: three blocks in the order of the overloads and one fault after them. -/
theorem overload_trial_order_witness :
    (generateFunction {} false false memberF threeOverloads convertedClass convertedClass
        {}).1
      = functionHeader {} false memberF convertedClass convertedClass threeOverloads ++
          threeOverloads.map (functionBlock {} convertedClass convertedClass {}) ++
          functionFault false memberF convertedClass convertedClass threeOverloads ++
          [genEvent.prcode "\x7d\n" []] ∧
      (generateOrdinaryFunction {} false false {} none none memberF
          threeOverloads).1.countP genEvent.isFault = 1 ∧
      (generateOrdinaryFunction {} false false {} none none memberF
          threeOverloads).1.countP (genEvent.isCall "generateFunctionBody") = 3 :=
  ⟨congrArg Prod.fst
      ((overload_trial_order {} false false memberF threeOverloads convertedClass
        convertedClass none none {}).1 (by decide) (by decide) (by decide)).1,
    ((overload_trial_order {} false false memberF threeOverloads convertedClass
      convertedClass none none {}).2.1 (by decide) (by decide) (by decide)).2.1,
    ((overload_trial_order {} false false memberF threeOverloads convertedClass
      convertedClass none none {}).2.1 (by decide) (by decide) (by decide)).2.2⟩


/-- C23, counterexample: a class argument with indirection count 0 that is flagged out
does not always need a new instance: `needNewInstance` is false when the argument is not
a reference, and when it is a reference that is flagged in as well. -/
theorem needNewInstance_value_out :
    needNewInstance
        (.mk { atype := .class_type, nrderefs := 0, isOutArg := true } (.cd { addr := 1 }))
      = false ∧
    needNewInstance
        (.mk { atype := .class_type, nrderefs := 0, isReference := true, isInArg := true,
               isOutArg := true } (.cd { addr := 1 }))
      = false := by
  decide

/-- C23, amended: the heap-temporary invariant.  `needNewInstance` is true exactly for a
class or mapped-type argument that is flagged out and not in and that is either a
reference with indirection count 0 or a pointer, not a reference, with indirection count
1.  For the arguments of a signature that need one, in signature order,
`generateFunctionCall` allocates the instances in its prologue, right after the variable
of the result and so before the call, and `deleteOuts` deletes each of them. -/
theorem needNewInstance_iff (mod : moduleDef) (c_scope : Option classDef)
    (mt_scope : Option mappedTypeDef) (od : overDef) (res ad : argDef) (sd : signatureDef) :
    (needNewInstance ad = true ↔
      (ad.atype = .mapped_type ∨ ad.atype = .class_type) ∧
        ((isReference ad = true ∧ ad.nrderefs = 0) ∨
          (isReference ad = false ∧ ad.nrderefs = 1)) ∧
        isInArg ad = false ∧ isOutArg ad = true) ∧
    (∃ rest,
      functionCallPrologue mod c_scope mt_scope od res
        = genEvent.call "generateResultVar"
            (generateResultVar (functionCallScope c_scope mt_scope) od res "            ").1 ::
          ((od.pysig.args.enum.filter (fun p => needNewInstance p.2)).map
            (fun p => genEvent.prcode "            %a = new %b();\n"
              [.mod mod, .ad p.2, .d p.1, .ad p.2]) ++ rest)) ∧
    deleteOuts mod sd
      = (sd.args.enum.filter (fun p => needNewInstance p.2)).map
          (fun p => genEvent.prcode "                delete %a;\n"
            [.mod mod, .ad p.2, .d p.1]) := by
  refine ⟨?_, ?_, ?_⟩
  · unfold needNewInstance
    cases hr : isReference ad <;> cases hi : isInArg ad <;> cases ho : isOutArg ad <;>
      simp
  · unfold functionCallPrologue
    simp only [newInstancesLoop_eq, List.enum, List.singleton_append, List.append_assoc,
      List.cons_append, List.nil_append]
    exact ⟨_, rfl⟩
  · unfold deleteOuts
    rw [deleteOutsLoop_eq]
    rfl


/-- C24, the failing input: for the number slot `Foo __add__(Foo /Array/)`, whose argument
is flagged as an array but is not a pointer, the generation of the argument parser fails
and `generateFunctionBody` returns -1; the Python signature of the overload, which had one
argument, is left with the two arguments of the padded signature, the first of them the
implicit `self`.  For the slot `Foo __add__(Foo)`, whose generation succeeds, the
signature is restored. -/
theorem generateFunctionBody_error_leaves_padding :
    (generateFunctionBody {} arrayAdd (some plainClass) none (some plainClass) true {}).rc
        = -1 ∧
      arrayAdd.pysig.nrArgs = 1 ∧
      (generateFunctionBody {} arrayAdd (some plainClass) none (some plainClass) true
          {}).pysig.nrArgs = 2 ∧
      (generateFunctionBody {} arrayAdd (some plainClass) none (some plainClass) true
          {}).pysig
        = .mk arrayAdd.pysig.result
            [.mk { atype := .class_type, isReference := true, isInArg := true }
                (.cd plainClass),
              .mk { atype := .class_type, isInArg := true, isArray := true }
                (.cd plainClass)] ∧
      (generateFunctionBody {} plainAdd (some plainClass) none (some plainClass) true {}).rc
        = 0 ∧
      (generateFunctionBody {} plainAdd (some plainClass) none (some plainClass) true
          {}).pysig = plainAdd.pysig := by
  refine ⟨by decide, by decide, by decide, rfl, by decide, ?_⟩
  exact (generateFunctionBody_pysig {} plainAdd (some plainClass) none (some plainClass) true
    {}).2.1 (by decide)


/-- C25, counterexample: two successive runs of a generator over the same module do not
emit the same text.  From a counter that starts at -1, the getter of a variable that is an
instance of a class prints the keys -2, -1, -2, and run again from the counters that the
first run left it prints -4, -3, -4; the handler call of a virtual method whose result and
argument need a kept reference prints the keys -1, -2, and run again on what the first
run left it prints -3, -4.  The getter of a variable with handwritten code from the line
40 of a file prints the directives `#line 40` and `#line 12` when the output file is at
its line 1, and `#line 40` and `#line 112` when the output file is at its line 101. -/
theorem successive_runs_differ :
    printedKeys (generateVariableGetter {} freshKeys {} none instanceVariable).out
        = [-2, -1, -2] ∧
      printedKeys
          (generateVariableGetter {}
            (generateVariableGetter {} freshKeys {} none instanceVariable).keys {} none
            instanceVariable).out
        = [-4, -3, -4] ∧
      (generateVariableGetter {}
          (generateVariableGetter {} freshKeys {} none instanceVariable).keys {} none
          instanceVariable).out
        ≠ (generateVariableGetter {} freshKeys {} none instanceVariable).out ∧
      printedKeys
          (generateVirtHandlerCall freshKeys {} convertedClass keepingVirtual {}
            (some keepingVirtual.cppsig.result) "    ").out
        = [-1, -2] ∧
      printedKeys
          (generateVirtHandlerCall
            (generateVirtHandlerCall freshKeys {} convertedClass keepingVirtual {}
              (some keepingVirtual.cppsig.result) "    ").keys
            {} convertedClass
            { keepingVirtual with
              cppsig := .mk keepingVirtual.cppsig.result
                (generateVirtHandlerCall freshKeys {} convertedClass keepingVirtual {}
                  (some keepingVirtual.cppsig.result) "    ").args }
            {}
            (generateVirtHandlerCall freshKeys {} convertedClass keepingVirtual {}
              (some keepingVirtual.cppsig.result) "    ").res
            "    ").out
        = [-3, -4] ∧
      printedLines
          (generateVariableGetter {} freshKeys
            { currentLineNr := 1, currentFileName := "sipfooFoo.cpp" } none codedVariable).out
        = [40, 12] ∧
      printedLines
          (generateVariableGetter {} freshKeys
            { currentLineNr := 101, currentFileName := "sipfooFoo.cpp" } none
            codedVariable).out
        = [40, 112] ∧
      (generateVariableGetter {} freshKeys
          { currentLineNr := 1, currentFileName := "sipfooFoo.cpp" } none codedVariable).keys 0
        = freshKeys 0 := by
  refine ⟨by decide, by decide, ?_, by decide, by decide, by decide, by decide, by decide⟩
  intro h
  have := congrArg printedKeys h
  revert this
  decide

/-- C25, amended: the output of `generateVirtHandlerCall` and of `generateVariableGetter`
is a function of the IR, the flags, the counters of the keys of the modules that they
read and, for a getter whose handwritten code has a file name, the current line and name
of the output file.  The output of `generateVariableGetter` and the keys it hands out are
the same from any two stores of counters that agree on the module of the class of the
variable and on the module of the variable; the output of `generateVirtHandlerCall`, the
keys it hands out and the keys it writes to the result and the arguments are the same
from any two stores that agree on the module of the call.  The keys handed out are the
successive values of the counters; a run leaves the counter of every module lower by the
number of keys it handed out from it, as long as no counter overflows; a run that hands
out no key leaves every counter as it was, and run again it emits the same output; a run
that hands out a key hands out other keys when it is run again.  When no block of the
handwritten code of a variable has a file name, the output of its getter is the same at
every line of every output file; when a block has one, the code ends with a `#line`
directive for the line after the current one of the output file: the line at the call
of the getter, the lines of the getter before the code and those of the code, plus
one. -/
theorem output_function_of_counters :
    (∀ (g : generatorFlags) (ks1 ks2 : keyStore) (fp : lineState) (scope : Option ifaceFileDef)
        (vd : varDef),
      ks1 vd.type.u.getCd.iff.module = ks2 vd.type.u.getCd.iff.module →
      ks1 vd.module = ks2 vd.module →
      (generateVariableGetter g ks1 fp scope vd).out
          = (generateVariableGetter g ks2 fp scope vd).out ∧
        (generateVariableGetter g ks1 fp scope vd).log
          = (generateVariableGetter g ks2 fp scope vd).log) ∧
    (∀ (ks1 ks2 : keyStore) (mod : moduleDef) (cd : classDef) (od : overDef)
        (vhd : virtHandlerDef) (res : Option argDef) (indent : String),
      ks1 mod.addr = ks2 mod.addr →
      (generateVirtHandlerCall ks1 mod cd od vhd res indent).out
          = (generateVirtHandlerCall ks2 mod cd od vhd res indent).out ∧
        (generateVirtHandlerCall ks1 mod cd od vhd res indent).log
          = (generateVirtHandlerCall ks2 mod cd od vhd res indent).log ∧
        (generateVirtHandlerCall ks1 mod cd od vhd res indent).res
          = (generateVirtHandlerCall ks2 mod cd od vhd res indent).res ∧
        (generateVirtHandlerCall ks1 mod cd od vhd res indent).args
          = (generateVirtHandlerCall ks2 mod cd od vhd res indent).args) ∧
    (∀ (r : keyRun) (ks : keyStore),
      ((r.run ks).log, (r.run ks).keys) = allocKeys ks r.modules) ∧
    (∀ (r : keyRun) (ks : keyStore) (m : Nat),
      (∀ p ∈ (r.run ks).log, INT_MIN < p.2) →
      (r.run ks).keys m = ks m - (r.modules.count m : Nat)) ∧
    (∀ (r : keyRun) (ks : keyStore),
      r.modules = [] →
      (r.run ks).keys = ks ∧ (r.run ks).log = [] ∧
        (r.run (r.run ks).keys).out = (r.run ks).out) ∧
    (∀ (r : keyRun) (ks : keyStore),
      r.modules ≠ [] → (∀ p ∈ (r.run ks).log, INT_MIN < p.2) →
      (r.run (r.run ks).keys).log ≠ (r.run ks).log) ∧
    (∀ (g : generatorFlags) (ks : keyStore) (fp1 fp2 : lineState)
        (scope : Option ifaceFileDef) (vd : varDef),
      (∀ cb ∈ vd.getcode, cb.filename = none) →
      (generateVariableGetter g ks fp1 scope vd).out
        = (generateVariableGetter g ks fp2 scope vd).out) ∧
    (∀ (g : generatorFlags) (ks : keyStore) (fp : lineState) (scope : Option ifaceFileDef)
        (vd : varDef),
      (∃ cb ∈ vd.getcode, cb.filename ≠ none) →
      genEvent.call "generateCppCodeBlock"
          ((generateCppCodeBlockLoop vd.getcode).1 ++
            generatePreprocLine
              (fp.currentLineNr + 2 + (if !g.generating_c then 1 else 0) + 2 + 1 +
                (if !vd.isStaticVar then ((2 * scopedClassLines vd.ecd + 1 : Nat) : Int)
                  else 0) + 1 +
                (generateCppCodeBlockLoop vd.getcode).2.2 + 1)
              fp.currentFileName)
        ∈ (generateVariableGetter g ks fp scope vd).out) := by
  refine ⟨?_, ?_, fun r ks => keyRun_alloc ks r, keyRun_counter, ?_, keyRun_rerun_differs,
    generateVariableGetter_line_free, ?_⟩
  · intro g ks1 ks2 fp scope vd h1 h2
    exact generateVariableGetter_congr g ks1 ks2 fp scope vd h1 h2
  · intro ks1 ks2 mod cd od vhd res indent h
    exact generateVirtHandlerCall_congr ks1 ks2 mod cd od vhd res indent h
  · intro r ks h
    obtain ⟨e1, e2⟩ := keyRun_no_keys r ks h
    refine ⟨e1, e2, ?_⟩
    rw [e1]
  · intro g ks fp scope vd h
    exact generateVariableGetter_line_reset g ks fp scope vd h

/-- C25, witness: the getter of the variable `Foo::bar` from two stores that agree on the
module of address 0 only, the handler call of the virtual method `name` from the same two
stores, the counter after the getter of `Foo::bar` and the keys of a second run of it, the
getter of the variable `Foo::count`, which hands out no key, the getter of `Foo::total`
with a fragment of handwritten code without a file name at two lines of two files, and
the closing directive of the getter of `Foo::total` with handwritten code from a file. -/
theorem output_function_of_counters_witness :
    (generateVariableGetter {} freshKeys {} none instanceVariable).out
        = (generateVariableGetter {} otherKeys {} none instanceVariable).out ∧
      (generateVirtHandlerCall freshKeys {} convertedClass keepingVirtual {}
          (some keepingVirtual.cppsig.result) "    ").out
        = (generateVirtHandlerCall otherKeys {} convertedClass keepingVirtual {}
          (some keepingVirtual.cppsig.result) "    ").out ∧
      ((keyRun.variableGetter {} {} none instanceVariable).run freshKeys).keys 0
        = freshKeys 0 -
          (((keyRun.variableGetter {} {} none instanceVariable).modules.count 0 : Nat) : Int) ∧
      ((keyRun.variableGetter {} {} none instanceVariable).run
          ((keyRun.variableGetter {} {} none instanceVariable).run freshKeys).keys).log
        ≠ ((keyRun.variableGetter {} {} none instanceVariable).run freshKeys).log ∧
      ((keyRun.variableGetter {} {} none intVariable).run
          ((keyRun.variableGetter {} {} none intVariable).run freshKeys).keys).out
        = ((keyRun.variableGetter {} {} none intVariable).run freshKeys).out ∧
      (generateVariableGetter {} freshKeys { currentLineNr := 1, currentFileName := "a.cpp" }
          none fragmentVariable).out
        = (generateVariableGetter {} freshKeys
          { currentLineNr := 101, currentFileName := "b.cpp" } none fragmentVariable).out ∧
      genEvent.call "generateCppCodeBlock"
          ((generateCppCodeBlockLoop codedVariable.getcode).1 ++
            generatePreprocLine 112 "a.cpp")
        ∈ (generateVariableGetter {} freshKeys
          { currentLineNr := 101, currentFileName := "a.cpp" } none codedVariable).out :=
  ⟨(output_function_of_counters.1 {} freshKeys otherKeys {} none instanceVariable (by decide)
      (by decide)).1,
    (output_function_of_counters.2.1 freshKeys otherKeys {} convertedClass keepingVirtual {}
      (some keepingVirtual.cppsig.result) "    " (by decide)).1,
    output_function_of_counters.2.2.2.1 (.variableGetter {} {} none instanceVariable)
      freshKeys 0 (by decide),
    output_function_of_counters.2.2.2.2.2.1 (.variableGetter {} {} none instanceVariable)
      freshKeys (by decide) (by decide),
    (output_function_of_counters.2.2.2.2.1 (.variableGetter {} {} none intVariable) freshKeys
      (by decide)).2.2,
    output_function_of_counters.2.2.2.2.2.2.1 {} freshKeys
      { currentLineNr := 1, currentFileName := "a.cpp" }
      { currentLineNr := 101, currentFileName := "b.cpp" } none fragmentVariable (by decide),
    output_function_of_counters.2.2.2.2.2.2.2 {} freshKeys
      { currentLineNr := 101, currentFileName := "a.cpp" } none codedVariable (by decide)⟩

/-- C26: `concat` and `append`.  For arguments that are strings, each with its NUL, up to a
terminating `NULL`, whose lengths add up to less than the largest `size_t`, `concat`
returns a buffer whose string is the concatenation, in order, of the strings of the
arguments before the `NULL`, and the buffer has exactly the length of that concatenation
plus one.  For two strings whose lengths add up to less than the largest `size_t`,
`append` leaves `*s` equal to the old string of `*s` followed by the string of `new`. -/
theorem concat_append_contract (strs : List (List Char)) (rest : List (Option (List Char)))
    (s new : List Char) (junk : Nat → Char)
    (hstrs : ∀ sp ∈ strs, '\x00' ∈ sp) (hlen : (strs.map strlen).sum + 1 ≤ SIZE_MAX)
    (hs : '\x00' ∈ s) (hn : '\x00' ∈ new) (hlen2 : strlen s + strlen new + 1 ≤ SIZE_MAX) :
    (∃ buf, concat (strs.map some ++ none :: rest) = some buf ∧
      cstring buf = (strs.map cstring).flatten ∧
      buf.length = ((strs.map cstring).flatten).length + 1) ∧
    (∃ buf, append s new junk = some buf ∧ cstring buf = cstring s ++ cstring new) := by
  constructor
  · refine ⟨_, concat_eq strs rest hstrs hlen, ?_, by simp⟩
    exact cstring_append_nul _ [] (cstrings_no_nul strs)
  · refine ⟨_, append_eq s new junk hs hn hlen2, ?_⟩
    apply cstring_append_nul _ []
    intro c hc
    rcases List.mem_append.1 hc with h | h
    · exact cstring_no_nul s c h
    · exact cstring_no_nul new c h

/-- C26, witness: `concat("ab", "c", NULL)` from buffers that hold more than the strings,
and `append` of `"yz"` to `"x"`. -/
theorem concat_append_contract_witness :
    (∃ buf, concat ([['a', 'b', '\x00'], ['c', '\x00', 'j']].map some ++ none :: [some ['k']])
        = some buf ∧
      cstring buf = ([['a', 'b', '\x00'], ['c', '\x00', 'j']].map cstring).flatten ∧
      buf.length = (([['a', 'b', '\x00'], ['c', '\x00', 'j']].map cstring).flatten).length + 1) ∧
    (∃ buf, append ['x', '\x00'] ['y', 'z', '\x00'] (fun _ => 'q') = some buf ∧
      cstring buf = cstring ['x', '\x00'] ++ cstring ['y', 'z', '\x00']) :=
  concat_append_contract [['a', 'b', '\x00'], ['c', '\x00', 'j']] [some ['k']]
    ['x', '\x00'] ['y', 'z', '\x00'] (fun _ => 'q') (by decide) (by decide) (by decide)
    (by decide) (by decide)


/-- C27, counterexample: of the two protected overloads `f(struct Foo *)` and
`f(struct ::Foo *)`, visible in this order, the second has the name and, strictly, the
signature of the first, yet `isDuplicateProtected` reports neither as a duplicate, and a
wrapper is generated for both. -/
theorem isDuplicateProtected_scoped_pair :
    visitedOverloads scopedVisible = scopedOverloads ∧
      (scopedOverloads.map
          fun od => sameProtected {} od (scopedOverloads.headD {})) = [true, true] ∧
      scopedOverloads.map (isDuplicateProtected {} scopedVisible) = [false, false] ∧
      (wrappedOverloads {} scopedVisible).length = 2 := by
  refine ⟨rfl, by decide, by decide, by decide⟩

/-- C27, amended: the duplicate protected wrappers.  When the protected overloads visible
from a class are distinct nodes and the test of `isDuplicateProtected`, the same C++ name
and strictly the same C++ signature, is symmetric and transitive on them, then for every
one of them exactly one overload of its shape (itself or an overload with its name and
signature) is reported as not duplicate: the first of that shape in the order of the
visits.  In every case `generateProtectedDeclarations` and `generateProtectedDefinitions`
emit one wrapper for each protected overload that is not reported as a duplicate, in the
order of the visits, and so for the same overloads. -/
theorem protected_wrappers_unique (g : generatorFlags) (mod : moduleDef)
    (visible : List visibleList) (cd : classDef) (t : overDef)
    (hnd : ((visitedOverloads visible).map overDef.addr).Nodup)
    (hsym : ∀ a ∈ visitedOverloads visible, ∀ b ∈ visitedOverloads visible,
      sameProtected g a b = true → sameProtected g b a = true)
    (htr : ∀ a ∈ visitedOverloads visible, ∀ b ∈ visitedOverloads visible,
      ∀ c ∈ visitedOverloads visible, sameProtected g a b = true →
      sameProtected g b c = true → sameProtected g a c = true)
    (ht : t ∈ visitedOverloads visible) :
    (∃ A f B, visitedOverloads visible = A ++ f :: B ∧
      (∀ a ∈ A, sameShape g t a = false) ∧ sameShape g t f = true ∧
      (visitedOverloads visible).filter
          (fun o => sameShape g t o && !isDuplicateProtected g visible o)
        = [f]) ∧
    generateProtectedDeclarations g visible cd
      = (if (wrappedOverloads g visible).isEmpty then [] else [protectedIntro]) ++
          (wrappedOverloads g visible).flatMap (fun p => protectedDeclaration cd p.2) ∧
    generateProtectedDefinitions g mod visible cd
      = (wrappedOverloads g visible).flatMap
          (fun p => protectedDefinition mod cd p.1 p.2) := by
  refine ⟨?_, ?_, ?_⟩
  · obtain ⟨A, f, B, e, hA, hf, hfil⟩ :=
      scanDuplicate_unique g (visitedOverloads visible) t hnd hsym htr ht
    refine ⟨A, f, B, e, hA, hf, ?_⟩
    rw [← hfil]
    apply List.filter_congr
    intro o _
    rw [isDuplicateProtected_eq_scan]
    rfl
  · unfold generateProtectedDeclarations
    rw [protectedDeclarationsLoop_eq]
    have e : wrappedOverloadsOf g visible visible = wrappedOverloads g visible := rfl
    rw [e]
    cases h : (wrappedOverloads g visible).isEmpty <;> simp
  · unfold generateProtectedDefinitions
    rw [protectedDefinitionsLoop_eq]
    rfl

/-- C27, witness: the protected method `f(int)` given under two Python names and the
protected method `f(const char *)`: of the two `f(int)` the first only is not a
duplicate. -/
theorem protected_wrappers_unique_witness :
    ∃ A f B, visitedOverloads renamedVisible = A ++ f :: B ∧
      (∀ a ∈ A, sameShape {} (renamedOverloads.headD {}) a = false) ∧
      sameShape {} (renamedOverloads.headD {}) f = true ∧
      (visitedOverloads renamedVisible).filter
          (fun o => sameShape {} (renamedOverloads.headD {}) o &&
            !isDuplicateProtected {} renamedVisible o)
        = [f] :=
  (protected_wrappers_unique {} {} renamedVisible plainClass (renamedOverloads.headD {})
    (by decide) (by decide) (by decide) (List.Mem.head _)).1


/-- C28: the keys of the kept references are unique within a module.  Over any sequence of
runs of `generateVariableGetter` and `generateVirtHandlerCall`, each run starting from the
counters that the one before it left, the keys handed out from the counter of one module
(`mod->next_key--`) are strictly decreasing in the order of the allocations, so that every
key differs from every key handed out earlier from the same counter, and none is above
the value that the counter had at the start; this as long as the counter does not
overflow, that is, as long as no allocation hands out `INT_MIN`. -/
theorem next_key_unique (ks : keyStore) (runs : List keyRun) (m : Nat)
    (h : ∀ p ∈ (runAll ks runs).1, INT_MIN < p.2) :
    (keysOf m (runAll ks runs).1).Pairwise (fun a b => a > b) ∧
      (keysOf m (runAll ks runs).1).Nodup ∧
      ∀ k ∈ keysOf m (runAll ks runs).1, k ≤ ks m := by
  rw [runAll_alloc] at h ⊢
  obtain ⟨h1, h2⟩ := allocKeys_decreasing m _ ks h
  refine ⟨h2, ?_, h1⟩
  exact h2.imp (fun hab => by omega)

/-- C28, witness: the getter of a variable that is an instance of a class, then the
handler call of a virtual method whose result and argument need a kept reference, all in
the module of address 0 whose counter starts at -1: the keys are -1, -2, -3 and -4. -/
theorem next_key_unique_witness :
    keysOf 0 (runAll freshKeys keyRuns).1 = [-1, -2, -3, -4] ∧
      (keysOf 0 (runAll freshKeys keyRuns).1).Pairwise (fun a b => a > b) :=
  ⟨by decide, (next_key_unique freshKeys keyRuns 0 (by decide)).1⟩


/-- C29: `normaliseArgs` followed by `restoreArgs` is the identity on the flags.  For every
signature none of whose arguments points to a class or enum node flagged "was protected"
(several arguments may share a node), after `normaliseArgs` no class or enum node that an
argument points to is flagged protected, and after the following `restoreArgs` every
"protected" and "was protected" flag of every node has its original value.  The same holds
for the sequence of `generateVirtualCatcher`, which handles the result before and after
the arguments, when the result points to no node flagged "was protected" either. -/
theorem restoreArgs_normaliseArgs_id (st : flagStore) (sd : signatureDef)
    (h : noWasProtected st sd.args) :
    (∀ ad ∈ sd.args,
      (ad.atype = .class_type →
        ((normaliseArgs st sd).classes ad.u.getCd.addr).isProtected = false) ∧
      (ad.atype = .enum_type →
        ((normaliseArgs st sd).enums ad.u.getEd.addr).isProtected = false)) ∧
    restoreArgs (normaliseArgs st sd) sd = st ∧
    (noWasProtected st [sd.result] →
      restoreArg (restoreArgs (normaliseArgs (normaliseArg st sd.result) sd) sd) sd.result
        = st) := by
  refine ⟨normalise_loop_unprotected st sd.args, restore_normalise_loop st sd.args h, ?_⟩
  intro hres
  apply restore_normalise_catcher st sd.result sd.args
  intro ad had
  rcases List.mem_cons.1 had with e | e
  · exact hres ad (by rw [e]; exact List.mem_cons_self _ _)
  · exact h ad e

/-- C29, witness: a signature whose two first arguments share a protected class node and
whose third points to a protected enum node. -/
theorem restoreArgs_normaliseArgs_id_witness :
    noWasProtected protectedStore sharedNodeSignature.args ∧
      ((normaliseArgs protectedStore sharedNodeSignature).classes 1).isProtected = false ∧
      ((normaliseArgs protectedStore sharedNodeSignature).enums 2).isProtected = false ∧
      restoreArgs (normaliseArgs protectedStore sharedNodeSignature) sharedNodeSignature
        = protectedStore :=
  ⟨by decide, by decide, by decide,
    (restoreArgs_normaliseArgs_id protectedStore sharedNodeSignature (by decide)).2.1⟩


/-- C30, counterexample: `compareScopedNames` is not antisymmetric.  Compared with the
target `Foo`, the name `::Foo` loses its global scope and the result is 0; compared with
the target `::Foo`, the name `Foo` is taken as it is and the result is positive. -/
theorem compareScopedNames_not_antisymmetric :
    compareScopedNames ["", "Foo"] ["Foo"] = 0 ∧ compareScopedNames ["Foo"] ["", "Foo"] = 1 := by
  decide

/-- C30, amended: for every two scoped names that both start with the explicit global scope
or both do not, the sign of `compareScopedNames a b` is the opposite of the sign of
`compareScopedNames b a` (the model returns the sign); in particular one is 0 if and only
if the other is 0, and that is when the two names are equal. -/
theorem compareScopedNames_antisymm_same_scope (a b : scopedNameDef)
    (h : hasGlobalScope a = hasGlobalScope b) :
    compareScopedNames a b = - compareScopedNames b a ∧
      (compareScopedNames a b = 0 ↔ compareScopedNames b a = 0) ∧
      (compareScopedNames a b = 0 ↔ a = b) := by
  have e : compareScopedNames a b = - compareScopedNames b a := by
    rw [compareScopedNames_of_same_scope a b h, compareScopedNames_of_same_scope b a h.symm]
    exact compareScopedNamesLoop_antisymm a b
  refine ⟨e, ?_, compareScopedNames_eq_zero_iff a b h⟩
  rw [e]
  omega

/-- C30, witness: the names `::Foo::Bar` and `::Foo::Baz`. -/
theorem compareScopedNames_antisymm_same_scope_witness :
    compareScopedNames ["", "Foo", "Bar"] ["", "Foo", "Baz"]
      = - compareScopedNames ["", "Foo", "Baz"] ["", "Foo", "Bar"] :=
  (compareScopedNames_antisymm_same_scope ["", "Foo", "Bar"] ["", "Foo", "Baz"] (by decide)).1



/-! ## C31: the sorted table of functions -/

/-- C31: `createFunctionTable` returns a sorted table.  For every list of members (of at
most `INT_MAX` nodes) it returns, with `*nrp` set to the length of the list: no table
(`NULL`) when the list is empty, and otherwise an array that holds each member of the list
exactly once (a permutation of the list) in an order in which `strcmp` of the Python
names of an entry and of a later entry is never positive. -/
theorem createFunctionTable_sorted (members : List memberDef)
    (h : (members.length : Int) ≤ INT_MAX) :
    ∃ t : List memberDef,
      createFunctionTable members
          = some ((members.length : Int), if members.isEmpty then none else some t) ∧
        t.Perm members ∧
        t.Sorted (fun m1 m2 => strcmp m1.pyname m2.pyname ≤ 0) := by
  have hI : INT_MAX = 2147483647 := rfl
  rw [hI] at h
  have hnr := functionTableCount_eq members 0 (le_refl 0) (by omega)
  rw [Int.zero_add] at hnr
  cases members with
  | nil => exact ⟨[], rfl, List.Perm.nil, List.sorted_nil⟩
  | cons md next =>
    obtain ⟨t, ht, hperm, hsorted⟩ := qsort_filled (md :: next) compareMethTab compareMethTab_total
      compareMethTab_trans
    refine ⟨t, ?_, hperm, hsorted⟩
    unfold createFunctionTable
    have hne : ¬ (((md :: next).length : Nat) : Int) = 0 := by
      simp only [List.length_cons, Nat.cast_add, Nat.cast_one]
      omega
    have hnn : ¬ (((md :: next).length : Nat) : Int) < 0 := by omega
    simp only [hnr, hne, hnn, if_false, Int.toNat_ofNat, storeAll_sipCalloc, ht,
      List.isEmpty_cons, Bool.false_eq_true]

/-- C31, witness: the functions `b`, `a` and `c` give the table `a`, `b`, `c` and the
count 3. -/
theorem createFunctionTable_sorted_witness :
    createFunctionTable [functionNamed "b", functionNamed "a", functionNamed "c"]
        = some (3, some [functionNamed "a", functionNamed "b", functionNamed "c"]) ∧
      ∃ t : List memberDef,
        createFunctionTable [functionNamed "b", functionNamed "a", functionNamed "c"]
            = some (3, some t) ∧
          t.Perm [functionNamed "b", functionNamed "a", functionNamed "c"] ∧
          t.Sorted (fun m1 m2 => strcmp m1.pyname m2.pyname ≤ 0) :=
  ⟨rfl,
    createFunctionTable_sorted [functionNamed "b", functionNamed "a", functionNamed "c"]
      (by decide)⟩


/-! ## C32: the cast to zero -/

/-- C32: `generateCastZero` does not emit exactly one expression for an enum without
members.  For every argument of category `enum_type` whose enum has no member it emits
the cast `(%E)0` of the enum and then, the case having no `break`, also `SIP_NULLPTR`:
two pieces of output, the text `(E)0SIP_NULLPTR` for an enum `E`. -/
theorem generateCastZero_enum_without_members (c : argCore) (ed : enumDef) :
    generateCastZero (.mk { c with atype := .enum_type } (.ed { ed with members := [] }))
      = [genEvent.prcode "(%E)0" [.ed { ed with members := [] }],
         genEvent.prcode "SIP_NULLPTR" []] := rfl


/-! ## C33: the table of methods -/

/-- C33: the two passes of `createMethodTable` agree.  For every class and every list of
visible members (of at most `INT_MAX` nodes), whatever the flags of the overloads: the
first pass counts the members of `tableMethods` (the visible members that are not slots
and have an overload that is neither a protected one of a class without shadow nor
skipped); the second pass, run on an array of that many zeroed entries, stores exactly
these members and ends with the pointer at the end of the array, so that the array is not
overrun and no entry is left zeroed; and `createMethodTable` returns with `*nrp` set to
that count, no table when it is 0 and otherwise an array holding each of these members
once. -/
theorem createMethodTable_filled (cd : classDef) (visible : List visibleList)
    (h : (visible.length : Int) ≤ INT_MAX) :
    methodTableCount cd visible 0 = ((tableMethods cd visible).length : Int) ∧
      methodTableFill cd visible (sipCalloc (tableMethods cd visible).length) 0
        = some ((tableMethods cd visible).map some, (tableMethods cd visible).length) ∧
      ∃ t : List memberDef,
        createMethodTable cd visible
            = some (((tableMethods cd visible).length : Int),
                if (tableMethods cd visible).isEmpty then none else some t) ∧
          t.Perm (tableMethods cd visible) := by
  have hI : INT_MAX = 2147483647 := rfl
  rw [hI] at h
  have hle := tableMethods_length_le cd visible
  have hnr := methodTableCount_eq cd visible 0 (le_refl 0) (by omega)
  rw [Int.zero_add] at hnr
  have hfill : methodTableFill cd visible (sipCalloc (tableMethods cd visible).length) 0
      = some ((tableMethods cd visible).map some, (tableMethods cd visible).length) := by
    rw [methodTableFill_eq, storeAll_sipCalloc]
  refine ⟨hnr, hfill, ?_⟩
  obtain ⟨t, ht, hperm, _⟩ := qsort_filled (tableMethods cd visible) compareMethTab
    compareMethTab_total compareMethTab_trans
  refine ⟨t, ?_, hperm⟩
  unfold createMethodTable
  cases hm : tableMethods cd visible with
  | nil =>
    rw [hm] at hnr
    simp [hnr]
  | cons md next =>
    rw [hm] at hnr hfill ht
    have hne : ¬ (((md :: next).length : Nat) : Int) = 0 := by
      simp only [List.length_cons, Nat.cast_add, Nat.cast_one]
      omega
    have hnn : ¬ (((md :: next).length : Nat) : Int) < 0 := by omega
    simp only [hnr, hne, hnn, if_false, Int.toNat_ofNat, hfill, ht, List.isEmpty_cons,
      Bool.false_eq_true]

/-- C33, witness: for the class `Foo` without shadow and its visible methods `f`, `a`
(protected) and `b`, both passes select `f` and `b`: the count is 2 and the table is `b`,
`f`. -/
theorem createMethodTable_filled_witness :
    createMethodTable plainClass tableVisible
        = some (2, some [{ addr := 3, pyname := "b" }, memberF]) ∧
      methodTableCount plainClass tableVisible 0
        = ((tableMethods plainClass tableVisible).length : Int) :=
  ⟨rfl, (createMethodTable_filled plainClass tableVisible (by decide)).1⟩


/-! ## C34: the table of enum members -/

/-- C34: the two passes of `generateEnumMemberTable` do not agree on the protected enums
of a class without shadow.  For the class `Foo` without shadow, whose scope `pyScope`
gives as the class itself, and its enums `E1` (public, member `A`) and `E2` (protected,
member `B`): the first pass counts 1 member, skipping `E2`; the second pass, which has
no test of the protected flag, stores 2 members when the table has room for them, and in
the table of 1 entry that was allocated its second store is past the end: an overrun. -/
theorem generateEnumMemberTable_overrun (pyScope : Option classDef → Option classDef)
    (h : pyScope (some plainClass) = some plainClass) :
    enumMemberCount pyScope {} (some plainClass) none fooEnums 0 = 1 ∧
      (enumMemberFill pyScope {} (some plainClass) none fooEnums (sipCalloc 2) 0).map
          (fun r => r.2) = some 2 ∧
      enumMemberFill pyScope {} (some plainClass) none fooEnums (sipCalloc 1) 0 = none ∧
      generateEnumMemberTable pyScope fooEnums {} (some plainClass) none = none := by
  have hc : enumMemberCount pyScope {} (some plainClass) none fooEnums 0 = 1 := by
    simp only [enumMemberCount, fooEnums, enumMemberCounted, h]
    decide
  have hf : enumMemberFill pyScope {} (some plainClass) none fooEnums (sipCalloc 1) 0
      = none := by
    simp only [enumMemberFill, fooEnums, enumMemberStored, h]
    decide
  refine ⟨hc, ?_, hf, ?_⟩
  · simp only [enumMemberFill, fooEnums, enumMemberStored, h]
    decide
  · unfold generateEnumMemberTable
    simp only [hc]
    have h1 : Int.toNat 1 = 1 := rfl
    simp only [h1, hf]
    rfl

/-- C34, witness: the scope of a class being the class itself. -/
theorem generateEnumMemberTable_overrun_witness :
    enumMemberCount (fun scope => scope) {} (some plainClass) none fooEnums 0 = 1 ∧
      enumMemberFill (fun scope => scope) {} (some plainClass) none fooEnums (sipCalloc 1) 0
        = none :=
  ⟨(generateEnumMemberTable_overrun (fun scope => scope) rfl).1,
    (generateEnumMemberTable_overrun (fun scope => scope) rfl).2.2.1⟩


/-! ## C35: the shadow class is consistent -/

/-- C35: the shadow class is consistent with itself.  For every class and every outcome of
the calls of `generateVirtualCatcher`: `generateShadowClassDeclaration` declares as many
catchers as `countVirtuals` counts; `generateShadowCode` defines catchers for the first
`k` of the members that have a declaration, in the same order and with the indices 0, 1,
..., `k - 1`, where `k` is `countVirtuals(cd)` whenever it returns 0; it returns 0 when
no call fails; every index it uses is smaller than `countVirtuals(cd)`; and whenever it
defines a catcher, the class declares `char sipPyMethods[countVirtuals(cd)]`. -/
theorem shadow_class_consistent (abiVersion : Nat) (cd : classDef) (members : classMembers)
    (catcher : Nat → virtOverDef → Int) :
    (shadowCatcherDeclarations abiVersion cd.iff [] members.vmembers true).length
        = countVirtuals abiVersion members ∧
      (∃ k, k ≤ countVirtuals abiVersion members ∧
        (generateShadowCode abiVersion catcher members).2.map Prod.fst = List.range k ∧
        (generateShadowCode abiVersion catcher members).2.map Prod.snd
          = ((shadowCatcherDeclarations abiVersion cd.iff [] members.vmembers true).map
              (fun d => d.1)).take k ∧
        ((generateShadowCode abiVersion catcher members).1 = 0 →
          k = countVirtuals abiVersion members)) ∧
      ((∀ n vod, 0 ≤ catcher n vod) → (generateShadowCode abiVersion catcher members).1 = 0) ∧
      (∀ p ∈ (generateShadowCode abiVersion catcher members).2,
        p.1 < countVirtuals abiVersion members ∧
          genEvent.prcode "\n    char sipPyMethods[%d];\n"
              [.d (countVirtuals abiVersion members)]
            ∈ generateShadowClassDeclaration abiVersion cd members) := by
  have hcount : countVirtuals abiVersion members
      = (selectedVirtuals abiVersion [] members.vmembers).length := by
    unfold countVirtuals
    rw [countVirtualsLoop_selected, Nat.zero_add]
  have hdecl := shadowCatcherDeclarations_selected abiVersion cd.iff members.vmembers [] true
  obtain ⟨k, hk, hcalls, hzero, hall⟩ :=
    generateShadowCatchers_selected abiVersion catcher members.vmembers [] 0 []
  rw [List.nil_append] at hcalls
  have hlen : (List.range' 0 k).length
      = ((selectedVirtuals abiVersion [] members.vmembers).take k).length := by
    rw [List.length_range', List.length_take, Nat.min_eq_left hk]
  have hfst : (generateShadowCode abiVersion catcher members).2.map Prod.fst = List.range k := by
    unfold generateShadowCode
    rw [hcalls, List.map_fst_zip _ _ (le_of_eq hlen), List.range_eq_range']
  refine ⟨?_, ⟨k, hcount ▸ hk, hfst, ?_, ?_⟩, hall, ?_⟩
  · rw [hcount, ← hdecl, List.length_map]
  · unfold generateShadowCode
    rw [hcalls, List.map_snd_zip _ _ (le_of_eq hlen.symm), hdecl]
  · intro h0
    rw [hcount]
    exact hzero h0
  · intro p hp
    have hp1 : p.1 ∈ List.range k := by
      rw [← hfst]
      exact List.mem_map_of_mem Prod.fst hp
    have hlt : p.1 < countVirtuals abiVersion members := by
      rw [hcount]
      exact lt_of_lt_of_le (List.mem_range.1 hp1) hk
    refine ⟨hlt, ?_⟩
    have hpos : countVirtuals abiVersion members > 0 := by omega
    unfold generateShadowClassDeclaration
    simp only [hpos, if_true, List.mem_append, List.mem_singleton, List.mem_cons, true_or,
      or_true]

/-- C35, witness: a class with the virtual members `void f(int)`, `void g(struct Foo *)`
and a second `void f(int)`, every catcher generated without error: two declarations, the
definitions 0 and 1 and the array `sipPyMethods[2]`. -/
theorem shadow_class_consistent_witness :
    (shadowCatcherDeclarations ABI_13_0 plainClass.iff []
        [virtualF false, virtualG, virtualF false] true).length = 2 ∧
      (generateShadowCode ABI_13_0 (fun _ _ => 0)
        { vmembers := [virtualF false, virtualG, virtualF false] }).2.map Prod.fst = [0, 1] ∧
      (shadowCatcherDeclarations ABI_13_0 plainClass.iff []
          [virtualF false, virtualG, virtualF false] true).length
        = countVirtuals ABI_13_0 { vmembers := [virtualF false, virtualG, virtualF false] } :=
  ⟨by decide, by decide,
    (shadow_class_consistent ABI_13_0 plainClass
      { vmembers := [virtualF false, virtualG, virtualF false] } (fun _ _ => 0)).1⟩


/-! ## C36: declared before use in `generateFunction` -/

/-- C36: `generateFunction` does not always declare `sipSelfWasArg` where a body uses it.
For the method `f` that the class `Bar`, which has a shadow class, inherits from `Foo`,
with the overloads of `Foo` a protected `void f(int)` that is not virtual and a public
virtual `void f(const char *)`: the first loop looks only at the protected overload (the
public one is not of the class `Bar`), so that `need_selfarg` stays FALSE and the prologue
has no declaration of `sipSelfWasArg`; the second loop handles both overloads, and the
call of the virtual one is `(sipSelfWasArg ? sipCpp->Foo::f(a0) : sipCpp->f(a0))`.  The
function returns 0. -/
theorem generateFunction_selfarg_undeclared :
    (generateFunction {} false false memberF inheritedOverloads shadowedBar plainClass {}).2 = 0 ∧
      usesSelfWasArg
        (generateFunction {} false false memberF inheritedOverloads shadowedBar plainClass {}).1
          = true ∧
      declaresSelfWasArg
        (generateFunction {} false false memberF inheritedOverloads shadowedBar plainClass {}).1
          = false ∧
      functionNeedSelfArg {} memberF shadowedBar plainClass inheritedOverloads = false := by
  refine ⟨by decide, by decide, by decide, by decide⟩


/-! ## C37: the parts of a module -/

/-- C37: the splitting into parts of `generateCpp`.  For every requested number of parts
that is at least 1 and every list of interface files (the sum `nr_files + parts` not
overflowing an `int`), `generateCpp` sets `mod->parts` when none of its calls fails, and
whenever it sets it: `max_per_part` is `nr_files / parts` rounded up, where `nr_files` is
one more than the number of interface files of the module that are not exceptions; no part
receives more than `max_per_part` files, the module code counting as one file of part 0;
and the number of parts stored in `mod->parts` is at least 1 and at most the number
requested. -/
theorem generateCpp_parts_bounded (ifacefiles : List ifaceFileDef) (mod : moduleDef)
    (parts : Int) (hp : 1 ≤ parts)
    (hov : ((ifacefiles.filter (isPartFile mod)).length : Int) + 1 + parts ≤ INT_MAX) :
    (generateCpp partCallsOk ifacefiles mod parts).isSome = true ∧
      ∀ (env : partCalls) (r : partsResult), generateCpp env ifacefiles mod parts = some r →
        ((ifacefiles.filter (isPartFile mod)).length : Int) + 1 ≤ parts * r.max_per_part ∧
        parts * (r.max_per_part - 1) < ((ifacefiles.filter (isPartFile mod)).length : Int) + 1 ∧
        (∀ p : Int, (filesInPart r.files p : Int) ≤ r.max_per_part) ∧
        1 ≤ r.parts ∧ r.parts ≤ parts := by
  have hparts : (parts != 0) = true := by
    simp only [bne_iff_ne, ne_eq]
    omega
  have hI : INT_MAX = 2147483647 := rfl
  rw [hI] at hov
  have hnr := nrFilesLoop_eq mod ifacefiles 1 (by omega) (by omega)
  obtain ⟨hm1, hm2, hm3, hm4⟩ := maxPerPart_ceil
    (1 + ((ifacefiles.filter (isPartFile mod)).length : Int)) parts hp (by omega) (by omega)
  constructor
  · unfold generateCpp
    have hl := generateCppLoop_ok mod parts
      (if (parts != 0) = true then maxPerPart (nrFilesLoop mod ifacefiles 1) parts else 0)
      ifacefiles 1 0
    obtain ⟨x, hx⟩ := Option.isSome_iff_exists.1 hl
    simp only [hx]
    simp [partCallsOk]
  · intro env r hr
    unfold generateCpp at hr
    simp only [hparts, if_true, hnr] at hr
    split_ifs at hr
    split at hr
    · cases hr
    · rename_i this_part files hloop
      split_ifs at hr
      simp only [Option.some.injEq] at hr
      subst hr
      dsimp only
      obtain ⟨⟨f1, hf1, hf2, hf3⟩, ht, _, hcount⟩ :=
        generateCppLoop_invariant env mod parts _ hp hm1 ifacefiles 1 0 (this_part, files)
          (le_refl 1) hm1 (le_refl 0) (by omega) hloop
      dsimp only at hf3 ht hcount
      have hlt : this_part < parts := by
        by_contra hc
        have : parts * maxPerPart (1 + ((ifacefiles.filter (isPartFile mod)).length : Int)) parts
            ≤ this_part * maxPerPart (1 + ((ifacefiles.filter (isPartFile mod)).length : Int))
                parts := by
          nlinarith
        omega
      rw [wrapInt_of_range (this_part + 1) (by omega) (by omega)]
      refine ⟨by omega, by omega, ?_, by omega, by omega⟩
      intro p
      have := hcount p
      unfold filesInPart
      push_cast
      split_ifs at this ⊢ <;> omega

/-- C37, witness: four classes of the module, two parts requested and no call failing:
`max_per_part` is 3, the module code and the first two classes go to part 0, the other
two to part 1. -/
theorem generateCpp_parts_bounded_witness :
    (generateCpp partCallsOk
        [classFile "A", classFile "B", classFile "C", classFile "D"] {} 2).map
      (fun r => (r.max_per_part, r.parts, r.files.map (fun c => c.part)))
        = some (3, 2, [0, 0, 1, 1]) ∧
      (generateCpp partCallsOk
        [classFile "A", classFile "B", classFile "C", classFile "D"] {} 2).isSome = true :=
  ⟨by decide,
    (generateCpp_parts_bounded [classFile "A", classFile "B", classFile "C", classFile "D"] {} 2
      (by decide) (by decide)).1⟩


/-! ## C38: the round trip of a string literal -/

/-- C38: the round trip of the escaping of string literals.  For every string value whose
characters are bytes other than the terminator, `generateExpression` outside a string
(`in_str` false) writes a quote, for each character of the string the text
`escapedChar` (an escape sequence for a quote, a backslash, a newline, a carriage return,
a tab and a character that is not printable, the character itself otherwise) and a
quote, without counting a line; and that text, read back by the rules of the string
literals of C, denotes the characters of the string. -/
theorem string_literal_round_trip (vstr : List Char) (fp : outFile)
    (h : ∀ c ∈ vstr, 0 < c.toNat ∧ c.toNat < 256) :
    generateStringValue false vstr fp
        = some { fp with text := fp.text ++ ('"' :: escapedString vstr ++ ['"']) } ∧
      readStringLiteral ('"' :: escapedString vstr ++ ['"']) = some vstr := by
  constructor
  · unfold generateStringValue
    simp only [Bool.false_eq_true, if_false, prcode_quote,
      generateStringChars_eq vstr _ (fun c hc => (h c hc).2)]
    simp
  · simp only [readStringLiteral, List.cons_append, if_true]
    exact readStringBody_escapedString vstr h

/-- C38, witness: the string of the characters `a`, quote, `b`, newline and the byte 1 is
written as the literal `"a\"b\n\001"`, which reads back as the string. -/
theorem string_literal_round_trip_witness :
    generateStringValue false ['a', '"', 'b', '\n', Char.ofNat 1] {}
        = some { text := "\"a\\\"b\\n\\001\"".data } ∧
      readStringLiteral "\"a\\\"b\\n\\001\"".data = some ['a', '"', 'b', '\n', Char.ofNat 1] :=
  ⟨by decide,
    (string_literal_round_trip ['a', '"', 'b', '\n', Char.ofNat 1] {} (by decide)).2⟩


/-! ## C39: the line counter of `prcode` -/

/-- C39: the line counter of `prcode` does not follow the newlines written when a newline
is printed through `%c`.  For every state of the output, `prcode(fp, "%c", '\n')` adds 1 to
`currentLineNr` and writes the four characters of the octal escape `\012`, none of which
is a newline: the counter is then one line ahead of the output. -/
theorem prcode_char_newline_not_written (fp : outFile) :
    prcode "%c" [.c '\n'] fp
        = some { text := fp.text ++ ['\\', '0', '1', '2'],
                 currentLineNr := fp.currentLineNr + 1 } ∧
      newlines ['\\', '0', '1', '2'] = 0 :=
  ⟨rfl, rfl⟩

end Sip
